import Mathlib

/-! Modmail bot: ticket lifecycle, persistence and rate limiting.

A shallow embedding of the ticket core of the Discord modmail bot
(`src/events/messageCreate.js`, `src/events/messageReactionAdd.js`,
`src/commands/open.js`, `src/commands/close.js`, `src/utils/ticket-history.js`,
`src/utils/ticket-storage.js`, `src/utils/security.js`) together with the
properties established about it.

Conventions of the embedding:

* a JavaScript object used as a dictionary, and a `Map`, is an association
  list in insertion order (`Dict`);
* a field that may be `undefined` or `null` is an `Option`; both are `none`, except in a
  time field, where the two differ (`new Date(undefined)` is no date, `new Date(null)` is
  the epoch): there `none` is absent or `undefined`, and `null` is the value `JsTime.null`;
* a handler is an `async` function; `step` and `run` describe handlers that run one at a
  time, each from its first statement to its last before the next begins, and the
  section on handlers that overlap describes, through the parts of a handler between its
  awaits, what happens when they do not;
* what the handler learns from the messaging platform (whether a fetch
  succeeds, which ids the platform hands out, the wall clock) is carried by
  the event that triggers the transition;
* the clock readings of one handler run are one instant, the `now` of its event;
* JavaScript numbers that only count are natural numbers; they stay far below
  `2 ^ 53`, where the two agree; the quotient of two of them is the double that the
  division gives (`jsDivide`);
* the method `String.prototype.toLowerCase` belongs to the platform: the definitions that
  call it take it as the argument `toLowerCase`;
* dictionary keys are ids handed out by the messaging platform (strings of digits), so
  the inherited properties of a JavaScript object are never looked up.
-/

namespace Modmail

/-! ## Dictionaries -/

/-- A JavaScript dictionary object or `Map` with string keys, in insertion order. -/
abbrev Dict (α : Type) := List (String × α)

/-- Property read `d[k]` / `Map.get`: the value stored under `k`, if any. -/
def Dict.get? {α : Type} : Dict α → String → Option α
  | [], _ => none
  | (k', v) :: r, k => if k' = k then some v else Dict.get? r k

/-- Property write `d[k] = v` / `Map.set`: an existing key keeps its position. -/
def Dict.set {α : Type} : Dict α → String → α → Dict α
  | [], k, v => [(k, v)]
  | (k', v') :: r, k, v => if k' = k then (k', v) :: r else (k', v') :: Dict.set r k v

/-- Membership test `Map.has`. -/
def Dict.has {α : Type} (d : Dict α) (k : String) : Bool := (d.get? k).isSome

/-! ## Ticket numbering (`src/utils/ticket-history.js`, `getNextTicketId`) -/

/-- The method `String.prototype.padStart(n, c)` for a one-character pad string. -/
def padStart (n : Nat) (c : Char) (s : String) : String :=
  String.mk (List.replicate (n - s.length) c) ++ s

/-- The counter of a guild as the increment reads it: a missing counter is
first initialised to `0` (`if (!this.counters[guildId]) this.counters[guildId] = 0`). -/
def counterValue (counters : Dict Nat) (guildId : String) : Nat :=
  match counters.get? guildId with
  | none => 0
  | some n => n

/-- The method `getNextTicketId(guildId)`: increments the guild's counter and returns it
as a string padded to four digits, together with the updated counter store.
(`saveCounters` only mirrors the store to disk and swallows its own errors.) -/
def getNextTicketId (counters : Dict Nat) (guildId : String) : String × Dict Nat :=
  let counters1 :=
    match counters.get? guildId with
    | none => counters.set guildId 0
    | some 0 => counters.set guildId 0
    | some _ => counters
  let n := counterValue counters1 guildId + 1
  let counters2 := counters1.set guildId n
  (padStart 4 '0' (Nat.repr n), counters2)

/-- The counter store after one `getNextTicketId` call per guild id of the list, in order. -/
def countersAfter (counters : Dict Nat) : List String → Dict Nat
  | [] => counters
  | g :: gs => countersAfter (getNextTicketId counters g).2 gs

/-- The number a list of decimal digits denotes (leading zeros allowed). -/
def decList (cs : List Char) : Nat := cs.foldl (fun acc c => 10 * acc + (c.toNat - 48)) 0

/-- The number a string of decimal digits denotes (leading zeros allowed). -/
def decimalValue (s : String) : Nat :=
  s.data.foldl (fun acc c => 10 * acc + (c.toNat - 48)) 0

/-! ## Rate limiting (`src/utils/security.js`) -/

/-- One entry of the table `USER_RATE_LIMITS`. -/
structure RateLimitSetting where
  limit : Nat
  window : Nat
  deriving DecidableEq, Repr

/-- The table `USER_RATE_LIMITS`: limit and window length in milliseconds per action type. -/
def USER_RATE_LIMITS (type : String) : Option RateLimitSetting :=
  if type = "commands" then some { limit := 20, window := 60000 }
  else if type = "tickets" then some { limit := 3, window := 3600000 }
  else if type = "messages" then some { limit := 30, window := 60000 }
  else none

/-- The value kept in the map `userRateLimits` for one key. -/
structure RateLimitData where
  count : Nat
  resetTime : Nat
  deriving DecidableEq, Repr

/-- The object returned by `checkRateLimit`. -/
structure RateLimitResult where
  limited : Bool
  count : Nat
  limit : Nat
  deriving DecidableEq, Repr

/-- The key of the map `userRateLimits`, built by the template with a dash between
the user id and the type. -/
def rateLimitKey (userId type : String) : String := userId ++ "-" ++ type

/-- The function `checkRateLimit(userId, type)` with `now = Date.now()`: returns the
result object and the updated map `userRateLimits`. -/
def checkRateLimit (userRateLimits : Dict RateLimitData) (userId type : String) (now : Nat) :
    RateLimitResult × Dict RateLimitData :=
  let key := rateLimitKey userId type
  match USER_RATE_LIMITS type with
  | none => ({ limited := false, count := 0, limit := 0 }, userRateLimits)
  | some rateLimit =>
    -- initialise the entry when the key is new
    let limits1 :=
      if !userRateLimits.has key then
        userRateLimits.set key { count := 0, resetTime := now + rateLimit.window }
      else userRateLimits
    let userData : RateLimitData :=
      match limits1.get? key with
      | some d => d
      | none => { count := 0, resetTime := now + rateLimit.window }
    if now > userData.resetTime then
      -- the window has expired: restart it with this call as the first
      ({ limited := false, count := 1, limit := rateLimit.limit },
        limits1.set key { count := 1, resetTime := now + rateLimit.window })
    else
      let userData2 : RateLimitData := { userData with count := userData.count + 1 }
      let limits2 := limits1.set key userData2
      if userData2.count > rateLimit.limit then
        ({ limited := true, count := userData2.count, limit := rateLimit.limit }, limits2)
      else
        ({ limited := false, count := userData2.count, limit := rateLimit.limit }, limits2)

/-- Successive `checkRateLimit(userId, type)` calls made at the listed times: the results
paired with the time of the call, in call order. -/
def rateLimitCalls (userRateLimits : Dict RateLimitData) (userId type : String) :
    List Nat → List (Nat × RateLimitResult)
  | [] => []
  | now :: rest =>
    (now, (checkRateLimit userRateLimits userId type now).1) ::
      rateLimitCalls (checkRateLimit userRateLimits userId type now).2 userId type rest

/-- The map `userRateLimits` after successive calls at the listed times. -/
def rateLimitsAfter (userRateLimits : Dict RateLimitData) (userId type : String) :
    List Nat → Dict RateLimitData
  | [] => userRateLimits
  | now :: rest => rateLimitsAfter (checkRateLimit userRateLimits userId type now).2 userId type rest

/-- How many of the calls made at a time in `[a, b]` returned `limited = false`. -/
def allowedIn (a b : Nat) (calls : List (Nat × RateLimitResult)) : Nat :=
  (calls.filter (fun c => decide (a ≤ c.1) && decide (c.1 ≤ b) && !c.2.limited)).length

/-- The entry `checkRateLimit` works on: the stored one, or a fresh one for a new key. -/
def rateLimitEntry (m : Dict RateLimitData) (key : String) (now window : Nat) : RateLimitData :=
  match m.get? key with
  | some d => d
  | none => { count := 0, resetTime := now + window }

/-- A bound on the calls let through from a store: what is left of the running window
plus one full new window. -/
def allowedBound (m : Dict RateLimitData) (key : String) (limit : Nat) : Nat :=
  match m.get? key with
  | none => limit
  | some d => (limit - d.count) + limit

/-! ## Tickets and the open-ticket registry -/

/-- The value of a time field that is not absent: a `Date` object (`new Date()`) or the
ISO-8601 string of an instant (`new Date().toISOString()`), with the instant in
milliseconds since the epoch, or `null`. -/
inductive JsTime where
  | date (ms : Nat)
  | isoString (ms : Nat)
  | null
  deriving DecidableEq, Repr

/-- Truthiness of a time field: `undefined` and `null` are falsy, a `Date` object and an
ISO string are truthy. -/
def truthyTime : Option JsTime → Bool
  | some (JsTime.date _) => true
  | some (JsTime.isoString _) => true
  | some JsTime.null => false
  | none => false

/-- The expression `x || null` for a time field. -/
def orNullTime (x : Option JsTime) : Option JsTime := if truthyTime x then x else some JsTime.null

/-- One entry of a ticket's `events` array (`src/commands/tag.js`); `byId` is the
field `by` of the source. -/
structure TicketEvent where
  type : String
  tag : String
  byId : String
  byTag : String
  timestamp : JsTime
  deriving DecidableEq, Repr

/-- A ticket object: every field the handlers read or write. A field that is absent,
`undefined` or `null` is `none`; a time field that is absent or `undefined` is `none`, and
one that holds `null` is `some JsTime.null`. -/
structure Ticket where
  id : Option String := none
  numericId : Option String := none
  userId : Option String := none
  userTag : Option String := none
  guildId : Option String := none
  channelId : Option String := none
  threadId : Option String := none
  status : Option String := none
  createdAt : Option JsTime := none
  infoMessageId : Option String := none
  threadInfoMessageId : Option String := none
  priority : Option String := none
  category : Option String := none
  assignedTo : Option String := none
  assignedAt : Option JsTime := none
  firstResponseTime : Option JsTime := none
  initiatedBy : Option String := none
  closedBy : Option String := none
  closedAt : Option JsTime := none
  closeReason : Option String := none
  assignedToTag : Option String := none
  staffRoleId : Option String := none
  resolutionTime : Option JsTime := none
  messageCount : Option Nat := none
  staffMessageCount : Option Nat := none
  userMessageCount : Option Nat := none
  tags : Option (List String) := none
  events : Option (List TicketEvent) := none
  satisfactionRating : Option Nat := none
  satisfactionFeedback : Option String := none
  assignedToDisplayName : Option String := none
  deriving DecidableEq, Repr

/-- JavaScript truthiness of a string-valued field: absent and the empty string are falsy. -/
def truthy : Option String → Bool
  | some s => s != ""
  | none => false

/-- The expression `x || null` on a string-valued field. -/
def orNull (x : Option String) : Option String := if truthy x then x else none

/-- The expression `x || null` on a number-valued field: `0` is falsy. -/
def orNullNat : Option Nat → Option Nat
  | some 0 => none
  | x => x

/-- The collection `client.tickets`: the values of the `Map` in insertion order. Every
insertion in the source stores a ticket under its own `id`
(`client.tickets.set(ticket.id, ticket)`), so the key of an entry is its `id` field. -/
abbrev Registry := List Ticket

/-- The lookup `Array.from(client.tickets.values()).find(p)`. -/
def Registry.find (r : Registry) (p : Ticket → Bool) : Option Ticket := List.find? p r

/-- Assignments to the fields of the ticket object returned by `find(p)`: the object is
shared with the map, so the first entry satisfying `p` changes in place. The
`client.tickets.set(ticket.id, ticket)` that follows such assignments stores the same
object under its own key again and changes nothing more. -/
def Registry.mutate (p : Ticket → Bool) (f : Ticket → Ticket) : Registry → Registry
  | [] => []
  | t :: r => if p t then f t :: r else t :: Registry.mutate p f r

/-- The call `client.tickets.set(ticket.id, ticket)` for a new ticket object: an entry
with the same key is replaced in place, otherwise the ticket is appended. -/
def Registry.set : Registry → Ticket → Registry
  | [], t => [t]
  | t' :: r, t => if t'.id = t.id then t :: r else t' :: Registry.set r t

/-- The call `client.tickets.delete(id)`. -/
def Registry.delete (r : Registry) (id : Option String) : Registry :=
  r.filter (fun t => decide (t.id ≠ id))

/-- The ticket stored under a key (`client.tickets.get(id)`). -/
def Registry.get? (r : Registry) (id : Option String) : Option Ticket :=
  r.find? (fun t => decide (t.id = id))

/-- A ticket counts as open when its status is not `"closed"`. -/
def Ticket.isOpen (t : Ticket) : Bool := t.status != some "closed"

/-- Per-guild configuration (`client.configs`). -/
structure GuildConfig where
  modmailChannelId : String
  logChannelId : String
  staffRoleId : String
  useThreads : Bool
  webhookUrl : Option String := none
  deriving DecidableEq, Repr

/-! ## Ticket history (`src/utils/ticket-history.js`) -/

/-- The first embed of a platform message, as far as the handlers look at it. -/
structure Embed where
  authorName : Option String := none
  footerText : Option String := none
  description : Option String := none
  fields : List (String × String) := []
  deriving DecidableEq, Repr

/-- A message fetched from the conversation surface. `memberRoles` is `none` when the
message has no `member`. -/
structure DiscordMessage where
  id : String
  embeds : List Embed := []
  authorId : String
  authorTag : String
  authorBot : Bool := false
  content : String := ""
  createdTimestamp : Nat
  memberRoles : Option (List String) := none
  attachments : List String := []
  deriving DecidableEq, Repr

/-- An entry of the message log stored in a history record. -/
structure HistoryMessage where
  id : String
  author : String
  authorId : String
  content : String
  timestamp : Nat
  isStaff : Bool
  attachments : Option String
  deriving DecidableEq, Repr

/-- A record of `history.tickets`; its time fields hold `null` as `JsTime.null`. -/
structure TicketRecord where
  id : Option String
  numericId : Option String
  userId : Option String
  userTag : String
  guildId : Option String
  threadId : Option String
  createdAt : Option JsTime
  closedAt : Option JsTime
  closedBy : Option String
  closeReason : Option String
  status : String
  category : Option String
  priority : Option String
  tags : List String
  assignedTo : Option String
  assignedToTag : Option String
  firstResponseTime : Option JsTime
  resolutionTime : Option JsTime
  satisfactionRating : Option Nat
  satisfactionFeedback : Option String
  messageCount : Nat
  staffMessageCount : Nat
  userMessageCount : Nat
  messages : List HistoryMessage
  events : List TicketEvent
  deriving DecidableEq, Repr

/-- The rollup `history.users[userId]`. -/
structure UserHistory where
  tickets : List (Option String) := []
  totalTickets : Nat := 0
  tags : Dict Nat := []
  categories : Dict Nat := []
  ratings : List Nat := []
  averageRating : Option ℚ := none
  deriving DecidableEq

/-- The rollup `history.servers[guildId].users[userId]`. -/
structure ServerUserHistory where
  tickets : List (Option String) := []
  totalTickets : Nat := 0
  deriving DecidableEq

/-- The rollup `history.servers[guildId].staff[staffId]`. -/
structure StaffHistory where
  tickets : List (Option String) := []
  totalTickets : Nat := 0
  ratings : List Nat := []
  averageRating : Option ℚ := none
  displayName : Option String := none
  deriving DecidableEq

/-- The rollup `history.servers[guildId]`. -/
structure ServerHistory where
  tickets : List (Option String) := []
  totalTickets : Nat := 0
  closedTickets : Nat := 0
  categories : Dict Nat := []
  tags : Dict Nat := []
  users : Dict ServerUserHistory := []
  staff : Dict StaffHistory := []
  deriving DecidableEq

/-- The rollup `history.stats`. -/
structure HistoryStats where
  totalTickets : Nat := 0
  closedTickets : Nat := 0
  categoryCounts : Dict Nat := []
  tagCounts : Dict Nat := []
  deriving DecidableEq

/-- The object `this.history`; the default value is the empty history of `loadHistory`. -/
structure History where
  tickets : List TicketRecord := []
  users : Dict UserHistory := []
  servers : Dict ServerHistory := []
  stats : HistoryStats := {}
  deriving DecidableEq

/-- The method `String.prototype.includes`. -/
def jsIncludes (s sub : String) : Bool := decide (sub.data <:+: s.data)

/-- The method `String.prototype.startsWith`. -/
def jsStartsWith (s pre : String) : Bool := pre.data.isPrefixOf s.data

/-- A lower-casing function for the examples: the letters `A` to `Z` are folded and every
other character is kept. The method `String.prototype.toLowerCase` of the platform folds
the letters of every script; the definitions that call it take it as their argument
`toLowerCase` (the handlers read it from the state of the bot), and what is proved of
them is proved for every function. -/
def asciiToLowerCase (s : String) : String := String.mk (s.data.map Char.toLower)

/-- The key a possibly absent id is stored under in a dictionary object. -/
def jsKey (x : Option String) : String := x.getD "undefined"

/-- The increment `if (!d[k]) d[k] = 0; d[k]++` of a histogram entry. -/
def Dict.bump (d : Dict Nat) (k : String) : Dict Nat := d.set k (counterValue d k + 1)

/-- The quotient `N / D` of two natural numbers rounded to the nearest integer, a tie
going to the even one (the rounding of IEEE 754). -/
def roundedQuotient (N D : Nat) : Nat :=
  let q := N / D
  let r := N % D
  if 2 * r < D then q else if D < 2 * r then q + 1 else if q % 2 = 0 then q else q + 1

/-- The binary exponent of the quotient of two positive integers: the `k` with
`2^k ≤ n / d < 2^(k+1)`. -/
def binaryExponent (n d : Nat) : Int :=
  let k : Int := (Nat.log2 n : Int) - (Nat.log2 d : Int)
  if (if 0 ≤ k then d * 2 ^ k.toNat ≤ n else d ≤ n * 2 ^ (-k).toNat) then k else k - 1

/-- The double that the division `n / d` of two positive integers gives, as its
significand of 53 bits and its exponent: the quotient is scaled into `[2^52, 2^53)` and
rounded to the nearest integer. -/
def doubleQuotient (n d : Nat) : Nat × Int :=
  let e := binaryExponent n d - 52
  (if 0 ≤ e then roundedQuotient n (d * 2 ^ e.toNat)
    else roundedQuotient (n * 2 ^ (-e).toNat) d, e)

/-- The value of the JavaScript division `n / d` of two numbers that hold integers (exact
as doubles below `2^53`), `d` not zero: the double nearest to the exact quotient, kept as
the rational number it is. -/
def jsDivide (n d : Nat) : ℚ :=
  if n = 0 ∨ d = 0 then 0
  else ((doubleQuotient n d).1 : ℚ) * (2 : ℚ) ^ (doubleQuotient n d).2

/-- The expression `ratings.reduce((a, b) => a + b, 0) / ratings.length` of a list that
is not empty: the sum of the ratings, an integer, divided by the length as doubles. -/
def averageOf (ratings : List Nat) : ℚ := jsDivide ratings.sum ratings.length

/-- The callback of `messages.map` in `addTicket`: one fetched message as a log entry. -/
def processMessage (ticket : Ticket) (msg : DiscordMessage) : HistoryMessage :=
  match msg.embeds with
  | embed :: _ =>
    let isStaff : Bool :=
      match embed.authorName with
      | some name => jsIncludes name "Staff"
      | none => false
    { id := msg.id
      author := embed.authorName.getD "Unknown"
      authorId :=
        if isStaff then
          match embed.footerText with
          | some text =>
            if jsIncludes text "ID:" then ((text.splitOn "ID:").getD 1 "").trim else "Unknown"
          | none => "Unknown"
        else if truthy ticket.userId then ticket.userId.getD "Unknown" else "Unknown"
      content := embed.description.getD ""
      timestamp := msg.createdTimestamp
      isStaff := isStaff
      attachments := (embed.fields.find? (fun f => f.1 == "Attachments")).map (fun f => f.2) }
  | [] =>
    { id := msg.id
      author := msg.authorTag
      authorId := msg.authorId
      content := msg.content
      timestamp := msg.createdTimestamp
      isStaff :=
        match msg.memberRoles, ticket.staffRoleId with
        | some roles, some role => roles.contains role
        | _, _ => false
      attachments := if msg.attachments.length > 0 then some (", ".intercalate msg.attachments)
        else none }

/-- The method `addTicket(ticket, messages)` with `now` the wall clock: appends one
record to `history.tickets`, updates the global, per-user, per-server and per-staff
rollups and returns the record with the new history. (`saveHistory` mirrors the history
to disk and swallows its own errors.) -/
def addTicket (history : History) (ticket : Ticket) (messages : List DiscordMessage)
    (now : Nat) : TicketRecord × History :=
  let processedMessages := messages.map (processMessage ticket)
  let ticketRecord : TicketRecord :=
    { id := ticket.id
      numericId := ticket.numericId
      userId := ticket.userId
      userTag := if truthy ticket.userTag then ticket.userTag.getD "Unknown" else "Unknown"
      guildId := ticket.guildId
      threadId := orNull ticket.threadId
      createdAt := ticket.createdAt
      closedAt := some (JsTime.isoString now)
      closedBy := orNull ticket.closedBy
      closeReason := orNull ticket.closeReason
      status := "closed"
      category := orNull ticket.category
      priority := orNull ticket.priority
      tags := ticket.tags.getD []
      assignedTo := orNull ticket.assignedTo
      assignedToTag := orNull ticket.assignedToTag
      firstResponseTime := orNullTime ticket.firstResponseTime
      resolutionTime := orNullTime ticket.resolutionTime
      satisfactionRating := orNullNat ticket.satisfactionRating
      satisfactionFeedback := orNull ticket.satisfactionFeedback
      messageCount := processedMessages.length
      staffMessageCount := (processedMessages.filter (fun m => m.isStaff)).length
      userMessageCount := (processedMessages.filter (fun m => !m.isStaff)).length
      messages := processedMessages
      events := ticket.events.getD [] }
  let tagList : List String := ticket.tags.getD []
  let rating : Option Nat := orNullNat ticket.satisfactionRating
  -- global stats
  let stats : HistoryStats :=
    { totalTickets := history.stats.totalTickets + 1
      closedTickets := history.stats.closedTickets + 1
      categoryCounts :=
        if truthy ticket.category then history.stats.categoryCounts.bump (jsKey ticket.category)
        else history.stats.categoryCounts
      tagCounts := tagList.foldl Dict.bump history.stats.tagCounts }
  -- per-user rollup
  let userKey := jsKey ticket.userId
  let userHistory0 : UserHistory := (history.users.get? userKey).getD {}
  let userRatings := match rating with
    | some r => userHistory0.ratings ++ [r]
    | none => userHistory0.ratings
  let userHistory : UserHistory :=
    { tickets := userHistory0.tickets ++ [ticket.id]
      totalTickets := userHistory0.totalTickets + 1
      tags := tagList.foldl Dict.bump userHistory0.tags
      categories :=
        if truthy ticket.category then userHistory0.categories.bump (jsKey ticket.category)
        else userHistory0.categories
      ratings := userRatings
      averageRating := match rating with
        | some _ => some (averageOf userRatings)
        | none => userHistory0.averageRating }
  -- per-server rollup
  let serverKey := jsKey ticket.guildId
  let serverHistory0 : ServerHistory := (history.servers.get? serverKey).getD {}
  let serverUser0 : ServerUserHistory := (serverHistory0.users.get? userKey).getD {}
  let serverUser : ServerUserHistory :=
    { tickets := serverUser0.tickets ++ [ticket.id]
      totalTickets := serverUser0.totalTickets + 1 }
  let staff : Dict StaffHistory :=
    if truthy ticket.assignedTo then
      let staffKey := jsKey ticket.assignedTo
      let staffHistory0 : StaffHistory := (serverHistory0.staff.get? staffKey).getD {}
      let staffRatings := match rating with
        | some r => staffHistory0.ratings ++ [r]
        | none => staffHistory0.ratings
      serverHistory0.staff.set staffKey
        { tickets := staffHistory0.tickets ++ [ticket.id]
          totalTickets := staffHistory0.totalTickets + 1
          ratings := staffRatings
          averageRating := match rating with
            | some _ => some (averageOf staffRatings)
            | none => staffHistory0.averageRating
          displayName :=
            if truthy ticket.assignedToDisplayName then ticket.assignedToDisplayName
            else staffHistory0.displayName }
    else serverHistory0.staff
  let serverHistory : ServerHistory :=
    { tickets := serverHistory0.tickets ++ [ticket.id]
      totalTickets := serverHistory0.totalTickets + 1
      closedTickets := serverHistory0.closedTickets + 1
      categories :=
        if truthy ticket.category then serverHistory0.categories.bump (jsKey ticket.category)
        else serverHistory0.categories
      tags := tagList.foldl Dict.bump serverHistory0.tags
      users := serverHistory0.users.set userKey serverUser
      staff := staff }
  (ticketRecord,
    { tickets := history.tickets ++ [ticketRecord]
      users := history.users.set userKey userHistory
      servers := history.servers.set serverKey serverHistory
      stats := stats })

/-! ## The bot state and its handlers -/

/-- A tag of the tag registry (`src/utils/tag-manager.js`). -/
structure Tag where
  name : String
  description : String := ""
  color : String := "#cccccc"
  createdBy : String := ""
  createdAt : Option JsTime := none
  deriving DecidableEq, Repr

/-- The mutable state shared by the handlers: `client.tickets`, `client.configs`, the
counters and history of `ticketHistory`, the map `userRateLimits` of `security` and the
tag registry of `tagManager`; with them the method `String.prototype.toLowerCase` of the
platform, which no handler changes. -/
structure Bot where
  tickets : Registry := []
  configs : Dict GuildConfig := []
  counters : Dict Nat := []
  userRateLimits : Dict RateLimitData := []
  history : History := {}
  tags : Dict (List Tag) := []
  toLowerCase : String → String := asciiToLowerCase

/-- The method `getTag(guildId, tagName)` of the tag manager. -/
def getTag (toLowerCase : String → String) (tags : Dict (List Tag))
    (guildId tagName : String) : Option Tag :=
  match tags.get? guildId with
  | none => none
  | some guildTags =>
    guildTags.find? (fun tag => toLowerCase tag.name == toLowerCase tagName)

/-- A direct message to the bot (`messageCreate`, DM branch), with what the platform
answers while it is handled. -/
structure DmEvent where
  authorId : String
  authorTag : String
  authorBot : Bool := false
  /-- some guild's blacklist holds the author -/
  blacklisted : Bool := false
  now : Nat
  /-- whether `client.guilds.cache.get(guildId)` finds the guild -/
  guildCached : Bool := true
  /-- whether `guild.channels.cache.get(config.modmailChannelId)` finds the channel -/
  modmailChannelCached : Bool := true
  infoMessageId : String := ""
  threadId : String := ""
  threadInfoMessageId : String := ""
  /-- an awaited platform call made before the ticket is stored throws -/
  platformFails : Bool := false

/-- The ticket object built at `messageCreate.js` lines 335-348. -/
def newDmTicket (e : DmEvent) (guildId : String) (config : GuildConfig) (numericId : String) :
    Ticket :=
  { id := some (guildId ++ "-" ++ numericId)
    numericId := some numericId
    userId := some e.authorId
    userTag := some e.authorTag
    guildId := some guildId
    channelId := some config.modmailChannelId
    threadId := if config.useThreads then some e.threadId else none
    status := some "pending"
    createdAt := some (JsTime.date e.now)
    infoMessageId := some e.infoMessageId
    threadInfoMessageId := if config.useThreads then some e.threadInfoMessageId else none
    priority := some "medium" }

/-- The DM branch of `messageCreate`: a message of a user with an open ticket is
forwarded (the registry does not change); otherwise a new pending ticket is created in
the first configured guild. -/
def handleDirectMessage (bot : Bot) (e : DmEvent) : Bot :=
  if e.authorBot then bot
  else if e.blacklisted then bot
  else
    match bot.tickets.find (fun t => t.userId == some e.authorId && t.isOpen) with
    | some _ =>
      { bot with userRateLimits := (checkRateLimit bot.userRateLimits e.authorId "messages" e.now).2 }
    | none =>
      let rateLimit := checkRateLimit bot.userRateLimits e.authorId "tickets" e.now
      let bot1 := { bot with userRateLimits := rateLimit.2 }
      if rateLimit.1.limited then bot1
      else
        match bot.configs.head? with
        | none => bot1
        | some (guildId, config) =>
          if guildId = "" then bot1
          else if !e.guildCached then bot1
          else if !e.modmailChannelCached then bot1
          else
            let next := getNextTicketId bot1.counters guildId
            let bot2 := { bot1 with counters := next.2 }
            if e.platformFails then bot2
            else { bot2 with tickets := bot2.tickets.set (newDmTicket e guildId config next.1) }

/-- The slash command `/open`, with what the platform answers while it runs. -/
structure OpenEvent where
  guildId : String
  staffId : String
  /-- the caller has the staff role or is an administrator -/
  authorized : Bool := true
  targetUserId : String
  targetUserTag : String
  targetBot : Bool := false
  category : Option String := none
  priority : Option String := none
  now : Nat
  /-- whether `guild.channels.fetch(config.modmailChannelId)` returns the channel -/
  modmailChannelFound : Bool := true
  infoMessageId : String := ""
  threadId : String := ""
  /-- an awaited platform call made before the ticket is stored throws -/
  platformFails : Bool := false

/-- The ticket object built at `open.js` lines 327-344. -/
def newStaffTicket (e : OpenEvent) (config : GuildConfig) (numericId : String) : Ticket :=
  { id := some (e.guildId ++ "-" ++ numericId)
    numericId := some numericId
    userId := some e.targetUserId
    userTag := some e.targetUserTag
    guildId := some e.guildId
    channelId := some config.modmailChannelId
    threadId := if config.useThreads then some e.threadId else none
    status := some "in_progress"
    createdAt := some (JsTime.date e.now)
    infoMessageId := some e.infoMessageId
    category := orNull e.category
    priority := if truthy e.priority then e.priority else some "medium"
    assignedTo := some e.staffId
    assignedAt := some (JsTime.date e.now)
    firstResponseTime := some (JsTime.isoString e.now)
    initiatedBy := some e.staffId }

/-- The command `/open`: refuses when the target user has an open ticket, otherwise
creates a ticket that is in progress and assigned to the caller. -/
def handleOpen (bot : Bot) (e : OpenEvent) : Bot :=
  match bot.configs.get? e.guildId with
  | none => bot
  | some config =>
    if !e.authorized then bot
    else if e.targetBot then bot
    else
      match bot.tickets.find (fun t => t.userId == some e.targetUserId && t.isOpen) with
      | some _ => bot
      | none =>
        if !e.modmailChannelFound then bot
        else
          let next := getNextTicketId bot.counters e.guildId
          let bot1 := { bot with counters := next.2 }
          if e.platformFails then bot1
          else { bot1 with tickets := bot1.tickets.set (newStaffTicket e config next.1) }

/-- The assignments of a claim (`messageReactionAdd.js` lines 83-88, `messageCreate.js`
lines 512-515). -/
def claimFields (staffId : String) (now : Nat) (t : Ticket) : Ticket :=
  { t with
    status := some "in_progress"
    assignedTo := some staffId
    assignedAt := some (JsTime.date now)
    firstResponseTime := some (JsTime.isoString now) }

/-- A reaction added to a message (`messageReactionAdd`). -/
structure ReactionEvent where
  userId : String
  userBot : Bool := false
  /-- fetching a partial reaction throws -/
  fetchFails : Bool := false
  emojiName : String := "✅"
  /-- the id of `message.guild`, absent outside a guild -/
  guildId : Option String
  messageId : String
  channelId : String
  channelIsThread : Bool := false
  hasStaffRole : Bool := true
  now : Nat

/-- The three lookups of `messageReactionAdd.js` lines 40-56, in order: the predicate of
the first lookup that finds a pending ticket. -/
def claimLookup (r : Registry) (e : ReactionEvent) : Option (Ticket → Bool) :=
  let byThreadInfo : Ticket → Bool := fun t =>
    t.guildId == e.guildId && t.threadInfoMessageId == some e.messageId
      && t.status == some "pending"
  let byInfo : Ticket → Bool := fun t =>
    t.guildId == e.guildId && t.infoMessageId == some e.messageId && t.status == some "pending"
  let byThread : Ticket → Bool := fun t =>
    t.guildId == e.guildId && t.threadId == some e.channelId && t.status == some "pending"
  if (r.find byThreadInfo).isSome then some byThreadInfo
  else if (r.find byInfo).isSome then some byInfo
  else if e.channelIsThread && (r.find byThread).isSome then some byThread
  else none

/-- The handler `messageReactionAdd`: a staff member claims a pending ticket by reacting
to its info message. -/
def handleReaction (bot : Bot) (e : ReactionEvent) : Bot :=
  if e.userBot then bot
  else if e.fetchFails then bot
  else if e.emojiName != "✅" then bot
  else
    match e.guildId with
    | none => bot
    | some guildId =>
      match claimLookup bot.tickets e with
      | none => bot
      | some p =>
        match bot.configs.get? guildId with
        | none => bot
        | some _ =>
          if !e.hasStaffRole then bot
          else { bot with tickets := bot.tickets.mutate p (claimFields e.userId e.now) }

/-- A message posted in a guild channel (`messageCreate`, guild branch). -/
structure GuildMessageEvent where
  authorId : String
  authorBot : Bool := false
  guildId : String
  channelId : String
  channelIsThread : Bool := false
  channelParentId : Option String := none
  /-- the author is a member with the staff role -/
  hasStaffRole : Bool := true
  content : String
  now : Nat

/-- The ticket lookup shared by the guild branch of `messageCreate` (lines 447-462) and
by `/priority`: by thread inside the modmail channel, else by the modmail channel
itself; closed tickets are skipped. -/
def openTicketLookup (config : GuildConfig) (guildId channelId : String)
    (channelIsThread : Bool) (channelParentId : Option String) : Option (Ticket → Bool) :=
  if channelIsThread && channelParentId == some config.modmailChannelId then
    some (fun t => t.guildId == some guildId && t.threadId == some channelId && t.isOpen)
  else if channelId = config.modmailChannelId then
    some (fun t => t.guildId == some guildId && t.channelId == some channelId && t.isOpen)
  else none

/-- The assignments a staff reply makes to the ticket it found (`messageCreate.js`
lines 500-516): a pending ticket that already has an assignee only gets its status
repaired, any other pending ticket is claimed by the author. -/
def replyFields (staffId : String) (now : Nat) (t : Ticket) : Ticket :=
  if t.status = some "pending" then
    if truthy t.assignedTo then { t with status := some "in_progress" }
    else claimFields staffId now t
  else t

/-- The guild branch of `messageCreate`, as far as the bot state goes. -/
def handleGuildMessage (bot : Bot) (e : GuildMessageEvent) : Bot :=
  if e.authorBot then bot
  else
    match bot.configs.get? e.guildId with
    | none => bot
    | some config =>
      match openTicketLookup config e.guildId e.channelId e.channelIsThread e.channelParentId with
      | none => bot
      | some p =>
        match bot.tickets.find p with
        | none => bot
        | some _ =>
          if !e.hasStaffRole then bot
          else if jsStartsWith e.content "#" then bot
          else if jsStartsWith e.content "!" || jsStartsWith e.content "/" then bot
          else { bot with tickets := bot.tickets.mutate p (replyFields e.authorId e.now) }

/-- The slash command `/category`. -/
structure CategoryEvent where
  guildId : String
  channelId : String
  hasStaffRole : Bool := true
  category : String
  priority : Option String := none

/-- The command `/category` (`category.js` lines 54-72): sets the category and the
priority (default `"medium"`) of the ticket of the channel. -/
def handleCategory (bot : Bot) (e : CategoryEvent) : Bot :=
  match bot.configs.get? e.guildId with
  | none => bot
  | some _ =>
    if !e.hasStaffRole then bot
    else
      let p : Ticket → Bool := fun t =>
        t.guildId == some e.guildId && t.channelId == some e.channelId
      match bot.tickets.find p with
      | none => bot
      | some _ =>
        { bot with tickets := bot.tickets.mutate p (fun t =>
            { t with
              category := some e.category
              priority := if truthy e.priority then e.priority else some "medium" }) }

/-- The slash command `/priority`. -/
structure PriorityEvent where
  guildId : String
  channelId : String
  channelIsThread : Bool := false
  channelParentId : Option String := none
  hasStaffRole : Bool := true
  level : String

/-- The command `/priority` (`priority.js` lines 57-96): sets the priority of the open
ticket of the channel or thread. -/
def handlePriority (bot : Bot) (e : PriorityEvent) : Bot :=
  match bot.configs.get? e.guildId with
  | none => bot
  | some config =>
    if !e.hasStaffRole then bot
    else
      match openTicketLookup config e.guildId e.channelId e.channelIsThread e.channelParentId with
      | none => bot
      | some p =>
        match bot.tickets.find p with
        | none => bot
        | some _ =>
          { bot with tickets := bot.tickets.mutate p (fun t => { t with priority := some e.level }) }

/-- The subcommands `/tag add` and `/tag remove`. -/
structure TagEvent where
  guildId : String
  channelId : String
  hasStaffRole : Bool := true
  userId : String
  userTag : String
  tagName : String
  now : Nat

/-- The assignments of `handleAddTag` (`tag.js` lines 148-165). -/
def addTagFields (e : TagEvent) (t : Ticket) : Ticket :=
  { t with
    tags := some (t.tags.getD [] ++ [e.tagName])
    events := some (t.events.getD [] ++
      [{ type := "tag_added", tag := e.tagName, byId := e.userId, byTag := e.userTag,
         timestamp := JsTime.isoString e.now }]) }

/-- The assignments of `handleRemoveTag` (`tag.js` lines 234-247). -/
def removeTagFields (e : TagEvent) (t : Ticket) : Ticket :=
  { t with
    tags := some ((t.tags.getD []).filter (fun x => x != e.tagName))
    events := some (t.events.getD [] ++
      [{ type := "tag_removed", tag := e.tagName, byId := e.userId, byTag := e.userTag,
         timestamp := JsTime.isoString e.now }]) }

/-- The subcommand `/tag add`: the tag must exist in the guild and must not be on the
ticket of the channel yet. -/
def handleTagAdd (bot : Bot) (e : TagEvent) : Bot :=
  match bot.configs.get? e.guildId with
  | none => bot
  | some _ =>
    if !e.hasStaffRole then bot
    else
      let p : Ticket → Bool := fun t =>
        t.guildId == some e.guildId && t.channelId == some e.channelId
      match bot.tickets.find p with
      | none => bot
      | some ticket =>
        match getTag bot.toLowerCase bot.tags e.guildId e.tagName with
        | none => bot
        | some _ =>
          if (ticket.tags.getD []).contains e.tagName then bot
          else { bot with tickets := bot.tickets.mutate p (addTagFields e) }

/-- The subcommand `/tag remove`: the tag must be on the ticket of the channel. -/
def handleTagRemove (bot : Bot) (e : TagEvent) : Bot :=
  match bot.configs.get? e.guildId with
  | none => bot
  | some _ =>
    if !e.hasStaffRole then bot
    else
      let p : Ticket → Bool := fun t =>
        t.guildId == some e.guildId && t.channelId == some e.channelId
      match bot.tickets.find p with
      | none => bot
      | some ticket =>
        if !(ticket.tags.getD []).contains e.tagName then bot
        else { bot with tickets := bot.tickets.mutate p (removeTagFields e) }

/-- The awaited call of `/close` that throws, if any, in the order of the source. -/
inductive CloseFault where
  | none
  | deferReply
  | fetchUser
  | sendClosureMessage
  | fetchMessages
  | generateTranscript
  | fetchLogChannel
  | sendTranscript
  | editReply
  | sendLog
  | setArchived
  deriving DecidableEq, Repr

/-- The slash command `/close`, with what the platform answers while it runs. -/
structure CloseEvent where
  /-- the id of `interaction.guild`, absent outside a guild -/
  guildId : Option String
  closerId : String
  hasStaffRole : Bool := true
  isAdmin : Bool := false
  channelId : String
  channelIsThread : Bool := false
  channelParentId : Option String := none
  reason : Option String := none
  now : Nat
  /-- the tag of the fetched ticket user -/
  userTag : String := ""
  /-- the tag of the fetched assignee, absent when that fetch fails -/
  assigneeTag : Option String := none
  /-- the messages collected by the pagination loop -/
  fetchedMessages : List DiscordMessage := []
  /-- the closure notice the command posts -/
  closureMessage : DiscordMessage :=
    { id := "closure", authorId := "bot", authorTag := "bot", createdTimestamp := 0 }
  fault : CloseFault := CloseFault.none

/-- The lookup of `/close` (`close.js` lines 48-63): no test of the status. -/
def closeLookup (config : GuildConfig) (guildId : String) (e : CloseEvent) : Ticket → Bool :=
  if config.useThreads && e.channelIsThread && e.channelParentId == some config.modmailChannelId
  then fun t => t.guildId == some guildId && t.threadId == some e.channelId
  else fun t => t.guildId == some guildId && t.channelId == some e.channelId

/-- The reason of a close: `getString("reason") || "No reason provided"`. -/
def closeReasonOf (e : CloseEvent) : String :=
  if truthy e.reason then e.reason.getD "No reason provided" else "No reason provided"

/-- The first assignments of `/close` (`close.js` lines 78-81). -/
def markClosed (e : CloseEvent) (t : Ticket) : Ticket :=
  { t with
    status := some "closed"
    closedBy := some e.closerId
    closedAt := some (JsTime.isoString e.now)
    closeReason := some (closeReasonOf e) }

/-- The message list handed to the transcript and the history: the fetched messages,
with the closure notice appended when the fetch did not return it. -/
def closeMessages (e : CloseEvent) : List DiscordMessage :=
  if e.fetchedMessages.any (fun m => m.id == e.closureMessage.id) then e.fetchedMessages
  else e.fetchedMessages ++ [e.closureMessage]

/-- The test `m.embeds[0].author?.name?.includes("Staff")` of a message with an embed. -/
def embedByStaff (m : DiscordMessage) : Option Bool :=
  match m.embeds with
  | [] => none
  | embed :: _ =>
    match embed.authorName with
    | some name => some (jsIncludes name "Staff")
    | none => some false

/-- The later assignments of `/close` (`close.js` lines 176-196). -/
def closingInfo (config : GuildConfig) (e : CloseEvent) (t : Ticket) : Ticket :=
  let allMessages := closeMessages e
  { t with
    userTag := some e.userTag
    assignedToTag :=
      if truthy t.assignedTo then
        (if truthy e.assigneeTag then e.assigneeTag else some "Unknown")
      else none
    staffRoleId := some config.staffRoleId
    resolutionTime := some (JsTime.isoString e.now)
    messageCount := some allMessages.length
    staffMessageCount := some (allMessages.filter (fun m =>
      embedByStaff m == some true ||
        (match m.memberRoles with
          | some roles => roles.contains config.staffRoleId
          | none => false))).length
    userMessageCount := some (allMessages.filter (fun m =>
      embedByStaff m == some false ||
        (some m.authorId == t.userId && !m.authorBot))).length }

/-- The sort `messages.sort((a, b) => a.createdTimestamp - b.createdTimestamp)` of
`generateTranscript`, which reorders the shared message array in place. -/
def sortByTimestamp (messages : List DiscordMessage) : List DiscordMessage :=
  messages.mergeSort (fun a b => decide (a.createdTimestamp ≤ b.createdTimestamp))

/-- The command `/close`. The ticket is marked closed first; a throw at any later awaited
call leaves the handler through its `catch`, which only reports the error. The
notification of the user and the satisfaction survey are best effort and touch neither
the registry nor the history; writing the shrunk registry to disk is `saveTickets`,
which swallows its own errors. -/
def handleClose (bot : Bot) (e : CloseEvent) : Bot :=
  match e.guildId with
  | none => bot
  | some guildId =>
    match bot.configs.get? guildId with
    | none => bot
    | some config =>
      if !e.hasStaffRole && !e.isAdmin then bot
      else
        let p := closeLookup config guildId e
        match bot.tickets.find p with
        | none => bot
        | some ticket =>
          if e.fault = CloseFault.deferReply then bot
          else if e.fault = CloseFault.fetchUser ∨ e.fault = CloseFault.sendClosureMessage
              ∨ e.fault = CloseFault.fetchMessages then
            { bot with tickets := bot.tickets.mutate p (markClosed e) }
          else
            let closing : Ticket → Ticket := fun t => closingInfo config e (markClosed e t)
            let tickets1 := bot.tickets.mutate p closing
            if e.fault = CloseFault.generateTranscript ∨ e.fault = CloseFault.fetchLogChannel
                ∨ e.fault = CloseFault.sendTranscript then
              { bot with tickets := tickets1 }
            else
              let archived := addTicket bot.history (closing ticket)
                (sortByTimestamp (closeMessages e)) e.now
              if e.fault = CloseFault.editReply ∨ e.fault = CloseFault.sendLog then
                { bot with tickets := tickets1, history := archived.2 }
              else
                { bot with tickets := tickets1.delete ticket.id, history := archived.2 }

/-- The events the bot reacts to. -/
inductive Event where
  | directMessage (e : DmEvent)
  | openCommand (e : OpenEvent)
  | reaction (e : ReactionEvent)
  | guildMessage (e : GuildMessageEvent)
  | category (e : CategoryEvent)
  | priority (e : PriorityEvent)
  | tagAdd (e : TagEvent)
  | tagRemove (e : TagEvent)
  | close (e : CloseEvent)

/-- One handler run from its first statement to its last, no other handler running in
between (the handlers that overlap are the subject of a later section). -/
def step (bot : Bot) : Event → Bot
  | Event.directMessage e => handleDirectMessage bot e
  | Event.openCommand e => handleOpen bot e
  | Event.reaction e => handleReaction bot e
  | Event.guildMessage e => handleGuildMessage bot e
  | Event.category e => handleCategory bot e
  | Event.priority e => handlePriority bot e
  | Event.tagAdd e => handleTagAdd bot e
  | Event.tagRemove e => handleTagRemove bot e
  | Event.close e => handleClose bot e

/-- The handlers run one at a time on a sequence of events, each from its first
statement to its last before the next begins. -/
def run (bot : Bot) : List Event → Bot
  | [] => bot
  | e :: es => run (step bot e) es

/-- The events that create a ticket. -/
def Event.isCreation : Event → Bool
  | Event.directMessage _ => true
  | Event.openCommand _ => true
  | _ => false

/-- The position of a status in the life cycle `pending`, `in_progress`, `closed`. -/
def statusRank (status : Option String) : Nat :=
  if status = some "closed" then 2
  else if status = some "in_progress" then 1
  else 0

/-! ## Persistent ticket store (`src/utils/ticket-storage.js`) -/

/-- JSON serialisation of a time value: `JSON.stringify` writes a `Date` as its ISO
string, and `JSON.parse` reads a string back as a string and `null` as `null`. -/
def JsTime.toJSON : JsTime → JsTime
  | JsTime.date ms => JsTime.isoString ms
  | JsTime.isoString ms => JsTime.isoString ms
  | JsTime.null => JsTime.null

/-- The value `JSON.parse(JSON.stringify(ticket))`: every field is kept, `Date` values
become ISO strings. -/
def Ticket.jsonRoundTrip (t : Ticket) : Ticket :=
  { t with
    createdAt := t.createdAt.map JsTime.toJSON
    assignedAt := t.assignedAt.map JsTime.toJSON
    firstResponseTime := t.firstResponseTime.map JsTime.toJSON
    closedAt := t.closedAt.map JsTime.toJSON
    resolutionTime := t.resolutionTime.map JsTime.toJSON
    events := t.events.map (fun evs =>
      evs.map (fun ev => { ev with timestamp := ev.timestamp.toJSON })) }

/-- The content of a ticket file as `JSON.parse` sees it: a text that parses to an array
of ticket objects, or a text that `JSON.parse` rejects. -/
inductive FileData where
  | ticketList (tickets : List Ticket)
  | unparsable (text : String)
  deriving DecidableEq, Repr

/-- The three paths the store works with; `none` is a file that does not exist. -/
structure TicketFiles where
  /-- the file `active-tickets.json` -/
  storage : Option FileData := none
  /-- the file `active-tickets-backup.json` -/
  backup : Option FileData := none
  /-- the file `active-tickets.json.tmp` -/
  temp : Option FileData := none
  deriving DecidableEq, Repr

/-- The file-system call of `saveTickets` that throws, if any. -/
inductive SaveFault where
  | none
  | copyToBackup
  | writeTemp
  | rename
  deriving DecidableEq, Repr

/-- The method `saveTickets(tickets)`: copies the current file to the backup, writes the
serialised tickets to the temporary file and renames it over the storage file. When one
of these calls throws, the `catch` copies an existing backup over the storage file
(`restoreFails`: that copy throws as well and is only logged). -/
def saveTickets (files : TicketFiles) (tickets : Registry) (fault : SaveFault)
    (restoreFails : Bool) : TicketFiles :=
  let ticketsArray : List Ticket := tickets
  let recover (fs : TicketFiles) : TicketFiles :=
    match fs.backup with
    | some backupData => if restoreFails then fs else { fs with storage := some backupData }
    | none => fs
  if fault = SaveFault.copyToBackup ∧ files.storage.isSome then recover files
  else
    let files1 : TicketFiles :=
      match files.storage with
      | some data => { files with backup := some data }
      | none => files
    if fault = SaveFault.writeTemp then recover files1
    else
      let files2 : TicketFiles :=
        { files1 with temp := some (FileData.ticketList (ticketsArray.map Ticket.jsonRoundTrip)) }
      if fault = SaveFault.rename then recover files2
      else { files2 with storage := files2.temp, temp := none }

/-- The method `loadTickets()`: the tickets of the storage file; when that file is missing
or does not parse, the tickets of the backup, which is then written over the storage
file (`writeFails`: that write throws). Every error ends in the outer `catch`, which
returns the empty list. -/
def loadTickets (files : TicketFiles) (writeFails : Bool) : List Ticket × TicketFiles :=
  let fromBackup : List Ticket × TicketFiles :=
    match files.backup with
    | some (FileData.ticketList tickets) =>
      if writeFails then ([], files)
      else (tickets, { files with storage := files.backup })
    | some (FileData.unparsable _) => ([], files)
    | none => ([], files)
  match files.storage with
  | none => fromBackup
  | some (FileData.ticketList tickets) => (tickets, files)
  | some (FileData.unparsable _) => fromBackup

/-! ## Integrity check of a loaded ticket (`src/utils/ticket-storage.js`) -/

/-- The call `s.split("-")` on the characters of a string: the pieces between the
dashes, in order. -/
def splitDash : List Char → List (List Char)
  | [] => [[]]
  | c :: cs =>
    if c = '-' then [] :: splitDash cs
    else
      match splitDash cs with
      | p :: ps => (c :: p) :: ps
      | [] => [[c]]

/-- The expression `parts[parts.length - 1]` for `parts = id.split("-")`. -/
def lastDashPart (id : String) : String := String.mk ((splitDash id.data).getLastD [])

/-- The status repair of `verifyTicketIntegrity` (lines 153-156): a missing status and a
status other than `pending`, `in_progress`, `closed` become `in_progress`. -/
def repairStatus (ticket : Ticket) : Ticket :=
  if !truthy ticket.status ||
      !(["pending", "in_progress", "closed"].map some).contains ticket.status then
    { ticket with status := some "in_progress" }
  else ticket

/-- The date repair of `verifyTicketIntegrity` (lines 159-162): a falsy `createdAt`
becomes the ISO string of the current time. -/
def repairCreatedAt (now : Nat) (ticket : Ticket) : Ticket :=
  if !truthyTime ticket.createdAt then { ticket with createdAt := some (JsTime.isoString now) }
  else ticket

/-- The numeric id repair of `verifyTicketIntegrity` (lines 165-169): a missing
`numericId` becomes the last piece of the id split at the dashes. -/
def repairNumericId (ticket : Ticket) : Ticket :=
  if !truthy ticket.numericId then { ticket with numericId := ticket.id.map lastDashPart }
  else ticket

/-- The method `verifyTicketIntegrity(ticket)` with `now` the wall clock: `none` is the
`null` it returns for a ticket whose id is falsy; otherwise the ticket with its status,
its `createdAt` and its `numericId` repaired, in this order. -/
def verifyTicketIntegrity (ticket : Ticket) (now : Nat) : Option Ticket :=
  if !truthy ticket.id then none
  else some (repairNumericId (repairCreatedAt now (repairStatus ticket)))

/-! ## Patching a history record (`src/utils/ticket-history.js`, `updateTicket`) -/

/-- The `updates` argument of `updateTicket`: an object carrying any subset of the fields
of a record. A field that is `none` here is not a key of the object. -/
structure RecordUpdates where
  id : Option (Option String) := none
  numericId : Option (Option String) := none
  userId : Option (Option String) := none
  userTag : Option String := none
  guildId : Option (Option String) := none
  threadId : Option (Option String) := none
  createdAt : Option (Option JsTime) := none
  closedAt : Option (Option JsTime) := none
  closedBy : Option (Option String) := none
  closeReason : Option (Option String) := none
  status : Option String := none
  category : Option (Option String) := none
  priority : Option (Option String) := none
  tags : Option (List String) := none
  assignedTo : Option (Option String) := none
  assignedToTag : Option (Option String) := none
  firstResponseTime : Option (Option JsTime) := none
  resolutionTime : Option (Option JsTime) := none
  satisfactionRating : Option (Option Nat) := none
  satisfactionFeedback : Option (Option String) := none
  messageCount : Option Nat := none
  staffMessageCount : Option Nat := none
  userMessageCount : Option Nat := none
  messages : Option (List HistoryMessage) := none
  events : Option (List TicketEvent) := none
  deriving DecidableEq

/-- The object spread `{ ...ticket, ...updates }`: every key of `updates` replaces the
field of the record. -/
def applyUpdates (ticket : TicketRecord) (updates : RecordUpdates) : TicketRecord :=
  { id := updates.id.getD ticket.id
    numericId := updates.numericId.getD ticket.numericId
    userId := updates.userId.getD ticket.userId
    userTag := updates.userTag.getD ticket.userTag
    guildId := updates.guildId.getD ticket.guildId
    threadId := updates.threadId.getD ticket.threadId
    createdAt := updates.createdAt.getD ticket.createdAt
    closedAt := updates.closedAt.getD ticket.closedAt
    closedBy := updates.closedBy.getD ticket.closedBy
    closeReason := updates.closeReason.getD ticket.closeReason
    status := updates.status.getD ticket.status
    category := updates.category.getD ticket.category
    priority := updates.priority.getD ticket.priority
    tags := updates.tags.getD ticket.tags
    assignedTo := updates.assignedTo.getD ticket.assignedTo
    assignedToTag := updates.assignedToTag.getD ticket.assignedToTag
    firstResponseTime := updates.firstResponseTime.getD ticket.firstResponseTime
    resolutionTime := updates.resolutionTime.getD ticket.resolutionTime
    satisfactionRating := updates.satisfactionRating.getD ticket.satisfactionRating
    satisfactionFeedback := updates.satisfactionFeedback.getD ticket.satisfactionFeedback
    messageCount := updates.messageCount.getD ticket.messageCount
    staffMessageCount := updates.staffMessageCount.getD ticket.staffMessageCount
    userMessageCount := updates.userMessageCount.getD ticket.userMessageCount
    messages := updates.messages.getD ticket.messages
    events := updates.events.getD ticket.events }

/-- The assignment `tickets[ticketIndex] = updatedTicket` for the index that
`findIndex(p)` returns: the first element satisfying `p` is replaced. -/
def replaceFirst {α : Type} (p : α → Bool) (new : α) : List α → List α
  | [] => []
  | a :: l => if p a then new :: l else a :: replaceFirst p new l

/-- The value of `updates.satisfactionRating` when it is truthy (a number other than
zero). -/
def truthyRating (updates : RecordUpdates) : Option Nat :=
  match updates.satisfactionRating with
  | some (some 0) => none
  | some (some r) => some r
  | _ => none

/-- The statements `ratings.push(r)` and `averageRating = sum / length` on a user rollup. -/
def UserHistory.addRating (u : UserHistory) (r : Nat) : UserHistory :=
  { u with ratings := u.ratings ++ [r], averageRating := some (averageOf (u.ratings ++ [r])) }

/-- The statements `ratings.push(r)` and `averageRating = sum / length` on a staff rollup. -/
def StaffHistory.addRating (s : StaffHistory) (r : Nat) : StaffHistory :=
  { s with ratings := s.ratings ++ [r], averageRating := some (averageOf (s.ratings ++ [r])) }

/-- The rating branch of `updateTicket` for the user: when `users[key]` exists the rating
is pushed to its ratings and its average recomputed. -/
def rateUser (users : Dict UserHistory) (key : String) (r : Nat) : Dict UserHistory :=
  match users.get? key with
  | some userHistory => users.set key (userHistory.addRating r)
  | none => users

/-- The rating branch of `updateTicket` for the staff member: when `servers[g]` and
`servers[g].staff[s]` exist the rating is pushed to the staff ratings and the average
recomputed. -/
def rateStaff (servers : Dict ServerHistory) (g s : String) (r : Nat) : Dict ServerHistory :=
  match servers.get? g with
  | some serverHistory =>
    match serverHistory.staff.get? s with
    | some staffHistory =>
      servers.set g { serverHistory with staff := serverHistory.staff.set s (staffHistory.addRating r) }
    | none => servers
  | none => servers

/-- The method `updateTicket(ticketId, updates)`: `none` with an unchanged history when no
record has the id; otherwise the record merged with `updates` replaces the stored one,
and a truthy `satisfactionRating` is appended to the ratings of the record's user and,
inside the same branch, of its assigned staff member, when their rollups exist. -/
def updateTicket (history : History) (ticketId : String) (updates : RecordUpdates) :
    Option TicketRecord × History :=
  match history.tickets.find? (fun t => t.id == some ticketId) with
  | none => (none, history)
  | some ticket =>
    let updatedTicket := applyUpdates ticket updates
    let rated : Option Nat := if truthy ticket.userId then truthyRating updates else none
    let users : Dict UserHistory :=
      match rated with
      | some r => rateUser history.users (jsKey ticket.userId) r
      | none => history.users
    let servers : Dict ServerHistory :=
      match rated with
      | some r =>
        if truthy ticket.assignedTo && truthy ticket.guildId then
          rateStaff history.servers (jsKey ticket.guildId) (jsKey ticket.assignedTo) r
        else history.servers
      | none => history.servers
    (some updatedTicket,
      { history with
        tickets := replaceFirst (fun t => t.id == some ticketId) updatedTicket history.tickets
        users := users
        servers := servers })

/-- One call of `addTicket`. -/
structure AddCall where
  ticket : Ticket
  messages : List DiscordMessage := []
  now : Nat := 0

/-- The history after successive `addTicket` calls. -/
def addTickets (history : History) : List AddCall → History
  | [] => history
  | c :: cs => addTickets (addTicket history c.ticket c.messages c.now).2 cs

/-- A call that writes to the history: `addTicket`, or the `updateTicket` of a survey
response, whose `updates` carries the rating only. -/
inductive HistoryCall where
  | add (c : AddCall)
  | rate (ticketId : String) (rating : Nat)

/-- The history after one call. -/
def applyHistoryCall (history : History) : HistoryCall → History
  | HistoryCall.add c => (addTicket history c.ticket c.messages c.now).2
  | HistoryCall.rate ticketId rating =>
    (updateTicket history ticketId { satisfactionRating := some (some rating) }).2

/-- The history after successive calls, starting from `history`. -/
def historyAfter (history : History) : List HistoryCall → History
  | [] => history
  | c :: cs => historyAfter (applyHistoryCall history c) cs

/-! ## Searching the history (`src/utils/ticket-history.js`, `searchTickets`) -/

/-- The `criteria` argument of `searchTickets`. -/
structure SearchCriteria where
  guildId : Option String := none
  userId : Option String := none
  username : Option String := none
  ticketId : Option String := none
  category : Option String := none
  tags : Option (List String) := none
  content : Option String := none
  startDate : Option JsTime := none
  endDate : Option JsTime := none
  staffId : Option String := none
  minRating : Option Nat := none
  maxRating : Option Nat := none
  deriving DecidableEq

/-- Truthiness of a number-valued field: `undefined`, `null` and `0` are falsy. -/
def truthyNat : Option Nat → Bool
  | some 0 => false
  | some _ => true
  | none => false

/-- The instant of `new Date(x)` for a stored time, in milliseconds; `new Date(null)` is
the epoch. -/
def JsTime.getTime : JsTime → Nat
  | JsTime.date ms => ms
  | JsTime.isoString ms => ms
  | JsTime.null => 0

/-- The comparison `new Date(t.createdAt) >= startDate`; a missing `createdAt` gives an
invalid date, which compares false, and a `null` one the epoch. -/
def createdNotBefore (createdAt : Option JsTime) (startDate : JsTime) : Bool :=
  match createdAt with
  | some c => decide (startDate.getTime ≤ c.getTime)
  | none => false

/-- The comparison `new Date(t.createdAt) <= endDate`; a missing `createdAt` gives an
invalid date, which compares false, and a `null` one the epoch. -/
def createdNotAfter (createdAt : Option JsTime) (endDate : JsTime) : Bool :=
  match createdAt with
  | some c => decide (c.getTime ≤ endDate.getTime)
  | none => false

/-- The filter `results.filter((t) => t.id.includes(ticketId) || t.numericId === ticketId)`:
the callback runs on the records in order and throws a `TypeError` (`none`) at a record
without `id`. -/
def filterByTicketId (ticketId : String) : List TicketRecord → Option (List TicketRecord)
  | [] => some []
  | t :: ts =>
    match t.id with
    | none => none
    | some id =>
      match filterByTicketId ticketId ts with
      | none => none
      | some rest =>
        if jsIncludes id ticketId || t.numericId == some ticketId then some (t :: rest)
        else some rest

/-- The filters of `searchTickets` that follow the ticket id filter. -/
def searchTicketsTail (toLowerCase : String → String) (criteria : SearchCriteria)
    (results : List TicketRecord) : List TicketRecord :=
  let results :=
    if truthy criteria.category then results.filter (fun t => t.category == criteria.category)
    else results
  let results :=
    match criteria.tags with
    | some tags =>
      if tags.length > 0 then results.filter (fun t => t.tags.any (fun tag => tags.contains tag))
      else results
    | none => results
  let results :=
    if truthy criteria.content then
      let lowercaseContent := toLowerCase (criteria.content.getD "")
      results.filter (fun t =>
        t.messages.any (fun m =>
          m.content != "" && jsIncludes (toLowerCase m.content) lowercaseContent))
    else results
  let results :=
    if truthyTime criteria.startDate then
      let startDate := criteria.startDate.getD JsTime.null
      results.filter (fun t => createdNotBefore t.createdAt startDate)
    else results
  let results :=
    if truthyTime criteria.endDate then
      let endDate := criteria.endDate.getD JsTime.null
      results.filter (fun t => createdNotAfter t.createdAt endDate)
    else results
  let results :=
    if truthy criteria.staffId then results.filter (fun t => t.assignedTo == criteria.staffId)
    else results
  let results :=
    if truthyNat criteria.minRating then
      results.filter (fun t =>
        truthyNat t.satisfactionRating &&
          decide (criteria.minRating.getD 0 ≤ t.satisfactionRating.getD 0))
    else results
  let results :=
    if truthyNat criteria.maxRating then
      results.filter (fun t =>
        truthyNat t.satisfactionRating &&
          decide (t.satisfactionRating.getD 0 ≤ criteria.maxRating.getD 0))
    else results
  results

/-- The method `searchTickets(criteria)`: the records of the history narrowed by one
filter per truthy criterion, in the order of the source; `none` when the ticket id filter
throws. -/
def searchTickets (toLowerCase : String → String) (history : History)
    (criteria : SearchCriteria) : Option (List TicketRecord) :=
  let results := history.tickets
  let results :=
    if truthy criteria.guildId then results.filter (fun t => t.guildId == criteria.guildId)
    else results
  let results :=
    if truthy criteria.userId then results.filter (fun t => t.userId == criteria.userId)
    else results
  let results :=
    if truthy criteria.username then
      let lowercaseUsername := toLowerCase (criteria.username.getD "")
      results.filter (fun t =>
        t.userTag != "" && jsIncludes (toLowerCase t.userTag) lowercaseUsername)
    else results
  match (if truthy criteria.ticketId then
      filterByTicketId (criteria.ticketId.getD "") results else some results) with
  | none => none
  | some results => some (searchTicketsTail toLowerCase criteria results)

/-! ## The requests of the guild branch of `messageCreate` -/

/-- A message posted in the channel of the triggering message (`message.channel.send`):
the staff note with its text, the notice of an automatic claim, or the note that the
ticket is assigned to someone else. -/
inductive ChannelPost where
  | staffNote (text : String)
  | autoClaimNotice (staffId : String)
  | notAssignedNote (assignedTo : String)
  deriving DecidableEq, Repr

/-- A reply to the triggering message (`message.reply`): the "Thread Required" rejection,
which names the thread of the ticket, or the error notice. -/
inductive ReplyPost where
  | threadRequired (threadId : Option String)
  | replyError
  deriving DecidableEq, Repr

/-- A direct message to a user (`user.send`): the "Ticket Update" notice of a claim, or a
staff reply, whose embed is rendered from the content of the staff message. -/
inductive UserDm where
  | ticketUpdate (numericId : Option String)
  | staffReply (content : String) (numericId : Option String)
  deriving DecidableEq, Repr

/-- A request of a handler to the messaging platform. -/
inductive Request where
  | channelSend (post : ChannelPost)
  | reply (post : ReplyPost)
  | deleteMessage
  | fetchChannel (channelId : Option String)
  | fetchMessage (messageId : Option String)
  | editMessage (messageId : Option String)
  | fetchUser (userId : Option String)
  | userSend (userId : Option String) (dm : UserDm)
  | webhookPost (url : String)
  deriving DecidableEq, Repr

/-- The control flow of a handler around its requests: an awaited request throws when the
platform rejects it, a posted one is not awaited, `attempt` is `try`/`catch`. -/
inductive Script where
  | skip
  | request (r : Request)
  | post (r : Request)
  | seq (first next : Script)
  | attempt (body handler : Script)

/-- Runs a script: the requests issued, in order, and whether the script threw. The
platform rejects the request `r` issued after `n` earlier ones when `fails n r`. -/
def Script.run (fails : Nat → Request → Bool) : Nat → Script → List Request × Bool
  | _, Script.skip => ([], false)
  | n, Script.request r => ([r], fails n r)
  | _, Script.post r => ([r], false)
  | n, Script.seq first next =>
    match Script.run fails n first with
    | (t1, true) => (t1, true)
    | (t1, false) =>
      match Script.run fails (n + t1.length) next with
      | (t2, threw) => (t1 ++ t2, threw)
  | n, Script.attempt body handler =>
    match Script.run fails n body with
    | (t1, true) =>
      match Script.run fails (n + t1.length) handler with
      | (t2, threw) => (t1 ++ t2, threw)
    | (t1, false) => (t1, false)

/-- The method `String.prototype.substring(1)` on a string whose first character is one
UTF-16 unit: the string without its first character. -/
def jsSubstring1 (s : String) : String := String.mk (s.data.drop 1)

/-- The flag `isThread` of the guild branch: the message was posted in a thread of the
modmail channel. -/
def isTicketThread (config : GuildConfig) (e : GuildMessageEvent) : Bool :=
  e.channelIsThread && e.channelParentId == some config.modmailChannelId

/-- The requests of an automatic claim (`messageCreate.js` lines 517-596): the info
messages are edited and the user is notified inside one `try`, then the notice is posted
in the channel. -/
def autoClaimScript (config : GuildConfig) (isThread : Bool) (ticket : Ticket)
    (e : GuildMessageEvent) : Script :=
  Script.seq
    (Script.attempt
      (Script.seq (Script.request (Request.fetchChannel ticket.channelId))
      (Script.seq (Script.request (Request.fetchMessage ticket.infoMessageId))
      (Script.seq (Script.request (Request.editMessage ticket.infoMessageId))
      (Script.seq
        (if config.useThreads && truthy ticket.threadId && truthy ticket.threadInfoMessageId then
          Script.attempt
            (Script.seq (Script.request (Request.fetchChannel ticket.threadId))
            (Script.seq (Script.request (Request.fetchMessage ticket.threadInfoMessageId))
              (Script.request (Request.editMessage ticket.threadInfoMessageId))))
            Script.skip
         else Script.skip)
      (Script.seq (Script.request (Request.fetchUser ticket.userId))
        (if config.useThreads && isThread then
          Script.request (Request.userSend ticket.userId (UserDm.ticketUpdate ticket.numericId))
         else if !config.useThreads then
          Script.request (Request.userSend ticket.userId (UserDm.ticketUpdate ticket.numericId))
         else Script.skip))))))
      Script.skip)
    (Script.request (Request.channelSend (ChannelPost.autoClaimNotice e.authorId)))

/-- The last step of a staff reply (`messageCreate.js` lines 612-726): the reply is
forwarded to the user of the ticket from a thread in thread mode and from the channel in
legacy mode; in thread mode a reply in the channel is answered by "Thread Required" and
deleted. -/
def forwardScript (config : GuildConfig) (isThread : Bool) (ticket : Ticket)
    (e : GuildMessageEvent) : Script :=
  Script.attempt
    (if (config.useThreads && isThread) || (!config.useThreads && !isThread) then
      Script.seq (Script.request (Request.fetchUser ticket.userId))
      (Script.seq
        (Script.request
          (Request.userSend ticket.userId (UserDm.staffReply e.content ticket.numericId)))
        (if truthy config.webhookUrl then
          Script.post (Request.webhookPost (config.webhookUrl.getD ""))
         else Script.skip))
     else if config.useThreads && !isThread then
      Script.seq (Script.request (Request.reply (ReplyPost.threadRequired ticket.threadId)))
        (Script.attempt (Script.request Request.deleteMessage) Script.skip)
     else Script.skip)
    (Script.request (Request.reply ReplyPost.replyError))

/-- The requests of the guild branch of `messageCreate` (lines 438-728), in the control
flow of the source; the ticket fields they read are those of the ticket after the
assignments of `replyFields`. -/
def guildMessageScript (bot : Bot) (e : GuildMessageEvent) : Script :=
  if e.authorBot then Script.skip
  else
    match bot.configs.get? e.guildId with
    | none => Script.skip
    | some config =>
      match openTicketLookup config e.guildId e.channelId e.channelIsThread e.channelParentId with
      | none => Script.skip
      | some p =>
        match bot.tickets.find p with
        | none => Script.skip
        | some ticket =>
          if !e.hasStaffRole then Script.skip
          else if jsStartsWith e.content "#" then
            Script.seq
              (Script.request (Request.channelSend (ChannelPost.staffNote (jsSubstring1 e.content))))
              (Script.attempt (Script.request Request.deleteMessage) Script.skip)
          else if jsStartsWith e.content "!" || jsStartsWith e.content "/" then Script.skip
          else
            let isThread := isTicketThread config e
            let replied := replyFields e.authorId e.now ticket
            Script.seq
              (if ticket.status = some "pending" ∧ truthy ticket.assignedTo = false then
                autoClaimScript config isThread replied e
               else Script.skip)
            (Script.seq
              (if truthy replied.assignedTo && replied.assignedTo != some e.authorId then
                Script.request
                  (Request.channelSend (ChannelPost.notAssignedNote (replied.assignedTo.getD "")))
               else Script.skip)
              (forwardScript config isThread replied e))

/-- The requests that the guild branch of `messageCreate` issues for a message; what it
throws is caught and logged by the handler. -/
def guildMessageRequests (bot : Bot) (e : GuildMessageEvent) (fails : Nat → Request → Bool) :
    List Request :=
  (Script.run fails 0 (guildMessageScript bot e)).1

/-! ## The tag registry (`src/utils/tag-manager.js`) -/

/-- The `updates` argument of `updateTag`: an object carrying any subset of the fields of
a tag. A field that is `none` here is not a key of the object. -/
structure TagUpdates where
  name : Option String := none
  description : Option String := none
  color : Option String := none
  createdBy : Option String := none
  createdAt : Option (Option JsTime) := none
  deriving DecidableEq, Repr

/-- The object returned by the mutators of the tag manager. -/
structure TagResult where
  success : Bool
  message : Option String := none
  tag : Option Tag := none
  deriving DecidableEq, Repr

/-- The object spread `{ ...tag, ...updates }`. -/
def applyTagUpdates (tag : Tag) (updates : TagUpdates) : Tag :=
  { name := updates.name.getD tag.name
    description := updates.description.getD tag.description
    color := updates.color.getD tag.color
    createdBy := updates.createdBy.getD tag.createdBy
    createdAt := updates.createdAt.getD tag.createdAt }

/-- The method `addTag(guildId, tag)`: a missing list of the guild is created; a tag whose
name is already in the list, ignoring case, is refused; otherwise the tag is pushed.
(`saveTags` mirrors the registry to disk and swallows its own errors.) -/
def addTag (toLowerCase : String → String) (tags : Dict (List Tag)) (guildId : String)
    (tag : Tag) : TagResult × Dict (List Tag) :=
  let tags1 :=
    match tags.get? guildId with
    | none => tags.set guildId []
    | some _ => tags
  let guildTags := (tags1.get? guildId).getD []
  match guildTags.find? (fun t => toLowerCase t.name == toLowerCase tag.name) with
  | some _ => ({ success := false, message := some "Tag already exists" }, tags1)
  | none => ({ success := true, tag := some tag }, tags1.set guildId (guildTags ++ [tag]))

/-- The method `removeTag(guildId, tagName)`: the list of the guild is replaced by the
list without the tags of that name, ignoring case; the call fails when the guild has no
list or the list did not shrink. -/
def removeTag (toLowerCase : String → String) (tags : Dict (List Tag))
    (guildId tagName : String) : TagResult × Dict (List Tag) :=
  match tags.get? guildId with
  | none => ({ success := false, message := some "No tags found for this guild" }, tags)
  | some guildTags =>
    let filtered :=
      guildTags.filter (fun tag => toLowerCase tag.name != toLowerCase tagName)
    let tags1 := tags.set guildId filtered
    if filtered.length = guildTags.length then
      ({ success := false, message := some "Tag not found" }, tags1)
    else ({ success := true }, tags1)

/-- The method `updateTag(guildId, tagName, updates)`: the first tag of that name,
ignoring case, is replaced by its merge with `updates`. -/
def updateTag (toLowerCase : String → String) (tags : Dict (List Tag))
    (guildId tagName : String) (updates : TagUpdates) : TagResult × Dict (List Tag) :=
  match tags.get? guildId with
  | none => ({ success := false, message := some "No tags found for this guild" }, tags)
  | some guildTags =>
    match guildTags.find? (fun tag => toLowerCase tag.name == toLowerCase tagName) with
    | none => ({ success := false, message := some "Tag not found" }, tags)
    | some tag =>
      ({ success := true, tag := some (applyTagUpdates tag updates) },
        tags.set guildId
          (replaceFirst (fun tag => toLowerCase tag.name == toLowerCase tagName)
            (applyTagUpdates tag updates) guildTags))

/-- A call that writes to the tag registry. -/
inductive TagCall where
  | add (guildId : String) (tag : Tag)
  | remove (guildId tagName : String)
  | update (guildId tagName : String) (updates : TagUpdates)

/-- The tag registry after one call. -/
def applyTagCall (toLowerCase : String → String) (tags : Dict (List Tag)) :
    TagCall → Dict (List Tag)
  | TagCall.add guildId tag => (addTag toLowerCase tags guildId tag).2
  | TagCall.remove guildId tagName => (removeTag toLowerCase tags guildId tagName).2
  | TagCall.update guildId tagName updates =>
    (updateTag toLowerCase tags guildId tagName updates).2

/-- The tag registry after successive calls. -/
def tagsAfter (toLowerCase : String → String) (tags : Dict (List Tag)) :
    List TagCall → Dict (List Tag)
  | [] => tags
  | c :: cs => tagsAfter toLowerCase (applyTagCall toLowerCase tags c) cs

/-! ## The satisfaction survey (`src/utils/satisfaction-survey.js`) -/

/-- Removal of a key (`Map.delete`). -/
def Dict.delete {α : Type} (d : Dict α) (k : String) : Dict α := d.filter (fun e => e.1 != k)

/-- An entry of the map `activeTickets`: a survey waiting for its answer. -/
structure Survey where
  userId : String
  messageId : String
  ticketId : String
  guildId : Option String
  sentAt : Nat
  expires : Nat
  deriving DecidableEq, Repr

/-- The state the survey handlers work on: the map `activeTickets` of the survey manager
and the history of `ticketHistory`. -/
structure SurveyState where
  activeTickets : Dict Survey := []
  history : History := {}

/-- A survey is sent: the recipient, the id the platform gives the survey message, the
wall clock, and whether `user.send` throws. -/
structure SurveySend where
  userId : String
  messageId : String
  now : Nat
  sendFails : Bool := false

/-- The time a survey stays valid, `7 * 24 * 60 * 60 * 1000` milliseconds. -/
def surveyLifetime : Nat := 7 * 24 * 60 * 60 * 1000

/-- The method `sendSurvey(client, ticket, user)` for a ticket with the id `ticketId` and
the guild `guildId`: once the survey message is sent, the survey is stored under the id
of the ticket with its expiry time; a failed send stores nothing. -/
def sendSurvey (s : SurveyState) (ticketId : String) (guildId : Option String)
    (e : SurveySend) : Bool × SurveyState :=
  if e.sendFails then (false, s)
  else
    (true,
      { s with
        activeTickets := s.activeTickets.set ticketId
          { userId := e.userId, messageId := e.messageId, ticketId := ticketId,
            guildId := guildId, sentAt := e.now, expires := e.now + surveyLifetime } })

/-- A rating button is pressed: the user, the parts of the custom id
`rating_<rating>_<ticketId>` of the button, the wall clock, and whether answering the
interaction (`interaction.update`, `interaction.followUp`) throws. -/
structure RatingEvent where
  userId : String
  ticketId : String
  rating : Nat
  now : Nat
  replyFails : Bool := false

/-- How `handleRating` ends: the two refusals, the recorded rating (`true`), or the error
answer of its `catch` (`false`). -/
inductive RatingOutcome where
  | notActive
  | notRecipient
  | recorded
  | failed
  deriving DecidableEq, Repr

/-- The method `handleRating(interaction, client)`, run from its first statement to its
last with no other handler in between: a response without an active survey, or from
another user than the recipient, is refused; otherwise the rating is written to the
history with `updateTicket`, the interaction is answered and the survey is removed. The
notification of the staff channel is best effort and touches no state. -/
def handleRating (s : SurveyState) (e : RatingEvent) : RatingOutcome × SurveyState :=
  match s.activeTickets.get? e.ticketId with
  | none => (RatingOutcome.notActive, s)
  | some survey =>
    if e.userId ≠ survey.userId then (RatingOutcome.notRecipient, s)
    else
      let history :=
        (updateTicket s.history e.ticketId { satisfactionRating := some (some e.rating) }).2
      if e.replyFails then (RatingOutcome.failed, { s with history := history })
      else
        (RatingOutcome.recorded,
          { activeTickets := s.activeTickets.delete e.ticketId, history := history })

/-! ## Collecting the messages of a conversation surface (`src/commands/close.js`) -/

/-- The answer of the platform to `channel.messages.fetch({ limit: 100, before })` on a
surface whose messages are listed newest first: the newest messages, or the next ones
older than the message `before`, at most `100` of them. -/
def fetchPage (surface : List DiscordMessage) (before : Option String) : List DiscordMessage :=
  match before with
  | none => surface.take 100
  | some id => ((surface.dropWhile (fun m => m.id != id)).drop 1).take 100

/-- The pagination loop of `/close` (`close.js` lines 151-167) with `fuel` bounding the
number of fetches: `none` when the loop has not ended within `fuel` fetches. -/
def collectMessages (surface : List DiscordMessage) :
    Nat → List DiscordMessage → Option String → Option (List DiscordMessage)
  | 0, _, _ => none
  | fuel + 1, allMessages, lastId =>
    let before := if truthy lastId then lastId else none
    let messages := fetchPage surface before
    if messages.length = 0 then some allMessages
    else
      let allMessages := allMessages ++ messages
      let lastId := messages.getLast?.map (fun m => m.id)
      if messages.length < 100 then some allMessages
      else collectMessages surface fuel allMessages lastId

/-! ## Sanitising relayed text (`src/utils/security.js`, `sanitizeInput`) -/

/-- The apostrophe. -/
def apostrophe : Char := Char.ofNat 39

/-- The double quote. -/
def doubleQuote : Char := Char.ofNat 34

/-- The grave accent. -/
def graveAccent : Char := Char.ofNat 96

/-- The call `s.replace(/c/g, r)` for a single character `c` and a replacement `r`
without `$`: every occurrence of `c` becomes `r`. -/
def replaceAll (c : Char) (r : List Char) (s : List Char) : List Char :=
  s.flatMap (fun x => if x = c then r else [x])

/-- The replacement string of the fourth `replace` of `sanitizeInput`: the entity of the
apostrophe, two blanks, a double quote and the entity of `<`. -/
def fourthReplacement : List Char := "&#039;  ".data ++ [doubleQuote] ++ "&lt;".data

/-- The function `sanitizeInput(input)`: the empty string for a missing or empty input
(an input that is not a string is `none` here), otherwise the chain of nine replacements
of the source, in its order. -/
def sanitizeInput (input : Option String) : String :=
  if !truthy input then ""
  else
    String.mk
      (replaceAll '\n' "<br>".data
        (replaceAll graveAccent "&#096;".data
          (replaceAll apostrophe "&#039;".data
            (replaceAll doubleQuote "&quot;".data
              (replaceAll '>' "&gt;".data
                (replaceAll apostrophe fourthReplacement
                  (replaceAll doubleQuote "&quot;".data
                    (replaceAll '>' "&gt;".data
                      (replaceAll '<' "&lt;".data (input.getD "").data)))))))))

/-! ## Analytics over the history (`src/utils/ticket-analytics.js`)

The process is taken to run in UTC, where a calendar day is `86400000` milliseconds, and a
calendar day is represented by its number since the epoch. A figure that the source
renders with `toFixed(2)` and a unit is kept as the exact number. -/

/-- The method `getTicketsByGuild(guildId)` of the history. -/
def getTicketsByGuild (history : History) (guildId : String) : List TicketRecord :=
  history.tickets.filter (fun t => t.guildId == some guildId)

/-- The milliseconds of a day. -/
def msPerDay : Nat := 86400000

/-- The calendar day of an instant. -/
def dayOf (ms : Nat) : Int := (ms / msPerDay : Nat)

/-- The instant of `new Date(ticket.createdAt)`; `none` is the invalid date that a missing
`createdAt` gives, and a `null` one gives the epoch. -/
def TicketRecord.createdTime (t : TicketRecord) : Option Nat := t.createdAt.map JsTime.getTime

/-- A figure of a report: the text `N/A`, the number `NaN`, or a number. -/
inductive Rendered where
  | na
  | nan
  | value (q : ℚ)
  deriving DecidableEq

/-- The value handed to `getBasicStats` as its parameter `timeRange`: a number of days, or,
from `generateTimeRangeReport`, an array of records. -/
inductive TimeRangeArg where
  | days (n : Nat)
  | tickets (l : List TicketRecord)

/-- The number that arithmetic makes of a `timeRange`: an empty array converts to `0`, an
array of objects to `NaN` (`none`). -/
def TimeRangeArg.toNumber : TimeRangeArg → Option Nat
  | TimeRangeArg.days n => some n
  | TimeRangeArg.tickets [] => some 0
  | TimeRangeArg.tickets (_ :: _) => none

/-- The largest distance of a valid date from the epoch, in milliseconds. -/
def maxTime : Nat := 8640000000000000

/-- The date `cutoffDate` after `cutoffDate.setDate(cutoffDate.getDate() - timeRange)`:
`timeRange` days before `now`, or the invalid date (`none`) for `NaN` and for an instant
more than `maxTime` before the epoch. -/
def cutoffDate (now : Nat) (timeRange : Option Nat) : Option Int :=
  match timeRange with
  | some n =>
    if n * msPerDay ≤ now + maxTime then some ((now : Int) - ((n * msPerDay : Nat) : Int))
    else none
  | none => none

/-- The test `new Date(ticket.createdAt) >= cutoffDate`; a comparison with an invalid date
is false. -/
def createdSince (cutoff : Option Int) (t : TicketRecord) : Bool :=
  match cutoff, t.createdTime with
  | some c, some created => decide (c ≤ (created : Int))
  | _, _ => false

/-- The method `getCategoryCounts(tickets)`. -/
def getCategoryCounts (tickets : List TicketRecord) : Dict Nat :=
  tickets.foldl
    (fun d t => d.bump (if truthy t.category then t.category.getD "" else "uncategorized")) []

/-- The method `getPriorityCounts(tickets)`. -/
def getPriorityCounts (tickets : List TicketRecord) : Dict Nat :=
  tickets.foldl
    (fun d t => d.bump (if truthy t.priority then t.priority.getD "" else "unset")) []

/-- The method `getTagCounts(tickets)`. -/
def getTagCounts (tickets : List TicketRecord) : Dict Nat :=
  tickets.foldl (fun d t => t.tags.foldl Dict.bump d) []

/-- The difference `new Date(b) - new Date(a)` in milliseconds; `NaN` (`none`) when a date
is invalid. -/
def elapsed (a b : Option Nat) : Option Int :=
  match a, b with
  | some x, some y => some ((y : Int) - (x : Int))
  | _, _ => none

/-- The sum `values.reduce((sum, v) => sum + v, 0)`; `NaN` when a value is `NaN`. -/
def sumJs : List (Option Int) → Option Int
  | [] => some 0
  | v :: vs =>
    match v, sumJs vs with
    | some x, some total => some (x + total)
    | _, _ => none

/-- The average of the values divided by `unit`, for a list that is not empty. -/
def averageRendered (values : List (Option Int)) (unit : Nat) : Rendered :=
  match sumJs values with
  | none => Rendered.nan
  | some total => Rendered.value ((total : ℚ) / (values.length : ℚ) / (unit : ℚ))

/-- The time from creation to the first response of a ticket. -/
def responseTimeOf (t : TicketRecord) : Option Int :=
  elapsed t.createdTime (t.firstResponseTime.map JsTime.getTime)

/-- The time from creation to the close of a ticket. -/
def resolutionTimeOf (t : TicketRecord) : Option Int :=
  elapsed t.createdTime (t.closedAt.map JsTime.getTime)

/-- The method `getAverageResponseTime(tickets)`, in minutes. -/
def getAverageResponseTime (tickets : List TicketRecord) : Rendered :=
  let ticketsWithResponse := tickets.filter (fun t => truthyTime t.firstResponseTime)
  if ticketsWithResponse.length = 0 then Rendered.na
  else averageRendered (ticketsWithResponse.map responseTimeOf) 60000

/-- The method `getAverageResolutionTime(tickets)`, in hours. -/
def getAverageResolutionTime (tickets : List TicketRecord) : Rendered :=
  let closedTickets := tickets.filter (fun t => t.status == "closed" && truthyTime t.closedAt)
  if closedTickets.length = 0 then Rendered.na
  else averageRendered (closedTickets.map resolutionTimeOf) 3600000

/-- The counting loop of `getTicketsPerDay`: `toISOString` throws (`none`) on a ticket
with an invalid `createdAt`; a day outside the table is not counted. -/
def countPerDay : List TicketRecord → List (Int × Nat) → Option (List (Int × Nat))
  | [], days => some days
  | t :: ts, days =>
    match t.createdTime with
    | none => none
    | some created =>
      countPerDay ts (days.map (fun d => if d.1 = dayOf created then (d.1, d.2 + 1) else d))

/-- The method `getTicketsPerDay(tickets, timeRange)`: a table with the last `timeRange`
days, today first, and the tickets created on each; with `NaN` for `timeRange` the table
has no day. -/
def getTicketsPerDay (tickets : List TicketRecord) (timeRange : Option Nat) (now : Nat) :
    Option (List (Int × Nat)) :=
  countPerDay tickets
    ((List.range (timeRange.getD 0)).map (fun i : Nat => (dayOf now - (i : Int), 0)))

/-- The call `rows.sort((a, b) => key(b) - key(a))`: a stable sort by descending key. -/
def sortDescBy {α : Type} (key : α → Nat) (rows : List α) : List α :=
  rows.insertionSort (fun a b => key b ≤ key a)

/-- A row of `getTopUsers`. -/
structure TopUser where
  userId : Option String
  userTag : String
  count : Nat
  deriving DecidableEq, Repr

/-- The method `getTopUsers(tickets)`: the five users with the most tickets. -/
def getTopUsers (tickets : List TicketRecord) : List TopUser :=
  let users : Dict TopUser :=
    tickets.foldl
      (fun d t =>
        let entry : TopUser := (d.get? (jsKey t.userId)).getD
          { userId := t.userId, userTag := if t.userTag != "" then t.userTag else "Unknown",
            count := 0 }
        d.set (jsKey t.userId) { entry with count := entry.count + 1 }) []
  (sortDescBy (fun u => u.count) (users.map (fun e => e.2))).take 5

/-- The average `(ratings.reduce(...) / ratings.length)`, or `N/A` without ratings. -/
def averageRatingOf (ratings : List Nat) : Rendered :=
  if ratings.length > 0 then Rendered.value (averageOf ratings) else Rendered.na

/-- A row of `getTopStaff`. -/
structure TopStaff where
  staffId : String
  staffTag : String
  count : Nat
  ratings : List Nat
  averageRating : Rendered
  deriving DecidableEq

/-- The method `getTopStaff(tickets)`: the five staff members with the most tickets. -/
def getTopStaff (tickets : List TicketRecord) : List TopStaff :=
  let staff : Dict TopStaff :=
    tickets.foldl
      (fun d t =>
        if truthy t.assignedTo then
          let key := t.assignedTo.getD ""
          let entry : TopStaff := (d.get? key).getD
            { staffId := key,
              staffTag := if truthy t.assignedToTag then t.assignedToTag.getD "" else "Unknown",
              count := 0, ratings := [], averageRating := Rendered.na }
          d.set key
            { entry with
              count := entry.count + 1
              ratings := if truthyNat t.satisfactionRating then
                  entry.ratings ++ [t.satisfactionRating.getD 0]
                else entry.ratings }
        else d) []
  (sortDescBy (fun m => m.count)
    (staff.map (fun e => { e.2 with averageRating := averageRatingOf e.2.ratings }))).take 5

/-- The statement `counts[rating]++` on the table of rating counts: an entry that is
missing (or already `NaN`) becomes `NaN` (`none`). -/
def bumpRating (counts : Dict (Option Nat)) (rating : Nat) : Dict (Option Nat) :=
  match counts.get? (Nat.repr rating) with
  | some (some n) => counts.set (Nat.repr rating) (some (n + 1))
  | _ => counts.set (Nat.repr rating) none

/-- The table `{ 1: 0, 2: 0, 3: 0, 4: 0, 5: 0 }`. -/
def noRatings : Dict (Option Nat) :=
  [("1", some 0), ("2", some 0), ("3", some 0), ("4", some 0), ("5", some 0)]

/-- The object returned by `getSatisfactionStats`; `ratingPercentage` is in percent. -/
structure SatisfactionStats where
  averageRating : Rendered
  ratingCounts : Dict (Option Nat)
  ratedTickets : Nat
  totalTickets : Nat
  ratingPercentage : ℚ
  deriving DecidableEq

/-- The method `getSatisfactionStats(tickets)`. -/
def getSatisfactionStats (tickets : List TicketRecord) : SatisfactionStats :=
  let ticketsWithRatings := tickets.filter (fun t => truthyNat t.satisfactionRating)
  if ticketsWithRatings.length = 0 then
    { averageRating := Rendered.na, ratingCounts := [], ratedTickets := 0,
      totalTickets := tickets.length, ratingPercentage := 0 }
  else
    let ratings := ticketsWithRatings.map (fun t => t.satisfactionRating.getD 0)
    { averageRating := Rendered.value (averageOf ratings)
      ratingCounts := ratings.foldl bumpRating noRatings
      ratedTickets := ticketsWithRatings.length
      totalTickets := tickets.length
      ratingPercentage :=
        (ticketsWithRatings.length : ℚ) / (tickets.length : ℚ) * 100 }

/-- The object returned by `getBasicStats`; `openRate` is in percent. -/
structure BasicStats where
  totalTickets : Nat
  closedTickets : Nat
  openRate : ℚ
  categoryCounts : Dict Nat
  priorityCounts : Dict Nat
  tagCounts : Dict Nat
  avgResponseTime : Rendered
  avgResolutionTime : Rendered
  ticketsPerDay : List (Int × Nat)
  topUsers : List TopUser
  topStaff : List TopStaff
  satisfactionStats : SatisfactionStats

/-- The method `getBasicStats(guildId, timeRange)` at the time `now`: the statistics of
the tickets of the guild created in the last `timeRange` days; `none` when it throws. -/
def getBasicStats (history : History) (guildId : String) (timeRange : TimeRangeArg)
    (now : Nat) : Option BasicStats :=
  let allTickets := getTicketsByGuild history guildId
  let cutoff := cutoffDate now timeRange.toNumber
  let tickets := allTickets.filter (createdSince cutoff)
  let totalTickets := tickets.length
  let closedTickets := (tickets.filter (fun t => t.status == "closed")).length
  match getTicketsPerDay tickets timeRange.toNumber now with
  | none => none
  | some ticketsPerDay =>
    some
      { totalTickets := totalTickets
        closedTickets := closedTickets
        openRate :=
          if totalTickets > 0 then (closedTickets : ℚ) / (totalTickets : ℚ) * 100 else 0
        categoryCounts := getCategoryCounts tickets
        priorityCounts := getPriorityCounts tickets
        tagCounts := getTagCounts tickets
        avgResponseTime := getAverageResponseTime tickets
        avgResolutionTime := getAverageResolutionTime tickets
        ticketsPerDay := ticketsPerDay
        topUsers := getTopUsers tickets
        topStaff := getTopStaff tickets
        satisfactionStats := getSatisfactionStats tickets }

/-- The test `createdAt >= start && createdAt <= end` of `generateTimeRangeReport`. -/
def createdWithin (startDate endDate : JsTime) (t : TicketRecord) : Bool :=
  match t.createdTime with
  | some created => decide (startDate.getTime ≤ created) && decide (created ≤ endDate.getTime)
  | none => false

/-- The method `generateTimeRangeReport(guildId, startDate, endDate)`: the tickets of the
guild are filtered by the date range and handed to `getBasicStats` as its second
argument, `timeRange`. -/
def generateTimeRangeReport (history : History) (guildId : String) (startDate endDate : JsTime)
    (now : Nat) : Option BasicStats :=
  let allTickets := getTicketsByGuild history guildId
  let tickets := allTickets.filter (createdWithin startDate endDate)
  getBasicStats history guildId (TimeRangeArg.tickets tickets) now

/-- A row of `getStaffPerformance`; `closeRate`, in percent, is added to the row when the
averages are computed. -/
structure StaffRow where
  staffId : String
  staffTag : String
  ticketsHandled : Nat := 0
  ticketsClosed : Nat := 0
  ratings : List Nat := []
  averageRating : Rendered := Rendered.na
  responseTimes : List (Option Int) := []
  averageResponseTime : Rendered := Rendered.na
  resolutionTimes : List (Option Int) := []
  averageResolutionTime : Rendered := Rendered.na
  categories : Dict Nat := []
  tags : Dict Nat := []
  closeRate : Option ℚ := none

/-- The body of the grouping loop of `getStaffPerformance` for a ticket and the row of
its staff member. -/
def countTicket (staff : StaffRow) (ticket : TicketRecord) : StaffRow :=
  { staff with
    ticketsHandled := staff.ticketsHandled + 1
    ticketsClosed :=
      if ticket.status == "closed" then staff.ticketsClosed + 1 else staff.ticketsClosed
    ratings :=
      if truthyNat ticket.satisfactionRating then
        staff.ratings ++ [ticket.satisfactionRating.getD 0]
      else staff.ratings
    responseTimes :=
      if truthyTime ticket.firstResponseTime then staff.responseTimes ++ [responseTimeOf ticket]
      else staff.responseTimes
    resolutionTimes :=
      if ticket.status == "closed" && truthyTime ticket.closedAt then
        staff.resolutionTimes ++ [resolutionTimeOf ticket]
      else staff.resolutionTimes
    categories :=
      if truthy ticket.category then staff.categories.bump (ticket.category.getD "")
      else staff.categories
    tags := ticket.tags.foldl Dict.bump staff.tags }

/-- The row that the grouping loop of `getStaffPerformance` creates for the staff member
of a ticket. -/
def newStaffRow (ticket : TicketRecord) : StaffRow :=
  { staffId := ticket.assignedTo.getD "",
    staffTag := if truthy ticket.assignedToTag then ticket.assignedToTag.getD "" else "Unknown" }

/-- The body of the grouping loop of `getStaffPerformance`: a ticket with an assigned
staff member is counted in the row of that member, which is created when missing. -/
def groupTicket (staffPerformance : Dict StaffRow) (ticket : TicketRecord) : Dict StaffRow :=
  if truthy ticket.assignedTo then
    let key := ticket.assignedTo.getD ""
    let staff : StaffRow := (staffPerformance.get? key).getD (newStaffRow ticket)
    staffPerformance.set key (countTicket staff ticket)
  else staffPerformance

/-- The grouping loop of `getStaffPerformance`: the table `staffPerformance`, keyed by
`assignedTo`, after the tickets. -/
def groupByStaff (tickets : List TicketRecord) : Dict StaffRow :=
  tickets.foldl groupTicket []

/-- The averages and the close rate of a row (`getStaffPerformance`, second loop). -/
def finishStaffRow (staff : StaffRow) : StaffRow :=
  { staff with
    averageRating :=
      if staff.ratings.length > 0 then Rendered.value (averageOf staff.ratings)
      else staff.averageRating
    averageResponseTime :=
      if staff.responseTimes.length > 0 then averageRendered staff.responseTimes 60000
      else staff.averageResponseTime
    averageResolutionTime :=
      if staff.resolutionTimes.length > 0 then averageRendered staff.resolutionTimes 3600000
      else staff.averageResolutionTime
    closeRate :=
      some (if staff.ticketsHandled > 0 then
        (staff.ticketsClosed : ℚ) / (staff.ticketsHandled : ℚ) * 100 else 0) }

/-- The tickets of the guild created in the last `timeRange` days before `now`. -/
def ticketsInWindow (history : History) (guildId : String) (timeRange now : Nat) :
    List TicketRecord :=
  (getTicketsByGuild history guildId).filter (createdSince (cutoffDate now (some timeRange)))

/-- The method `getStaffPerformance(guildId, timeRange)` at the time `now`. -/
def getStaffPerformance (history : History) (guildId : String) (timeRange now : Nat) :
    List StaffRow :=
  sortDescBy (fun staff => staff.ticketsHandled)
    ((groupByStaff (ticketsInWindow history guildId timeRange now)).map
      (fun e => finishStaffRow e.2))

/-! ## The custom report (`generateCustomReport`) -/

/-- The parameter `options` of `generateCustomReport`, with the defaults of its
destructuring; the dates are valid instants and `tags` is an array. -/
structure ReportOptions where
  timeRange : Nat := 30
  startDate : Option JsTime := none
  endDate : Option JsTime := none
  staffId : Option String := none
  category : Option String := none
  tags : List String := []
  metrics : List String := ["tickets", "response", "resolution", "satisfaction"]

/-- The entry `data.tickets` of a custom report. -/
structure TicketsEntry where
  total : Nat
  closed : Nat
  perDay : List (Int × Nat)
  deriving DecidableEq

/-- The entries `data.responseTimes` and `data.resolutionTimes` of a custom report. -/
structure TimesEntry where
  average : Rendered
  least : Rendered
  greatest : Rendered
  deriving DecidableEq

/-- The entry `data.satisfaction` of a custom report; `percentage` is in percent. -/
structure SatisfactionEntry where
  average : Rendered
  counts : Dict (Option Nat)
  percentage : ℚ
  deriving DecidableEq

/-- The object `report.data`; an entry that was never assigned is `none`. -/
structure ReportData where
  tickets : Option TicketsEntry := none
  responseTimes : Option TimesEntry := none
  resolutionTimes : Option TimesEntry := none
  satisfaction : Option SatisfactionEntry := none
  categories : Option (Dict Nat) := none
  tags : Option (Dict Nat) := none
  deriving DecidableEq

/-- The object `report.filters`. -/
structure ReportFilters where
  staffId : String
  category : String
  tags : String
  deriving DecidableEq

/-- The object returned by `generateCustomReport` (its `filters` and `data`). -/
structure CustomReport where
  filters : ReportFilters
  data : ReportData
  deriving DecidableEq

/-- The numbers of a list of differences, or `none` when one of them is `NaN`. -/
def allNumbers : List (Option Int) → Option (List Int)
  | [] => some []
  | v :: vs =>
    match v, allNumbers vs with
    | some x, some l => some (x :: l)
    | _, _ => none

/-- The figure `Math.min(...values) / unit` of a list that is not empty; `NaN` when a
value is `NaN`. -/
def leastRendered (values : List (Option Int)) (unit : Nat) : Rendered :=
  match allNumbers values with
  | some (x :: xs) => Rendered.value (((xs.foldl min x : Int) : ℚ) / (unit : ℚ))
  | _ => Rendered.nan

/-- The figure `Math.max(...values) / unit` of a list that is not empty; `NaN` when a
value is `NaN`. -/
def greatestRendered (values : List (Option Int)) (unit : Nat) : Rendered :=
  match allNumbers values with
  | some (x :: xs) => Rendered.value (((xs.foldl max x : Int) : ℚ) / (unit : ℚ))
  | _ => Rendered.nan

/-- The tickets that `generateCustomReport` reports on: the search by guild and dates
(the given dates when both are given, otherwise from `timeRange` days before `now`), then
the filters by staff member, category and tags; `none` when `cutoffDate.toISOString()`
throws on an invalid date. A cutoff before the epoch compares like the epoch, since no
record is created before it. -/
def customReportTickets (toLowerCase : String → String) (history : History)
    (guildId : String) (options : ReportOptions) (now : Nat) : Option (List TicketRecord) :=
  let searched :=
    if truthyTime options.startDate && truthyTime options.endDate then
      searchTickets toLowerCase history
        { guildId := some guildId, startDate := options.startDate, endDate := options.endDate }
    else
      match cutoffDate now (some options.timeRange) with
      | none => none
      | some cutoff =>
        searchTickets toLowerCase history
          { guildId := some guildId, startDate := some (JsTime.isoString cutoff.toNat) }
  searched.map (fun tickets =>
    let tickets :=
      if truthy options.staffId then tickets.filter (fun t => t.assignedTo == options.staffId)
      else tickets
    let tickets :=
      if truthy options.category then tickets.filter (fun t => t.category == options.category)
      else tickets
    let tickets :=
      if options.tags.length > 0 then
        tickets.filter (fun t => t.tags.any (fun tag => options.tags.contains tag))
      else tickets
    tickets)

/-- The entry `data.tickets`; `none` when `getTicketsPerDay` throws. -/
def ticketsEntry (tickets : List TicketRecord) (timeRange now : Nat) : Option TicketsEntry :=
  (getTicketsPerDay tickets (some timeRange) now).map (fun perDay =>
    { total := tickets.length
      closed := (tickets.filter (fun t => t.status == "closed")).length
      perDay := perDay })

/-- The entry `data.responseTimes`, in minutes. -/
def responseTimesEntry (tickets : List TicketRecord) : TimesEntry :=
  let ticketsWithResponse := tickets.filter (fun t => truthyTime t.firstResponseTime)
  if ticketsWithResponse.length > 0 then
    let responseTimes := ticketsWithResponse.map responseTimeOf
    { average := averageRendered responseTimes 60000
      least := leastRendered responseTimes 60000
      greatest := greatestRendered responseTimes 60000 }
  else { average := Rendered.na, least := Rendered.na, greatest := Rendered.na }

/-- The entry `data.resolutionTimes`, in hours. -/
def resolutionTimesEntry (tickets : List TicketRecord) : TimesEntry :=
  let closedTickets := tickets.filter (fun t => t.status == "closed" && truthyTime t.closedAt)
  if closedTickets.length > 0 then
    let resolutionTimes := closedTickets.map resolutionTimeOf
    { average := averageRendered resolutionTimes 3600000
      least := leastRendered resolutionTimes 3600000
      greatest := greatestRendered resolutionTimes 3600000 }
  else { average := Rendered.na, least := Rendered.na, greatest := Rendered.na }

/-- The entry `data.satisfaction`. -/
def satisfactionEntry (tickets : List TicketRecord) : SatisfactionEntry :=
  let ratedTickets := tickets.filter (fun t => truthyNat t.satisfactionRating)
  if ratedTickets.length > 0 then
    let ratings := ratedTickets.map (fun t => t.satisfactionRating.getD 0)
    { average := Rendered.value (averageOf ratings)
      counts := ratings.foldl bumpRating noRatings
      percentage := ((ratedTickets.length : ℚ) / (tickets.length : ℚ)) * 100 }
  else { average := Rendered.na, counts := noRatings, percentage := 0 }

/-- The method `generateCustomReport(guildId, options)`, run at the instant `now`: the
entries `tickets`, `responseTimes`, `resolutionTimes` and `satisfaction` are assigned when
`metrics` holds their metric, `categories` and `tags` after them without a test; `none`
when a call throws. -/
def generateCustomReport (toLowerCase : String → String) (history : History)
    (guildId : String) (options : ReportOptions) (now : Nat) : Option CustomReport :=
  match customReportTickets toLowerCase history guildId options now with
  | none => none
  | some tickets =>
    match (if options.metrics.contains "tickets" then
        (ticketsEntry tickets options.timeRange now).map some else some none) with
    | none => none
    | some entry =>
      some
        { filters :=
            { staffId := if truthy options.staffId then options.staffId.getD "" else "All Staff"
              category :=
                if truthy options.category then options.category.getD "" else "All Categories"
              tags :=
                if options.tags.length > 0 then String.intercalate ", " options.tags
                else "All Tags" }
          data :=
            { tickets := entry
              responseTimes :=
                if options.metrics.contains "response" then some (responseTimesEntry tickets)
                else none
              resolutionTimes :=
                if options.metrics.contains "resolution" then some (resolutionTimesEntry tickets)
                else none
              satisfaction :=
                if options.metrics.contains "satisfaction" then some (satisfactionEntry tickets)
                else none
              categories := some (getCategoryCounts tickets)
              tags := some (getTagCounts tickets) } }

/-! ## Handlers that overlap

The handlers are `async` functions, and the event loop starts each of them without
waiting for the one before (`src/index.js`, lines 75-83): a handler runs alone from one
`await` to the next, and between two of its awaits other handlers may run. `step` and
`run` describe handlers that do not overlap, each one running from its first statement to
its last before the next begins. The definitions of this section cut the DM branch of
`messageCreate`, `messageReactionAdd`, `/close` and `handleRating` at the awaits that
separate what they read from the shared state from what they write to it, so that the
parts of two handlers can be put in any order. A handler that found a ticket object
before an await holds it afterwards; ticket objects are told apart by their `id`, the key
they are stored under. -/

/-- The state that overlapping handlers see: the state of the bot, and the ticket objects
that `/close` has removed from `client.tickets`, which a handler that found one of them
before an await still holds. -/
structure Shared where
  bot : Bot
  removed : Registry := []

/-- The ticket object of an id that a handler holds: the entry of `client.tickets`, or the
removed object. -/
def Shared.ticket? (s : Shared) (id : Option String) : Option Ticket :=
  match s.bot.tickets.get? id with
  | some t => some t
  | none => s.removed.get? id

/-- Assignments to fields of a held ticket object (the assignments keep its `id`): they
show in `client.tickets` when the object is still stored there. -/
def Shared.assign (s : Shared) (id : Option String) (f : Ticket → Ticket) : Shared :=
  if (s.bot.tickets.get? id).isSome then
    { s with bot := { s.bot with tickets := s.bot.tickets.mutate (fun t => t.id == id) f } }
  else { s with removed := s.removed.mutate (fun t => t.id == id) f }

/-- The call `client.tickets.set(ticket.id, ticket)` with a held ticket object: nothing
changes when the object is stored under its id, and a removed object is stored again, at
the end of the map. -/
def Shared.store (s : Shared) (id : Option String) : Shared :=
  if (s.bot.tickets.get? id).isSome then s
  else
    match s.removed.get? id with
    | some t =>
      { bot := { s.bot with tickets := s.bot.tickets ++ [t] }, removed := s.removed.delete id }
    | none => s

/-- The call `client.tickets.delete(ticket.id)` with a held ticket object. -/
def Shared.remove (s : Shared) (id : Option String) : Shared :=
  match s.bot.tickets.get? id with
  | some t =>
    { bot := { s.bot with tickets := s.bot.tickets.delete id }, removed := s.removed ++ [t] }
  | none => s

/-- The DM branch of `messageCreate` from its first statement to its first `await`
(`messageCreate.js`, lines 22-240): the tests, the lookup of an open ticket of the author
(lines 58-60), the rate limit and, for a new ticket, the next ticket number. It returns
the state it leaves and, when the handler goes on to store a ticket, that ticket: the
ticket object is built from the message, the configuration and the number only. -/
def directMessageBefore (bot : Bot) (e : DmEvent) : Bot × Option Ticket :=
  if e.authorBot then (bot, none)
  else if e.blacklisted then (bot, none)
  else
    match bot.tickets.find (fun t => t.userId == some e.authorId && t.isOpen) with
    | some _ =>
      ({ bot with
          userRateLimits := (checkRateLimit bot.userRateLimits e.authorId "messages" e.now).2 },
        none)
    | none =>
      let rateLimit := checkRateLimit bot.userRateLimits e.authorId "tickets" e.now
      let bot1 := { bot with userRateLimits := rateLimit.2 }
      if rateLimit.1.limited then (bot1, none)
      else
        match bot.configs.head? with
        | none => (bot1, none)
        | some (guildId, config) =>
          if guildId = "" then (bot1, none)
          else if !e.guildCached then (bot1, none)
          else if !e.modmailChannelCached then (bot1, none)
          else
            let next := getNextTicketId bot1.counters guildId
            let bot2 := { bot1 with counters := next.2 }
            if e.platformFails then (bot2, none)
            else (bot2, some (newDmTicket e guildId config next.1))

/-- The DM branch of `messageCreate` from the statement
`client.tickets.set(ticketId, ticket)` (line 350) on, after the awaited platform calls
that post the ticket: the ticket is stored in the state found then, without a second
lookup. -/
def directMessageAfter (bot : Bot) (ticket : Ticket) : Bot :=
  { bot with tickets := bot.tickets.set ticket }

/-- The handler `messageReactionAdd` up to `await message.guild.members.fetch(user.id)`
(line 72): the tests and the three lookups of a pending ticket (lines 40-56). It returns
the id of the ticket object found, when the handler goes on. -/
def reactionBefore (bot : Bot) (e : ReactionEvent) : Option (Option String) :=
  if e.userBot then none
  else if e.fetchFails then none
  else if e.emojiName != "✅" then none
  else
    match e.guildId with
    | none => none
    | some guildId =>
      match claimLookup bot.tickets e with
      | none => none
      | some p =>
        match bot.configs.get? guildId with
        | none => none
        | some _ => (bot.tickets.find p).map (fun t => t.id)

/-- The handler `messageReactionAdd` from line 73 on, after the member is fetched: the
test of the staff role, then the assignments of lines 83-88 to the ticket object found
before the await and `client.tickets.set(ticket.id, ticket)` (line 91), without a second
test of the status. -/
def reactionAfter (s : Shared) (e : ReactionEvent) (id : Option String) : Shared :=
  if !e.hasStaffRole then s
  else (s.assign id (claimFields e.userId e.now)).store id

/-- The command `/close` up to `await interaction.deferReply()` (line 75): the tests and
the lookup of the ticket of the channel (lines 48-63), which does not look at the status.
It returns the configuration read and the id of the ticket object found, when the handler
goes on. -/
def closeFind (bot : Bot) (e : CloseEvent) : Option (GuildConfig × Option String) :=
  match e.guildId with
  | none => none
  | some guildId =>
    match bot.configs.get? guildId with
    | none => none
    | some config =>
      if !e.hasStaffRole && !e.isAdmin then none
      else (bot.tickets.find (closeLookup config guildId e)).map (fun t => (config, t.id))

/-- The command `/close` from line 76 to the call of `addTicket` (line 206), when no other
handler runs between its awaits: the assignments of lines 78-81 and 176-196 to the ticket
object found, then the record of that object is written to the history. A throw at an
awaited call ends the handler where it occurs. The second component tells whether the
handler goes on to remove the ticket. -/
def closeArchive (s : Shared) (config : GuildConfig) (e : CloseEvent) (id : Option String) :
    Shared × Bool :=
  if e.fault = CloseFault.deferReply then (s, false)
  else
    let s1 := s.assign id (markClosed e)
    if e.fault = CloseFault.fetchUser ∨ e.fault = CloseFault.sendClosureMessage
        ∨ e.fault = CloseFault.fetchMessages then (s1, false)
    else
      let s2 := s1.assign id (closingInfo config e)
      if e.fault = CloseFault.generateTranscript ∨ e.fault = CloseFault.fetchLogChannel
          ∨ e.fault = CloseFault.sendTranscript then (s2, false)
      else
        match s2.ticket? id with
        | none => (s2, false)
        | some ticket =>
          let archived := addTicket s2.bot.history ticket (sortByTimestamp (closeMessages e))
            e.now
          ({ s2 with bot := { s2.bot with history := archived.2 } },
            !decide (e.fault = CloseFault.editReply ∨ e.fault = CloseFault.sendLog))

/-- The command `/close` from `client.tickets.delete(ticket.id)` (line 264) on, after the
awaited answer to the interaction and the log message. -/
def closeRemove (s : Shared) (id : Option String) : Shared := s.remove id

/-- The method `handleRating` up to `await interaction.update(...)` (line 87): the two
tests and the call of `updateTicket` (line 84). The first component is the answer of a
handler that ends here, `none` when the handler goes on. -/
def ratingBefore (s : SurveyState) (e : RatingEvent) : Option RatingOutcome × SurveyState :=
  match s.activeTickets.get? e.ticketId with
  | none => (some RatingOutcome.notActive, s)
  | some survey =>
    if e.userId ≠ survey.userId then (some RatingOutcome.notRecipient, s)
    else
      (none,
        { s with
          history :=
            (updateTicket s.history e.ticketId
              { satisfactionRating := some (some e.rating) }).2 })

/-- The method `handleRating` after its awaited platform calls: the survey is removed
from `activeTickets` (line 148), unless answering the interaction threw. -/
def ratingAfter (s : SurveyState) (e : RatingEvent) : RatingOutcome × SurveyState :=
  if e.replyFails then (RatingOutcome.failed, s)
  else (RatingOutcome.recorded, { s with activeTickets := s.activeTickets.delete e.ticketId })

/-! ## Invariants and predicates used in the statements -/

/-- At most one open ticket per user id. -/
def OneOpenPerUser (r : Registry) : Prop :=
  ∀ u : String, (r.filter (fun t => t.userId == some u && t.isOpen)).length ≤ 1

/-- The id the creation handlers build from a guild id and a counter value. -/
def ticketIdOf (guildId : String) (n : Nat) : Option String :=
  some (guildId ++ "-" ++ padStart 4 '0' (Nat.repr n))

/-- An id that the counters have handed out. -/
def IssuedId (counters : Dict Nat) (id : Option String) : Prop :=
  ∃ (g : String) (n : Nat), id = ticketIdOf g n ∧ n ≤ counterValue counters g

/-- The invariant behind exactly-once archival: ids are unique in the registry and in the
history, no id is in both, and every id in use was handed out by the counters. -/
structure ArchiveInv (bot : Bot) : Prop where
  registryNodup : (bot.tickets.map (fun t => t.id)).Nodup
  historyNodup : (bot.history.tickets.map (fun r => r.id)).Nodup
  disjoint : ∀ id ∈ bot.tickets.map (fun t => t.id), id ∉ bot.history.tickets.map (fun r => r.id)
  registryIssued : ∀ id ∈ bot.tickets.map (fun t => t.id), IssuedId bot.counters id
  historyIssued : ∀ id ∈ bot.history.tickets.map (fun r => r.id), IssuedId bot.counters id

/-- A close that throws after the history record is written and before the ticket is
removed from the registry. -/
def Event.failsAfterArchive : Event → Bool
  | Event.close e => decide (e.fault = CloseFault.editReply ∨ e.fault = CloseFault.sendLog)
  | _ => false

/-- The registry `r2` holds no ticket at an earlier point of the life cycle than the
ticket that `r` holds under the same id. -/
def StatusMonotone (r r2 : Registry) : Prop :=
  ∀ (id : Option String) (t t2 : Ticket), r.get? id = some t → r2.get? id = some t2 →
    statusRank t.status ≤ statusRank t2.status

/-- The events through which staff claim a ticket: a reaction, or a message in a guild
channel. -/
def Event.isClaimOrReply : Event → Bool
  | Event.reaction _ => true
  | Event.guildMessage _ => true
  | _ => false

/-- The counter of a key is either absent or has counted at least one call, as it has
after any `checkRateLimit` call for the key. -/
def CounterStarted (m : Dict RateLimitData) (key : String) : Prop :=
  match m.get? key with
  | none => True
  | some d => 1 ≤ d.count

/-- A time value that is not a `Date` object: a string or `null`. -/
def JsTime.noDateObject : JsTime → Bool
  | JsTime.isoString _ => true
  | JsTime.date _ => false
  | JsTime.null => true

/-- A ticket none of whose fields holds a `Date` object. -/
def Ticket.hasNoDate (t : Ticket) : Bool :=
  t.createdAt.all JsTime.noDateObject && t.assignedAt.all JsTime.noDateObject
    && t.firstResponseTime.all JsTime.noDateObject && t.closedAt.all JsTime.noDateObject
    && t.resolutionTime.all JsTime.noDateObject
    && t.events.all (fun evs => evs.all (fun ev => ev.timestamp.noDateObject))

/-- The entry `history.users[u]`, or a rollup with nothing in it when the user has none. -/
def History.userRollup (h : History) (u : String) : UserHistory := (h.users.get? u).getD {}

/-- The entry `history.servers[g]`, or a rollup with nothing in it when the guild has none. -/
def History.serverRollup (h : History) (g : String) : ServerHistory := (h.servers.get? g).getD {}

/-- The entry `staff[s]` of a server rollup, or a rollup with nothing in it. -/
def ServerHistory.staffRollup (sh : ServerHistory) (s : String) : StaffHistory :=
  (sh.staff.get? s).getD {}

/-- Recomputed from the record list: the number of records satisfying `p`. -/
def recountRecords (p : TicketRecord → Bool) (records : List TicketRecord) : Nat :=
  records.countP p

/-- Recomputed from the record list: the number of records satisfying `p` that carry the
tag. -/
def recountCarrying (tag : String) (p : TicketRecord → Bool) (records : List TicketRecord) : Nat :=
  records.countP (fun r => p r && r.tags.contains tag)

/-- Recomputed from the record list: the occurrences of the tag in the tag lists of the
records satisfying `p`. -/
def recountOccurrences (tag : String) (p : TicketRecord → Bool) (records : List TicketRecord) :
    Nat :=
  ((records.filter p).map (fun r => r.tags.count tag)).sum

/-- Every rollup that `addTicket` maintains equals its recount from the record list; the
tag histograms are compared with the occurrences of the tag. -/
structure RollupsRecounted (h : History) : Prop where
  total : h.stats.totalTickets = h.tickets.length
  closed : h.stats.closedTickets = h.tickets.length
  statsCategory : ∀ c, counterValue h.stats.categoryCounts c =
    recountRecords (fun r => r.category == some c) h.tickets
  statsTag : ∀ tag, counterValue h.stats.tagCounts tag =
    recountOccurrences tag (fun _ => true) h.tickets
  user : ∀ u, (h.userRollup u).totalTickets =
    recountRecords (fun r => jsKey r.userId == u) h.tickets
  userCategory : ∀ u c, counterValue (h.userRollup u).categories c =
    recountRecords (fun r => jsKey r.userId == u && r.category == some c) h.tickets
  userTag : ∀ u tag, counterValue (h.userRollup u).tags tag =
    recountOccurrences tag (fun r => jsKey r.userId == u) h.tickets
  server : ∀ g, (h.serverRollup g).totalTickets =
    recountRecords (fun r => jsKey r.guildId == g) h.tickets
  serverClosed : ∀ g, (h.serverRollup g).closedTickets =
    recountRecords (fun r => jsKey r.guildId == g) h.tickets
  serverCategory : ∀ g c, counterValue (h.serverRollup g).categories c =
    recountRecords (fun r => jsKey r.guildId == g && r.category == some c) h.tickets
  serverTag : ∀ g tag, counterValue (h.serverRollup g).tags tag =
    recountOccurrences tag (fun r => jsKey r.guildId == g) h.tickets
  staff : ∀ g s, ((h.serverRollup g).staffRollup s).totalTickets =
    recountRecords (fun r => jsKey r.guildId == g && r.assignedTo == some s) h.tickets

/-- The rollups that `updateTicket` looks up exist: the user rollup of every record, and
the staff rollup of every record with an assigned staff member, which is never the empty
string. -/
structure RollupsPresent (h : History) : Prop where
  user : ∀ r ∈ h.tickets, (h.users.get? (jsKey r.userId)).isSome = true
  staff : ∀ r ∈ h.tickets, ∀ s, r.assignedTo = some s →
    s ≠ "" ∧ ∃ sh, h.servers.get? (jsKey r.guildId) = some sh ∧ (sh.staff.get? s).isSome = true

/-- The `updates` argument carries no key other than `satisfactionRating` and
`satisfactionFeedback`. -/
def RecordUpdates.surveyOnly (u : RecordUpdates) : Prop :=
  u = { satisfactionRating := u.satisfactionRating
        satisfactionFeedback := u.satisfactionFeedback }

/-- A record satisfies every supplied criterion of a search: `guildId`, `userId`,
`category` and `staffId` by equality; `username` as a case-insensitive substring of the
user tag, which is not empty; `ticketId` as a substring of `id` or equal to `numericId`;
`tags` when the record carries at least one of the listed tags; `content` as a
case-insensitive substring of the content, not empty, of some message; `createdAt` not
before `startDate` and not after `endDate`; a rating not below `minRating` and not above
`maxRating`. A criterion is supplied when its value is truthy (a non-empty string, a
non-empty list, a number other than zero, a date). A string is a case-insensitive
substring of another when its image under `toLowerCase` is a substring of the image of
the other. The instant of a `createdAt` is the one `new Date` gives: a record without
`createdAt` has none and is within no range, and a `null` one is at the epoch. -/
def satisfiesCriteria (toLowerCase : String → String) (c : SearchCriteria)
    (r : TicketRecord) : Bool :=
  (!truthy c.guildId || r.guildId == c.guildId) &&
  (!truthy c.userId || r.userId == c.userId) &&
  (!truthy c.username ||
    (r.userTag != "" &&
      jsIncludes (toLowerCase r.userTag) (toLowerCase (c.username.getD "")))) &&
  (!truthy c.ticketId ||
    ((r.id.any (fun id => jsIncludes id (c.ticketId.getD ""))) || r.numericId == c.ticketId)) &&
  (!truthy c.category || r.category == c.category) &&
  ((c.tags.getD []).isEmpty || r.tags.any (fun tag => (c.tags.getD []).contains tag)) &&
  (!truthy c.content ||
    r.messages.any (fun m =>
      m.content != "" &&
        jsIncludes (toLowerCase m.content) (toLowerCase (c.content.getD "")))) &&
  (!truthyTime c.startDate ||
    r.createdAt.any (fun t => decide ((c.startDate.getD JsTime.null).getTime ≤ t.getTime))) &&
  (!truthyTime c.endDate ||
    r.createdAt.any (fun t => decide (t.getTime ≤ (c.endDate.getD JsTime.null).getTime))) &&
  (!truthy c.staffId || r.assignedTo == c.staffId) &&
  (!truthyNat c.minRating ||
    r.satisfactionRating.any (fun x => decide (x ≠ 0 ∧ c.minRating.getD 0 ≤ x))) &&
  (!truthyNat c.maxRating ||
    r.satisfactionRating.any (fun x => decide (x ≠ 0 ∧ x ≤ c.maxRating.getD 0)))

/-- The events `/tag add` and `/tag remove`. -/
def Event.isTagCommand : Event → Bool
  | Event.tagAdd _ => true
  | Event.tagRemove _ => true
  | _ => false

/-- Every ticket of the registry carries each of its tags once. -/
def TagsUnique (r : Registry) : Prop := ∀ t ∈ r, (t.tags.getD []).Nodup

/-- No list of the tag registry holds two tags whose names are equal ignoring case, that
is, equal after `toLowerCase`. -/
def TagNamesUnique (toLowerCase : String → String) (tags : Dict (List Tag)) : Prop :=
  ∀ g l, tags.get? g = some l → (l.map (fun t => toLowerCase t.name)).Nodup

/-- The call does not rename a tag: an `updateTag` whose `updates` carry no `name`. -/
def TagCall.keepsName : TagCall → Bool
  | TagCall.update _ _ updates => updates.name.isNone
  | _ => true

/-- The substitution that the documentation of `sanitizeInput` describes, for one
character. -/
def escapeChar (c : Char) : List Char :=
  if c = '<' then "&lt;".data
  else if c = '>' then "&gt;".data
  else if c = doubleQuote then "&quot;".data
  else if c = apostrophe then "&#039;".data
  else if c = graveAccent then "&#096;".data
  else if c = '\n' then "<br>".data
  else [c]

/-- The substitution that the nine replacements of `sanitizeInput` amount to, for one
character: as `escapeChar`, but an apostrophe becomes `&#039;  &quot;&lt;`. -/
def sanitizeChar (c : Char) : List Char :=
  if c = apostrophe then "&#039;  &quot;&lt;".data else escapeChar c

/-- The requests that occur in a script, whether a run reaches them or not. -/
def Script.requests : Script → List Request
  | Script.skip => []
  | Script.request r => [r]
  | Script.post r => [r]
  | Script.seq first next => first.requests ++ next.requests
  | Script.attempt body handler => body.requests ++ handler.requests

/-- The requests of a run in which the platform accepts every request: no `catch` runs. -/
def Script.accepted : Script → List Request
  | Script.skip => []
  | Script.request r => [r]
  | Script.post r => [r]
  | Script.seq first next => first.accepted ++ next.accepted
  | Script.attempt body _ => body.accepted

/-- The state of the table `staffPerformance` after the tickets `seen`: one row per key,
and the row under a key counts the tickets seen of that staff member. -/
structure StaffTableInv (d : Dict StaffRow) (seen : List TicketRecord) : Prop where
  keys : (d.map (fun e => e.1)).Nodup
  rows : ∀ k row, (k, row) ∈ d → row.staffId = k ∧ k ≠ "" ∧
    row.ticketsHandled = seen.countP (fun t => t.assignedTo == some k) ∧
    row.ticketsClosed ≤ row.ticketsHandled ∧ 0 < row.ticketsHandled
  present : ∀ t ∈ seen, ∀ k, t.assignedTo = some k → k ≠ "" → k ∈ d.map (fun e => e.1)

/-! ## Concrete states and events -/

/-- The configuration of a guild in legacy (non-thread) mode. -/
def legacyConfig : GuildConfig :=
  { modmailChannelId := "c", logChannelId := "l", staffRoleId := "r", useThreads := false }

/-- A bot configured for one guild in legacy mode, with nothing else in its state. -/
def oneGuildBot : Bot := { configs := [("g", legacyConfig)] }

/-- The first DM of user `u`. -/
def firstDm : DmEvent := { authorId := "u", authorTag := "u#1", now := 10 }

/-- The pending ticket that the first DM of user `u` creates. -/
def pendingTicket : Ticket := newDmTicket firstDm "g" legacyConfig "0001"

/-- The bot after the first DM of user `u`: one pending ticket. -/
def pendingTicketBot : Bot := run oneGuildBot [Event.directMessage firstDm]

/-- A user opens a ticket by DM, staff closes it, the user opens
a second ticket and staff closes that one too. -/
def twoTicketsClosed : List Event :=
  [ Event.directMessage { authorId := "u", authorTag := "u#1", now := 10 },
    Event.close { guildId := some "g", closerId := "s", channelId := "c", now := 20 },
    Event.directMessage { authorId := "u", authorTag := "u#1", now := 30 },
    Event.close { guildId := some "g", closerId := "s", channelId := "c", now := 40 } ]

/-- A `/close` in the modmail channel that throws while fetching the ticket user. -/
def closeFailingAtFetchUser : CloseEvent :=
  { guildId := some "g", closerId := "s", channelId := "c", now := 20,
    fault := CloseFault.fetchUser }

/-- A staff member `s` reacts with the check mark to the info message of the pending
ticket. -/
def claimReaction : ReactionEvent :=
  { userId := "s", guildId := some "g", messageId := "", channelId := "c", now := 15 }

/-- A reply of staff member `s2` in the modmail channel. -/
def staffReply : GuildMessageEvent :=
  { authorId := "s2", guildId := "g", channelId := "c", content := "hello", now := 20 }

/-- A second reaction, by staff member `s3`, to the info message of the ticket. -/
def secondReaction : ReactionEvent :=
  { userId := "s3", guildId := some "g", messageId := "", channelId := "c", now := 25 }

/-- A ticket with every optional field present and no `Date` object in it. -/
def fullTicket : Ticket :=
  { id := some "g-0002", numericId := some "0002", userId := some "v", userTag := some "v#2",
    guildId := some "g", channelId := some "c", threadId := some "th", status := some "in_progress",
    createdAt := some (JsTime.isoString 5), infoMessageId := some "i",
    threadInfoMessageId := some "ti", priority := some "high", category := some "tech",
    assignedTo := some "s", assignedAt := some (JsTime.isoString 6),
    firstResponseTime := some (JsTime.isoString 6), initiatedBy := some "s",
    closedBy := some "s", closedAt := some (JsTime.isoString 9), closeReason := some "done",
    assignedToTag := some "s#3", staffRoleId := some "r", resolutionTime := some (JsTime.isoString 9),
    messageCount := some 2, staffMessageCount := some 1, userMessageCount := some 1,
    tags := some ["bug"],
    events := some [{ type := "tag_added", tag := "bug", byId := "s", byTag := "s#3",
                      timestamp := JsTime.isoString 7 }],
    satisfactionRating := some 5, satisfactionFeedback := some "ok",
    assignedToDisplayName := some "S" }

/-- A ticket with every optional field absent. -/
def bareTicket : Ticket := { id := some "g-0003" }

/-- A ticket read from a damaged file: unknown status, no `createdAt`, no `numericId`. -/
def damagedTicket : Ticket := { id := some "g-0007", userId := some "u", status := some "open" }

/-- The ticket `damagedTicket` after the integrity check at time `5`. -/
def repairedTicket : Ticket :=
  { id := some "g-0007", userId := some "u", status := some "in_progress",
    createdAt := some (JsTime.isoString 5), numericId := some "0007" }

/-- Three closures recorded one after another: two tickets of user `v` in guild `g`
handled by staff member `s`, and one ticket that carries only an id. -/
def threeArchived : List AddCall :=
  [{ ticket := fullTicket }, { ticket := bareTicket, now := 4 },
   { ticket := { fullTicket with id := some "g-0004", category := some "billing",
                                 tags := some ["bug", "vip"] }, now := 8 }]

/-- A history holding the record of `fullTicket`, closed at time `9`. -/
def oneArchived : List HistoryCall := [HistoryCall.add { ticket := fullTicket, now := 9 }]

/-- The configuration of guild `g` in thread mode. -/
def threadConfig : GuildConfig :=
  { modmailChannelId := "c", logChannelId := "l", staffRoleId := "r", useThreads := true }

/-- A pending ticket of user `u` in thread mode: it lives in the thread `th` of the
modmail channel `c`. -/
def pendingThreadTicket : Ticket :=
  { id := some "g-0001", numericId := some "0001", userId := some "u", userTag := some "u#1",
    guildId := some "g", channelId := some "c", threadId := some "th",
    status := some "pending", createdAt := some (JsTime.date 10), infoMessageId := some "i",
    threadInfoMessageId := some "ti", priority := some "medium" }

/-- A bot configured for guild `g` in thread mode after the first DM of user `u`, for
which the platform created the thread `th`: it holds the pending ticket. -/
def threadModeBot : Bot :=
  run { configs := [("g", threadConfig)] }
    [Event.directMessage { authorId := "u", authorTag := "u#1", now := 10, infoMessageId := "i",
                           threadId := "th", threadInfoMessageId := "ti" }]

/-- A reply of staff member `s2` posted in the modmail channel itself. -/
def parentChannelReply : GuildMessageEvent :=
  { authorId := "s2", guildId := "g", channelId := "c", content := "hello", now := 20 }

/-- A staff note posted in the modmail channel. -/
def staffNoteMessage : GuildMessageEvent :=
  { authorId := "s2", guildId := "g", channelId := "c", content := "#call back later", now := 20 }

/-- A platform that accepts every request. -/
def allAccepted : Nat → Request → Bool := fun _ _ => false

/-- A registry as read from the ticket file: the ticket of user `u` is still `pending`
although staff member `a` is assigned to it since time `12`. -/
def assignedPendingBot : Bot :=
  { configs := [("g", legacyConfig)],
    tickets := [{ pendingTicket with
                  assignedTo := some "a", assignedAt := some (JsTime.isoString 12),
                  firstResponseTime := some (JsTime.isoString 12) }] }

/-- The command `/category billing`, without a priority, in the modmail channel. -/
def categoryBilling : CategoryEvent := { guildId := "g", channelId := "c", category := "billing" }

/-- The command `/priority high` in the modmail channel. -/
def priorityHigh : PriorityEvent := { guildId := "g", channelId := "c", level := "high" }

/-- The command `/tag add bug` of staff member `s` in the modmail channel. -/
def tagAddBug : TagEvent :=
  { guildId := "g", channelId := "c", userId := "s", userTag := "s#3", tagName := "bug", now := 30 }

/-- The bot with the pending ticket of user `u` and the tag `bug` in the registry of
guild `g`. -/
def taggedGuildBot : Bot := { pendingTicketBot with tags := [("g", [{ name := "bug" }])] }

/-- The tags `bug` and `vip` are added to guild `g`, then `vip` is renamed to `Bug` by
`updateTag`. -/
def renameToExisting : List TagCall :=
  [TagCall.add "g" { name := "bug" }, TagCall.add "g" { name := "vip" },
   TagCall.update "g" "vip" { name := some "Bug" }]

/-- The tags `bug` and `vip` are added to guild `g`, `BUG` is added again, the color of
`vip` is changed and `Bug` is removed. -/
def tagRegistryCalls : List TagCall :=
  [TagCall.add "g" { name := "bug" }, TagCall.add "g" { name := "vip" },
   TagCall.add "g" { name := "BUG" }, TagCall.update "g" "VIP" { color := some "#ff0000" },
   TagCall.remove "g" "Bug"]

/-- The ticket `fullTicket` before any rating. -/
def unratedTicket : Ticket := { fullTicket with satisfactionRating := none }

/-- The ticket `g-0002` of user `v` is closed at time `9`: its record is in the history
and its survey, sent at time `9`, is active. -/
def surveyedState : SurveyState :=
  (sendSurvey { history := historyAfter {} [HistoryCall.add { ticket := unratedTicket, now := 9 }] }
    "g-0002" (some "g") { userId := "v", messageId := "m", now := 9 }).2

/-- User `v` presses the button of four stars one millisecond after the expiry time of
the survey. -/
def lateRating : RatingEvent :=
  { userId := "v", ticketId := "g-0002", rating := 4, now := 9 + surveyLifetime + 1 }

/-- User `v` presses the button of four stars in time. -/
def timelyRating : RatingEvent := { userId := "v", ticketId := "g-0002", rating := 4, now := 20 }

/-- The survey of ticket `g-0002` in `surveyedState`. -/
def activeSurvey : Survey :=
  { userId := "v", messageId := "m", ticketId := "g-0002", guildId := some "g", sentAt := 9,
    expires := 604800009 }

/-- A surface with three messages, newest first: the closure notice, a reply and the
first message. -/
def threeMessageSurface : List DiscordMessage :=
  [{ id := "closure", authorId := "bot", authorTag := "bot", createdTimestamp := 30 },
   { id := "m2", authorId := "s", authorTag := "s#3", createdTimestamp := 20 },
   { id := "m1", authorId := "u", authorTag := "u#1", createdTimestamp := 10 }]

/-- Guild `g` in legacy mode with two open tickets: user `u` wrote first, user `w` second. -/
def twoTicketBot : Bot :=
  run oneGuildBot
    [Event.directMessage firstDm,
     Event.directMessage { authorId := "w", authorTag := "w#2", now := 12 }]

/-- The history after the ticket `g-0002` of guild `g`, created at time `5`, was closed at
time `9`. -/
def oneRecordHistory : History := historyAfter {} oneArchived

/-- A second DM of user `u`, sent right after the first. -/
def secondDm : DmEvent := { authorId := "u", authorTag := "u#1", now := 11 }

/-- A `/close` by staff member `s` in the modmail channel of guild `g`. -/
def closeByStaff : CloseEvent := { guildId := some "g", closerId := "s", channelId := "c", now := 20 }

/-- A second `/close` in the same channel, by staff member `s2`. -/
def secondClose : CloseEvent :=
  { guildId := some "g", closerId := "s2", channelId := "c", now := 21 }

/-- User `v` presses the button of one star right after the button of four stars. -/
def secondPress : RatingEvent := { userId := "v", ticketId := "g-0002", rating := 1, now := 21 }

/-! ## Lemmas on dictionaries -/

theorem dict_get_set_self {α : Type} (d : Dict α) (k : String) (v : α) :
    (d.set k v).get? k = some v := by
  induction d with
  | nil => simp [Dict.set, Dict.get?]
  | cons e r ih =>
    obtain ⟨k', v'⟩ := e
    by_cases h : k' = k
    · simp [Dict.set, Dict.get?, h]
    · simp [Dict.set, Dict.get?, h, ih]

theorem dict_get_set_other {α : Type} (d : Dict α) (k k2 : String) (v : α) (h : k ≠ k2) :
    (d.set k v).get? k2 = d.get? k2 := by
  induction d with
  | nil => simp [Dict.set, Dict.get?, h]
  | cons e r ih =>
    obtain ⟨k', v'⟩ := e
    by_cases h1 : k' = k
    · subst h1
      simp [Dict.set, Dict.get?, h]
    · by_cases h2 : k' = k2
      · subst h2
        simp [Dict.set, Dict.get?, h1]
      · simp [Dict.set, Dict.get?, h1, h2, ih]

/-! ## Lemmas on ticket numbering -/

theorem counterValue_getNextTicketId_self (c : Dict Nat) (g : String) :
    counterValue (getNextTicketId c g).2 g = counterValue c g + 1 := by
  unfold getNextTicketId counterValue
  cases hc : c.get? g with
  | none => simp [dict_get_set_self]
  | some n =>
    cases n with
    | zero => simp [dict_get_set_self]
    | succ m => simp [dict_get_set_self, hc]

theorem counterValue_getNextTicketId_other (c : Dict Nat) (g g2 : String) (h : g ≠ g2) :
    counterValue (getNextTicketId c g).2 g2 = counterValue c g2 := by
  unfold getNextTicketId counterValue
  cases hc : c.get? g with
  | none => simp [dict_get_set_other _ _ _ _ h]
  | some n =>
    cases n with
    | zero => simp [dict_get_set_other _ _ _ _ h]
    | succ m => simp [dict_get_set_other _ _ _ _ h]

theorem getNextTicketId_fst (c : Dict Nat) (g : String) :
    (getNextTicketId c g).1 = padStart 4 '0' (Nat.repr (counterValue c g + 1)) := by
  have h := counterValue_getNextTicketId_self c g
  unfold getNextTicketId counterValue at *
  cases hc : c.get? g with
  | none => simp [dict_get_set_self]
  | some n =>
    cases n with
    | zero => simp [dict_get_set_self]
    | succ m => simp [hc]

theorem counterValue_countersAfter (gs : List String) (c : Dict Nat) (g : String) :
    counterValue (countersAfter c gs) g = counterValue c g + gs.count g := by
  induction gs generalizing c with
  | nil => simp [countersAfter]
  | cons g' gs ih =>
    simp only [countersAfter, ih]
    by_cases h : g' = g
    · subst h
      simp [counterValue_getNextTicketId_self]
      omega
    · simp [counterValue_getNextTicketId_other _ _ _ h, List.count_cons, h]

/-! ## Lemmas on decimal numerals -/

theorem decList_append_single (cs : List Char) (c : Char) :
    decList (cs ++ [c]) = 10 * decList cs + (c.toNat - 48) := by
  simp [decList, List.foldl_append]

theorem digitChar_val (d : Nat) (h : d < 10) : (Nat.digitChar d).toNat - 48 = d := by
  interval_cases d <;> rfl

theorem toDigitsCore_acc (f : Nat) : ∀ (n : Nat) (ds : List Char),
    Nat.toDigitsCore 10 f n ds = Nat.toDigitsCore 10 f n [] ++ ds := by
  induction f with
  | zero => intro n ds; simp [Nat.toDigitsCore]
  | succ f ih =>
    intro n ds
    simp only [Nat.toDigitsCore]
    split
    · simp
    · rw [ih (n / 10) (_ :: ds), ih (n / 10) [_]]
      simp

theorem decList_toDigitsCore (f : Nat) : ∀ n : Nat, n < f →
    decList (Nat.toDigitsCore 10 f n []) = n := by
  induction f with
  | zero => intro n h; omega
  | succ f ih =>
    intro n h
    simp only [Nat.toDigitsCore]
    split
    · rename_i h0
      simp only [decList, List.foldl]
      rw [digitChar_val _ (Nat.mod_lt _ (by decide))]
      omega
    · rename_i h0
      rw [toDigitsCore_acc, decList_append_single, ih (n / 10) (by omega),
        digitChar_val _ (Nat.mod_lt _ (by decide))]
      omega

theorem decList_replicate_zero (k : Nat) (cs : List Char) :
    decList (List.replicate k '0' ++ cs) = decList cs := by
  induction k with
  | zero => simp
  | succ k ih =>
    simp only [List.replicate_succ, List.cons_append]
    unfold decList at *
    simp only [List.foldl_cons]
    exact ih
theorem decimalValue_padStart_repr (n : Nat) : decimalValue (padStart 4 '0' (Nat.repr n)) = n := by
  have h := decList_replicate_zero (4 - (Nat.repr n).length) (Nat.repr n).data
  have h2 := decList_toDigitsCore (n + 1) n (by omega)
  unfold decimalValue padStart
  simp only [String.data_append]
  unfold decList at h h2
  rw [h]
  simpa [Nat.repr, Nat.toDigits, List.asString] using h2
theorem padStart_length (n : Nat) (s : String) : n ≤ (padStart n '0' s).length := by
  unfold padStart
  rw [String.length_append]
  have : (String.mk (List.replicate (n - s.length) '0')).length = n - s.length := by
    show (List.replicate (n - s.length) '0').length = _
    exact List.length_replicate _ _
  omega

/-! ## Lemmas on rate limiting -/

theorem checkRateLimit_spec (m : Dict RateLimitData) (u ty : String) (now : Nat)
    (s : RateLimitSetting) (hs : USER_RATE_LIMITS ty = some s) :
    (checkRateLimit m u ty now).1 =
        (if now > (rateLimitEntry m (rateLimitKey u ty) now s.window).resetTime then
          { limited := false, count := 1, limit := s.limit }
        else
          { limited := decide (s.limit < (rateLimitEntry m (rateLimitKey u ty) now s.window).count + 1),
            count := (rateLimitEntry m (rateLimitKey u ty) now s.window).count + 1,
            limit := s.limit }) ∧
      (checkRateLimit m u ty now).2.get? (rateLimitKey u ty) =
        some (if now > (rateLimitEntry m (rateLimitKey u ty) now s.window).resetTime then
          { count := 1, resetTime := now + s.window }
        else
          { count := (rateLimitEntry m (rateLimitKey u ty) now s.window).count + 1,
            resetTime := (rateLimitEntry m (rateLimitKey u ty) now s.window).resetTime }) := by
  cases hm : m.get? (rateLimitKey u ty) with
  | none =>
    by_cases h : s.limit < 1 <;>
      simp [checkRateLimit, rateLimitEntry, hs, Dict.has, hm, dict_get_set_self, h]
  | some d =>
    by_cases h1 : d.resetTime < now
    · simp [checkRateLimit, rateLimitEntry, hs, Dict.has, hm, dict_get_set_self, h1]
    · by_cases h : s.limit < d.count + 1 <;>
        simp [checkRateLimit, rateLimitEntry, hs, Dict.has, hm, dict_get_set_self, h1, h]

theorem rateLimitCalls_in_window (u ty : String) (s : RateLimitSetting)
    (hs : USER_RATE_LIMITS ty = some s) (ts : List Nat) :
    ∀ (m : Dict RateLimitData) (c r : Nat),
      m.get? (rateLimitKey u ty) = some { count := c, resetTime := r } →
      (∀ t ∈ ts, t ≤ r) →
      (rateLimitCalls m u ty ts).map (fun x => x.2) =
          (List.range ts.length).map
            (fun k => { limited := decide (s.limit < c + k + 1), count := c + k + 1,
                        limit := s.limit }) ∧
        (rateLimitsAfter m u ty ts).get? (rateLimitKey u ty) =
          some { count := c + ts.length, resetTime := r } := by
  induction ts with
  | nil => intro m c r hm _; simp [rateLimitCalls, rateLimitsAfter, hm]
  | cons t ts ih =>
    intro m c r hm hts
    have ht : t ≤ r := hts t (List.mem_cons_self _ _)
    have hspec := checkRateLimit_spec m u ty t s hs
    simp only [rateLimitEntry, hm, gt_iff_lt, Nat.not_lt.mpr ht, if_false] at hspec
    obtain ⟨h1, h2⟩ := hspec
    have ih2 := ih (checkRateLimit m u ty t).2 (c + 1) r h2
      (fun t' ht' => hts t' (List.mem_cons_of_mem _ ht'))
    obtain ⟨ih3, ih4⟩ := ih2
    constructor
    · simp only [rateLimitCalls, List.map_cons, List.length_cons, List.range_succ_eq_map,
        List.map_map, ih3, h1]
      congr 1
      apply List.map_congr_left
      intro k _
      simp only [Function.comp, Nat.succ_eq_add_one]
      have e : c + 1 + k + 1 = c + (k + 1) + 1 := by omega
      rw [e]
    · simp only [rateLimitsAfter, ih4, List.length_cons]
      have e : c + 1 + ts.length = c + (ts.length + 1) := by omega
      rw [e]

theorem allowedIn_cons (a b t : Nat) (r : RateLimitResult) (rest : List (Nat × RateLimitResult)) :
    allowedIn a b ((t, r) :: rest) =
      (if a ≤ t ∧ t ≤ b ∧ r.limited = false then 1 else 0) + allowedIn a b rest := by
  unfold allowedIn
  by_cases h1 : a ≤ t <;> by_cases h2 : t ≤ b <;> cases h3 : r.limited <;>
    simp [List.filter_cons, h1, h2, h3, Nat.add_comm]

theorem allowedIn_of_late (u ty : String) (a b : Nat) (ts : List Nat) :
    ∀ (m : Dict RateLimitData), (∀ t ∈ ts, b < t) →
      allowedIn a b (rateLimitCalls m u ty ts) = 0 := by
  induction ts with
  | nil => intro m _; simp [rateLimitCalls, allowedIn]
  | cons t ts ih =>
    intro m hts
    have ht : b < t := hts t (List.mem_cons_self _ _)
    simp only [rateLimitCalls, allowedIn_cons]
    rw [ih _ (fun t' ht' => hts t' (List.mem_cons_of_mem _ ht'))]
    have : ¬ (a ≤ t ∧ t ≤ b ∧ (checkRateLimit m u ty t).1.limited = false) := by
      intro h; omega
    simp [this]

/-- Inside one window (no call time counted beyond the reset time) at most
`limit - count` further calls are let through. -/
theorem allowedIn_same_window (u ty : String) (s : RateLimitSetting)
    (hs : USER_RATE_LIMITS ty = some s) (a b : Nat) (ts : List Nat) :
    ∀ (m : Dict RateLimitData) (c r : Nat),
      m.get? (rateLimitKey u ty) = some { count := c, resetTime := r } →
      b ≤ r → ts.Pairwise (fun x y => x ≤ y) →
      allowedIn a b (rateLimitCalls m u ty ts) ≤ s.limit - c := by
  induction ts with
  | nil => intro m c r _ _ _; simp [rateLimitCalls, allowedIn]
  | cons t ts ih =>
    intro m c r hm hbr hsorted
    rw [List.pairwise_cons] at hsorted
    by_cases htb : t ≤ b
    · have ht : t ≤ r := le_trans htb hbr
      have hspec := checkRateLimit_spec m u ty t s hs
      simp only [rateLimitEntry, hm, gt_iff_lt, Nat.not_lt.mpr ht, if_false] at hspec
      obtain ⟨h1, h2⟩ := hspec
      have ih2 := ih (checkRateLimit m u ty t).2 (c + 1) r h2 hbr hsorted.2
      simp only [rateLimitCalls, allowedIn_cons, h1]
      by_cases hl : s.limit < c + 1
      · simp [hl]; omega
      · split <;> omega
    · have hlate : ∀ t' ∈ t :: ts, b < t' := by
        intro t' ht'
        rcases List.mem_cons.mp ht' with h | h
        · omega
        · have := hsorted.1 t' h; omega
      rw [allowedIn_of_late u ty a b (t :: ts) m hlate]
      exact Nat.zero_le _

theorem allowedIn_from (u ty : String) (s : RateLimitSetting)
    (hs : USER_RATE_LIMITS ty = some s) (hl : 1 ≤ s.limit) (a : Nat) (ts : List Nat) :
    ∀ (m : Dict RateLimitData), (∀ t ∈ ts, a ≤ t) → ts.Pairwise (fun x y => x ≤ y) →
      allowedIn a (a + s.window) (rateLimitCalls m u ty ts) ≤
        allowedBound m (rateLimitKey u ty) s.limit := by
  induction ts with
  | nil => intro m _ _; simp [rateLimitCalls, allowedIn]
  | cons t ts ih =>
    intro m hge hsorted
    have hsorted2 := hsorted
    rw [List.pairwise_cons] at hsorted2
    have hat : a ≤ t := hge t (List.mem_cons_self _ _)
    by_cases htb : t ≤ a + s.window
    · have hspec := checkRateLimit_spec m u ty t s hs
      obtain ⟨h1, h2⟩ := hspec
      simp only [rateLimitCalls, allowedIn_cons]
      cases hm : m.get? (rateLimitKey u ty) with
      | none =>
        simp only [rateLimitEntry, hm, gt_iff_lt] at h1 h2
        have hne : ¬ (t + s.window < t) := by omega
        simp only [hne, if_false] at h1 h2
        have htail := allowedIn_same_window u ty s hs a (a + s.window) ts
          (checkRateLimit m u ty t).2 (0 + 1) (t + s.window) h2 (by omega) hsorted2.2
        simp only [allowedBound, hm]
        split <;> omega
      | some d =>
        simp only [rateLimitEntry, hm, gt_iff_lt] at h1 h2
        by_cases hexp : d.resetTime < t
        · simp only [hexp, if_true] at h1 h2
          have htail := allowedIn_same_window u ty s hs a (a + s.window) ts
            (checkRateLimit m u ty t).2 1 (t + s.window) h2 (by omega) hsorted2.2
          simp only [allowedBound, hm]
          split <;> omega
        · simp only [hexp, if_false] at h1 h2
          have htail := ih (checkRateLimit m u ty t).2
            (fun t' ht' => hge t' (List.mem_cons_of_mem _ ht')) hsorted2.2
          simp only [allowedBound, h2] at htail
          simp only [allowedBound, hm, h1]
          by_cases hl2 : s.limit < d.count + 1
          · simp [hl2]; omega
          · split <;> omega
    · have hlate : ∀ t' ∈ t :: ts, a + s.window < t' := by
        intro t' ht'
        rcases List.mem_cons.mp ht' with h | h
        · omega
        · have := hsorted2.1 t' h; omega
      rw [allowedIn_of_late u ty a (a + s.window) (t :: ts) m hlate]
      exact Nat.zero_le _

/-! ## Lemmas on the registry -/

theorem registry_filter_set_le (q : Ticket → Bool) (t : Ticket) (r : Registry) :
    ((r.set t).filter q).length ≤ (r.filter q).length + (if q t then 1 else 0) := by
  induction r with
  | nil => cases h : q t <;> simp [Registry.set, h]
  | cons a r ih =>
    simp only [Registry.set]
    split
    · cases h : q t <;> cases h2 : q a <;> simp [List.filter_cons, h, h2]
    · cases h2 : q a <;> simp [List.filter_cons, h2] <;> omega

theorem registry_filter_mutate_le (q p : Ticket → Bool) (f : Ticket → Ticket)
    (h : ∀ t, p t = true → q (f t) = true → q t = true) (r : Registry) :
    ((Registry.mutate p f r).filter q).length ≤ (r.filter q).length := by
  induction r with
  | nil => simp [Registry.mutate]
  | cons a r ih =>
    simp only [Registry.mutate]
    by_cases hp : p a = true
    · simp only [hp, if_true]
      cases hq : q (f a)
      · cases h2 : q a <;> simp [List.filter_cons, hq, h2]
      · simp [List.filter_cons, hq, h a hp hq]
    · simp only [hp]
      cases h2 : q a <;> simp [List.filter_cons, h2] <;> omega

theorem registry_filter_delete_le (q : Ticket → Bool) (id : Option String) (r : Registry) :
    ((r.delete id).filter q).length ≤ (r.filter q).length := by
  unfold Registry.delete
  rw [List.filter_comm]
  exact List.length_filter_le _ _

theorem registry_filter_eq_nil_of_find (q : Ticket → Bool) (r : Registry)
    (h : r.find q = none) : r.filter q = [] := by
  unfold Registry.find at h
  rw [List.find?_eq_none] at h
  rw [List.filter_eq_nil_iff]
  exact h

theorem oneOpenPerUser_set_new (r : Registry) (t : Ticket) (a : String)
    (hr : OneOpenPerUser r) (ht : t.userId = some a)
    (hfind : r.find (fun t => t.userId == some a && t.isOpen) = none) :
    OneOpenPerUser (r.set t) := by
  intro u
  have h1 := registry_filter_set_le (fun t => t.userId == some u && t.isOpen) t r
  by_cases hu : u = a
  · subst hu
    rw [registry_filter_eq_nil_of_find _ _ hfind] at h1
    refine le_trans h1 ?_
    simp only [List.length_nil]
    split <;> omega
  · have hq : (t.userId == some u && t.isOpen) = false := by
      have : ¬ (a = u) := fun h => hu h.symm
      simp [ht, this]
    rw [hq] at h1
    have := hr u
    simp only [Bool.false_eq_true, if_false] at h1
    omega

theorem oneOpenPerUser_mutate (r : Registry) (p : Ticket → Bool) (f : Ticket → Ticket)
    (hr : OneOpenPerUser r)
    (h : ∀ t, p t = true → (f t).userId = t.userId ∧ ((f t).isOpen = true → t.isOpen = true)) :
    OneOpenPerUser (Registry.mutate p f r) := by
  intro u
  refine le_trans (registry_filter_mutate_le _ p f ?_ r) (hr u)
  intro t hp hq
  obtain ⟨h1, h2⟩ := h t hp
  simp only [Bool.and_eq_true] at hq ⊢
  rw [h1] at hq
  exact ⟨hq.1, h2 hq.2⟩

theorem oneOpenPerUser_delete (r : Registry) (id : Option String) (hr : OneOpenPerUser r) :
    OneOpenPerUser (r.delete id) := fun u =>
  le_trans (registry_filter_delete_le _ id r) (hr u)

/-! ## Every handler keeps at most one open ticket per user -/

theorem handleDirectMessage_oneOpen (bot : Bot) (e : DmEvent) (h : OneOpenPerUser bot.tickets) :
    OneOpenPerUser (handleDirectMessage bot e).tickets := by
  unfold handleDirectMessage
  split
  · exact h
  split
  · exact h
  split
  · exact h
  · rename_i hfind
    simp only
    split
    · exact h
    split
    · exact h
    · split
      · exact h
      split
      · exact h
      split
      · exact h
      split
      · exact h
      · exact oneOpenPerUser_set_new _ _ e.authorId h rfl hfind

theorem handleOpen_oneOpen (bot : Bot) (e : OpenEvent) (h : OneOpenPerUser bot.tickets) :
    OneOpenPerUser (handleOpen bot e).tickets := by
  unfold handleOpen
  split
  · exact h
  split
  · exact h
  split
  · exact h
  split
  · exact h
  · rename_i hfind
    split
    · exact h
    simp only
    split
    · exact h
    · exact oneOpenPerUser_set_new _ _ e.targetUserId h rfl hfind

theorem claimLookup_pending (r : Registry) (e : ReactionEvent) (p : Ticket → Bool)
    (h : claimLookup r e = some p) (t : Ticket) (hp : p t = true) :
    t.status = some "pending" := by
  unfold claimLookup at h
  simp only at h
  split at h
  · cases h
    simp only [Bool.and_eq_true, beq_iff_eq] at hp
    exact hp.2
  split at h
  · cases h
    simp only [Bool.and_eq_true, beq_iff_eq] at hp
    exact hp.2
  split at h
  · cases h
    simp only [Bool.and_eq_true, beq_iff_eq] at hp
    exact hp.2
  · cases h

theorem isOpen_of_pending (t : Ticket) (h : t.status = some "pending") : t.isOpen = true := by
  simp [Ticket.isOpen, h]

theorem handleReaction_oneOpen (bot : Bot) (e : ReactionEvent) (h : OneOpenPerUser bot.tickets) :
    OneOpenPerUser (handleReaction bot e).tickets := by
  unfold handleReaction
  split
  · exact h
  split
  · exact h
  split
  · exact h
  split
  · exact h
  split
  · exact h
  rename_i p hp
  split
  · exact h
  split
  · exact h
  · apply oneOpenPerUser_mutate _ _ _ h
    intro t hpt
    exact ⟨rfl, fun _ => isOpen_of_pending t (claimLookup_pending _ _ _ hp t hpt)⟩

theorem replyFields_open (staffId : String) (now : Nat) (t : Ticket) :
    (replyFields staffId now t).userId = t.userId ∧
      ((replyFields staffId now t).isOpen = true → t.isOpen = true) := by
  unfold replyFields
  split
  · rename_i hs
    split
    · exact ⟨rfl, fun _ => isOpen_of_pending t hs⟩
    · exact ⟨rfl, fun _ => isOpen_of_pending t hs⟩
  · exact ⟨rfl, fun h => h⟩

theorem handleGuildMessage_oneOpen (bot : Bot) (e : GuildMessageEvent)
    (h : OneOpenPerUser bot.tickets) : OneOpenPerUser (handleGuildMessage bot e).tickets := by
  unfold handleGuildMessage
  split
  · exact h
  split
  · exact h
  split
  · exact h
  split
  · exact h
  split
  · exact h
  split
  · exact h
  split
  · exact h
  · exact oneOpenPerUser_mutate _ _ _ h (fun t _ => replyFields_open _ _ t)

theorem handleCategory_oneOpen (bot : Bot) (e : CategoryEvent) (h : OneOpenPerUser bot.tickets) :
    OneOpenPerUser (handleCategory bot e).tickets := by
  unfold handleCategory
  split
  · exact h
  split
  · exact h
  simp only
  split
  · exact h
  · exact oneOpenPerUser_mutate _ _ _ h (fun t _ => ⟨rfl, fun h => h⟩)

theorem handlePriority_oneOpen (bot : Bot) (e : PriorityEvent) (h : OneOpenPerUser bot.tickets) :
    OneOpenPerUser (handlePriority bot e).tickets := by
  unfold handlePriority
  split
  · exact h
  split
  · exact h
  split
  · exact h
  split
  · exact h
  · exact oneOpenPerUser_mutate _ _ _ h (fun t _ => ⟨rfl, fun h => h⟩)

theorem handleTagAdd_oneOpen (bot : Bot) (e : TagEvent) (h : OneOpenPerUser bot.tickets) :
    OneOpenPerUser (handleTagAdd bot e).tickets := by
  unfold handleTagAdd
  split
  · exact h
  split
  · exact h
  simp only
  split
  · exact h
  split
  · exact h
  split
  · exact h
  · exact oneOpenPerUser_mutate _ _ _ h (fun t _ => ⟨rfl, fun h => h⟩)

theorem handleTagRemove_oneOpen (bot : Bot) (e : TagEvent) (h : OneOpenPerUser bot.tickets) :
    OneOpenPerUser (handleTagRemove bot e).tickets := by
  unfold handleTagRemove
  split
  · exact h
  split
  · exact h
  simp only
  split
  · exact h
  split
  · exact h
  · exact oneOpenPerUser_mutate _ _ _ h (fun t _ => ⟨rfl, fun h => h⟩)

theorem markClosed_not_open (e : CloseEvent) (t : Ticket) : (markClosed e t).isOpen = false := by
  simp [markClosed, Ticket.isOpen]

theorem closingInfo_isOpen (config : GuildConfig) (e : CloseEvent) (t : Ticket) :
    (closingInfo config e t).isOpen = t.isOpen := by
  simp [closingInfo, Ticket.isOpen]

theorem handleClose_oneOpen (bot : Bot) (e : CloseEvent) (h : OneOpenPerUser bot.tickets) :
    OneOpenPerUser (handleClose bot e).tickets := by
  unfold handleClose
  split
  · exact h
  split
  · exact h
  split
  · exact h
  simp only
  split
  · exact h
  split
  · exact h
  split
  · apply oneOpenPerUser_mutate _ _ _ h
    intro t _
    exact ⟨rfl, fun h => by rw [markClosed_not_open] at h; cases h⟩
  · have hc : ∀ (config : GuildConfig) (p : Ticket → Bool), OneOpenPerUser
        (Registry.mutate p (fun t => closingInfo config e (markClosed e t)) bot.tickets) := by
      intro config p
      apply oneOpenPerUser_mutate _ _ _ h
      intro t _
      refine ⟨rfl, fun h => ?_⟩
      rw [closingInfo_isOpen, markClosed_not_open] at h
      cases h
    split
    · exact hc _ _
    split
    · exact hc _ _
    · exact oneOpenPerUser_delete _ _ (hc _ _)

theorem step_oneOpen (bot : Bot) (ev : Event) (h : OneOpenPerUser bot.tickets) :
    OneOpenPerUser (step bot ev).tickets := by
  cases ev with
  | directMessage e => exact handleDirectMessage_oneOpen bot e h
  | openCommand e => exact handleOpen_oneOpen bot e h
  | reaction e => exact handleReaction_oneOpen bot e h
  | guildMessage e => exact handleGuildMessage_oneOpen bot e h
  | category e => exact handleCategory_oneOpen bot e h
  | priority e => exact handlePriority_oneOpen bot e h
  | tagAdd e => exact handleTagAdd_oneOpen bot e h
  | tagRemove e => exact handleTagRemove_oneOpen bot e h
  | close e => exact handleClose_oneOpen bot e h

theorem run_oneOpen (es : List Event) : ∀ bot : Bot, OneOpenPerUser bot.tickets →
    OneOpenPerUser (run bot es).tickets := by
  induction es with
  | nil => intro bot h; exact h
  | cons e es ih => intro bot h; exact ih _ (step_oneOpen bot e h)

/-- Claim C1, amended. Starting from an empty registry, after every sequence of events
(ticket creations by a user DM or by `/open`, closes, and every other handler) whose
handlers run one at a time, each from its first statement to its last before the next
begins, the registry holds at most one ticket whose status is not `closed` for each pair
of guild id and user id. -/
theorem registry_one_open_ticket_per_guild_user (bot : Bot) (es : List Event)
    (guildId userId : String) :
    ((run { bot with tickets := [] } es).tickets.filter
      (fun t => t.guildId == some guildId && t.userId == some userId
        && t.status != some "closed")).length ≤ 1 := by
  have h0 : OneOpenPerUser ({ bot with tickets := [] } : Bot).tickets := by
    intro u; simp
  have h := run_oneOpen es _ h0 userId
  refine le_trans ?_ h
  apply List.Sublist.length_le
  apply List.monotone_filter_right
  intro t ht
  simp only [Bool.and_eq_true, Ticket.isOpen] at ht ⊢
  exact ⟨ht.1.2, ht.2⟩

/-! ## Ticket ids are never reused -/

theorem digitChar_ne_dash (d : Nat) (h : d < 10) : Nat.digitChar d ≠ '-' := by
  interval_cases d <;> decide

theorem toDigitsCore_no_dash (f : Nat) : ∀ (n : Nat) (acc : List Char),
    (∀ c ∈ acc, c ≠ '-') → ∀ c ∈ Nat.toDigitsCore 10 f n acc, c ≠ '-' := by
  induction f with
  | zero => intro n acc hacc c hc; simp [Nat.toDigitsCore] at hc; exact hacc c hc
  | succ f ih =>
    intro n acc hacc c hc
    simp only [Nat.toDigitsCore] at hc
    have hcons : ∀ c ∈ Nat.digitChar (n % 10) :: acc, c ≠ '-' := by
      intro c hc
      rcases List.mem_cons.mp hc with h | h
      · rw [h]; exact digitChar_ne_dash _ (Nat.mod_lt _ (by decide))
      · exact hacc c h
    split at hc
    · exact hcons c hc
    · exact ih _ _ hcons c hc

theorem padStart_repr_no_dash (n : Nat) : '-' ∉ (padStart 4 '0' (Nat.repr n)).data := by
  intro h
  unfold padStart at h
  simp only [String.data_append, List.mem_append] at h
  rcases h with h | h
  · have := List.eq_of_mem_replicate h
    exact absurd this (by decide)
  · have h2 : '-' ∈ Nat.toDigitsCore 10 (n + 1) n [] := by
      simpa [Nat.repr, Nat.toDigits, List.asString] using h
    exact toDigitsCore_no_dash (n + 1) n [] (by simp) '-' h2 rfl

theorem append_cons_unique {α : Type} (x : α) : ∀ (a b u v : List α),
    x ∉ u → x ∉ v → a ++ x :: u = b ++ x :: v → a = b ∧ u = v := by
  intro a
  induction a with
  | nil =>
    intro b u v hu hv h
    cases b with
    | nil => simp at h; exact ⟨rfl, h⟩
    | cons y b =>
      simp only [List.nil_append, List.cons_append, List.cons.injEq] at h
      exact absurd (by rw [h.2]; simp) hu
  | cons y a ih =>
    intro b u v hu hv h
    cases b with
    | nil =>
      simp only [List.nil_append, List.cons_append, List.cons.injEq] at h
      exact absurd (by rw [← h.2]; simp) hv
    | cons z b =>
      simp only [List.cons_append, List.cons.injEq] at h
      obtain ⟨h1, h2⟩ := ih b u v hu hv h.2
      exact ⟨by rw [h.1, h1], h2⟩

/-- The id template with the guild id, a dash and the padded counter is injective. -/
theorem ticketId_injective (g1 g2 : String) (n1 n2 : Nat)
    (h : g1 ++ "-" ++ padStart 4 '0' (Nat.repr n1) = g2 ++ "-" ++ padStart 4 '0' (Nat.repr n2)) :
    g1 = g2 ∧ n1 = n2 := by
  have hd := congrArg String.data h
  simp only [String.data_append] at hd
  rw [List.append_assoc, List.append_assoc] at hd
  obtain ⟨h1, h2⟩ := append_cons_unique '-' _ _ _ _ (padStart_repr_no_dash n1)
    (padStart_repr_no_dash n2) hd
  refine ⟨String.ext h1, ?_⟩
  have h3 : padStart 4 '0' (Nat.repr n1) = padStart 4 '0' (Nat.repr n2) := String.ext h2
  have := congrArg decimalValue h3
  rwa [decimalValue_padStart_repr, decimalValue_padStart_repr] at this

theorem registry_map_id_mutate (p : Ticket → Bool) (f : Ticket → Ticket)
    (hf : ∀ t, (f t).id = t.id) (r : Registry) :
    (Registry.mutate p f r).map (fun t => t.id) = r.map (fun t => t.id) := by
  induction r with
  | nil => simp [Registry.mutate]
  | cons a r ih =>
    simp only [Registry.mutate]
    split
    · simp [hf]
    · simp [ih]

theorem registry_map_id_set_new (t : Ticket) (r : Registry)
    (h : t.id ∉ r.map (fun t => t.id)) :
    (r.set t).map (fun t => t.id) = r.map (fun t => t.id) ++ [t.id] := by
  induction r with
  | nil => simp [Registry.set]
  | cons a r ih =>
    simp only [List.map_cons, List.mem_cons, not_or] at h
    simp only [Registry.set]
    split
    · rename_i heq
      exact absurd heq.symm h.1
    · simp [ih h.2]

theorem registry_map_id_delete (id : Option String) (r : Registry) :
    (r.delete id).map (fun t => t.id) = (r.map (fun t => t.id)).filter (fun i => decide (i ≠ id)) := by
  unfold Registry.delete
  rw [List.filter_map]
  rfl

theorem registry_mem_of_find (p : Ticket → Bool) (r : Registry) (t : Ticket)
    (h : r.find p = some t) : t ∈ r := by
  unfold Registry.find at h
  exact List.mem_of_find?_eq_some h

theorem counterValue_getNextTicketId_mono (c : Dict Nat) (g g2 : String) :
    counterValue c g2 ≤ counterValue (getNextTicketId c g).2 g2 := by
  by_cases h : g = g2
  · subst h
    rw [counterValue_getNextTicketId_self]
    omega
  · rw [counterValue_getNextTicketId_other _ _ _ h]

theorem issuedId_mono (c : Dict Nat) (g : String) (id : Option String) (h : IssuedId c id) :
    IssuedId (getNextTicketId c g).2 id := by
  obtain ⟨g', n, h1, h2⟩ := h
  exact ⟨g', n, h1, le_trans h2 (counterValue_getNextTicketId_mono c g g')⟩

theorem getNextTicketId_id (c : Dict Nat) (g : String) :
    some (g ++ "-" ++ (getNextTicketId c g).1) = ticketIdOf g (counterValue c g + 1) := by
  rw [getNextTicketId_fst]
  rfl

theorem issuedId_next (c : Dict Nat) (g : String) :
    IssuedId (getNextTicketId c g).2 (ticketIdOf g (counterValue c g + 1)) :=
  ⟨g, counterValue c g + 1, rfl, by rw [counterValue_getNextTicketId_self]⟩

theorem issuedId_ne_next (c : Dict Nat) (g : String) (id : Option String) (h : IssuedId c id) :
    id ≠ ticketIdOf g (counterValue c g + 1) := by
  obtain ⟨g', n, h1, h2⟩ := h
  intro heq
  rw [h1] at heq
  unfold ticketIdOf at heq
  obtain ⟨hg, hn⟩ := ticketId_injective _ _ _ _ (Option.some.inj heq)
  subst hg
  omega

theorem archiveInv_of_same (bot bot2 : Bot) (h : ArchiveInv bot)
    (hc : bot2.counters = bot.counters) (hh : bot2.history = bot.history)
    (ht : bot2.tickets.map (fun t => t.id) = bot.tickets.map (fun t => t.id)) :
    ArchiveInv bot2 where
  registryNodup := by rw [ht]; exact h.registryNodup
  historyNodup := by rw [hh]; exact h.historyNodup
  disjoint := by rw [ht, hh]; exact h.disjoint
  registryIssued := by rw [ht, hc]; exact h.registryIssued
  historyIssued := by rw [hh, hc]; exact h.historyIssued

theorem archiveInv_of_bump (bot bot2 : Bot) (g : String) (h : ArchiveInv bot)
    (hc : bot2.counters = (getNextTicketId bot.counters g).2) (hh : bot2.history = bot.history)
    (ht : bot2.tickets.map (fun t => t.id) = bot.tickets.map (fun t => t.id)) :
    ArchiveInv bot2 where
  registryNodup := by rw [ht]; exact h.registryNodup
  historyNodup := by rw [hh]; exact h.historyNodup
  disjoint := by rw [ht, hh]; exact h.disjoint
  registryIssued := by
    rw [ht, hc]; exact fun id hid => issuedId_mono _ _ _ (h.registryIssued id hid)
  historyIssued := by
    rw [hh, hc]; exact fun id hid => issuedId_mono _ _ _ (h.historyIssued id hid)

theorem archiveInv_of_create (bot bot2 : Bot) (g : String) (t : Ticket) (h : ArchiveInv bot)
    (hc : bot2.counters = (getNextTicketId bot.counters g).2) (hh : bot2.history = bot.history)
    (hid : t.id = ticketIdOf g (counterValue bot.counters g + 1))
    (ht : bot2.tickets = bot.tickets.set t) : ArchiveInv bot2 := by
  have hfresh : t.id ∉ bot.tickets.map (fun t => t.id) := by
    intro hmem
    exact issuedId_ne_next _ g _ (h.registryIssued _ hmem) hid
  have hfresh2 : t.id ∉ bot.history.tickets.map (fun r => r.id) := by
    intro hmem
    exact issuedId_ne_next _ g _ (h.historyIssued _ hmem) hid
  have hids := registry_map_id_set_new t bot.tickets hfresh
  constructor
  · rw [ht, hids]
    exact List.Nodup.append h.registryNodup (List.nodup_singleton _)
      (by simpa [List.disjoint_singleton] using hfresh)
  · rw [hh]; exact h.historyNodup
  · rw [ht, hids, hh]
    intro id hmem
    rcases List.mem_append.mp hmem with h1 | h1
    · exact h.disjoint id h1
    · simp only [List.mem_singleton] at h1
      rw [h1]; exact hfresh2
  · rw [ht, hids, hc]
    intro id hmem
    rcases List.mem_append.mp hmem with h1 | h1
    · exact issuedId_mono _ _ _ (h.registryIssued id h1)
    · simp only [List.mem_singleton] at h1
      rw [h1, hid]; exact issuedId_next _ _
  · rw [hh, hc]
    exact fun id hmem => issuedId_mono _ _ _ (h.historyIssued id hmem)

theorem addTicket_tickets (history : History) (ticket : Ticket)
    (messages : List DiscordMessage) (now : Nat) :
    (addTicket history ticket messages now).2.tickets =
        history.tickets ++ [(addTicket history ticket messages now).1] ∧
      (addTicket history ticket messages now).1.id = ticket.id :=
  ⟨rfl, rfl⟩

theorem archiveInv_of_archive (bot bot2 : Bot) (t : Ticket) (rec : TicketRecord)
    (h : ArchiveInv bot) (hc : bot2.counters = bot.counters)
    (hmem : t.id ∈ bot.tickets.map (fun t => t.id))
    (hrec : rec.id = t.id)
    (hh : bot2.history.tickets = bot.history.tickets ++ [rec])
    (ht : bot2.tickets.map (fun t => t.id) =
      (bot.tickets.map (fun t => t.id)).filter (fun i => decide (i ≠ t.id))) :
    ArchiveInv bot2 := by
  constructor
  · rw [ht]; exact h.registryNodup.filter _
  · rw [hh, List.map_append]
    refine List.Nodup.append h.historyNodup (by simp) ?_
    simp only [List.map_cons, List.map_nil, List.disjoint_singleton, hrec]
    exact h.disjoint _ hmem
  · rw [ht, hh]
    intro id hid
    rw [List.mem_filter] at hid
    simp only [List.map_append, List.map_cons, List.map_nil, List.mem_append,
      List.mem_singleton, not_or, hrec]
    exact ⟨h.disjoint id hid.1, by simpa using hid.2⟩
  · rw [ht, hc]
    intro id hid
    rw [List.mem_filter] at hid
    exact h.registryIssued id hid.1
  · rw [hh, hc]
    intro id hid
    simp only [List.map_append, List.map_cons, List.map_nil, List.mem_append,
      List.mem_singleton] at hid
    rcases hid with h1 | h1
    · exact h.historyIssued id h1
    · rw [h1, hrec]; exact h.registryIssued _ hmem

theorem archiveInv_of_mutate (bot : Bot) (h : ArchiveInv bot) (p : Ticket → Bool)
    (f : Ticket → Ticket) (hf : ∀ t, (f t).id = t.id) :
    ArchiveInv { bot with tickets := Registry.mutate p f bot.tickets } :=
  archiveInv_of_same bot _ h rfl rfl (registry_map_id_mutate p f hf _)

theorem handleDirectMessage_archiveInv (bot : Bot) (e : DmEvent) (h : ArchiveInv bot) :
    ArchiveInv (handleDirectMessage bot e) := by
  unfold handleDirectMessage
  split
  · exact h
  split
  · exact h
  split
  · exact archiveInv_of_same bot _ h rfl rfl rfl
  · simp only
    split
    · exact archiveInv_of_same bot _ h rfl rfl rfl
    split
    · exact archiveInv_of_same bot _ h rfl rfl rfl
    · rename_i guildId config _
      split
      · exact archiveInv_of_same bot _ h rfl rfl rfl
      split
      · exact archiveInv_of_same bot _ h rfl rfl rfl
      split
      · exact archiveInv_of_same bot _ h rfl rfl rfl
      split
      · exact archiveInv_of_bump bot _ guildId h rfl rfl rfl
      · exact archiveInv_of_create bot _ guildId _ h rfl rfl
          (getNextTicketId_id bot.counters guildId) rfl

theorem handleOpen_archiveInv (bot : Bot) (e : OpenEvent) (h : ArchiveInv bot) :
    ArchiveInv (handleOpen bot e) := by
  unfold handleOpen
  split
  · exact h
  split
  · exact h
  split
  · exact h
  split
  · exact h
  split
  · exact h
  simp only
  split
  · exact archiveInv_of_bump bot _ e.guildId h rfl rfl rfl
  · exact archiveInv_of_create bot _ e.guildId _ h rfl rfl
      (getNextTicketId_id bot.counters e.guildId) rfl

theorem replyFields_id (staffId : String) (now : Nat) (t : Ticket) :
    (replyFields staffId now t).id = t.id := by
  unfold replyFields
  split
  · split <;> rfl
  · rfl

theorem handleReaction_archiveInv (bot : Bot) (e : ReactionEvent) (h : ArchiveInv bot) :
    ArchiveInv (handleReaction bot e) := by
  unfold handleReaction
  split
  · exact h
  split
  · exact h
  split
  · exact h
  split
  · exact h
  split
  · exact h
  split
  · exact h
  split
  · exact h
  · refine archiveInv_of_mutate bot h _ _ ?_
    intro t
    rfl

theorem handleGuildMessage_archiveInv (bot : Bot) (e : GuildMessageEvent) (h : ArchiveInv bot) :
    ArchiveInv (handleGuildMessage bot e) := by
  unfold handleGuildMessage
  split
  · exact h
  split
  · exact h
  split
  · exact h
  split
  · exact h
  split
  · exact h
  split
  · exact h
  split
  · exact h
  · refine archiveInv_of_mutate bot h _ _ ?_
    intro t
    exact replyFields_id _ _ t

theorem handleCategory_archiveInv (bot : Bot) (e : CategoryEvent) (h : ArchiveInv bot) :
    ArchiveInv (handleCategory bot e) := by
  unfold handleCategory
  split
  · exact h
  split
  · exact h
  simp only
  split
  · exact h
  · refine archiveInv_of_mutate bot h _ _ ?_
    intro t
    rfl

theorem handlePriority_archiveInv (bot : Bot) (e : PriorityEvent) (h : ArchiveInv bot) :
    ArchiveInv (handlePriority bot e) := by
  unfold handlePriority
  split
  · exact h
  split
  · exact h
  split
  · exact h
  split
  · exact h
  · refine archiveInv_of_mutate bot h _ _ ?_
    intro t
    rfl

theorem handleTagAdd_archiveInv (bot : Bot) (e : TagEvent) (h : ArchiveInv bot) :
    ArchiveInv (handleTagAdd bot e) := by
  unfold handleTagAdd
  split
  · exact h
  split
  · exact h
  simp only
  split
  · exact h
  split
  · exact h
  split
  · exact h
  · refine archiveInv_of_mutate bot h _ _ ?_
    intro t
    rfl

theorem handleTagRemove_archiveInv (bot : Bot) (e : TagEvent) (h : ArchiveInv bot) :
    ArchiveInv (handleTagRemove bot e) := by
  unfold handleTagRemove
  split
  · exact h
  split
  · exact h
  simp only
  split
  · exact h
  split
  · exact h
  · refine archiveInv_of_mutate bot h _ _ ?_
    intro t
    rfl

theorem handleClose_archiveInv (bot : Bot) (e : CloseEvent) (h : ArchiveInv bot)
    (hf : ¬ (e.fault = CloseFault.editReply ∨ e.fault = CloseFault.sendLog)) :
    ArchiveInv (handleClose bot e) := by
  unfold handleClose
  split
  · exact h
  split
  · exact h
  split
  · exact h
  simp only
  split
  · exact h
  rename_i config _ _ ticket hfind
  split
  · exact h
  split
  · refine archiveInv_of_mutate bot h _ _ ?_
    intro t
    rfl
  split
  · refine archiveInv_of_mutate bot h _ _ ?_
    intro t
    rfl
  · have hmem : ticket.id ∈ bot.tickets.map (fun t => t.id) :=
      List.mem_map_of_mem _ (registry_mem_of_find _ _ _ hfind)
    refine archiveInv_of_archive bot _ ticket _ h rfl hmem ?_ (addTicket_tickets _ _ _ _).1 ?_
    · exact (addTicket_tickets _ _ _ _).2
    · simp only
      rw [registry_map_id_delete, registry_map_id_mutate]
      intro t
      rfl

theorem step_archiveInv (bot : Bot) (ev : Event) (h : ArchiveInv bot)
    (hf : ev.failsAfterArchive = false) : ArchiveInv (step bot ev) := by
  cases ev with
  | directMessage e => exact handleDirectMessage_archiveInv bot e h
  | openCommand e => exact handleOpen_archiveInv bot e h
  | reaction e => exact handleReaction_archiveInv bot e h
  | guildMessage e => exact handleGuildMessage_archiveInv bot e h
  | category e => exact handleCategory_archiveInv bot e h
  | priority e => exact handlePriority_archiveInv bot e h
  | tagAdd e => exact handleTagAdd_archiveInv bot e h
  | tagRemove e => exact handleTagRemove_archiveInv bot e h
  | close e =>
    refine handleClose_archiveInv bot e h ?_
    simpa [Event.failsAfterArchive] using hf

theorem run_archiveInv (es : List Event) : ∀ bot : Bot, ArchiveInv bot →
    (∀ ev ∈ es, ev.failsAfterArchive = false) → ArchiveInv (run bot es) := by
  induction es with
  | nil => intro bot h _; exact h
  | cons e es ih =>
    intro bot h hf
    exact ih _ (step_archiveInv bot e h (hf e (List.mem_cons_self _ _)))
      (fun ev hev => hf ev (List.mem_cons_of_mem _ hev))

/-- Claim C2, counterexample. `addTicket` appends a record whatever the history holds:
archiving the same ticket twice leaves two history records with the same id. -/
theorem addTicket_twice_duplicates_id :
    ¬ (((addTicket (addTicket {} { id := some "g-0001", userId := some "u" } [] 0).2
        { id := some "g-0001", userId := some "u" } [] 1).2.tickets.map
          (fun r => r.id)).Nodup) := by
  decide

/-- The path the amended claim C2 leaves out, evaluated: `/close` archives the ticket and
then throws at `editReply`, so the ticket stays in the registry; a second `/close` finds it
again (the lookup of `/close` does not test the status) and archives it a second time. -/
theorem close_repeated_after_late_failure :
    (run oneGuildBot
      [Event.directMessage firstDm,
       Event.close { guildId := some "g", closerId := "s", channelId := "c", now := 20,
                     fault := CloseFault.editReply },
       Event.close { guildId := some "g", closerId := "s", channelId := "c", now := 30 }]
      ).history.tickets.map (fun r => r.id) = [some "g-0001", some "g-0001"] := by
  decide

/-- Claim C2, amended. Starting from an empty registry, an empty history and an empty
counter store, after every sequence of handler runs, one at a time and each from its
first statement to its last before the next begins, in which no close throws between
writing the history record and removing the ticket from the registry, the history holds
no two records with the same ticket id. -/
theorem history_ids_unique_when_closes_complete (bot : Bot) (es : List Event)
    (h : ∀ ev ∈ es, ev.failsAfterArchive = false) :
    ((run { bot with tickets := [], counters := [], history := {} } es).history.tickets.map
      (fun r => r.id)).Nodup := by
  have h0 : ArchiveInv ({ bot with tickets := [], counters := [], history := {} } : Bot) :=
    { registryNodup := List.nodup_nil
      historyNodup := List.nodup_nil
      disjoint := fun _ hid => by simp at hid
      registryIssued := fun _ hid => by simp at hid
      historyIssued := fun _ hid => by simp at hid }
  exact (run_archiveInv es _ h0 h).historyNodup

theorem history_ids_unique_witness :
    (∀ ev ∈ twoTicketsClosed, ev.failsAfterArchive = false) ∧
      ((run { oneGuildBot with tickets := [], counters := [], history := {} }
          twoTicketsClosed).history.tickets.map (fun r => r.id)).Nodup :=
  ⟨by decide, history_ids_unique_when_closes_complete oneGuildBot twoTicketsClosed (by decide)⟩


/-! ## A close that fails before the archive -/

theorem registry_get_mutate_found (p : Ticket → Bool) (f : Ticket → Ticket) (t : Ticket)
    (hf : (f t).id = t.id) : ∀ (r : Registry), r.find p = some t → r.get? t.id = some t →
      (Registry.mutate p f r).get? t.id = some (f t) := by
  intro r
  induction r with
  | nil => intro h _; simp [Registry.find] at h
  | cons a r ih =>
    intro hfind hget
    simp only [Registry.find, List.find?_cons] at hfind
    simp only [Registry.mutate]
    cases hp : p a with
    | true =>
      simp only [hp] at hfind
      cases hfind
      simp [Registry.get?, List.find?_cons, hf]
    | false =>
      simp only [hp] at hfind
      simp only [Bool.false_eq_true, if_false]
      have hpt : p t = true := List.find?_some hfind
      simp only [Registry.get?, List.find?_cons] at hget ⊢
      by_cases hid : a.id = t.id
      · simp only [hid, decide_True] at hget
        cases hget
        rw [hp] at hpt
        cases hpt
      · simp only [hid, decide_False] at hget ⊢
        exact ih hfind hget

/-- Claim C3, counterexample. A ticket is pending; `/close` throws while fetching the
user. The ticket is still in the registry, no history record was written, and the
status of the ticket is `closed`, not the `pending` it had before the operation. -/
theorem failed_close_marks_ticket_closed :
    (run oneGuildBot
        [Event.directMessage { authorId := "u", authorTag := "u#1", now := 10 }]).tickets.map
          (fun t => (t.id, t.status, t.closedBy)) = [(some "g-0001", some "pending", none)] ∧
      (run oneGuildBot
        [Event.directMessage { authorId := "u", authorTag := "u#1", now := 10 },
         Event.close { guildId := some "g", closerId := "s", channelId := "c", now := 20,
                       fault := CloseFault.fetchUser }]).tickets.map
          (fun t => (t.id, t.status, t.closedBy)) = [(some "g-0001", some "closed", some "s")] ∧
      (run oneGuildBot
        [Event.directMessage { authorId := "u", authorTag := "u#1", now := 10 },
         Event.close { guildId := some "g", closerId := "s", channelId := "c", now := 20,
                       fault := CloseFault.fetchUser }]).history.tickets = [] := by
  decide

/-- Claim C3, amended. When `/close` finds a ticket and throws before the history record
is written, no history record is written and no ticket leaves the registry. A throw at
deferring the reply leaves the whole state unchanged; a throw at any later step (fetching
the user, posting the closure notice, fetching the message log, generating or sending
the transcript) leaves the ticket in the registry with status `closed` and with
`closedBy`, `closedAt` and `closeReason` set by the failed close. -/
theorem close_failure_before_archive (bot : Bot) (e : CloseEvent) (guildId : String)
    (config : GuildConfig) (t : Ticket)
    (hg : e.guildId = some guildId) (hc : bot.configs.get? guildId = some config)
    (hauth : e.hasStaffRole = true ∨ e.isAdmin = true)
    (hfind : bot.tickets.find (closeLookup config guildId e) = some t)
    (hget : bot.tickets.get? t.id = some t) :
    (e.fault = CloseFault.deferReply → handleClose bot e = bot) ∧
    (e.fault = CloseFault.fetchUser ∨ e.fault = CloseFault.sendClosureMessage ∨
      e.fault = CloseFault.fetchMessages ∨ e.fault = CloseFault.generateTranscript ∨
      e.fault = CloseFault.fetchLogChannel ∨ e.fault = CloseFault.sendTranscript →
      (handleClose bot e).history = bot.history ∧
      (handleClose bot e).tickets.map (fun t => t.id) = bot.tickets.map (fun t => t.id) ∧
      ∃ t2, (handleClose bot e).tickets.get? t.id = some t2 ∧
        t2.status = some "closed" ∧ t2.closedBy = some e.closerId ∧
        t2.closedAt = some (JsTime.isoString e.now) ∧
        t2.closeReason = some (closeReasonOf e)) := by
  have hauth2 : (!e.hasStaffRole && !e.isAdmin) = false := by
    rcases hauth with h | h <;> simp [h]
  constructor
  · intro hfault
    simp [handleClose, hg, hc, hauth2, hfind, hfault]
  · intro hfault
    by_cases h1 : e.fault = CloseFault.fetchUser ∨ e.fault = CloseFault.sendClosureMessage
        ∨ e.fault = CloseFault.fetchMessages
    · have hnd : e.fault ≠ CloseFault.deferReply := by
        rcases h1 with h | h | h <;> simp [h]
      have hres : handleClose bot e =
          { bot with
            tickets := Registry.mutate (closeLookup config guildId e) (markClosed e) bot.tickets } := by
        simp [handleClose, hg, hc, hauth2, hfind, hnd, h1]
      rw [hres]
      refine ⟨rfl, ?_, markClosed e t, ?_, rfl, rfl, rfl, rfl⟩
      · exact registry_map_id_mutate _ (markClosed e) (fun _ => rfl) _
      · exact registry_get_mutate_found _ (markClosed e) t rfl _ hfind hget
    · have h2 : e.fault = CloseFault.generateTranscript ∨ e.fault = CloseFault.fetchLogChannel
          ∨ e.fault = CloseFault.sendTranscript := by
        rcases hfault with h | h | h | h | h | h
        · exact absurd (Or.inl h) h1
        · exact absurd (Or.inr (Or.inl h)) h1
        · exact absurd (Or.inr (Or.inr h)) h1
        · exact Or.inl h
        · exact Or.inr (Or.inl h)
        · exact Or.inr (Or.inr h)
      have hnd : e.fault ≠ CloseFault.deferReply := by
        rcases h2 with h | h | h <;> simp [h]
      have hres : handleClose bot e =
          { bot with
            tickets := Registry.mutate (closeLookup config guildId e)
              (fun t => closingInfo config e (markClosed e t)) bot.tickets } := by
        simp [handleClose, hg, hc, hauth2, hfind, hnd, h1, h2]
      rw [hres]
      refine ⟨rfl, ?_, closingInfo config e (markClosed e t), ?_, rfl, rfl, rfl, rfl⟩
      · exact registry_map_id_mutate _ (fun t => closingInfo config e (markClosed e t))
          (fun _ => rfl) _
      · exact registry_get_mutate_found _ (fun t => closingInfo config e (markClosed e t)) t
          rfl _ hfind hget

theorem close_failure_before_archive_witness :
    closeFailingAtFetchUser.guildId = some "g" ∧
      pendingTicketBot.configs.get? "g" = some legacyConfig ∧
      pendingTicketBot.tickets.find (closeLookup legacyConfig "g" closeFailingAtFetchUser)
        = some pendingTicket ∧
      pendingTicketBot.tickets.get? pendingTicket.id = some pendingTicket ∧
      ((handleClose pendingTicketBot closeFailingAtFetchUser).history = pendingTicketBot.history ∧
        (handleClose pendingTicketBot closeFailingAtFetchUser).tickets.map (fun t => t.id)
          = pendingTicketBot.tickets.map (fun t => t.id) ∧
        ∃ t2, (handleClose pendingTicketBot closeFailingAtFetchUser).tickets.get? pendingTicket.id
            = some t2 ∧
          t2.status = some "closed" ∧ t2.closedBy = some closeFailingAtFetchUser.closerId ∧
          t2.closedAt = some (JsTime.isoString closeFailingAtFetchUser.now) ∧
          t2.closeReason = some (closeReasonOf closeFailingAtFetchUser)) :=
  ⟨by decide, by decide, by decide, by decide,
    (close_failure_before_archive pendingTicketBot closeFailingAtFetchUser "g" legacyConfig
      pendingTicket (by decide) (by decide) (Or.inl (by decide)) (by decide) (by decide)).2
      (Or.inl (by decide))⟩

/-! ## The status of a ticket only moves forward -/

theorem registry_get_mutate (p : Ticket → Bool) (f : Ticket → Ticket)
    (hf : ∀ t, (f t).id = t.id) (id : Option String) : ∀ (r : Registry),
      (Registry.mutate p f r).get? id = r.get? id ∨
        ∃ t, r.get? id = some t ∧ p t = true ∧ (Registry.mutate p f r).get? id = some (f t) := by
  intro r
  induction r with
  | nil => left; rfl
  | cons a r ih =>
    simp only [Registry.mutate]
    cases hp : p a with
    | true =>
      simp only [if_true]
      by_cases hid : a.id = id
      · right
        refine ⟨a, ?_, hp, ?_⟩
        · simp [Registry.get?, List.find?_cons, hid]
        · simp [Registry.get?, List.find?_cons, hf, hid]
      · left
        simp [Registry.get?, List.find?_cons, hf, hid]
    | false =>
      simp only [Bool.false_eq_true, if_false]
      by_cases hid : a.id = id
      · left
        simp [Registry.get?, List.find?_cons, hid]
      · rcases ih with h | ⟨t, h1, h2, h3⟩
        · left
          simp only [Registry.get?, List.find?_cons, hid, decide_False] at h ⊢
          exact h
        · right
          refine ⟨t, ?_, h2, ?_⟩
          · simp only [Registry.get?, List.find?_cons, hid, decide_False] at h1 ⊢
            exact h1
          · simp only [Registry.get?, List.find?_cons, hid, decide_False] at h3 ⊢
            exact h3

theorem registry_get_delete (x id : Option String) (r : Registry) (t : Ticket)
    (h : (r.delete x).get? id = some t) : r.get? id = some t := by
  unfold Registry.delete Registry.get? at *
  induction r with
  | nil => simp at h
  | cons a r ih =>
    by_cases hx : a.id = x
    · have hne : (decide (a.id ≠ x)) = false := by simp [hx]
      rw [List.filter_cons, hne] at h
      simp only [Bool.false_eq_true, if_false] at h
      have h2 := ih h
      have h3 : t.id = id := by simpa using List.find?_some h
      have h4 : t ∈ List.filter (fun t => decide (t.id ≠ x)) r := List.mem_of_find?_eq_some h
      have h5 : t.id ≠ x := by simpa using (List.mem_filter.mp h4).2
      have h6 : a.id ≠ id := by
        intro h7; rw [← h3, ← hx] at *; exact h5 (h7 ▸ rfl)
      simp only [List.find?_cons, h6, decide_False]
      exact h2
    · have hne : (decide (a.id ≠ x)) = true := by simp [hx]
      rw [List.filter_cons, hne] at h
      simp only [if_true, List.find?_cons] at h ⊢
      by_cases hid : a.id = id
      · simp only [hid, decide_True] at h ⊢
        exact h
      · simp only [hid, decide_False] at h ⊢
        exact ih h

theorem statusMonotone_refl (r : Registry) : StatusMonotone r r := by
  intro id t t2 h1 h2
  rw [h1] at h2
  cases h2
  exact le_refl _

theorem statusMonotone_mutate (p : Ticket → Bool) (f : Ticket → Ticket) (r : Registry)
    (hf : ∀ t, (f t).id = t.id)
    (hrank : ∀ t, p t = true → statusRank t.status ≤ statusRank (f t).status) :
    StatusMonotone r (Registry.mutate p f r) := by
  intro id t t2 h1 h2
  rcases registry_get_mutate p f hf id r with h | ⟨t3, h3, h4, h5⟩
  · rw [h, h1] at h2
    cases h2
    exact le_refl _
  · rw [h1] at h3
    cases h3
    rw [h5] at h2
    cases h2
    exact hrank t h4

theorem statusMonotone_delete (r r2 : Registry) (x : Option String)
    (h : StatusMonotone r r2) : StatusMonotone r (r2.delete x) := by
  intro id t t2 h1 h2
  exact h id t t2 h1 (registry_get_delete x id r2 t2 h2)

theorem statusRank_le_two (s : Option String) : statusRank s ≤ 2 := by
  unfold statusRank
  split
  · exact le_refl _
  · split <;> omega

theorem statusRank_pending : statusRank (some "pending") = 0 := by decide

theorem replyFields_rank (staffId : String) (now : Nat) (t : Ticket) :
    statusRank t.status ≤ statusRank (replyFields staffId now t).status := by
  unfold replyFields
  split
  · rename_i hs
    rw [hs, statusRank_pending]
    exact Nat.zero_le _
  · exact le_refl _

theorem handleReaction_monotone (bot : Bot) (e : ReactionEvent) :
    StatusMonotone bot.tickets (handleReaction bot e).tickets := by
  unfold handleReaction
  split
  · exact statusMonotone_refl _
  split
  · exact statusMonotone_refl _
  split
  · exact statusMonotone_refl _
  split
  · exact statusMonotone_refl _
  split
  · exact statusMonotone_refl _
  rename_i p hp
  split
  · exact statusMonotone_refl _
  split
  · exact statusMonotone_refl _
  · refine statusMonotone_mutate p (claimFields e.userId e.now) _ (fun _ => rfl) ?_
    intro t hpt
    rw [claimLookup_pending _ _ _ hp t hpt, statusRank_pending]
    exact Nat.zero_le _

theorem handleGuildMessage_monotone (bot : Bot) (e : GuildMessageEvent) :
    StatusMonotone bot.tickets (handleGuildMessage bot e).tickets := by
  unfold handleGuildMessage
  split
  · exact statusMonotone_refl _
  split
  · exact statusMonotone_refl _
  split
  · exact statusMonotone_refl _
  split
  · exact statusMonotone_refl _
  split
  · exact statusMonotone_refl _
  split
  · exact statusMonotone_refl _
  split
  · exact statusMonotone_refl _
  · exact statusMonotone_mutate _ (replyFields e.authorId e.now) _
      (fun t => replyFields_id _ _ t) (fun t _ => replyFields_rank _ _ t)

theorem handleCategory_monotone (bot : Bot) (e : CategoryEvent) :
    StatusMonotone bot.tickets (handleCategory bot e).tickets := by
  unfold handleCategory
  split
  · exact statusMonotone_refl _
  split
  · exact statusMonotone_refl _
  simp only
  split
  · exact statusMonotone_refl _
  · refine statusMonotone_mutate _ _ _ ?_ ?_
    · intro t; rfl
    · intro t _; exact le_refl _

theorem handlePriority_monotone (bot : Bot) (e : PriorityEvent) :
    StatusMonotone bot.tickets (handlePriority bot e).tickets := by
  unfold handlePriority
  split
  · exact statusMonotone_refl _
  split
  · exact statusMonotone_refl _
  split
  · exact statusMonotone_refl _
  split
  · exact statusMonotone_refl _
  · refine statusMonotone_mutate _ _ _ ?_ ?_
    · intro t; rfl
    · intro t _; exact le_refl _

theorem handleTagAdd_monotone (bot : Bot) (e : TagEvent) :
    StatusMonotone bot.tickets (handleTagAdd bot e).tickets := by
  unfold handleTagAdd
  split
  · exact statusMonotone_refl _
  split
  · exact statusMonotone_refl _
  simp only
  split
  · exact statusMonotone_refl _
  split
  · exact statusMonotone_refl _
  split
  · exact statusMonotone_refl _
  · refine statusMonotone_mutate _ _ _ ?_ ?_
    · intro t; rfl
    · intro t _; exact le_refl _

theorem handleTagRemove_monotone (bot : Bot) (e : TagEvent) :
    StatusMonotone bot.tickets (handleTagRemove bot e).tickets := by
  unfold handleTagRemove
  split
  · exact statusMonotone_refl _
  split
  · exact statusMonotone_refl _
  simp only
  split
  · exact statusMonotone_refl _
  split
  · exact statusMonotone_refl _
  · refine statusMonotone_mutate _ _ _ ?_ ?_
    · intro t; rfl
    · intro t _; exact le_refl _

theorem handleClose_monotone (bot : Bot) (e : CloseEvent) :
    StatusMonotone bot.tickets (handleClose bot e).tickets := by
  have hm : ∀ p : Ticket → Bool,
      StatusMonotone bot.tickets (Registry.mutate p (markClosed e) bot.tickets) := by
    intro p
    refine statusMonotone_mutate p (markClosed e) _ (fun _ => rfl) ?_
    intro t _
    exact statusRank_le_two _
  have hc : ∀ (config : GuildConfig) (p : Ticket → Bool), StatusMonotone bot.tickets
      (Registry.mutate p (fun t => closingInfo config e (markClosed e t)) bot.tickets) := by
    intro config p
    refine statusMonotone_mutate p (fun t => closingInfo config e (markClosed e t)) _
      (fun _ => rfl) ?_
    intro t _
    exact statusRank_le_two _
  unfold handleClose
  split
  · exact statusMonotone_refl _
  split
  · exact statusMonotone_refl _
  split
  · exact statusMonotone_refl _
  simp only
  split
  · exact statusMonotone_refl _
  split
  · exact statusMonotone_refl _
  split
  · exact hm _
  split
  · exact hc _ _
  split
  · exact hc _ _
  · exact statusMonotone_delete _ _ _ (hc _ _)

/-- Claim C4, amended. For every handler other than a ticket creation (claim reaction,
staff reply, category, priority and tag change, close) that runs from its first statement
to its last with no other handler running in between, and every ticket of the registry,
the status of the ticket stored under the same id after the run is not earlier in the
order `pending < in_progress < closed`: a closed ticket stays closed and a ticket in
progress is never made pending. -/
theorem status_never_moves_backward (bot : Bot) (ev : Event) (id : Option String)
    (t t2 : Ticket) (hev : ev.isCreation = false)
    (h1 : bot.tickets.get? id = some t) (h2 : (step bot ev).tickets.get? id = some t2) :
    statusRank t.status ≤ statusRank t2.status ∧
      (t.status = some "closed" → t2.status = some "closed") ∧
      (t.status = some "in_progress" → t2.status ≠ some "pending") := by
  have hmono : StatusMonotone bot.tickets (step bot ev).tickets := by
    cases ev with
    | directMessage e => simp [Event.isCreation] at hev
    | openCommand e => simp [Event.isCreation] at hev
    | reaction e => exact handleReaction_monotone bot e
    | guildMessage e => exact handleGuildMessage_monotone bot e
    | category e => exact handleCategory_monotone bot e
    | priority e => exact handlePriority_monotone bot e
    | tagAdd e => exact handleTagAdd_monotone bot e
    | tagRemove e => exact handleTagRemove_monotone bot e
    | close e => exact handleClose_monotone bot e
  have hle := hmono id t t2 h1 h2
  refine ⟨hle, ?_, ?_⟩
  · intro hs
    rw [hs] at hle
    unfold statusRank at hle
    by_contra hne
    simp [hne] at hle
    split at hle <;> omega
  · intro hs hp
    rw [hs, hp] at hle
    revert hle
    decide

theorem status_never_moves_backward_witness :
    (Event.reaction claimReaction).isCreation = false ∧
      pendingTicketBot.tickets.get? (some "g-0001") = some pendingTicket ∧
      (step pendingTicketBot (Event.reaction claimReaction)).tickets.get? (some "g-0001")
        = some (claimFields "s" 15 pendingTicket) ∧
      (statusRank pendingTicket.status ≤ statusRank (claimFields "s" 15 pendingTicket).status ∧
        (pendingTicket.status = some "closed" →
          (claimFields "s" 15 pendingTicket).status = some "closed") ∧
        (pendingTicket.status = some "in_progress" →
          (claimFields "s" 15 pendingTicket).status ≠ some "pending")) :=
  ⟨by decide, by decide, by decide,
    status_never_moves_backward pendingTicketBot (Event.reaction claimReaction) (some "g-0001")
      pendingTicket (claimFields "s" 15 pendingTicket) (by decide) (by decide) (by decide)⟩

/-! ## A claimed ticket keeps its assignee -/

theorem registry_get_mutate_fixed (p : Ticket → Bool) (f : Ticket → Ticket)
    (hf : ∀ t, (f t).id = t.id) (id : Option String) (r : Registry) (t : Ticket)
    (h : r.get? id = some t) (hfix : p t = true → f t = t) :
    (Registry.mutate p f r).get? id = some t := by
  rcases registry_get_mutate p f hf id r with h2 | ⟨t3, h3, h4, h5⟩
  · rw [h2, h]
  · rw [h] at h3
    cases h3
    rw [h5, hfix h4]

theorem handleReaction_in_progress (bot : Bot) (e : ReactionEvent) (id : Option String)
    (t : Ticket) (h : bot.tickets.get? id = some t) (hs : t.status = some "in_progress") :
    (handleReaction bot e).tickets.get? id = some t := by
  unfold handleReaction
  split
  · exact h
  split
  · exact h
  split
  · exact h
  split
  · exact h
  split
  · exact h
  rename_i p hp
  split
  · exact h
  split
  · exact h
  · refine registry_get_mutate_fixed p (claimFields e.userId e.now) (fun _ => rfl) id _ t h ?_
    intro hpt
    have := claimLookup_pending _ _ _ hp t hpt
    rw [hs] at this
    exact absurd this (by decide)

theorem handleGuildMessage_in_progress (bot : Bot) (e : GuildMessageEvent)
    (id : Option String) (t : Ticket) (h : bot.tickets.get? id = some t)
    (hs : t.status = some "in_progress") :
    (handleGuildMessage bot e).tickets.get? id = some t := by
  unfold handleGuildMessage
  split
  · exact h
  split
  · exact h
  split
  · exact h
  split
  · exact h
  split
  · exact h
  split
  · exact h
  split
  · exact h
  · refine registry_get_mutate_fixed _ (replyFields e.authorId e.now)
      (fun t => replyFields_id _ _ t) id _ t h ?_
    intro _
    unfold replyFields
    rw [hs]
    simp

/-- Claim C5, amended. Once a ticket is in progress, every further sequence of claim
reactions and staff replies, by whichever staff members, whose handlers begin after the
claim has completed and run one at a time, leaves the ticket stored under its id exactly
as it is: `assignedTo` and `firstResponseTime` (and `assignedAt` and the status) keep the
values the first claim gave them. -/
theorem claim_fields_fixed_once_in_progress (es : List Event) :
    ∀ (bot : Bot) (id : Option String) (t : Ticket),
      (∀ ev ∈ es, ev.isClaimOrReply = true) →
      bot.tickets.get? id = some t → t.status = some "in_progress" →
      ∃ t2, (run bot es).tickets.get? id = some t2 ∧ t2.assignedTo = t.assignedTo ∧
        t2.firstResponseTime = t.firstResponseTime ∧ t2.assignedAt = t.assignedAt ∧
        t2.status = some "in_progress" := by
  induction es with
  | nil => intro bot id t _ h hs; exact ⟨t, h, rfl, rfl, rfl, hs⟩
  | cons ev es ih =>
    intro bot id t hes h hs
    have hev := hes ev (List.mem_cons_self _ _)
    have hstep : (step bot ev).tickets.get? id = some t := by
      cases ev with
      | reaction e => exact handleReaction_in_progress bot e id t h hs
      | guildMessage e => exact handleGuildMessage_in_progress bot e id t h hs
      | directMessage e => simp [Event.isClaimOrReply] at hev
      | openCommand e => simp [Event.isClaimOrReply] at hev
      | category e => simp [Event.isClaimOrReply] at hev
      | priority e => simp [Event.isClaimOrReply] at hev
      | tagAdd e => simp [Event.isClaimOrReply] at hev
      | tagRemove e => simp [Event.isClaimOrReply] at hev
      | close e => simp [Event.isClaimOrReply] at hev
    exact ih (step bot ev) id t (fun ev2 h2 => hes ev2 (List.mem_cons_of_mem _ h2)) hstep hs

theorem claim_fields_fixed_witness :
    (∀ ev ∈ [Event.guildMessage staffReply, Event.reaction secondReaction],
        ev.isClaimOrReply = true) ∧
      (step pendingTicketBot (Event.reaction claimReaction)).tickets.get? (some "g-0001")
        = some (claimFields "s" 15 pendingTicket) ∧
      (claimFields "s" 15 pendingTicket).status = some "in_progress" ∧
      ∃ t2, (run (step pendingTicketBot (Event.reaction claimReaction))
          [Event.guildMessage staffReply, Event.reaction secondReaction]).tickets.get?
            (some "g-0001") = some t2 ∧
        t2.assignedTo = (claimFields "s" 15 pendingTicket).assignedTo ∧
        t2.firstResponseTime = (claimFields "s" 15 pendingTicket).firstResponseTime ∧
        t2.assignedAt = (claimFields "s" 15 pendingTicket).assignedAt ∧
        t2.status = some "in_progress" :=
  ⟨by decide, by decide, by decide,
    claim_fields_fixed_once_in_progress [Event.guildMessage staffReply, Event.reaction secondReaction]
      (step pendingTicketBot (Event.reaction claimReaction)) (some "g-0001")
      (claimFields "s" 15 pendingTicket) (by decide) (by decide) (by decide)⟩

/-- Claim C6. Starting from an empty counter store, the call of `getNextTicketId` for a
guild that follows any sequence `earlier` of calls (for this guild and for others) returns
the decimal representation of `n`, left-padded with zeros to at least four characters,
where `n` is one more than the number of earlier calls for this guild. Hence the number
an id denotes is the rank of the call among the calls for its guild (strictly
increasing, without gaps), and a later call for the same guild never returns an id
that was returned before. -/
theorem getNextTicketId_nth_call (earlier between : List String) (guildId : String) :
    (getNextTicketId (countersAfter [] earlier) guildId).1
        = padStart 4 '0' (Nat.repr (earlier.count guildId + 1)) ∧
      4 ≤ (getNextTicketId (countersAfter [] earlier) guildId).1.length ∧
      decimalValue (getNextTicketId (countersAfter [] earlier) guildId).1
        = earlier.count guildId + 1 ∧
      decimalValue (getNextTicketId (countersAfter [] earlier) guildId).1
        < decimalValue
            (getNextTicketId (countersAfter [] (earlier ++ guildId :: between)) guildId).1 ∧
      (getNextTicketId (countersAfter [] earlier) guildId).1
        ≠ (getNextTicketId (countersAfter [] (earlier ++ guildId :: between)) guildId).1 := by
  have hfst : ∀ calls : List String, (getNextTicketId (countersAfter [] calls) guildId).1
      = padStart 4 '0' (Nat.repr (calls.count guildId + 1)) := by
    intro calls
    rw [getNextTicketId_fst, counterValue_countersAfter]
    simp [counterValue, Dict.get?]
  have hval : ∀ calls : List String,
      decimalValue (getNextTicketId (countersAfter [] calls) guildId).1
        = calls.count guildId + 1 := by
    intro calls
    rw [hfst, decimalValue_padStart_repr]
  have hlt : decimalValue (getNextTicketId (countersAfter [] earlier) guildId).1
      < decimalValue
          (getNextTicketId (countersAfter [] (earlier ++ guildId :: between)) guildId).1 := by
    rw [hval, hval, List.count_append, List.count_cons_self]
    omega
  refine ⟨hfst earlier, ?_, hval earlier, hlt, ?_⟩
  · rw [hfst]
    exact padStart_length 4 _
  · intro heq
    rw [heq] at hlt
    exact Nat.lt_irrefl _ hlt

/-- Claim C7. For every user and every rate-limit type with settings `(limit, window)`,
starting with no counter for that user and type: the calls of `checkRateLimit` made
inside the window opened by the first call (at a time not after its reset time) return
count `1, 2, 3, ...`, with `limited = false` for the first `limit` calls and
`limited = true` from call `limit + 1` on; the first call made after the reset time has
passed returns `limited = false` with `count = 1`. -/
theorem checkRateLimit_window (m : Dict RateLimitData) (userId type : String)
    (s : RateLimitSetting) (t1 : Nat) (rest : List Nat) (tAfter : Nat)
    (hs : USER_RATE_LIMITS type = some s)
    (hnew : m.get? (rateLimitKey userId type) = none)
    (hin : ∀ t ∈ rest, t ≤ t1 + s.window)
    (hafter : t1 + s.window < tAfter) :
    (rateLimitCalls m userId type (t1 :: rest)).map (fun x => x.2) =
        (List.range (rest.length + 1)).map
          (fun k => { limited := decide (s.limit < k + 1), count := k + 1, limit := s.limit }) ∧
      (∀ (k : Nat) (r : RateLimitResult),
        ((rateLimitCalls m userId type (t1 :: rest)).map (fun x => x.2))[k]? = some r →
          (k + 1 ≤ s.limit → r.limited = false) ∧ (k = s.limit → r.limited = true) ∧
            r.count = k + 1) ∧
      (checkRateLimit (rateLimitsAfter m userId type (t1 :: rest)) userId type tAfter).1 =
        { limited := false, count := 1, limit := s.limit } := by
  have hspec := checkRateLimit_spec m userId type t1 s hs
  simp only [rateLimitEntry, hnew, gt_iff_lt] at hspec
  have hne : ¬ (t1 + s.window < t1) := by omega
  simp only [hne, if_false] at hspec
  obtain ⟨h1, h2⟩ := hspec
  obtain ⟨h3, h4⟩ := rateLimitCalls_in_window userId type s hs rest
    (checkRateLimit m userId type t1).2 (0 + 1) (t1 + s.window) h2 hin
  have hmap : (rateLimitCalls m userId type (t1 :: rest)).map (fun x => x.2) =
      (List.range (rest.length + 1)).map
        (fun k => { limited := decide (s.limit < k + 1), count := k + 1, limit := s.limit }) := by
    simp only [rateLimitCalls, List.map_cons, List.range_succ_eq_map, List.map_map, h3, h1]
    congr 1
    apply List.map_congr_left
    intro k _
    simp only [Function.comp, Nat.succ_eq_add_one]
    have e : 0 + 1 + k + 1 = k + 1 + 1 := by omega
    rw [e]
  refine ⟨hmap, ?_, ?_⟩
  · intro k r hk
    rw [hmap, List.getElem?_map] at hk
    cases hr : (List.range (rest.length + 1))[k]? with
    | none => rw [hr] at hk; simp at hk
    | some j =>
      rw [hr] at hk
      simp only [Option.map_some', Option.some.injEq] at hk
      have hj : j = k := by
        rw [List.getElem?_eq_some_iff] at hr
        obtain ⟨hlt, heq⟩ := hr
        simpa using heq.symm
      subst hj
      subst hk
      refine ⟨fun h => by simp; omega, fun h => by simp; omega, rfl⟩
  · have hspec2 := checkRateLimit_spec (rateLimitsAfter m userId type (t1 :: rest)) userId type
      tAfter s hs
    have hstate : (rateLimitsAfter m userId type (t1 :: rest)).get? (rateLimitKey userId type) =
        some { count := 0 + 1 + rest.length, resetTime := t1 + s.window } := h4
    simp only [rateLimitEntry, hstate, gt_iff_lt, hafter, if_true] at hspec2
    exact hspec2.1

theorem checkRateLimit_window_witness :
    USER_RATE_LIMITS "tickets" = some { limit := 3, window := 3600000 } ∧
      Dict.get? ([] : Dict RateLimitData) (rateLimitKey "u" "tickets") = none ∧
      (∀ t ∈ [1, 2, 3600000], t ≤ 0 + 3600000) ∧
      0 + 3600000 < 3600001 ∧
      (rateLimitCalls [] "u" "tickets" [0, 1, 2, 3600000]).map (fun x => x.2) =
        [{ limited := false, count := 1, limit := 3 }, { limited := false, count := 2, limit := 3 },
         { limited := false, count := 3, limit := 3 }, { limited := true, count := 4, limit := 3 }] ∧
      (checkRateLimit (rateLimitsAfter [] "u" "tickets" [0, 1, 2, 3600000]) "u" "tickets"
          3600001).1 = { limited := false, count := 1, limit := 3 } :=
  ⟨by decide, by decide, by decide, by decide,
    (checkRateLimit_window [] "u" "tickets" { limit := 3, window := 3600000 } 0 [1, 2, 3600000]
      3600001 (by decide) (by decide) (by decide) (by decide)).1,
    (checkRateLimit_window [] "u" "tickets" { limit := 3, window := 3600000 } 0 [1, 2, 3600000]
      3600001 (by decide) (by decide) (by decide) (by decide)).2.2⟩

theorem counterStarted_after_call (m : Dict RateLimitData) (u ty : String) (now : Nat)
    (s : RateLimitSetting) (hs : USER_RATE_LIMITS ty = some s) :
    CounterStarted (checkRateLimit m u ty now).2 (rateLimitKey u ty) := by
  have h := (checkRateLimit_spec m u ty now s hs).2
  unfold CounterStarted
  rw [h]
  simp only
  split <;> simp

theorem allowedBound_le_of_started (m : Dict RateLimitData) (key : String) (limit : Nat)
    (hl : 1 ≤ limit) (h : CounterStarted m key) : allowedBound m key limit ≤ 2 * limit - 1 := by
  unfold allowedBound
  unfold CounterStarted at h
  split
  · omega
  · rename_i d hd
    rw [hd] at h
    simp only at h
    omega

theorem allowedIn_any_started (u ty : String) (s : RateLimitSetting)
    (hs : USER_RATE_LIMITS ty = some s) (hl : 1 ≤ s.limit) (a : Nat) (ts : List Nat) :
    ∀ (m : Dict RateLimitData), CounterStarted m (rateLimitKey u ty) →
      ts.Pairwise (fun x y => x ≤ y) →
      allowedIn a (a + s.window) (rateLimitCalls m u ty ts) ≤ 2 * s.limit - 1 := by
  induction ts with
  | nil => intro m _ _; simp [rateLimitCalls, allowedIn]
  | cons t ts ih =>
    intro m hm hsorted
    have hsorted2 := hsorted
    rw [List.pairwise_cons] at hsorted2
    by_cases hat : a ≤ t
    · have hge : ∀ t' ∈ t :: ts, a ≤ t' := by
        intro t' ht'
        rcases List.mem_cons.mp ht' with h | h
        · omega
        · have := hsorted2.1 t' h; omega
      exact le_trans (allowedIn_from u ty s hs hl a (t :: ts) m hge hsorted)
        (allowedBound_le_of_started _ _ _ hl hm)
    · simp only [rateLimitCalls, allowedIn_cons]
      have := ih (checkRateLimit m u ty t).2 (counterStarted_after_call m u ty t s hs) hsorted2.2
      have hn : ¬ (a ≤ t ∧ t ≤ a + s.window ∧ (checkRateLimit m u ty t).1.limited = false) := by
        intro h; omega
      simp only [hn, if_false]
      omega

/-- Claim C8, counterexample. Three tickets calls are let through at the end of one
window and three more right after its reset time: the interval of one hour that starts
at `3599999` holds five calls that returned `limited = false`, more than three. -/
theorem rolling_hour_holds_five_allowed_calls :
    (rateLimitCalls [] "u" "tickets"
        [0, 3599999, 3600000, 3600001, 3600002, 3600003]).map (fun x => (x.1, x.2.limited)) =
        [(0, false), (3599999, false), (3600000, false), (3600001, false), (3600002, false),
         (3600003, false)] ∧
      allowedIn 3599999 (3599999 + 3600000)
        (rateLimitCalls [] "u" "tickets" [0, 3599999, 3600000, 3600001, 3600002, 3600003]) = 5 ∧
      ¬ (allowedIn 3599999 (3599999 + 3600000)
        (rateLimitCalls [] "u" "tickets" [0, 3599999, 3600000, 3600001, 3600002, 3600003]) ≤ 3) := by
  decide

/-- Claim C8, amended. The ticket limit of 3 is enforced per fixed window, not over a
rolling hour. For every user and every sequence of `checkRateLimit(user, "tickets")`
calls at non-decreasing times, starting with no counter for the user: every time
interval of length 3600000 ms contains at most 5 calls that return `limited = false`;
and whenever the counter of the user stands at `count` with reset time `resetTime`, at
most `3 - count` of the following calls made up to `resetTime` return
`limited = false`. -/
theorem tickets_limit_per_fixed_window (userId : String) (ts : List Nat)
    (hsorted : ts.Pairwise (fun x y => x ≤ y)) :
    (∀ (m : Dict RateLimitData) (a : Nat), m.get? (rateLimitKey userId "tickets") = none →
      allowedIn a (a + 3600000) (rateLimitCalls m userId "tickets" ts) ≤ 5) ∧
    (∀ (m : Dict RateLimitData) (a count resetTime : Nat),
      m.get? (rateLimitKey userId "tickets") = some { count := count, resetTime := resetTime } →
      allowedIn a resetTime (rateLimitCalls m userId "tickets" ts) ≤ 3 - count) := by
  have hs : USER_RATE_LIMITS "tickets" = some { limit := 3, window := 3600000 } := by decide
  constructor
  · intro m a hnew
    have hstart : CounterStarted m (rateLimitKey userId "tickets") := by
      unfold CounterStarted
      rw [hnew]
      trivial
    exact allowedIn_any_started userId "tickets" _ hs (by decide) a ts m hstart hsorted
  · intro m a count resetTime hm
    exact allowedIn_same_window userId "tickets" _ hs a resetTime ts m count resetTime hm
      (le_refl _) hsorted

theorem tickets_limit_per_fixed_window_witness :
    [0, 3599999, 3600000, 3600001, 3600002, 3600003].Pairwise (fun x y => x ≤ y) ∧
      Dict.get? ([] : Dict RateLimitData) (rateLimitKey "u" "tickets") = none ∧
      allowedIn 3599999 (3599999 + 3600000)
        (rateLimitCalls [] "u" "tickets" [0, 3599999, 3600000, 3600001, 3600002, 3600003]) ≤ 5 :=
  ⟨by decide, by decide,
    (tickets_limit_per_fixed_window "u" [0, 3599999, 3600000, 3600001, 3600002, 3600003]
      (by decide)).1 [] 3599999 (by decide)⟩

/-! ## Saving and loading the open tickets -/

theorem jsTime_toJSON_of_noDateObject (x : JsTime) (h : x.noDateObject = true) : x.toJSON = x := by
  cases x with
  | date ms => simp [JsTime.noDateObject] at h
  | isoString ms => rfl
  | null => rfl

theorem option_map_toJSON_of_all (x : Option JsTime) (h : x.all JsTime.noDateObject = true) :
    x.map JsTime.toJSON = x := by
  cases x with
  | none => rfl
  | some v =>
    simp only [Option.all_some] at h
    simp [jsTime_toJSON_of_noDateObject v h]

theorem ticket_jsonRoundTrip_of_hasNoDate (t : Ticket) (h : t.hasNoDate = true) :
    t.jsonRoundTrip = t := by
  simp only [Ticket.hasNoDate, Bool.and_eq_true] at h
  obtain ⟨⟨⟨⟨⟨h1, h2⟩, h3⟩, h4⟩, h5⟩, h6⟩ := h
  have hev : t.events.map (fun evs =>
      evs.map (fun ev => { ev with timestamp := ev.timestamp.toJSON })) = t.events := by
    cases hevs : t.events with
    | none => rfl
    | some evs =>
      rw [hevs] at h6
      simp only [Option.all_some, List.all_eq_true] at h6
      simp only [Option.map_some', Option.some.injEq]
      conv_rhs => rw [← List.map_id evs]
      apply List.map_congr_left
      intro ev hmem
      simp [jsTime_toJSON_of_noDateObject ev.timestamp (h6 ev hmem)]
  unfold Ticket.jsonRoundTrip
  rw [option_map_toJSON_of_all _ h1, option_map_toJSON_of_all _ h2,
    option_map_toJSON_of_all _ h3, option_map_toJSON_of_all _ h4,
    option_map_toJSON_of_all _ h5, hev]

/-- Claim C9, counterexample. The pending ticket that a DM creates holds a `Date` object
in `createdAt`; saved and loaded again it holds the ISO string of that instant, so the
loaded ticket is not equal to the original field by field. -/
theorem save_load_changes_date_fields :
    pendingTicket.createdAt = some (JsTime.date 10) ∧
      (loadTickets (saveTickets {} [pendingTicket] SaveFault.none false) false).1.map
        (fun t => t.createdAt) = [some (JsTime.isoString 10)] ∧
      (loadTickets (saveTickets {} [pendingTicket] SaveFault.none false) false).1
        ≠ [pendingTicket] := by
  decide

/-- Claim C9, amended. On a file store where the writes of `saveTickets` succeed,
`saveTickets(tickets)` followed by `loadTickets()` returns, for every set of open
tickets, the tickets with the same ids in the same order, each equal field by field to
the original ticket except that a field holding a `Date` object (`createdAt` and
`assignedAt` as the handlers set them) comes back as the ISO string of the same instant;
tickets without a `Date` object come back equal to the originals. -/
theorem save_then_load_round_trip (files : TicketFiles) (tickets : Registry)
    (restoreFails writeFails : Bool) :
    (loadTickets (saveTickets files tickets SaveFault.none restoreFails) writeFails).1
        = tickets.map Ticket.jsonRoundTrip ∧
      (loadTickets (saveTickets files tickets SaveFault.none restoreFails) writeFails).1.map
        (fun t => t.id) = tickets.map (fun t => t.id) ∧
      ((∀ t ∈ tickets, t.hasNoDate = true) →
        (loadTickets (saveTickets files tickets SaveFault.none restoreFails) writeFails).1
          = tickets) := by
  have hload : (loadTickets (saveTickets files tickets SaveFault.none restoreFails) writeFails).1
      = tickets.map Ticket.jsonRoundTrip := by
    cases hst : files.storage <;> simp [saveTickets, loadTickets, hst]
  refine ⟨hload, ?_, ?_⟩
  · rw [hload, List.map_map]
    rfl
  · intro h
    rw [hload]
    conv_rhs => rw [← List.map_id tickets]
    apply List.map_congr_left
    intro t ht
    exact ticket_jsonRoundTrip_of_hasNoDate t (h t ht)

theorem save_then_load_round_trip_witness :
    (∀ t ∈ [fullTicket, bareTicket], t.hasNoDate = true) ∧
      (loadTickets (saveTickets {} [fullTicket, bareTicket] SaveFault.none false) false).1
        = [fullTicket, bareTicket] :=
  ⟨by decide,
    (save_then_load_round_trip {} [fullTicket, bareTicket] false false).2.2 (by decide)⟩

/-! ## Loading with a missing or damaged storage file -/

/-- Claim C10, counterexample. The storage file is missing and the backup holds a valid
ticket list, but writing the storage file throws: `loadTickets` returns the empty list,
not the tickets of the backup, and the storage file is still missing. -/
theorem load_from_backup_lost_when_write_fails :
    loadTickets { backup := some (FileData.ticketList [bareTicket]) } true
      = ([], { backup := some (FileData.ticketList [bareTicket]) }) := by
  decide

/-- Claim C10, amended. When the storage file is absent or does not parse and the backup
holds a valid ticket list, `loadTickets` returns the tickets of the backup and
afterwards the content of the storage file equals the content of the backup, provided
the write of the storage file succeeds; when that write throws, `loadTickets` returns
the empty list and leaves the files as they were. When neither file is usable (absent or
not parsable), `loadTickets` returns the empty list. `loadTickets` never raises: it
returns a list in every case. -/
theorem loadTickets_recovers_from_backup (files : TicketFiles) (tickets : List Ticket)
    (text : String) :
    (files.storage = none ∨ files.storage = some (FileData.unparsable text) →
      files.backup = some (FileData.ticketList tickets) →
        ((loadTickets files false).1 = tickets ∧
          (loadTickets files false).2.storage = files.backup ∧
          (loadTickets files false).2.backup = files.backup) ∧
        loadTickets files true = ([], files)) ∧
    (∀ writeFails : Bool,
      (files.storage = none ∨ ∃ t, files.storage = some (FileData.unparsable t)) →
      (files.backup = none ∨ ∃ t, files.backup = some (FileData.unparsable t)) →
        loadTickets files writeFails = ([], files)) := by
  constructor
  · intro hst hb
    rcases hst with h | h <;> simp [loadTickets, h, hb]
  · intro writeFails hst hb
    rcases hst with h | ⟨t, h⟩ <;> rcases hb with h2 | ⟨t2, h2⟩ <;> simp [loadTickets, h, h2]

theorem loadTickets_recovers_from_backup_witness :
    (loadTickets { storage := some (FileData.unparsable "not json"),
                   backup := some (FileData.ticketList [bareTicket]) } false).1 = [bareTicket] ∧
      (loadTickets { storage := some (FileData.unparsable "not json"),
                     backup := some (FileData.ticketList [bareTicket]) } false).2.storage
        = some (FileData.ticketList [bareTicket]) ∧
      loadTickets { storage := some (FileData.unparsable "not json"), backup := none } false
        = ([], { storage := some (FileData.unparsable "not json"), backup := none }) :=
  ⟨((loadTickets_recovers_from_backup
        { storage := some (FileData.unparsable "not json"),
          backup := some (FileData.ticketList [bareTicket]) } [bareTicket] "not json").1
      (Or.inr rfl) rfl).1.1,
    ((loadTickets_recovers_from_backup
        { storage := some (FileData.unparsable "not json"),
          backup := some (FileData.ticketList [bareTicket]) } [bareTicket] "not json").1
      (Or.inr rfl) rfl).1.2.1,
    (loadTickets_recovers_from_backup
        { storage := some (FileData.unparsable "not json"), backup := none } [] "").2 false
      (Or.inr ⟨"not json", rfl⟩) (Or.inl rfl)⟩

/-! ## Integrity check of a loaded ticket -/

theorem splitDash_no_dash (n : List Char) (h : '-' ∉ n) : splitDash n = [n] := by
  induction n with
  | nil => rfl
  | cons c cs ih =>
    simp only [List.mem_cons, not_or] at h
    have hc : c ≠ '-' := fun e => h.1 e.symm
    simp [splitDash, hc, ih h.2]

theorem splitDash_ne_nil (s : List Char) : splitDash s ≠ [] := by
  induction s with
  | nil => simp [splitDash]
  | cons c cs ih =>
    simp only [splitDash]
    split
    · simp
    · split <;> simp

theorem splitDash_getLastD_append (g n : List Char) (h : '-' ∉ n) :
    (splitDash (g ++ '-' :: n)).getLastD [] = n := by
  have hlast : ∀ (l : List (List Char)), l ≠ [] → ∀ x : List Char,
      (x :: l).getLastD [] = l.getLastD [] := by
    intro l hl x
    cases l with
    | nil => exact absurd rfl hl
    | cons y ys => simp [List.getLastD]
  induction g with
  | nil =>
    simp only [List.nil_append, splitDash, if_true]
    rw [hlast _ (splitDash_ne_nil n), splitDash_no_dash n h]
    rfl
  | cons c cs ih =>
    simp only [List.cons_append, splitDash]
    split
    · rw [hlast _ (splitDash_ne_nil _)]
      exact ih
    · cases hsp : splitDash (cs ++ '-' :: n) with
      | nil => exact absurd hsp (splitDash_ne_nil _)
      | cons p ps =>
        rw [hsp] at ih
        simp only
        cases ps with
        | nil =>
          -- a single piece would contain the dash
          exfalso
          have hmem : '-' ∈ cs ++ '-' :: n := by simp
          have : ∀ (s : List Char) (q : List Char), splitDash s = [q] → '-' ∉ s := by
            intro s
            induction s with
            | nil => intro q _; simp
            | cons d ds ihd =>
              intro q hq
              simp only [splitDash] at hq
              split at hq
              · rename_i hd
                have := splitDash_ne_nil ds
                simp at hq
                exact absurd hq.2 this
              · rename_i hd
                cases hds : splitDash ds with
                | nil => exact absurd hds (splitDash_ne_nil _)
                | cons p2 ps2 =>
                  rw [hds] at hq
                  simp only [List.cons.injEq] at hq
                  rw [hq.2] at hds
                  have := ihd p2 hds
                  simp only [List.mem_cons, not_or]
                  exact ⟨fun e => hd e.symm, this⟩
          exact this _ p hsp hmem
        | cons p2 ps2 =>
          simp only [List.getLastD] at ih ⊢
          simpa using ih

theorem lastDashPart_template (guildId numericId : String) (h : '-' ∉ numericId.data) :
    lastDashPart (guildId ++ "-" ++ numericId) = numericId := by
  unfold lastDashPart
  have hd : (guildId ++ "-" ++ numericId).data = guildId.data ++ '-' :: numericId.data := by
    simp [String.data_append]
  rw [hd, splitDash_getLastD_append _ _ h]

/-- Claim C11. `verifyTicketIntegrity` returns `null` exactly when the ticket has no id
(an absent, `null` or empty id); otherwise it returns the ticket with the same id, with
the status unchanged when it is one of `pending`, `in_progress`, `closed` and set to
`in_progress` otherwise, with an existing `createdAt` and an existing `numericId`
unchanged, with a `createdAt` that is absent or `null` set to the current time, and with a
missing `numericId` set to the part of the id after its last dash, which for an id built
from a guild id, a dash and a dash-free numeric id (such as the ids `getNextTicketId`
returns) is that numeric id. -/
theorem verifyTicketIntegrity_repairs (t : Ticket) (now : Nat) :
    (verifyTicketIntegrity t now = none ↔ (t.id = none ∨ t.id = some "")) ∧
    (∀ t2, verifyTicketIntegrity t now = some t2 →
      t2.id = t.id ∧
      (t.status = some "pending" ∨ t.status = some "in_progress" ∨ t.status = some "closed" →
        t2.status = t.status) ∧
      (¬ (t.status = some "pending" ∨ t.status = some "in_progress" ∨ t.status = some "closed") →
        t2.status = some "in_progress") ∧
      (truthyTime t.createdAt = true → t2.createdAt = t.createdAt) ∧
      (truthyTime t.createdAt = false → t2.createdAt = some (JsTime.isoString now)) ∧
      (truthy t.numericId = true → t2.numericId = t.numericId) ∧
      (truthy t.numericId = false → t2.numericId = t.id.map lastDashPart)) ∧
    (∀ guildId numericId : String, '-' ∉ numericId.data →
      lastDashPart (guildId ++ "-" ++ numericId) = numericId) ∧
    (∀ (guildId : String) (n : Nat),
      lastDashPart (guildId ++ "-" ++ padStart 4 '0' (Nat.repr n)) = padStart 4 '0' (Nat.repr n)) := by
  have hst : ∀ x : Ticket, (repairStatus x).id = x.id ∧ (repairStatus x).createdAt = x.createdAt
      ∧ (repairStatus x).numericId = x.numericId := by
    intro x; unfold repairStatus; split <;> exact ⟨rfl, rfl, rfl⟩
  have hcr : ∀ x : Ticket, (repairCreatedAt now x).id = x.id
      ∧ (repairCreatedAt now x).status = x.status
      ∧ (repairCreatedAt now x).numericId = x.numericId
      ∧ (truthyTime x.createdAt = true → (repairCreatedAt now x).createdAt = x.createdAt)
      ∧ (truthyTime x.createdAt = false →
          (repairCreatedAt now x).createdAt = some (JsTime.isoString now)) := by
    intro x; unfold repairCreatedAt
    split
    · rename_i h
      refine ⟨rfl, rfl, rfl, fun h2 => ?_, fun _ => rfl⟩
      rw [h2] at h; simp at h
    · rename_i h
      refine ⟨rfl, rfl, rfl, fun _ => rfl, fun h2 => ?_⟩
      rw [h2] at h; simp at h
  have hnu : ∀ x : Ticket, (repairNumericId x).id = x.id
      ∧ (repairNumericId x).status = x.status
      ∧ (repairNumericId x).createdAt = x.createdAt
      ∧ (truthy x.numericId = true → (repairNumericId x).numericId = x.numericId)
      ∧ (truthy x.numericId = false → (repairNumericId x).numericId = x.id.map lastDashPart) := by
    intro x; unfold repairNumericId
    split
    · rename_i h
      refine ⟨rfl, rfl, rfl, fun h2 => ?_, fun _ => rfl⟩
      rw [h2] at h; simp at h
    · rename_i h
      refine ⟨rfl, rfl, rfl, fun _ => rfl, fun h2 => ?_⟩
      rw [h2] at h; simp at h
  refine ⟨?_, ?_, lastDashPart_template, fun g n =>
    lastDashPart_template g _ (padStart_repr_no_dash n)⟩
  · unfold verifyTicketIntegrity
    cases hid : t.id with
    | none => simp [truthy]
    | some s => by_cases hs : s = "" <;> simp [truthy, hs]
  · intro t2 h
    unfold verifyTicketIntegrity at h
    split at h
    · cases h
    · simp only [Option.some.injEq] at h
      subst h
      obtain ⟨n1, n2, n3, n4, n5⟩ := hnu (repairCreatedAt now (repairStatus t))
      obtain ⟨c1, c2, c3, c4, c5⟩ := hcr (repairStatus t)
      obtain ⟨s1, s2, s3⟩ := hst t
      refine ⟨by rw [n1, c1, s1], ?_, ?_, ?_, ?_, ?_, ?_⟩
      · intro hs
        rw [n2, c2]
        unfold repairStatus
        have hvalid : (!truthy t.status ||
            !(["pending", "in_progress", "closed"].map some).contains t.status) = false := by
          rcases hs with h | h | h <;> simp [h, truthy]
        simp only [hvalid, Bool.false_eq_true, if_false]
      · intro hs
        rw [n2, c2]
        unfold repairStatus
        have hinvalid : (!truthy t.status ||
            !(["pending", "in_progress", "closed"].map some).contains t.status) = true := by
          simp only [not_or] at hs
          obtain ⟨h1, h2, h3⟩ := hs
          cases hstat : t.status with
          | none => rfl
          | some s =>
            rw [hstat] at h1 h2 h3
            simp only [Option.some.injEq] at h1 h2 h3
            have h1b : ¬ "pending" = s := fun e => h1 e.symm
            have h2b : ¬ "in_progress" = s := fun e => h2 e.symm
            have h3b : ¬ "closed" = s := fun e => h3 e.symm
            simp [h1, h2, h3, h1b, h2b, h3b]
        simp only [hinvalid, if_true]
      · intro hc
        rw [n3, c4 (by rw [s2]; exact hc), s2]
      · intro hc
        rw [n3, c5 (by rw [s2]; exact hc)]
      · intro hn
        rw [n4 (by rw [c3, s3]; exact hn), c3, s3]
      · intro hn
        rw [n5 (by rw [c3, s3]; exact hn), c1, s1]

theorem verifyTicketIntegrity_repairs_witness :
    verifyTicketIntegrity damagedTicket 5 = some repairedTicket ∧
      verifyTicketIntegrity { userId := some "u" } 5 = none ∧
      (repairedTicket.id = damagedTicket.id ∧
        (damagedTicket.status = some "pending" ∨ damagedTicket.status = some "in_progress" ∨
            damagedTicket.status = some "closed" → repairedTicket.status = damagedTicket.status) ∧
        (¬ (damagedTicket.status = some "pending" ∨ damagedTicket.status = some "in_progress" ∨
            damagedTicket.status = some "closed") → repairedTicket.status = some "in_progress") ∧
        (truthyTime damagedTicket.createdAt = true →
          repairedTicket.createdAt = damagedTicket.createdAt) ∧
        (truthyTime damagedTicket.createdAt = false →
          repairedTicket.createdAt = some (JsTime.isoString 5)) ∧
        (truthy damagedTicket.numericId = true →
          repairedTicket.numericId = damagedTicket.numericId) ∧
        (truthy damagedTicket.numericId = false →
          repairedTicket.numericId = damagedTicket.id.map lastDashPart)) :=
  ⟨by decide, by decide,
    (verifyTicketIntegrity_repairs damagedTicket 5).2.1 repairedTicket (by decide)⟩

/-! ## Lemmas on histogram counters and on the rollups of `addTicket` -/

theorem counterValue_set (d : Dict Nat) (k k2 : String) (v : Nat) :
    counterValue (d.set k v) k2 = if k = k2 then v else counterValue d k2 := by
  unfold counterValue
  by_cases h : k = k2
  · subst h
    simp [dict_get_set_self]
  · simp [dict_get_set_other _ _ _ _ h, h]

theorem counterValue_bump (d : Dict Nat) (k k2 : String) :
    counterValue (d.bump k) k2 = counterValue d k2 + (if k = k2 then 1 else 0) := by
  unfold Dict.bump
  rw [counterValue_set]
  by_cases h : k = k2
  · subst h
    simp
  · simp [h]

theorem counterValue_foldl_bump (tags : List String) (d : Dict Nat) (k : String) :
    counterValue (tags.foldl Dict.bump d) k = counterValue d k + tags.count k := by
  induction tags generalizing d with
  | nil => simp
  | cons t ts ih =>
    rw [List.foldl_cons, ih, counterValue_bump, List.count_cons]
    by_cases h : t = k
    · subst h
      simp
      omega
    · simp [h]

theorem counterValue_nil (k : String) : counterValue [] k = 0 := rfl

theorem counterValue_category (d : Dict Nat) (cat : Option String) (c : String) :
    counterValue (if truthy cat then d.bump (jsKey cat) else d) c =
      counterValue d c + (if orNull cat = some c then 1 else 0) := by
  unfold orNull
  by_cases ht : truthy cat = true
  · simp only [ht, if_true]
    rw [counterValue_bump]
    cases hc : cat with
    | none => rw [hc] at ht; simp [truthy] at ht
    | some s => simp [jsKey]
  · simp [ht]

theorem addTicket_stats (h : History) (t : Ticket) (m : List DiscordMessage) (now : Nat) :
    (addTicket h t m now).2.stats.totalTickets = h.stats.totalTickets + 1 ∧
      (addTicket h t m now).2.stats.closedTickets = h.stats.closedTickets + 1 ∧
      (∀ c, counterValue (addTicket h t m now).2.stats.categoryCounts c =
        counterValue h.stats.categoryCounts c +
          (if (addTicket h t m now).1.category = some c then 1 else 0)) ∧
      (∀ tag, counterValue (addTicket h t m now).2.stats.tagCounts tag =
        counterValue h.stats.tagCounts tag + (addTicket h t m now).1.tags.count tag) := by
  refine ⟨rfl, rfl, ?_, ?_⟩
  · intro c
    exact counterValue_category _ _ _
  · intro tag
    show counterValue ((t.tags.getD []).foldl Dict.bump h.stats.tagCounts) tag = _
    rw [counterValue_foldl_bump]
    rfl

theorem addTicket_users (h : History) (t : Ticket) (m : List DiscordMessage) (now : Nat) :
    ∃ uh : UserHistory,
      (addTicket h t m now).2.users = h.users.set (jsKey t.userId) uh ∧
      uh.totalTickets = (h.userRollup (jsKey t.userId)).totalTickets + 1 ∧
      (∀ c, counterValue uh.categories c =
        counterValue (h.userRollup (jsKey t.userId)).categories c +
          (if orNull t.category = some c then 1 else 0)) ∧
      (∀ tag, counterValue uh.tags tag =
        counterValue (h.userRollup (jsKey t.userId)).tags tag + (t.tags.getD []).count tag) := by
  refine ⟨_, rfl, rfl, ?_, ?_⟩
  · intro c
    exact counterValue_category _ _ _
  · intro tag
    exact counterValue_foldl_bump _ _ _

theorem addTicket_userRollup (h : History) (t : Ticket) (m : List DiscordMessage) (now : Nat)
    (u : String) :
    ((addTicket h t m now).2.userRollup u).totalTickets =
        (h.userRollup u).totalTickets + (if jsKey t.userId = u then 1 else 0) ∧
      (∀ c, counterValue ((addTicket h t m now).2.userRollup u).categories c =
        counterValue (h.userRollup u).categories c +
          (if jsKey t.userId = u ∧ orNull t.category = some c then 1 else 0)) ∧
      (∀ tag, counterValue ((addTicket h t m now).2.userRollup u).tags tag =
        counterValue (h.userRollup u).tags tag +
          (if jsKey t.userId = u then (t.tags.getD []).count tag else 0)) := by
  obtain ⟨uh, hset, htot, hcat, htag⟩ := addTicket_users h t m now
  by_cases hk : jsKey t.userId = u
  · subst hk
    have hget : (addTicket h t m now).2.userRollup (jsKey t.userId) = uh := by
      unfold History.userRollup
      rw [hset, dict_get_set_self]
      rfl
    rw [hget]
    refine ⟨by simp [htot], ?_, ?_⟩
    · intro c
      rw [hcat c]
      simp
    · intro tag
      rw [htag tag]
      simp
  · have hget : (addTicket h t m now).2.userRollup u = h.userRollup u := by
      unfold History.userRollup
      rw [hset, dict_get_set_other _ _ _ _ hk]
    rw [hget]
    simp [hk]

theorem addTicket_servers (h : History) (t : Ticket) (m : List DiscordMessage) (now : Nat) :
    ∃ sh : ServerHistory,
      (addTicket h t m now).2.servers = h.servers.set (jsKey t.guildId) sh ∧
      sh.totalTickets = (h.serverRollup (jsKey t.guildId)).totalTickets + 1 ∧
      sh.closedTickets = (h.serverRollup (jsKey t.guildId)).closedTickets + 1 ∧
      (∀ c, counterValue sh.categories c =
        counterValue (h.serverRollup (jsKey t.guildId)).categories c +
          (if orNull t.category = some c then 1 else 0)) ∧
      (∀ tag, counterValue sh.tags tag =
        counterValue (h.serverRollup (jsKey t.guildId)).tags tag + (t.tags.getD []).count tag) ∧
      (∀ s, (sh.staffRollup s).totalTickets =
        ((h.serverRollup (jsKey t.guildId)).staffRollup s).totalTickets +
          (if orNull t.assignedTo = some s then 1 else 0)) := by
  refine ⟨_, rfl, rfl, rfl, ?_, ?_, ?_⟩
  · intro c
    exact counterValue_category _ _ _
  · intro tag
    exact counterValue_foldl_bump _ _ _
  · intro s
    unfold ServerHistory.staffRollup orNull
    by_cases ht : truthy t.assignedTo = true
    · simp only [ht, if_true]
      by_cases hk : jsKey t.assignedTo = s
      · subst hk
        rw [dict_get_set_self]
        cases ha : t.assignedTo with
        | none => rw [ha] at ht; simp [truthy] at ht
        | some a =>
          simp [jsKey, History.serverRollup, ServerHistory.staffRollup]
      · rw [dict_get_set_other _ _ _ _ hk]
        cases ha : t.assignedTo with
        | none => rw [ha] at ht; simp [truthy] at ht
        | some a =>
          rw [ha] at hk
          have hk2 : ¬ a = s := hk
          simp [History.serverRollup, hk2]
    · simp only [ht]
      simp [History.serverRollup]

theorem addTicket_serverRollup (h : History) (t : Ticket) (m : List DiscordMessage) (now : Nat)
    (g : String) :
    ((addTicket h t m now).2.serverRollup g).totalTickets =
        (h.serverRollup g).totalTickets + (if jsKey t.guildId = g then 1 else 0) ∧
      ((addTicket h t m now).2.serverRollup g).closedTickets =
        (h.serverRollup g).closedTickets + (if jsKey t.guildId = g then 1 else 0) ∧
      (∀ c, counterValue ((addTicket h t m now).2.serverRollup g).categories c =
        counterValue (h.serverRollup g).categories c +
          (if jsKey t.guildId = g ∧ orNull t.category = some c then 1 else 0)) ∧
      (∀ tag, counterValue ((addTicket h t m now).2.serverRollup g).tags tag =
        counterValue (h.serverRollup g).tags tag +
          (if jsKey t.guildId = g then (t.tags.getD []).count tag else 0)) ∧
      (∀ s, (((addTicket h t m now).2.serverRollup g).staffRollup s).totalTickets =
        ((h.serverRollup g).staffRollup s).totalTickets +
          (if jsKey t.guildId = g ∧ orNull t.assignedTo = some s then 1 else 0)) := by
  obtain ⟨sh, hset, htot, hclosed, hcat, htag, hstaff⟩ := addTicket_servers h t m now
  by_cases hk : jsKey t.guildId = g
  · subst hk
    have hget : (addTicket h t m now).2.serverRollup (jsKey t.guildId) = sh := by
      unfold History.serverRollup
      rw [hset, dict_get_set_self]
      rfl
    rw [hget]
    refine ⟨by simp [htot], by simp [hclosed], ?_, ?_, ?_⟩
    · intro c
      rw [hcat c]
      simp
    · intro tag
      rw [htag tag]
      simp
    · intro s
      rw [hstaff s]
      simp
  · have hget : (addTicket h t m now).2.serverRollup g = h.serverRollup g := by
      unfold History.serverRollup
      rw [hset, dict_get_set_other _ _ _ _ hk]
    rw [hget]
    simp [hk]

theorem recountRecords_append (p : TicketRecord → Bool) (l : List TicketRecord)
    (r : TicketRecord) :
    recountRecords p (l ++ [r]) = recountRecords p l + (if p r = true then 1 else 0) := by
  unfold recountRecords
  rw [List.countP_append, List.countP_cons, List.countP_nil]
  simp

theorem recountOccurrences_append (tag : String) (p : TicketRecord → Bool)
    (l : List TicketRecord) (r : TicketRecord) :
    recountOccurrences tag p (l ++ [r]) =
      recountOccurrences tag p l + (if p r = true then r.tags.count tag else 0) := by
  unfold recountOccurrences
  rw [List.filter_append, List.map_append, List.sum_append]
  by_cases h : p r = true
  · simp [List.filter_cons, h]
  · simp [List.filter_cons, h]

theorem recountOccurrences_eq_carrying (tag : String) (p : TicketRecord → Bool)
    (l : List TicketRecord) (hnodup : ∀ r ∈ l, r.tags.Nodup) :
    recountOccurrences tag p l = recountCarrying tag p l := by
  induction l with
  | nil => rfl
  | cons r rs ih =>
    have ih2 := ih (fun x hx => hnodup x (List.mem_cons_of_mem _ hx))
    unfold recountOccurrences recountCarrying at ih2 ⊢
    have hr : r.tags.Nodup := hnodup r (List.mem_cons_self _ _)
    rw [List.countP_cons, ← ih2]
    by_cases h : p r = true
    · rw [List.filter_cons_of_pos h, List.map_cons, List.sum_cons, List.count_eq_of_nodup hr]
      by_cases hm : tag ∈ r.tags
      · simp [h, hm]
        omega
      · simp [h, hm]
    · rw [List.filter_cons_of_neg h]
      simp [h]

theorem rollupsRecounted_empty : RollupsRecounted {} := by
  constructor <;> intros <;> rfl

theorem rollupsRecounted_addTicket (h : History) (t : Ticket) (m : List DiscordMessage)
    (now : Nat) (inv : RollupsRecounted h) : RollupsRecounted (addTicket h t m now).2 := by
  have htk : (addTicket h t m now).2.tickets = h.tickets ++ [(addTicket h t m now).1] := rfl
  have huid : (addTicket h t m now).1.userId = t.userId := rfl
  have hgid : (addTicket h t m now).1.guildId = t.guildId := rfl
  have hcat : (addTicket h t m now).1.category = orNull t.category := rfl
  have htags : (addTicket h t m now).1.tags = t.tags.getD [] := rfl
  have hasg : (addTicket h t m now).1.assignedTo = orNull t.assignedTo := rfl
  obtain ⟨s1, s2, s3, s4⟩ := addTicket_stats h t m now
  constructor
  · rw [htk, s1, inv.total]; simp
  · rw [htk, s2, inv.closed]; simp
  · intro c
    rw [htk, s3, recountRecords_append, inv.statsCategory]
    simp
  · intro tag
    rw [htk, s4, recountOccurrences_append, inv.statsTag]
    simp
  · intro u
    rw [htk, (addTicket_userRollup h t m now u).1, recountRecords_append, inv.user, huid]
    simp
  · intro u c
    rw [htk, (addTicket_userRollup h t m now u).2.1, recountRecords_append, inv.userCategory,
      huid, hcat]
    simp
  · intro u tag
    rw [htk, (addTicket_userRollup h t m now u).2.2, recountOccurrences_append, inv.userTag,
      huid, htags]
    simp
  · intro g
    rw [htk, (addTicket_serverRollup h t m now g).1, recountRecords_append, inv.server, hgid]
    simp
  · intro g
    rw [htk, (addTicket_serverRollup h t m now g).2.1, recountRecords_append, inv.serverClosed,
      hgid]
    simp
  · intro g c
    rw [htk, (addTicket_serverRollup h t m now g).2.2.1, recountRecords_append,
      inv.serverCategory, hgid, hcat]
    simp
  · intro g tag
    rw [htk, (addTicket_serverRollup h t m now g).2.2.2.1, recountOccurrences_append,
      inv.serverTag, hgid, htags]
    simp
  · intro g s
    rw [htk, (addTicket_serverRollup h t m now g).2.2.2.2, recountRecords_append, inv.staff,
      hgid, hasg]
    simp

theorem rollupsRecounted_addTickets (calls : List AddCall) (h : History)
    (inv : RollupsRecounted h) : RollupsRecounted (addTickets h calls) := by
  induction calls generalizing h with
  | nil => exact inv
  | cons c cs ih => exact ih _ (rollupsRecounted_addTicket h c.ticket c.messages c.now inv)

theorem addTickets_tags_nodup (calls : List AddCall) (h : History)
    (hh : ∀ r ∈ h.tickets, r.tags.Nodup)
    (hnodup : ∀ c ∈ calls, (c.ticket.tags.getD []).Nodup) :
    ∀ r ∈ (addTickets h calls).tickets, r.tags.Nodup := by
  induction calls generalizing h with
  | nil => exact hh
  | cons c cs ih =>
    refine ih _ ?_ (fun x hx => hnodup x (List.mem_cons_of_mem _ hx))
    intro r hr
    have htk : (addTicket h c.ticket c.messages c.now).2.tickets =
        h.tickets ++ [(addTicket h c.ticket c.messages c.now).1] := rfl
    rw [htk, List.mem_append, List.mem_singleton] at hr
    rcases hr with hr | hr
    · exact hh r hr
    · rw [hr]
      exact hnodup c (List.mem_cons_self _ _)

theorem addTickets_length (calls : List AddCall) (h : History) :
    (addTickets h calls).tickets.length = h.tickets.length + calls.length := by
  induction calls generalizing h with
  | nil => rfl
  | cons c cs ih =>
    rw [addTickets, ih]
    have htk : (addTicket h c.ticket c.messages c.now).2.tickets =
        h.tickets ++ [(addTicket h c.ticket c.messages c.now).1] := rfl
    rw [htk]
    simp
    omega

/-! ## C12: the rollups of the history equal their recount -/

/-- Claim C12. Starting from the empty history, after every sequence of `addTicket` calls
(on tickets whose tag lists hold no tag twice, as the data model requires) every maintained
rollup equals the value recomputed from the record list: there is one record per call,
`stats.totalTickets` and `stats.closedTickets` are the number of records; for every user
key `u`, `users[u].totalTickets` is the number of records whose `userId` is `u`; for every
guild key `g`, `servers[g].totalTickets` (and `closedTickets`) is the number of records
whose `guildId` is `g`; for every guild and staff id, `servers[g].staff[s].totalTickets`
is the number of records of the guild with `assignedTo = s`; every entry of the global,
per-user and per-guild category histograms is the number of matching records with that
category, and every entry of the three tag histograms is the number of matching records
carrying that tag. A rollup or a histogram entry that does not exist reads as zero, and a
record without `userId` or `guildId` is counted under the key `undefined`, where the code
files it. -/
theorem rollups_equal_recount (calls : List AddCall)
    (hnodup : ∀ c ∈ calls, (c.ticket.tags.getD []).Nodup) :
    (addTickets {} calls).tickets.length = calls.length ∧
      (addTickets {} calls).stats.totalTickets = (addTickets {} calls).tickets.length ∧
      (addTickets {} calls).stats.closedTickets = (addTickets {} calls).tickets.length ∧
      (∀ u, ((addTickets {} calls).userRollup u).totalTickets =
        recountRecords (fun r => jsKey r.userId == u) (addTickets {} calls).tickets) ∧
      (∀ g, ((addTickets {} calls).serverRollup g).totalTickets =
          recountRecords (fun r => jsKey r.guildId == g) (addTickets {} calls).tickets ∧
        ((addTickets {} calls).serverRollup g).closedTickets =
          recountRecords (fun r => jsKey r.guildId == g) (addTickets {} calls).tickets) ∧
      (∀ g s, (((addTickets {} calls).serverRollup g).staffRollup s).totalTickets =
        recountRecords (fun r => jsKey r.guildId == g && r.assignedTo == some s)
          (addTickets {} calls).tickets) ∧
      (∀ c, counterValue (addTickets {} calls).stats.categoryCounts c =
        recountRecords (fun r => r.category == some c) (addTickets {} calls).tickets) ∧
      (∀ u c, counterValue ((addTickets {} calls).userRollup u).categories c =
        recountRecords (fun r => jsKey r.userId == u && r.category == some c)
          (addTickets {} calls).tickets) ∧
      (∀ g c, counterValue ((addTickets {} calls).serverRollup g).categories c =
        recountRecords (fun r => jsKey r.guildId == g && r.category == some c)
          (addTickets {} calls).tickets) ∧
      (∀ tag, counterValue (addTickets {} calls).stats.tagCounts tag =
        recountCarrying tag (fun _ => true) (addTickets {} calls).tickets) ∧
      (∀ u tag, counterValue ((addTickets {} calls).userRollup u).tags tag =
        recountCarrying tag (fun r => jsKey r.userId == u) (addTickets {} calls).tickets) ∧
      (∀ g tag, counterValue ((addTickets {} calls).serverRollup g).tags tag =
        recountCarrying tag (fun r => jsKey r.guildId == g) (addTickets {} calls).tickets) := by
  have inv := rollupsRecounted_addTickets calls {} rollupsRecounted_empty
  have hnd := addTickets_tags_nodup calls {} (fun r hr => by cases hr) hnodup
  have hlen := addTickets_length calls {}
  refine ⟨?_, inv.total, inv.closed, inv.user, fun g => ⟨inv.server g, inv.serverClosed g⟩,
    inv.staff, inv.statsCategory, inv.userCategory, inv.serverCategory, ?_, ?_, ?_⟩
  · rw [hlen]
    show 0 + calls.length = calls.length
    omega
  · intro tag
    rw [inv.statsTag, recountOccurrences_eq_carrying _ _ _ hnd]
  · intro u tag
    rw [inv.userTag, recountOccurrences_eq_carrying _ _ _ hnd]
  · intro g tag
    rw [inv.serverTag, recountOccurrences_eq_carrying _ _ _ hnd]

theorem rollups_equal_recount_witness :
    (∀ c ∈ threeArchived, (c.ticket.tags.getD []).Nodup) ∧
      (addTickets {} threeArchived).tickets.length = 3 ∧
      ((addTickets {} threeArchived).userRollup "v").totalTickets = 2 ∧
      (((addTickets {} threeArchived).serverRollup "g").staffRollup "s").totalTickets = 2 ∧
      counterValue (addTickets {} threeArchived).stats.tagCounts "bug" = 2 ∧
      recountCarrying "bug" (fun _ => true) (addTickets {} threeArchived).tickets = 2 ∧
      counterValue ((addTickets {} threeArchived).serverRollup "g").categories "tech" =
        recountRecords (fun r => jsKey r.guildId == "g" && r.category == some "tech")
          (addTickets {} threeArchived).tickets :=
  ⟨by decide, (rollups_equal_recount threeArchived (by decide)).1, by decide, by decide,
    by decide, by decide,
    (rollups_equal_recount threeArchived (by decide)).2.2.2.2.2.2.2.2.1 "g" "tech"⟩

/-! ## Lemmas on `updateTicket` -/

theorem dict_get_set_isSome {α : Type} (d : Dict α) (k k2 : String) (v : α)
    (h : (d.get? k2).isSome = true) : ((d.set k v).get? k2).isSome = true := by
  by_cases hk : k = k2
  · subst hk
    rw [dict_get_set_self]
    rfl
  · rw [dict_get_set_other _ _ _ _ hk]
    exact h

theorem rateUser_isSome (users : Dict UserHistory) (key k2 : String) (r : Nat)
    (h : (users.get? k2).isSome = true) : ((rateUser users key r).get? k2).isSome = true := by
  unfold rateUser
  cases hget : users.get? key with
  | none => exact h
  | some uh => exact dict_get_set_isSome _ _ _ _ h

theorem rateUser_found (users : Dict UserHistory) (key : String) (r : Nat) (uh : UserHistory)
    (h : users.get? key = some uh) :
    (rateUser users key r).get? key = some (uh.addRating r) := by
  unfold rateUser
  rw [h]
  exact dict_get_set_self _ _ _

theorem rateStaff_kept (servers : Dict ServerHistory) (g s g2 s2 : String) (r : Nat)
    (h : ∃ sh, servers.get? g2 = some sh ∧ (sh.staff.get? s2).isSome = true) :
    ∃ sh, (rateStaff servers g s r).get? g2 = some sh ∧ (sh.staff.get? s2).isSome = true := by
  unfold rateStaff
  cases hget : servers.get? g with
  | none => exact h
  | some sh0 =>
    dsimp only
    cases hst : sh0.staff.get? s with
    | none => exact h
    | some st0 =>
      dsimp only
      by_cases hk : g = g2
      · subst hk
        obtain ⟨sh, h1, h2⟩ := h
        rw [hget] at h1
        cases h1
        exact ⟨_, dict_get_set_self _ _ _, dict_get_set_isSome _ _ _ _ h2⟩
      · obtain ⟨sh, h1, h2⟩ := h
        exact ⟨sh, by rw [dict_get_set_other _ _ _ _ hk]; exact h1, h2⟩

theorem rateStaff_found (servers : Dict ServerHistory) (g s : String) (r : Nat)
    (sh : ServerHistory) (st : StaffHistory) (h1 : servers.get? g = some sh)
    (h2 : sh.staff.get? s = some st) :
    ∃ sh2, (rateStaff servers g s r).get? g = some sh2 ∧
      sh2.staff.get? s = some (st.addRating r) := by
  unfold rateStaff
  rw [h1]
  simp only [h2]
  exact ⟨_, dict_get_set_self _ _ _, dict_get_set_self _ _ _⟩

theorem truthyRating_rating (r : Nat) :
    truthyRating { satisfactionRating := some (some r) } = if r = 0 then none else some r := by
  cases r <;> rfl

theorem mem_replaceFirst {α : Type} (p : α → Bool) (new x : α) (l : List α)
    (h : x ∈ replaceFirst p new l) : x = new ∨ x ∈ l := by
  induction l with
  | nil => cases h
  | cons a l ih =>
    unfold replaceFirst at h
    by_cases hp : p a = true
    · rw [if_pos hp] at h
      rcases List.mem_cons.mp h with h | h
      · exact Or.inl h
      · exact Or.inr (List.mem_cons_of_mem _ h)
    · rw [if_neg hp] at h
      rcases List.mem_cons.mp h with h | h
      · exact Or.inr (h ▸ List.mem_cons_self _ _)
      · rcases ih h with h | h
        · exact Or.inl h
        · exact Or.inr (List.mem_cons_of_mem _ h)

theorem find_replaceFirst {α : Type} (p : α → Bool) (new old : α) (l : List α)
    (hnew : p new = true) (h : l.find? p = some old) :
    (replaceFirst p new l).find? p = some new := by
  induction l with
  | nil => cases h
  | cons a l ih =>
    unfold replaceFirst
    by_cases hp : p a = true
    · rw [if_pos hp]
      simp [List.find?, hnew]
    · rw [if_neg hp]
      have hp2 : p a = false := by simpa using hp
      rw [List.find?, hp2] at h
      rw [List.find?, hp2]
      exact ih h

theorem replaceFirst_split {α : Type} (p : α → Bool) (new old : α) (l : List α)
    (h : l.find? p = some old) :
    ∃ pre post, l = pre ++ old :: post ∧ replaceFirst p new l = pre ++ new :: post ∧
      ∀ x ∈ pre, p x = false := by
  induction l with
  | nil => cases h
  | cons a l ih =>
    unfold replaceFirst
    by_cases hp : p a = true
    · rw [if_pos hp]
      rw [List.find?, hp] at h
      cases h
      exact ⟨[], l, rfl, rfl, fun x hx => by cases hx⟩
    · rw [if_neg hp]
      have hp2 : p a = false := by simpa using hp
      rw [List.find?, hp2] at h
      obtain ⟨pre, post, h1, h2, h3⟩ := ih h
      refine ⟨a :: pre, post, by rw [h1]; rfl, by rw [h2]; rfl, ?_⟩
      intro x hx
      rcases List.mem_cons.mp hx with hx | hx
      · rw [hx]; exact hp2
      · exact h3 x hx

theorem replaceFirst_none {α : Type} (p : α → Bool) (new : α) (l : List α)
    (h : l.find? p = none) : replaceFirst p new l = l := by
  induction l with
  | nil => rfl
  | cons a l ih =>
    unfold replaceFirst
    by_cases hp : p a = true
    · rw [List.find?, hp] at h
      cases h
    · rw [if_neg hp]
      have hp2 : p a = false := by simpa using hp
      rw [List.find?, hp2] at h
      rw [ih h]

theorem updateTicket_not_found (h : History) (ticketId : String) (updates : RecordUpdates)
    (hfind : h.tickets.find? (fun t => t.id == some ticketId) = none) :
    updateTicket h ticketId updates = (none, h) := by
  unfold updateTicket
  rw [hfind]

theorem updateTicket_found (h : History) (ticketId : String) (updates : RecordUpdates)
    (rec : TicketRecord)
    (hfind : h.tickets.find? (fun t => t.id == some ticketId) = some rec) :
    (updateTicket h ticketId updates).1 = some (applyUpdates rec updates) ∧
      (updateTicket h ticketId updates).2.tickets =
        replaceFirst (fun t => t.id == some ticketId) (applyUpdates rec updates) h.tickets ∧
      (updateTicket h ticketId updates).2.stats = h.stats ∧
      (updateTicket h ticketId updates).2.users =
        (match (if truthy rec.userId then truthyRating updates else none) with
          | some r => rateUser h.users (jsKey rec.userId) r
          | none => h.users) ∧
      (updateTicket h ticketId updates).2.servers =
        (match (if truthy rec.userId then truthyRating updates else none) with
          | some r =>
            if truthy rec.assignedTo && truthy rec.guildId then
              rateStaff h.servers (jsKey rec.guildId) (jsKey rec.assignedTo) r
            else h.servers
          | none => h.servers) := by
  unfold updateTicket
  rw [hfind]
  exact ⟨rfl, rfl, rfl, rfl, rfl⟩

theorem orNull_some (x : Option String) (s : String) (h : orNull x = some s) :
    x = some s ∧ s ≠ "" ∧ truthy x = true := by
  unfold orNull at h
  by_cases ht : truthy x = true
  · rw [if_pos ht] at h
    subst h
    refine ⟨rfl, ?_, ht⟩
    intro hs
    subst hs
    simp [truthy] at ht
  · rw [if_neg ht] at h
    cases h

theorem addTicket_servers_staff (h : History) (t : Ticket) (m : List DiscordMessage)
    (now : Nat) :
    ∃ sh : ServerHistory,
      (addTicket h t m now).2.servers = h.servers.set (jsKey t.guildId) sh ∧
      (∀ s, ((h.serverRollup (jsKey t.guildId)).staff.get? s).isSome = true →
        (sh.staff.get? s).isSome = true) ∧
      (∀ s, orNull t.assignedTo = some s → (sh.staff.get? s).isSome = true) := by
  refine ⟨_, rfl, ?_, ?_⟩
  · intro s hs
    show ((if truthy t.assignedTo then _ else _ : Dict StaffHistory).get? s).isSome = true
    by_cases ht : truthy t.assignedTo = true
    · rw [if_pos ht]
      exact dict_get_set_isSome _ _ _ _ hs
    · rw [if_neg ht]
      exact hs
  · intro s hs
    obtain ⟨hx, _, ht⟩ := orNull_some _ _ hs
    show ((if truthy t.assignedTo then _ else _ : Dict StaffHistory).get? s).isSome = true
    rw [if_pos ht, hx]
    show ((Dict.set _ s _).get? s).isSome = true
    rw [dict_get_set_self]
    rfl

theorem rollupsPresent_empty : RollupsPresent {} :=
  ⟨fun r hr => (by cases hr), fun r hr => (by cases hr)⟩

theorem rollupsPresent_addTicket (h : History) (t : Ticket) (m : List DiscordMessage)
    (now : Nat) (inv : RollupsPresent h) : RollupsPresent (addTicket h t m now).2 := by
  have htk : (addTicket h t m now).2.tickets = h.tickets ++ [(addTicket h t m now).1] := rfl
  have huid : (addTicket h t m now).1.userId = t.userId := rfl
  have hgid : (addTicket h t m now).1.guildId = t.guildId := rfl
  have hasg : (addTicket h t m now).1.assignedTo = orNull t.assignedTo := rfl
  obtain ⟨uh, huset, -⟩ := addTicket_users h t m now
  obtain ⟨sh, hsset, hkept, hnew⟩ := addTicket_servers_staff h t m now
  constructor
  · intro r hr
    rw [htk, List.mem_append, List.mem_singleton] at hr
    rw [huset]
    rcases hr with hr | hr
    · exact dict_get_set_isSome _ _ _ _ (inv.user r hr)
    · rw [hr, huid, dict_get_set_self]
      rfl
  · intro r hr s hs
    rw [htk, List.mem_append, List.mem_singleton] at hr
    rw [hsset]
    rcases hr with hr | hr
    · obtain ⟨hne, sh0, h1, h2⟩ := inv.staff r hr s hs
      refine ⟨hne, ?_⟩
      by_cases hk : jsKey t.guildId = jsKey r.guildId
      · rw [← hk, dict_get_set_self]
        refine ⟨sh, rfl, hkept s ?_⟩
        unfold History.serverRollup
        rw [hk, h1]
        exact h2
      · rw [dict_get_set_other _ _ _ _ hk]
        exact ⟨sh0, h1, h2⟩
    · rw [hr, hasg] at hs
      rw [hr, hgid, dict_get_set_self]
      exact ⟨(orNull_some _ _ hs).2.1, sh, rfl, hnew s hs⟩

theorem applyUpdates_rating (rec : TicketRecord) (r : Option Nat) :
    applyUpdates rec { satisfactionRating := some r } = { rec with satisfactionRating := r } :=
  rfl

theorem rollupsPresent_rate (h : History) (ticketId : String) (r : Nat)
    (inv : RollupsPresent h) :
    RollupsPresent (updateTicket h ticketId { satisfactionRating := some (some r) }).2 := by
  cases hfind : h.tickets.find? (fun t => t.id == some ticketId) with
  | none =>
    rw [updateTicket_not_found _ _ _ hfind]
    exact inv
  | some rec =>
    obtain ⟨-, htk, -, husers, hservers⟩ :=
      updateTicket_found h ticketId { satisfactionRating := some (some r) } rec hfind
    have hmem : rec ∈ h.tickets := List.mem_of_find?_eq_some hfind
    have hold : ∀ x ∈ (updateTicket h ticketId { satisfactionRating := some (some r) }).2.tickets,
        ∃ y ∈ h.tickets, x.userId = y.userId ∧ x.guildId = y.guildId ∧
          x.assignedTo = y.assignedTo := by
      intro x hx
      rw [htk] at hx
      rcases mem_replaceFirst _ _ _ _ hx with hx | hx
      · exact ⟨rec, hmem, by rw [hx]; rfl, by rw [hx]; rfl, by rw [hx]; rfl⟩
      · exact ⟨x, hx, rfl, rfl, rfl⟩
    have hu : ∀ k, (h.users.get? k).isSome = true →
        ((updateTicket h ticketId { satisfactionRating := some (some r) }).2.users.get? k).isSome
          = true := by
      intro k hk
      rw [husers]
      cases (if truthy rec.userId then truthyRating { satisfactionRating := some (some r) }
        else none) with
      | none => exact hk
      | some r2 => exact rateUser_isSome _ _ _ _ hk
    have hs : ∀ g s, (∃ sh, h.servers.get? g = some sh ∧ (sh.staff.get? s).isSome = true) →
        ∃ sh, (updateTicket h ticketId { satisfactionRating := some (some r) }).2.servers.get? g
          = some sh ∧ (sh.staff.get? s).isSome = true := by
      intro g s hgs
      rw [hservers]
      cases (if truthy rec.userId then truthyRating { satisfactionRating := some (some r) }
        else none) with
      | none => exact hgs
      | some r2 =>
        dsimp only
        by_cases hc : (truthy rec.assignedTo && truthy rec.guildId) = true
        · rw [if_pos hc]
          exact rateStaff_kept _ _ _ _ _ _ hgs
        · rw [if_neg hc]
          exact hgs
    constructor
    · intro x hx
      obtain ⟨y, hy, e1, -, -⟩ := hold x hx
      rw [e1]
      exact hu _ (inv.user y hy)
    · intro x hx s hxs
      obtain ⟨y, hy, -, e2, e3⟩ := hold x hx
      rw [e3] at hxs
      rw [e2]
      obtain ⟨hne, hex⟩ := inv.staff y hy s hxs
      exact ⟨hne, hs _ _ hex⟩

theorem rollupsPresent_historyAfter (calls : List HistoryCall) (h : History)
    (inv : RollupsPresent h) : RollupsPresent (historyAfter h calls) := by
  induction calls generalizing h with
  | nil => exact inv
  | cons c cs ih =>
    refine ih _ ?_
    cases c with
    | add c => exact rollupsPresent_addTicket h c.ticket c.messages c.now inv
    | rate ticketId rating => exact rollupsPresent_rate h ticketId rating inv

/-! ## The division of doubles -/

theorem roundedQuotient_close (N D : Nat) (hD : 0 < D) :
    |((roundedQuotient N D : Nat) : ℚ) - (N : ℚ) / (D : ℚ)| ≤ 1 / 2 := by
  have hDq : (0 : ℚ) < (D : ℚ) := by exact_mod_cast hD
  have hdm : (N : ℚ) = (D : ℚ) * ((N / D : Nat) : ℚ) + ((N % D : Nat) : ℚ) := by
    exact_mod_cast (Nat.div_add_mod N D).symm
  have hx : (N : ℚ) / (D : ℚ) = ((N / D : Nat) : ℚ) + ((N % D : Nat) : ℚ) / (D : ℚ) := by
    rw [div_eq_iff hDq.ne', add_mul, div_mul_cancel₀ _ hDq.ne']
    linarith
  have hr0 : (0 : ℚ) ≤ ((N % D : Nat) : ℚ) / (D : ℚ) := by positivity
  have hr1 : ((N % D : Nat) : ℚ) / (D : ℚ) < 1 := by
    rw [div_lt_one hDq]
    exact_mod_cast Nat.mod_lt N hD
  unfold roundedQuotient
  dsimp only
  rw [hx]
  by_cases h1 : 2 * (N % D) < D
  · rw [if_pos h1]
    have : ((N % D : Nat) : ℚ) / (D : ℚ) ≤ 1 / 2 := by
      rw [div_le_iff₀ hDq]
      have : ((2 * (N % D) : Nat) : ℚ) ≤ (D : ℚ) := by exact_mod_cast h1.le
      push_cast at this
      linarith
    rw [abs_le]
    constructor <;> linarith
  · rw [if_neg h1]
    have hge : (1 : ℚ) / 2 ≤ ((N % D : Nat) : ℚ) / (D : ℚ) := by
      rw [le_div_iff₀ hDq]
      have : ((D : Nat) : ℚ) ≤ ((2 * (N % D) : Nat) : ℚ) := by exact_mod_cast (not_lt.mp h1)
      push_cast at this
      linarith
    by_cases h2 : D < 2 * (N % D)
    · rw [if_pos h2]
      push_cast
      rw [abs_le]
      constructor <;> linarith
    · rw [if_neg h2]
      have heq : ((N % D : Nat) : ℚ) / (D : ℚ) = 1 / 2 := by
        have h3 : 2 * (N % D) = D := by omega
        rw [div_eq_iff hDq.ne']
        have : ((2 * (N % D) : Nat) : ℚ) = (D : ℚ) := by exact_mod_cast h3
        push_cast at this
        linarith
      by_cases h4 : N / D % 2 = 0
      · rw [if_pos h4, heq, abs_le]
        constructor <;> linarith
      · rw [if_neg h4, heq]
        push_cast
        rw [abs_le]
        constructor <;> linarith

theorem exponentTest_iff (k : Int) (n d : Nat) (hd : 0 < d) :
    (if 0 ≤ k then d * 2 ^ k.toNat ≤ n else d ≤ n * 2 ^ (-k).toNat) ↔
      (2 : ℚ) ^ k ≤ (n : ℚ) / (d : ℚ) := by
  have hdq : (0 : ℚ) < (d : ℚ) := by exact_mod_cast hd
  by_cases hk : 0 ≤ k
  · obtain ⟨j, rfl⟩ := Int.eq_ofNat_of_zero_le hk
    rw [if_pos hk, Int.toNat_natCast, zpow_natCast, le_div_iff₀ hdq]
    constructor
    · intro h
      have : ((d * 2 ^ j : Nat) : ℚ) ≤ (n : ℚ) := by exact_mod_cast h
      push_cast at this
      linarith
    · intro h
      have : ((d * 2 ^ j : Nat) : ℚ) ≤ (n : ℚ) := by
        push_cast
        linarith
      exact_mod_cast this
  · rw [if_neg hk]
    obtain ⟨j, hj⟩ := Int.exists_eq_neg_ofNat (le_of_lt (not_le.mp hk))
    subst hj
    have h2 : (0 : ℚ) < (2 : ℚ) ^ j := by positivity
    rw [neg_neg, Int.toNat_natCast, zpow_neg, zpow_natCast, inv_eq_one_div,
      div_le_div_iff₀ h2 hdq, one_mul]
    constructor
    · intro h
      exact_mod_cast h
    · intro h
      exact_mod_cast h

theorem binaryExponent_spec (n d : Nat) (hn : 0 < n) (hd : 0 < d) :
    (2 : ℚ) ^ binaryExponent n d ≤ (n : ℚ) / (d : ℚ) ∧
      (n : ℚ) / (d : ℚ) < (2 : ℚ) ^ (binaryExponent n d + 1) := by
  have hnq : (0 : ℚ) < (n : ℚ) := by exact_mod_cast hn
  have hdq : (0 : ℚ) < (d : ℚ) := by exact_mod_cast hd
  have ha1 : ((2 : ℚ) ^ n.log2) ≤ (n : ℚ) := by
    exact_mod_cast Nat.log2_self_le hn.ne'
  have ha2 : (n : ℚ) < (2 : ℚ) ^ (n.log2 + 1) := by
    exact_mod_cast (Nat.lt_log2_self : n < 2 ^ (n.log2 + 1))
  have hb1 : ((2 : ℚ) ^ d.log2) ≤ (d : ℚ) := by
    exact_mod_cast Nat.log2_self_le hd.ne'
  have hb2 : (d : ℚ) < (2 : ℚ) ^ (d.log2 + 1) := by
    exact_mod_cast (Nat.lt_log2_self : d < 2 ^ (d.log2 + 1))
  have h2 : (2 : ℚ) ≠ 0 := by norm_num
  have hpa : (0 : ℚ) < (2 : ℚ) ^ n.log2 := by positivity
  have hpb : (0 : ℚ) < (2 : ℚ) ^ d.log2 := by positivity
  have hupper : (n : ℚ) / (d : ℚ) <
      (2 : ℚ) ^ (((n.log2 : Int) - (d.log2 : Int)) + 1) := by
    have he : (2 : ℚ) ^ (((n.log2 : Int) - (d.log2 : Int)) + 1) =
        (2 : ℚ) ^ (n.log2 + 1) / (2 : ℚ) ^ d.log2 := by
      rw [show ((n.log2 : Int) - (d.log2 : Int)) + 1 = ((n.log2 + 1 : Nat) : Int) - (d.log2 : Int)
        by push_cast; ring]
      rw [zpow_sub₀ h2, zpow_natCast, zpow_natCast]
    rw [he, div_lt_div_iff₀ hdq hpb]
    calc (n : ℚ) * (2 : ℚ) ^ d.log2 ≤ (n : ℚ) * (d : ℚ) := by
          exact mul_le_mul_of_nonneg_left hb1 hnq.le
      _ < (2 : ℚ) ^ (n.log2 + 1) * (d : ℚ) := by
          exact mul_lt_mul_of_pos_right ha2 hdq
  have hlower : (2 : ℚ) ^ (((n.log2 : Int) - (d.log2 : Int)) - 1) ≤ (n : ℚ) / (d : ℚ) := by
    have he : (2 : ℚ) ^ (((n.log2 : Int) - (d.log2 : Int)) - 1) =
        (2 : ℚ) ^ n.log2 / (2 : ℚ) ^ (d.log2 + 1) := by
      rw [show ((n.log2 : Int) - (d.log2 : Int)) - 1 = (n.log2 : Int) - ((d.log2 + 1 : Nat) : Int)
        by push_cast; ring]
      rw [zpow_sub₀ h2, zpow_natCast, zpow_natCast]
    have hpb1 : (0 : ℚ) < (2 : ℚ) ^ (d.log2 + 1) := by positivity
    rw [he, div_le_div_iff₀ hpb1 hdq]
    calc (2 : ℚ) ^ n.log2 * (d : ℚ) ≤ (n : ℚ) * (d : ℚ) := by
          exact mul_le_mul_of_nonneg_right ha1 hdq.le
      _ ≤ (n : ℚ) * (2 : ℚ) ^ (d.log2 + 1) := by
          exact mul_le_mul_of_nonneg_left hb2.le hnq.le
  unfold binaryExponent
  dsimp only
  by_cases ht : (if 0 ≤ (n.log2 : Int) - (d.log2 : Int) then
      d * 2 ^ ((n.log2 : Int) - (d.log2 : Int)).toNat ≤ n
    else d ≤ n * 2 ^ (-((n.log2 : Int) - (d.log2 : Int))).toNat)
  · rw [if_pos ht]
    exact ⟨(exponentTest_iff _ n d hd).mp ht, hupper⟩
  · rw [if_neg ht]
    refine ⟨hlower, ?_⟩
    rw [sub_add_cancel]
    exact not_le.mp (fun h => ht ((exponentTest_iff _ n d hd).mpr h))

theorem doubleQuotient_close (n d : Nat) (hd : 0 < d) :
    |((doubleQuotient n d).1 : ℚ) -
      (n : ℚ) / (d : ℚ) / (2 : ℚ) ^ (doubleQuotient n d).2| ≤ 1 / 2 := by
  have hdq : (0 : ℚ) < (d : ℚ) := by exact_mod_cast hd
  unfold doubleQuotient
  dsimp only
  by_cases he : 0 ≤ binaryExponent n d - 52
  · rw [if_pos he]
    obtain ⟨j, hj⟩ := Int.eq_ofNat_of_zero_le he
    rw [hj, Int.toNat_natCast, zpow_natCast]
    have h := roundedQuotient_close n (d * 2 ^ j) (by positivity)
    have hx : (n : ℚ) / ((d * 2 ^ j : Nat) : ℚ) = (n : ℚ) / (d : ℚ) / (2 : ℚ) ^ j := by
      push_cast
      rw [div_div]
    rw [hx] at h
    exact h
  · rw [if_neg he]
    obtain ⟨j, hj⟩ := Int.exists_eq_neg_ofNat (le_of_lt (not_le.mp he))
    rw [hj, neg_neg, Int.toNat_natCast, zpow_neg, zpow_natCast]
    have h := roundedQuotient_close (n * 2 ^ j) d hd
    have hx : ((n * 2 ^ j : Nat) : ℚ) / (d : ℚ) = (n : ℚ) / (d : ℚ) / ((2 : ℚ) ^ j)⁻¹ := by
      push_cast
      rw [div_inv_eq_mul]
      ring
    rw [hx] at h
    exact h

theorem jsDivide_close_pos (n d : Nat) (hn : 0 < n) (hd : 0 < d) :
    |jsDivide n d - (n : ℚ) / (d : ℚ)| ≤ (n : ℚ) / (d : ℚ) / 2 ^ 53 := by
  have h := doubleQuotient_close n d hd
  have hspec := (binaryExponent_spec n d hn hd).1
  have he : (doubleQuotient n d).2 = binaryExponent n d - 52 := rfl
  have h2 : (2 : ℚ) ≠ 0 := by norm_num
  have hp : (0 : ℚ) < (2 : ℚ) ^ (doubleQuotient n d).2 := by positivity
  unfold jsDivide
  rw [if_neg (by omega)]
  have hmul : ((doubleQuotient n d).1 : ℚ) * (2 : ℚ) ^ (doubleQuotient n d).2 -
      (n : ℚ) / (d : ℚ) =
      (((doubleQuotient n d).1 : ℚ) - (n : ℚ) / (d : ℚ) / (2 : ℚ) ^ (doubleQuotient n d).2) *
        (2 : ℚ) ^ (doubleQuotient n d).2 := by
    rw [sub_mul, div_mul_cancel₀ _ hp.ne']
  rw [hmul, abs_mul, abs_of_pos hp]
  have hbound : (2 : ℚ) ^ (doubleQuotient n d).2 = (2 : ℚ) ^ binaryExponent n d / 2 ^ 52 := by
    rw [he, zpow_sub₀ h2]
    norm_num
  calc |((doubleQuotient n d).1 : ℚ) -
          (n : ℚ) / (d : ℚ) / (2 : ℚ) ^ (doubleQuotient n d).2| *
        (2 : ℚ) ^ (doubleQuotient n d).2
      ≤ 1 / 2 * (2 : ℚ) ^ (doubleQuotient n d).2 :=
        mul_le_mul_of_nonneg_right h hp.le
    _ = (2 : ℚ) ^ binaryExponent n d / 2 ^ 53 := by
        rw [hbound]
        ring
    _ ≤ (n : ℚ) / (d : ℚ) / 2 ^ 53 := by
        apply div_le_div_of_nonneg_right hspec
        positivity

theorem roundedQuotient_exact (D c : Nat) (hD : 0 < D) : roundedQuotient (D * c) D = c := by
  unfold roundedQuotient
  dsimp only
  rw [Nat.mul_mod_right, Nat.mul_div_cancel_left c hD, if_pos (by omega)]

theorem jsDivide_exact (n d c : Nat) (hd : 0 < d) (hc : c < 2 ^ 53) (h : n = d * c) :
    jsDivide n d = (c : ℚ) := by
  have hdq : (0 : ℚ) < (d : ℚ) := by exact_mod_cast hd
  by_cases hc0 : c = 0
  · subst hc0
    unfold jsDivide
    rw [if_pos (Or.inl (by rw [h]; rfl))]
    rfl
  have hn : 0 < n := by
    rw [h]
    exact Nat.mul_pos hd (Nat.pos_of_ne_zero hc0)
  have hq : (n : ℚ) / (d : ℚ) = (c : ℚ) := by
    rw [h, div_eq_iff hdq.ne']
    push_cast
    ring
  have hspec := (binaryExponent_spec n d hn hd).1
  rw [hq] at hspec
  have hlt : (2 : ℚ) ^ binaryExponent n d < (2 : ℚ) ^ ((53 : Nat) : Int) := by
    rw [zpow_natCast]
    calc (2 : ℚ) ^ binaryExponent n d ≤ (c : ℚ) := hspec
      _ < (2 : ℚ) ^ 53 := by exact_mod_cast hc
  have hE : binaryExponent n d < 53 := by
    have := (zpow_lt_zpow_iff_right₀ (by norm_num : (1 : ℚ) < 2)).mp hlt
    exact_mod_cast this
  have he : ¬ 0 < binaryExponent n d - 52 := by omega
  obtain ⟨j, hj⟩ := Int.exists_eq_neg_ofNat (not_lt.mp he)
  have hm : (doubleQuotient n d).1 = c * 2 ^ j := by
    unfold doubleQuotient
    dsimp only
    by_cases h0 : 0 ≤ binaryExponent n d - 52
    · have hj0 : j = 0 := by omega
      rw [if_pos h0, hj, hj0]
      simp only [Nat.cast_zero, neg_zero, Int.toNat_zero, pow_zero, Nat.mul_one]
      rw [h]
      exact roundedQuotient_exact d c hd
    · rw [if_neg h0, hj, neg_neg, Int.toNat_natCast, h, Nat.mul_assoc]
      exact roundedQuotient_exact d (c * 2 ^ j) hd
  have he2 : (doubleQuotient n d).2 = -(j : Int) := hj
  unfold jsDivide
  rw [if_neg (by omega), hm, he2, zpow_neg, zpow_natCast]
  push_cast
  have hp : (0 : ℚ) < (2 : ℚ) ^ j := by positivity
  rw [mul_assoc, mul_inv_cancel₀ hp.ne', mul_one]

theorem jsDivide_close (n d : Nat) (hd : 0 < d) :
    |jsDivide n d - (n : ℚ) / (d : ℚ)| ≤ (n : ℚ) / (d : ℚ) / 2 ^ 53 := by
  by_cases hn : n = 0
  · subst hn
    unfold jsDivide
    rw [if_pos (Or.inl rfl)]
    simp
  · exact jsDivide_close_pos n d (Nat.pos_of_ne_zero hn) hd

theorem averageOf_close (ratings : List Nat) (h : ratings ≠ []) :
    |averageOf ratings - (ratings.sum : ℚ) / (ratings.length : ℚ)| ≤
      (ratings.sum : ℚ) / (ratings.length : ℚ) / 2 ^ 53 :=
  jsDivide_close ratings.sum ratings.length (List.length_pos.mpr h)

theorem averageOf_exact (ratings : List Nat) (c : Nat) (h : ratings ≠ []) (hc : c < 2 ^ 53)
    (hsum : ratings.sum = ratings.length * c) : averageOf ratings = (c : ℚ) :=
  jsDivide_exact ratings.sum ratings.length c (List.length_pos.mpr h) hc hsum

theorem averageOf_five_four_four : averageOf [5, 4, 4] = 4878899596318037 / 2 ^ 50 := by
  have h : doubleQuotient 13 3 = (4878899596318037, -50) := by decide!
  show jsDivide 13 3 = _
  unfold jsDivide
  rw [h]
  norm_num

/-! ## C13: a survey rating reaches the record and both rating lists -/

/-- Claim C13. For every history built by `addTicket` and survey `updateTicket` calls and
every `updateTicket(ticketId, {satisfactionRating: r})` with `r` in `1..5` on an existing
record of a user: the call returns the record with `satisfactionRating = r` and stores it
under the same id; `r` is appended to the ratings of the record's user, and, when the record
has an assigned staff member and a guild, to the ratings of that staff member in the
record's guild; each of the two `averageRating` values is the arithmetic mean of its whole
ratings list as the division of doubles gives it (`averageOf`: the sum of the list divided
by its length, rounded to the nearest double), which lies within the fraction `2^-53` of
the exact mean. -/
theorem updateTicket_rating_recorded (calls : List HistoryCall) (ticketId : String) (r : Nat)
    (rec : TicketRecord)
    (hfind : (historyAfter {} calls).tickets.find? (fun t => t.id == some ticketId) = some rec)
    (hr : 1 ≤ r ∧ r ≤ 5) (huser : truthy rec.userId = true) :
    (updateTicket (historyAfter {} calls) ticketId { satisfactionRating := some (some r) }).1 =
        some { rec with satisfactionRating := some r } ∧
      (updateTicket (historyAfter {} calls) ticketId
          { satisfactionRating := some (some r) }).2.tickets.find?
        (fun t => t.id == some ticketId) = some { rec with satisfactionRating := some r } ∧
      ((updateTicket (historyAfter {} calls) ticketId
          { satisfactionRating := some (some r) }).2.userRollup (jsKey rec.userId)).ratings =
        ((historyAfter {} calls).userRollup (jsKey rec.userId)).ratings ++ [r] ∧
      ((updateTicket (historyAfter {} calls) ticketId
          { satisfactionRating := some (some r) }).2.userRollup (jsKey rec.userId)).averageRating =
        some (averageOf (((historyAfter {} calls).userRollup (jsKey rec.userId)).ratings
          ++ [r])) ∧
      |averageOf (((historyAfter {} calls).userRollup (jsKey rec.userId)).ratings ++ [r]) -
          ((((historyAfter {} calls).userRollup (jsKey rec.userId)).ratings ++ [r]).sum : ℚ) /
            ((((historyAfter {} calls).userRollup (jsKey rec.userId)).ratings
              ++ [r]).length : ℚ)| ≤
        ((((historyAfter {} calls).userRollup (jsKey rec.userId)).ratings ++ [r]).sum : ℚ) /
          ((((historyAfter {} calls).userRollup (jsKey rec.userId)).ratings
            ++ [r]).length : ℚ) / 2 ^ 53 ∧
      (∀ s, rec.assignedTo = some s → truthy rec.guildId = true →
        (((updateTicket (historyAfter {} calls) ticketId
            { satisfactionRating := some (some r) }).2.serverRollup
              (jsKey rec.guildId)).staffRollup s).ratings =
          (((historyAfter {} calls).serverRollup (jsKey rec.guildId)).staffRollup s).ratings
            ++ [r] ∧
        (((updateTicket (historyAfter {} calls) ticketId
            { satisfactionRating := some (some r) }).2.serverRollup
              (jsKey rec.guildId)).staffRollup s).averageRating =
          some (averageOf ((((historyAfter {} calls).serverRollup
            (jsKey rec.guildId)).staffRollup s).ratings ++ [r])) ∧
        |averageOf ((((historyAfter {} calls).serverRollup
              (jsKey rec.guildId)).staffRollup s).ratings ++ [r]) -
            (((((historyAfter {} calls).serverRollup (jsKey rec.guildId)).staffRollup
              s).ratings ++ [r]).sum : ℚ) /
            (((((historyAfter {} calls).serverRollup (jsKey rec.guildId)).staffRollup
              s).ratings ++ [r]).length : ℚ)| ≤
          (((((historyAfter {} calls).serverRollup (jsKey rec.guildId)).staffRollup
              s).ratings ++ [r]).sum : ℚ) /
            (((((historyAfter {} calls).serverRollup (jsKey rec.guildId)).staffRollup
              s).ratings ++ [r]).length : ℚ) / 2 ^ 53) := by
  have inv := rollupsPresent_historyAfter calls {} rollupsPresent_empty
  obtain ⟨hret, htk, -, husers, hservers⟩ :=
    updateTicket_found _ ticketId { satisfactionRating := some (some r) } rec hfind
  have hmem : rec ∈ (historyAfter {} calls).tickets := List.mem_of_find?_eq_some hfind
  have hr0 : r ≠ 0 := by omega
  have hrated : (if truthy rec.userId then truthyRating { satisfactionRating := some (some r) }
      else none) = some r := by
    rw [if_pos huser, truthyRating_rating, if_neg hr0]
  rw [hrated] at husers hservers
  have hid := List.find?_some hfind
  refine ⟨hret, ?_, ?_, ?_, averageOf_close _ (by simp), ?_⟩
  · rw [htk]
    exact find_replaceFirst _ _ _ _ hid hfind
  · have hsome := inv.user rec hmem
    cases hget : (historyAfter {} calls).users.get? (jsKey rec.userId) with
    | none => rw [hget] at hsome; cases hsome
    | some uh =>
      unfold History.userRollup
      rw [husers, rateUser_found _ _ _ _ hget, hget]
      rfl
  · have hsome := inv.user rec hmem
    cases hget : (historyAfter {} calls).users.get? (jsKey rec.userId) with
    | none => rw [hget] at hsome; cases hsome
    | some uh =>
      unfold History.userRollup
      rw [husers, rateUser_found _ _ _ _ hget, hget]
      rfl
  · intro s hs hg
    obtain ⟨hne, sh, h1, h2⟩ := inv.staff rec hmem s hs
    have hta : truthy rec.assignedTo = true := by
      rw [hs]
      simpa [truthy] using hne
    have hkey : jsKey rec.assignedTo = s := by rw [hs]; rfl
    rw [hta, hg, hkey] at hservers
    cases hst : sh.staff.get? s with
    | none => rw [hst] at h2; cases h2
    | some st =>
      obtain ⟨sh2, h3, h4⟩ := rateStaff_found _ _ _ r sh st h1 hst
      have hservers2 : (updateTicket (historyAfter {} calls) ticketId
          { satisfactionRating := some (some r) }).2.servers =
          rateStaff (historyAfter {} calls).servers (jsKey rec.guildId) s r := hservers
      unfold History.serverRollup ServerHistory.staffRollup
      rw [hservers2, h3, h1]
      simp only [Option.getD_some, h4, hst]
      exact ⟨rfl, rfl, averageOf_close _ (by simp)⟩

theorem updateTicket_rating_recorded_witness :
    (historyAfter {} oneArchived).tickets.find? (fun t => t.id == some "g-0002") =
        some (addTicket {} fullTicket [] 9).1 ∧
      ((updateTicket (historyAfter {} oneArchived) "g-0002"
          { satisfactionRating := some (some 4) }).2.userRollup "v").ratings =
        ((historyAfter {} oneArchived).userRollup "v").ratings ++ [4] ∧
      (((updateTicket (historyAfter {} oneArchived) "g-0002"
          { satisfactionRating := some (some 4) }).2.serverRollup "g").staffRollup "s").ratings =
        (((historyAfter {} oneArchived).serverRollup "g").staffRollup "s").ratings ++ [4] :=
  ⟨by decide,
    (updateTicket_rating_recorded oneArchived "g-0002" 4 (addTicket {} fullTicket [] 9).1
      (by decide) (by decide) (by decide)).2.2.1,
    ((updateTicket_rating_recorded oneArchived "g-0002" 4 (addTicket {} fullTicket [] 9).1
      (by decide) (by decide) (by decide)).2.2.2.2.2 "s" (by decide) (by decide)).1⟩

/-! ## C14: which fields of a record `updateTicket` changes -/

/-- Claim C14, counterexample. The call `updateTicket("g-0002", {status: "reopened",
closeReason: null})` on the history holding the record of `fullTicket` changes the fields
`status` and `closeReason` of the stored record. -/
theorem updateTicket_merges_any_field :
    (historyAfter {} oneArchived).tickets.map (fun r => (r.id, r.status, r.closeReason)) =
        [(some "g-0002", "closed", some "done")] ∧
      (updateTicket (historyAfter {} oneArchived) "g-0002"
          { status := some "reopened", closeReason := some none }).2.tickets.map
        (fun r => (r.id, r.status, r.closeReason)) = [(some "g-0002", "reopened", none)] := by
  decide

/-- Claim C14, amended. For every history, ticket id and updates argument, `updateTicket`
replaces the first record with that id by its merge with `updates` and leaves every other
record, and the order of the records, as they were; when `updates` carries no key other
than `satisfactionRating` and `satisfactionFeedback` the merge differs from the stored
record in no other field; when no record has the id the call returns `null` and changes
nothing. -/
theorem updateTicket_survey_fields_only (h : History) (ticketId : String)
    (updates : RecordUpdates) :
    (∀ rec, h.tickets.find? (fun t => t.id == some ticketId) = some rec →
      (updateTicket h ticketId updates).1 = some (applyUpdates rec updates) ∧
      (∃ pre post, h.tickets = pre ++ rec :: post ∧
        (∀ x ∈ pre, x.id ≠ some ticketId) ∧
        (updateTicket h ticketId updates).2.tickets = pre ++ applyUpdates rec updates :: post) ∧
      (updates.surveyOnly →
        applyUpdates rec updates =
          { rec with
            satisfactionRating := updates.satisfactionRating.getD rec.satisfactionRating
            satisfactionFeedback :=
              updates.satisfactionFeedback.getD rec.satisfactionFeedback })) ∧
      (h.tickets.find? (fun t => t.id == some ticketId) = none →
        updateTicket h ticketId updates = (none, h)) := by
  refine ⟨?_, updateTicket_not_found h ticketId updates⟩
  intro rec hfind
  obtain ⟨hret, htk, -⟩ := updateTicket_found h ticketId updates rec hfind
  refine ⟨hret, ?_, ?_⟩
  · obtain ⟨pre, post, h1, h2, h3⟩ :=
      replaceFirst_split (fun t : TicketRecord => t.id == some ticketId)
        (applyUpdates rec updates) rec h.tickets hfind
    refine ⟨pre, post, h1, ?_, by rw [htk, h2]⟩
    intro x hx hid
    have := h3 x hx
    simp [hid] at this
  · intro hs
    rw [hs]
    rfl

theorem updateTicket_survey_fields_only_witness :
    (historyAfter {} oneArchived).tickets.find? (fun t => t.id == some "g-0002") =
        some (addTicket {} fullTicket [] 9).1 ∧
      RecordUpdates.surveyOnly { satisfactionRating := some (some 3) } ∧
      applyUpdates (addTicket {} fullTicket [] 9).1 { satisfactionRating := some (some 3) } =
        { (addTicket {} fullTicket [] 9).1 with satisfactionRating := some 3 } :=
  ⟨by decide, rfl,
    ((updateTicket_survey_fields_only (historyAfter {} oneArchived) "g-0002"
      { satisfactionRating := some (some 3) }).1 _ (by decide)).2.2 rfl⟩

/-! ## Lemmas on `searchTickets` -/

theorem ite_filter {α : Type} (b : Bool) (p : α → Bool) (l : List α) :
    (if b = true then l.filter p else l) = l.filter (fun r => !b || p r) := by
  cases b <;> simp

theorem filter_filter_and {α : Type} (p q : α → Bool) (l : List α) :
    (l.filter q).filter p = l.filter (fun a => q a && p a) := by
  rw [List.filter_filter]
  apply List.filter_congr
  intro a _
  exact Bool.and_comm _ _

theorem filterByTicketId_eq (x : String) (l : List TicketRecord)
    (hid : ∀ r ∈ l, r.id ≠ none) :
    filterByTicketId x l =
      some (l.filter (fun t => t.id.any (fun id => jsIncludes id x) || t.numericId == some x)) := by
  induction l with
  | nil => rfl
  | cons t ts ih =>
    have ih2 := ih (fun r hr => hid r (List.mem_cons_of_mem _ hr))
    unfold filterByTicketId
    cases htid : t.id with
    | none => exact absurd htid (hid t (List.mem_cons_self _ _))
    | some id =>
      simp only [ih2, List.filter_cons, htid, Option.any_some]
      split <;> rfl

theorem searchTicketsTail_eq (toLowerCase : String → String) (c : SearchCriteria)
    (l : List TicketRecord) :
    searchTicketsTail toLowerCase c l = l.filter (fun r =>
      (!truthy c.category || r.category == c.category) &&
      ((c.tags.getD []).isEmpty || r.tags.any (fun tag => (c.tags.getD []).contains tag)) &&
      (!truthy c.content ||
        r.messages.any (fun m =>
          m.content != "" &&
            jsIncludes (toLowerCase m.content) (toLowerCase (c.content.getD "")))) &&
      (!truthyTime c.startDate ||
        r.createdAt.any (fun t => decide ((c.startDate.getD JsTime.null).getTime ≤ t.getTime))) &&
      (!truthyTime c.endDate ||
        r.createdAt.any (fun t => decide (t.getTime ≤ (c.endDate.getD JsTime.null).getTime))) &&
      (!truthy c.staffId || r.assignedTo == c.staffId) &&
      (!truthyNat c.minRating ||
        r.satisfactionRating.any (fun x => decide (x ≠ 0 ∧ c.minRating.getD 0 ≤ x))) &&
      (!truthyNat c.maxRating ||
        r.satisfactionRating.any (fun x => decide (x ≠ 0 ∧ x ≤ c.maxRating.getD 0)))) := by
  have htags : ∀ l : List TicketRecord,
      (match c.tags with
        | some tags =>
          if tags.length > 0 then l.filter (fun t => t.tags.any (fun tag => tags.contains tag))
          else l
        | none => l) =
      l.filter (fun r =>
        (c.tags.getD []).isEmpty || r.tags.any (fun tag => (c.tags.getD []).contains tag)) := by
    intro l
    cases c.tags with
    | none => simp
    | some tags =>
      cases tags with
      | nil => simp
      | cons a as => simp
  have hcontent := fun l : List TicketRecord =>
    ite_filter (truthy c.content) (fun t : TicketRecord => t.messages.any (fun m =>
      m.content != "" &&
        jsIncludes (toLowerCase m.content) (toLowerCase (c.content.getD "")))) l
  have hstart : ∀ l : List TicketRecord,
      (if truthyTime c.startDate = true then
        l.filter (fun t => createdNotBefore t.createdAt (c.startDate.getD JsTime.null))
       else l) =
      l.filter (fun r => !truthyTime c.startDate ||
        r.createdAt.any (fun t =>
          decide ((c.startDate.getD JsTime.null).getTime ≤ t.getTime))) := by
    intro l
    rw [ite_filter]
    apply List.filter_congr
    intro r _
    unfold createdNotBefore
    cases r.createdAt <;> rfl
  have hend : ∀ l : List TicketRecord,
      (if truthyTime c.endDate = true then
        l.filter (fun t => createdNotAfter t.createdAt (c.endDate.getD JsTime.null))
       else l) =
      l.filter (fun r => !truthyTime c.endDate ||
        r.createdAt.any (fun t =>
          decide (t.getTime ≤ (c.endDate.getD JsTime.null).getTime))) := by
    intro l
    rw [ite_filter]
    apply List.filter_congr
    intro r _
    unfold createdNotAfter
    cases r.createdAt <;> rfl
  have hmin : ∀ l : List TicketRecord,
      (if truthyNat c.minRating = true then
        l.filter (fun t => truthyNat t.satisfactionRating &&
          decide (c.minRating.getD 0 ≤ t.satisfactionRating.getD 0))
       else l) =
      l.filter (fun r => !truthyNat c.minRating ||
        r.satisfactionRating.any (fun x => decide (x ≠ 0 ∧ c.minRating.getD 0 ≤ x))) := by
    intro l
    rw [ite_filter]
    apply List.filter_congr
    intro r _
    cases r.satisfactionRating with
    | none => rfl
    | some x => cases x <;> simp [truthyNat]
  have hmax : ∀ l : List TicketRecord,
      (if truthyNat c.maxRating = true then
        l.filter (fun t => truthyNat t.satisfactionRating &&
          decide (t.satisfactionRating.getD 0 ≤ c.maxRating.getD 0))
       else l) =
      l.filter (fun r => !truthyNat c.maxRating ||
        r.satisfactionRating.any (fun x => decide (x ≠ 0 ∧ x ≤ c.maxRating.getD 0))) := by
    intro l
    rw [ite_filter]
    apply List.filter_congr
    intro r _
    cases r.satisfactionRating with
    | none => rfl
    | some x => cases x <;> simp [truthyNat]
  have hcat := fun l : List TicketRecord =>
    ite_filter (truthy c.category) (fun t : TicketRecord => t.category == c.category) l
  have hstaff := fun l : List TicketRecord =>
    ite_filter (truthy c.staffId) (fun t : TicketRecord => t.assignedTo == c.staffId) l
  unfold searchTicketsTail
  dsimp only
  rw [hcat, htags, hcontent, hstart, hend, hstaff, hmin, hmax]
  simp only [filter_filter_and]

/-! ## C15: `searchTickets` returns the records satisfying every supplied criterion -/

/-- Claim C15. For every history and criteria, `searchTickets` returns exactly the records
that satisfy every supplied criterion (`satisfiesCriteria`: `guildId`, `userId`, `category`
and `staffId` by equality; `ticketId` as a substring of `id` or equal to `numericId`;
`tags` when the record carries at least one of the listed tags; `content`, and the
further criterion `username`, as a case-insensitive substring; `createdAt` within
`[startDate, endDate]`; the rating within `[minRating, maxRating]`), in their history
order; with no criteria it returns all records. Case is ignored by comparing the images
under the method `toLowerCase` of the platform, and the statement holds whatever function
that method is. When a ticket id is supplied the records must carry an `id`, the field
the filter reads. The instant of a `createdAt` is the one `new Date` gives, so a record
without `createdAt` is within no range and a `null` one counts as created at the epoch. -/
theorem searchTickets_returns_matching (h : History) (c : SearchCriteria)
    (toLowerCase : String → String)
    (hid : truthy c.ticketId = true → ∀ r ∈ h.tickets, r.id ≠ none) :
    searchTickets toLowerCase h c =
        some (h.tickets.filter (fun r => satisfiesCriteria toLowerCase c r)) ∧
      List.Sublist (h.tickets.filter (fun r => satisfiesCriteria toLowerCase c r)) h.tickets ∧
      (∀ r, r ∈ h.tickets.filter (fun r => satisfiesCriteria toLowerCase c r) ↔
        r ∈ h.tickets ∧ satisfiesCriteria toLowerCase c r = true) ∧
      searchTickets toLowerCase h {} = some h.tickets := by
  refine ⟨?_, List.filter_sublist _, fun r => List.mem_filter, ?_⟩
  · have hguild := fun l : List TicketRecord =>
      ite_filter (truthy c.guildId) (fun t : TicketRecord => t.guildId == c.guildId) l
    have huser := fun l : List TicketRecord =>
      ite_filter (truthy c.userId) (fun t : TicketRecord => t.userId == c.userId) l
    have hname := fun l : List TicketRecord =>
      ite_filter (truthy c.username) (fun t : TicketRecord =>
        t.userTag != "" &&
          jsIncludes (toLowerCase t.userTag) (toLowerCase (c.username.getD ""))) l
    unfold searchTickets
    dsimp only
    rw [hguild, huser, hname]
    by_cases ht : truthy c.ticketId = true
    · rw [if_pos ht, filterByTicketId_eq]
      · dsimp only
        rw [searchTicketsTail_eq toLowerCase]
        simp only [filter_filter_and]
        congr 1
        apply List.filter_congr
        intro r _
        unfold satisfiesCriteria
        cases hc : c.ticketId with
        | none => rw [hc] at ht; simp [truthy] at ht
        | some x =>
          rw [hc] at ht
          simp only [ht, Option.getD_some, Bool.not_true, Bool.false_or, Bool.and_assoc]
      · intro r hr
        have hr1 := (List.mem_filter.mp hr).1
        have hr2 := (List.mem_filter.mp hr1).1
        have hr3 := (List.mem_filter.mp hr2).1
        exact hid ht r hr3
    · rw [if_neg ht]
      dsimp only
      rw [searchTicketsTail_eq toLowerCase]
      simp only [filter_filter_and]
      congr 1
      apply List.filter_congr
      intro r _
      unfold satisfiesCriteria
      simp only [ht, Bool.not_false, Bool.true_or, Bool.and_true, Bool.true_and, Bool.and_assoc]
  · rfl

theorem searchTickets_returns_matching_witness :
    (truthy (some "0004") = true → ∀ r ∈ (addTickets {} threeArchived).tickets, r.id ≠ none) ∧
      (searchTickets asciiToLowerCase (addTickets {} threeArchived)
          { ticketId := some "0004", guildId := some "g" }
        ).map (fun l => l.map (fun r => r.id)) = some [some "g-0004"] :=
  ⟨fun _ => by decide,
    ((searchTickets_returns_matching (addTickets {} threeArchived)
      { ticketId := some "0004", guildId := some "g" } asciiToLowerCase
      (fun _ => by decide)).1).symm ▸ (by decide)⟩

/-! ## C16: a staff note is posted, never forwarded, and its original deleted -/

theorem jsStartsWith_hash (s : String) (h : jsStartsWith s "#" = true) :
    ∃ text : String, s = "#" ++ text ∧ jsSubstring1 s = text := by
  unfold jsStartsWith at h
  cases hd : s.data with
  | nil => rw [hd] at h; simp [List.isPrefixOf] at h
  | cons c cs =>
    rw [hd] at h
    have hc : c = '#' := by
      have h2 : ("#" : String).data = ['#'] := rfl
      rw [h2] at h
      simp [List.isPrefixOf] at h
      exact h.symm
    subst hc
    refine ⟨String.mk cs, ?_, ?_⟩
    · show String.mk s.data = String.mk (['#'] ++ cs)
      rw [hd]
      rfl
    · unfold jsSubstring1
      rw [hd]
      rfl

/-- Claim C16. For every message of a staff member posted where the handler finds an open
ticket (the ticket's thread, or the modmail channel) whose content begins with `#`: the
handler asks the platform to post a staff note whose text is the content without the
leading `#`, and, once the note is accepted, to delete the original message, and nothing
else; no request sends anything to a user, and no ticket changes. -/
theorem staff_note_posted_not_forwarded (bot : Bot) (e : GuildMessageEvent)
    (fails : Nat → Request → Bool) (config : GuildConfig) (p : Ticket → Bool) (ticket : Ticket)
    (hauthor : e.authorBot = false) (hconfig : bot.configs.get? e.guildId = some config)
    (hlookup : openTicketLookup config e.guildId e.channelId e.channelIsThread
      e.channelParentId = some p)
    (hticket : bot.tickets.find p = some ticket) (hstaff : e.hasStaffRole = true)
    (hnote : jsStartsWith e.content "#" = true) :
    (∃ text : String, e.content = "#" ++ text ∧
      guildMessageRequests bot e fails =
        if fails 0 (Request.channelSend (ChannelPost.staffNote text)) = true then
          [Request.channelSend (ChannelPost.staffNote text)]
        else [Request.channelSend (ChannelPost.staffNote text), Request.deleteMessage]) ∧
      (∀ r ∈ guildMessageRequests bot e fails, ∀ u dm, r ≠ Request.userSend u dm) ∧
      handleGuildMessage bot e = bot := by
  obtain ⟨text, htext, hsub⟩ := jsStartsWith_hash e.content hnote
  have hreq : guildMessageRequests bot e fails =
      if fails 0 (Request.channelSend (ChannelPost.staffNote text)) = true then
        [Request.channelSend (ChannelPost.staffNote text)]
      else [Request.channelSend (ChannelPost.staffNote text), Request.deleteMessage] := by
    unfold guildMessageRequests guildMessageScript
    simp only [hauthor, hconfig, hlookup, hticket, hstaff, hnote, hsub, Bool.false_eq_true,
      if_false, if_true, Bool.not_true]
    cases hf : fails 0 (Request.channelSend (ChannelPost.staffNote text)) <;>
      cases hd : fails 1 Request.deleteMessage <;>
      simp [Script.run, hf, hd]
  refine ⟨⟨text, htext, hreq⟩, ?_, ?_⟩
  · intro r hr u dm
    rw [hreq] at hr
    split at hr
    · rw [List.mem_singleton] at hr
      rw [hr]
      intro hne
      cases hne
    · simp only [List.mem_cons, List.mem_singleton, List.not_mem_nil, or_false] at hr
      rcases hr with hr | hr <;> rw [hr] <;> intro hne <;> cases hne
  · unfold handleGuildMessage
    simp only [hauthor, hconfig, hlookup, hticket, hstaff, hnote, Bool.false_eq_true,
      if_false, if_true, Bool.not_true]

theorem staff_note_posted_not_forwarded_witness :
    jsStartsWith staffNoteMessage.content "#" = true ∧
      (∃ text : String, staffNoteMessage.content = "#" ++ text ∧
        guildMessageRequests pendingTicketBot staffNoteMessage allAccepted =
          if allAccepted 0 (Request.channelSend (ChannelPost.staffNote text)) = true then
            [Request.channelSend (ChannelPost.staffNote text)]
          else [Request.channelSend (ChannelPost.staffNote text), Request.deleteMessage]) ∧
      guildMessageRequests pendingTicketBot staffNoteMessage allAccepted =
        [Request.channelSend (ChannelPost.staffNote "call back later"), Request.deleteMessage] ∧
      handleGuildMessage pendingTicketBot staffNoteMessage = pendingTicketBot :=
  ⟨by decide,
    (staff_note_posted_not_forwarded pendingTicketBot staffNoteMessage allAccepted legacyConfig
      (fun t => t.guildId == some "g" && t.channelId == some "c" && t.isOpen) pendingTicket
      (by decide) (by decide) rfl (by decide) (by decide) (by decide)).1,
    by decide,
    (staff_note_posted_not_forwarded pendingTicketBot staffNoteMessage allAccepted legacyConfig
      (fun t => t.guildId == some "g" && t.channelId == some "c" && t.isOpen) pendingTicket
      (by decide) (by decide) rfl (by decide) (by decide) (by decide)).2.2⟩

/-! ## C17: a reply in the parent channel of a guild in thread mode -/

/-- Claim C17, at the failing input. Guild `g` is in thread mode and holds the pending,
unassigned ticket that the first DM of user `u` created. Staff member `s2` posts `hello`
in the modmail channel itself. The handler answers "Thread Required", deletes the message
and sends nothing to a user, but before that it has claimed the ticket for `s2`: status,
`assignedTo` and `firstResponseTime` of the ticket have changed, and the notice of the
automatic claim has been posted in the channel. -/
theorem parent_channel_reply_claims_ticket :
    threadConfig.useThreads = true ∧
      threadModeBot.tickets = [pendingThreadTicket] ∧
      (pendingThreadTicket.status, pendingThreadTicket.assignedTo,
        pendingThreadTicket.firstResponseTime) = (some "pending", none, none) ∧
      guildMessageRequests threadModeBot parentChannelReply allAccepted =
        [Request.fetchChannel (some "c"), Request.fetchMessage (some "i"),
         Request.editMessage (some "i"), Request.fetchChannel (some "th"),
         Request.fetchMessage (some "ti"), Request.editMessage (some "ti"),
         Request.fetchUser (some "u"),
         Request.channelSend (ChannelPost.autoClaimNotice "s2"),
         Request.reply (ReplyPost.threadRequired (some "th")), Request.deleteMessage] ∧
      (handleGuildMessage threadModeBot parentChannelReply).tickets.map
          (fun t => (t.id, t.status, t.assignedTo, t.firstResponseTime)) =
        [(some "g-0001", some "in_progress", some "s2", some (JsTime.isoString 20))] := by
  decide

/-! ## C18: a pending ticket that already has an assignee -/

/-- Claim C18, at the failing input. The ticket of user `u` is `pending` with
`assignedTo = a`. A reply of staff member `s2` in the modmail channel repairs the status
and keeps `assignedTo`, `assignedAt` and `firstResponseTime`; the claim reaction of staff
member `s` on the info message of the same ticket sets the status and overwrites the three
fields. -/
theorem claim_reaction_overwrites_assignee :
    assignedPendingBot.tickets.map
          (fun t => (t.status, t.assignedTo, t.assignedAt, t.firstResponseTime)) =
        [(some "pending", some "a", some (JsTime.isoString 12), some (JsTime.isoString 12))] ∧
      (handleGuildMessage assignedPendingBot staffReply).tickets.map
          (fun t => (t.status, t.assignedTo, t.assignedAt, t.firstResponseTime)) =
        [(some "in_progress", some "a", some (JsTime.isoString 12),
          some (JsTime.isoString 12))] ∧
      (handleReaction assignedPendingBot claimReaction).tickets.map
          (fun t => (t.status, t.assignedTo, t.assignedAt, t.firstResponseTime)) =
        [(some "in_progress", some "s", some (JsTime.date 15), some (JsTime.isoString 15))] := by
  refine ⟨by decide, by decide, by decide⟩

/-! ## Lemmas on the field-level commands -/

theorem registry_mutate_split (p : Ticket → Bool) (f : Ticket → Ticket) (t : Ticket) :
    ∀ r : Registry, r.find p = some t →
      ∃ pre post, r = pre ++ t :: post ∧ (∀ x ∈ pre, p x = false) ∧
        Registry.mutate p f r = pre ++ f t :: post := by
  intro r
  induction r with
  | nil => intro h; cases h
  | cons a r ih =>
    intro h
    unfold Registry.find at h
    unfold Registry.mutate
    by_cases hp : p a = true
    · rw [List.find?, hp] at h
      cases h
      rw [if_pos hp]
      exact ⟨[], r, rfl, fun x hx => (by cases hx), rfl⟩
    · have hp2 : p a = false := by simpa using hp
      rw [List.find?, hp2] at h
      rw [if_neg hp]
      obtain ⟨pre, post, h1, h2, h3⟩ := ih h
      refine ⟨a :: pre, post, by rw [h1]; rfl, ?_, by rw [h3]; rfl⟩
      intro x hx
      rcases List.mem_cons.mp hx with hx | hx
      · rw [hx]; exact hp2
      · exact h2 x hx

theorem registry_map_mutate {β : Type} (g : Ticket → β) (p : Ticket → Bool)
    (f : Ticket → Ticket) (hf : ∀ t, g (f t) = g t) (r : Registry) :
    (Registry.mutate p f r).map g = r.map g := by
  induction r with
  | nil => rfl
  | cons a r ih =>
    unfold Registry.mutate
    by_cases hp : p a = true
    · rw [if_pos hp]
      simp [hf]
    · rw [if_neg hp]
      simp [ih]

theorem handleCategory_events (bot : Bot) (e : CategoryEvent) :
    (handleCategory bot e).tickets.map (fun t => t.events) =
      bot.tickets.map (fun t => t.events) := by
  unfold handleCategory
  cases bot.configs.get? e.guildId with
  | none => rfl
  | some config =>
    dsimp only
    by_cases hs : e.hasStaffRole = true
    · simp only [hs, Bool.not_true, Bool.false_eq_true, if_false]
      cases bot.tickets.find
        (fun t => t.guildId == some e.guildId && t.channelId == some e.channelId) with
      | none => rfl
      | some t =>
        refine registry_map_mutate (fun t : Ticket => t.events) _ _ ?_ _
        intro x
        rfl
    · simp [hs]

theorem handlePriority_events (bot : Bot) (e : PriorityEvent) :
    (handlePriority bot e).tickets.map (fun t => t.events) =
      bot.tickets.map (fun t => t.events) := by
  unfold handlePriority
  cases bot.configs.get? e.guildId with
  | none => rfl
  | some config =>
    dsimp only
    by_cases hs : e.hasStaffRole = true
    · simp only [hs, Bool.not_true, Bool.false_eq_true, if_false]
      cases openTicketLookup config e.guildId e.channelId e.channelIsThread
        e.channelParentId with
      | none => rfl
      | some p =>
        dsimp only
        cases bot.tickets.find p with
        | none => rfl
        | some t =>
        refine registry_map_mutate (fun t : Ticket => t.events) _ _ ?_ _
        intro x
        rfl
    · simp [hs]

/-! ## C19: which commands write to the audit trail of a ticket -/

/-- Claim C19, counterexample. On the pending ticket of user `u`, `/category billing` and
`/priority high` succeed (the category and the priority change) and the ticket's `events`
stay as they were, without an entry. -/
theorem category_and_priority_append_no_event :
    pendingTicketBot.tickets.map (fun t => (t.category, t.priority, t.events)) =
        [(none, some "medium", none)] ∧
      (handleCategory pendingTicketBot categoryBilling).tickets.map
          (fun t => (t.category, t.priority, t.events)) =
        [(some "billing", some "medium", none)] ∧
      (handlePriority pendingTicketBot priorityHigh).tickets.map
          (fun t => (t.category, t.priority, t.events)) =
        [(none, some "high", none)] := by
  refine ⟨by decide, by decide, by decide⟩

/-- Claim C19, amended. Each successful `/tag add` and `/tag remove` replaces the ticket
of the channel by the ticket whose `events` are the earlier entries followed by exactly
one new entry (`tag_added` or `tag_removed`, with the tag, the staff member and the time)
and leaves every other ticket as it was; `/category` and `/priority` leave the `events`
of every ticket unchanged. -/
theorem tag_commands_append_one_event (bot : Bot) (e : TagEvent) (ticket : Ticket)
    (hconfig : (bot.configs.get? e.guildId).isSome = true) (hstaff : e.hasStaffRole = true)
    (hfind : bot.tickets.find
      (fun t => t.guildId == some e.guildId && t.channelId == some e.channelId) = some ticket) :
    ((getTag bot.toLowerCase bot.tags e.guildId e.tagName).isSome = true →
      (ticket.tags.getD []).contains e.tagName = false →
      ∃ pre post, bot.tickets = pre ++ ticket :: post ∧
        (handleTagAdd bot e).tickets = pre ++ addTagFields e ticket :: post ∧
        (addTagFields e ticket).events = some (ticket.events.getD [] ++
          [{ type := "tag_added", tag := e.tagName, byId := e.userId, byTag := e.userTag,
             timestamp := JsTime.isoString e.now }])) ∧
      ((ticket.tags.getD []).contains e.tagName = true →
        ∃ pre post, bot.tickets = pre ++ ticket :: post ∧
          (handleTagRemove bot e).tickets = pre ++ removeTagFields e ticket :: post ∧
          (removeTagFields e ticket).events = some (ticket.events.getD [] ++
            [{ type := "tag_removed", tag := e.tagName, byId := e.userId, byTag := e.userTag,
               timestamp := JsTime.isoString e.now }])) ∧
      (∀ ce : CategoryEvent, (handleCategory bot ce).tickets.map (fun t => t.events) =
        bot.tickets.map (fun t => t.events)) ∧
      (∀ pe : PriorityEvent, (handlePriority bot pe).tickets.map (fun t => t.events) =
        bot.tickets.map (fun t => t.events)) := by
  refine ⟨?_, ?_, handleCategory_events bot, handlePriority_events bot⟩
  · intro htag hnew
    obtain ⟨pre, post, h1, -, h3⟩ := registry_mutate_split _ (addTagFields e) ticket _ hfind
    refine ⟨pre, post, h1, ?_, rfl⟩
    rw [← h3]
    unfold handleTagAdd
    cases hc : bot.configs.get? e.guildId with
    | none => rw [hc] at hconfig; cases hconfig
    | some config =>
      cases hg : getTag bot.toLowerCase bot.tags e.guildId e.tagName with
      | none => rw [hg] at htag; cases htag
      | some tag =>
        simp only [hstaff, hfind, hg, hnew, Bool.not_true, Bool.false_eq_true, if_false]
  · intro hold
    obtain ⟨pre, post, h1, -, h3⟩ := registry_mutate_split _ (removeTagFields e) ticket _ hfind
    refine ⟨pre, post, h1, ?_, rfl⟩
    rw [← h3]
    unfold handleTagRemove
    cases hc : bot.configs.get? e.guildId with
    | none => rw [hc] at hconfig; cases hconfig
    | some config =>
      simp only [hstaff, hfind, hold, Bool.not_true, Bool.false_eq_true, if_false]

theorem tag_commands_append_one_event_witness :
    taggedGuildBot.tickets.find
        (fun t => t.guildId == some "g" && t.channelId == some "c") = some pendingTicket ∧
      (getTag taggedGuildBot.toLowerCase taggedGuildBot.tags "g" "bug").isSome = true ∧
      (∃ pre post, taggedGuildBot.tickets = pre ++ pendingTicket :: post ∧
        (handleTagAdd taggedGuildBot tagAddBug).tickets =
          pre ++ addTagFields tagAddBug pendingTicket :: post ∧
        (addTagFields tagAddBug pendingTicket).events = some (pendingTicket.events.getD [] ++
          [{ type := "tag_added", tag := "bug", byId := "s", byTag := "s#3",
             timestamp := JsTime.isoString 30 }])) :=
  ⟨by decide, by simp [getTag, taggedGuildBot, Dict.get?],
    (tag_commands_append_one_event taggedGuildBot tagAddBug pendingTicket (by decide)
      (by decide) (by decide)).1 (by simp [getTag, taggedGuildBot, tagAddBug, Dict.get?])
      (by decide)⟩

/-! ## C20: the fields that `/category` and `/priority` change -/

/-- Claim C20, counterexample. The ticket of user `u` has priority `high` after
`/priority high`; `/category billing`, given without a priority, then sets the category
and puts the priority back to `medium`. -/
theorem category_resets_priority :
    (run pendingTicketBot [Event.priority priorityHigh]).tickets.map
          (fun t => (t.category, t.priority)) = [(none, some "high")] ∧
      categoryBilling.priority = none ∧
      (run pendingTicketBot [Event.priority priorityHigh, Event.category categoryBilling]
        ).tickets.map (fun t => (t.category, t.priority)) =
        [(some "billing", some "medium")] := by
  refine ⟨by decide, by decide, by decide⟩

/-- Claim C20, amended. A successful `/category` given a category and no priority replaces
the ticket of the channel by the same ticket with the category set and the priority set
to `medium` (given a priority, set to that priority); a successful `/priority` replaces
the open ticket of the channel or thread by the same ticket with the priority set. Every
other field of the ticket, every other ticket and the rest of the bot state keep their
previous values. -/
theorem category_and_priority_frame (bot : Bot) (ce : CategoryEvent) (pe : PriorityEvent) :
    (∀ ticket, (bot.configs.get? ce.guildId).isSome = true → ce.hasStaffRole = true →
      bot.tickets.find
        (fun t => t.guildId == some ce.guildId && t.channelId == some ce.channelId) =
          some ticket →
      ∃ pre post, bot.tickets = pre ++ ticket :: post ∧
        handleCategory bot ce =
          { bot with tickets := pre ++
              { ticket with
                category := some ce.category
                priority := if truthy ce.priority then ce.priority else some "medium" }
              :: post } ∧
        (ce.priority = none →
          handleCategory bot ce =
            { bot with tickets := pre ++
                { ticket with category := some ce.category, priority := some "medium" }
                :: post })) ∧
      (∀ config p ticket, bot.configs.get? pe.guildId = some config → pe.hasStaffRole = true →
        openTicketLookup config pe.guildId pe.channelId pe.channelIsThread pe.channelParentId =
          some p →
        bot.tickets.find p = some ticket →
        ∃ pre post, bot.tickets = pre ++ ticket :: post ∧
          handlePriority bot pe =
            { bot with tickets := pre ++ { ticket with priority := some pe.level } :: post }) := by
  constructor
  · intro ticket hconfig hstaff hfind
    obtain ⟨pre, post, h1, -, h3⟩ := registry_mutate_split _
      (fun t : Ticket =>
        { t with
          category := some ce.category
          priority := if truthy ce.priority then ce.priority else some "medium" })
      ticket _ hfind
    have hrun : handleCategory bot ce =
        { bot with tickets := pre ++
            { ticket with
              category := some ce.category
              priority := if truthy ce.priority then ce.priority else some "medium" }
            :: post } := by
      rw [← h3]
      unfold handleCategory
      cases hc : bot.configs.get? ce.guildId with
      | none => rw [hc] at hconfig; cases hconfig
      | some config =>
        simp only [hstaff, hfind, Bool.not_true, Bool.false_eq_true, if_false]
    refine ⟨pre, post, h1, hrun, ?_⟩
    intro hnone
    rw [hrun, hnone]
    rfl
  · intro config p ticket hconfig hstaff hlookup hfind
    obtain ⟨pre, post, h1, -, h3⟩ := registry_mutate_split p
      (fun t : Ticket => { t with priority := some pe.level }) ticket _ hfind
    refine ⟨pre, post, h1, ?_⟩
    rw [← h3]
    unfold handlePriority
    simp only [hconfig, hstaff, hlookup, hfind, Bool.not_true, Bool.false_eq_true, if_false]

theorem category_and_priority_frame_witness :
    pendingTicketBot.tickets.find
        (fun t => t.guildId == some "g" && t.channelId == some "c") = some pendingTicket ∧
      (∃ pre post, pendingTicketBot.tickets = pre ++ pendingTicket :: post ∧
        handleCategory pendingTicketBot categoryBilling =
          { pendingTicketBot with tickets := pre ++
              { pendingTicket with
                category := some "billing"
                priority := if truthy categoryBilling.priority then categoryBilling.priority
                  else some "medium" }
              :: post } ∧
        (categoryBilling.priority = none →
          handleCategory pendingTicketBot categoryBilling =
            { pendingTicketBot with tickets := pre ++
                { pendingTicket with category := some "billing", priority := some "medium" }
                :: post })) :=
  ⟨by decide,
    (category_and_priority_frame pendingTicketBot categoryBilling priorityHigh).1 pendingTicket
      (by decide) (by decide) (by decide)⟩

/-! ## C21: the tags of a ticket stay free of duplicates and in insertion order -/

theorem handleTagAdd_cases (bot : Bot) (e : TagEvent) :
    handleTagAdd bot e = bot ∨
      ∃ ticket, bot.tickets.find
          (fun t => t.guildId == some e.guildId && t.channelId == some e.channelId) =
            some ticket ∧
        (ticket.tags.getD []).contains e.tagName = false ∧
        (getTag bot.toLowerCase bot.tags e.guildId e.tagName).isSome = true ∧
        handleTagAdd bot e =
          { bot with tickets := (Registry.mutate
              (fun t => t.guildId == some e.guildId && t.channelId == some e.channelId)
              (addTagFields e) bot.tickets) } := by
  unfold handleTagAdd
  cases bot.configs.get? e.guildId with
  | none => exact Or.inl rfl
  | some config =>
    dsimp only
    by_cases hs : e.hasStaffRole = true
    · simp only [hs, Bool.not_true, Bool.false_eq_true, if_false]
      cases hf : bot.tickets.find
          (fun t => t.guildId == some e.guildId && t.channelId == some e.channelId) with
      | none => exact Or.inl rfl
      | some ticket =>
        dsimp only
        cases hg : getTag bot.toLowerCase bot.tags e.guildId e.tagName with
        | none => exact Or.inl rfl
        | some tag =>
          dsimp only
          by_cases hc : (ticket.tags.getD []).contains e.tagName = true
          · rw [if_pos hc]
            exact Or.inl rfl
          · rw [if_neg hc]
            refine Or.inr ⟨ticket, rfl, ?_, rfl, rfl⟩
            simpa using hc
    · simp only [hs, Bool.not_false, if_true]
      exact Or.inl trivial

theorem handleTagRemove_cases (bot : Bot) (e : TagEvent) :
    handleTagRemove bot e = bot ∨
      ∃ ticket, bot.tickets.find
          (fun t => t.guildId == some e.guildId && t.channelId == some e.channelId) =
            some ticket ∧
        (ticket.tags.getD []).contains e.tagName = true ∧
        handleTagRemove bot e =
          { bot with tickets := (Registry.mutate
              (fun t => t.guildId == some e.guildId && t.channelId == some e.channelId)
              (removeTagFields e) bot.tickets) } := by
  unfold handleTagRemove
  cases bot.configs.get? e.guildId with
  | none => exact Or.inl rfl
  | some config =>
    dsimp only
    by_cases hs : e.hasStaffRole = true
    · simp only [hs, Bool.not_true, Bool.false_eq_true, if_false]
      cases hf : bot.tickets.find
          (fun t => t.guildId == some e.guildId && t.channelId == some e.channelId) with
      | none => exact Or.inl rfl
      | some ticket =>
        dsimp only
        by_cases hc : (ticket.tags.getD []).contains e.tagName = true
        · simp only [hc, Bool.not_true, Bool.false_eq_true, if_false]
          exact Or.inr ⟨ticket, rfl, hc, trivial⟩
        · simp only [hc, Bool.not_false, if_true]
          exact Or.inl trivial
    · simp only [hs, Bool.not_false, if_true]
      exact Or.inl trivial

theorem tagsUnique_mutate (p : Ticket → Bool) (f : Ticket → Ticket) (r : Registry)
    (ticket : Ticket) (hfind : r.find p = some ticket) (hr : TagsUnique r)
    (hf : ((f ticket).tags.getD []).Nodup) : TagsUnique (Registry.mutate p f r) := by
  obtain ⟨pre, post, h1, -, h3⟩ := registry_mutate_split p f ticket r hfind
  intro t ht
  rw [h3] at ht
  rcases List.mem_append.mp ht with ht | ht
  · exact hr t (by rw [h1]; exact List.mem_append_left _ ht)
  · rcases List.mem_cons.mp ht with ht | ht
    · rw [ht]; exact hf
    · exact hr t (by rw [h1]; exact List.mem_append_right _ (List.mem_cons_of_mem _ ht))

theorem addTagFields_nodup (e : TagEvent) (t : Ticket) (h : (t.tags.getD []).Nodup)
    (hnew : (t.tags.getD []).contains e.tagName = false) :
    (((addTagFields e t).tags).getD []).Nodup := by
  show (t.tags.getD [] ++ [e.tagName]).Nodup
  rw [List.nodup_append]
  refine ⟨h, List.nodup_singleton _, ?_⟩
  intro a ha hb
  rw [List.mem_singleton] at hb
  rw [hb] at ha
  have : (t.tags.getD []).contains e.tagName = true := by simpa using ha
  rw [this] at hnew
  cases hnew

theorem removeTagFields_nodup (e : TagEvent) (t : Ticket) (h : (t.tags.getD []).Nodup) :
    (((removeTagFields e t).tags).getD []).Nodup :=
  List.Nodup.filter _ h

theorem step_tagsUnique (bot : Bot) (ev : Event) (htag : ev.isTagCommand = true)
    (h : TagsUnique bot.tickets) : TagsUnique (step bot ev).tickets := by
  cases ev with
  | tagAdd e =>
    rcases handleTagAdd_cases bot e with h1 | ⟨ticket, hf, hc, -, h1⟩
    · show TagsUnique (handleTagAdd bot e).tickets
      rw [h1]; exact h
    · show TagsUnique (handleTagAdd bot e).tickets
      rw [h1]
      exact tagsUnique_mutate _ _ _ ticket hf h
        (addTagFields_nodup e ticket (h ticket (registry_mem_of_find _ _ _ hf)) hc)
  | tagRemove e =>
    rcases handleTagRemove_cases bot e with h1 | ⟨ticket, hf, -, h1⟩
    · show TagsUnique (handleTagRemove bot e).tickets
      rw [h1]; exact h
    · show TagsUnique (handleTagRemove bot e).tickets
      rw [h1]
      exact tagsUnique_mutate _ _ _ ticket hf h
        (removeTagFields_nodup e ticket (h ticket (registry_mem_of_find _ _ _ hf)))
  | directMessage e => cases htag
  | openCommand e => cases htag
  | reaction e => cases htag
  | guildMessage e => cases htag
  | category e => cases htag
  | priority e => cases htag
  | close e => cases htag

theorem run_tagsUnique (es : List Event) (bot : Bot)
    (htag : ∀ ev ∈ es, ev.isTagCommand = true) (h : TagsUnique bot.tickets) :
    TagsUnique (run bot es).tickets := by
  induction es generalizing bot with
  | nil => exact h
  | cons ev es ih =>
    exact ih (step bot ev) (fun x hx => htag x (List.mem_cons_of_mem _ hx))
      (step_tagsUnique bot ev (htag ev (List.mem_cons_self _ _)) h)

/-- Claim C21. For the ticket of the channel, with tags free of duplicates: `/tag add`
with a name that the tag registry of the guild does not hold, or that is already among
the tags, leaves the whole state (so the tags and events of the ticket) unchanged; a
successful `/tag add` appends the name at the end of the tags; `/tag remove` of a name
that is not among the tags leaves the state unchanged; a successful `/tag remove` keeps
the other tags in their order. Hence after every sequence of `/tag add` and
`/tag remove` the tags of every ticket are free of duplicates. -/
theorem ticket_tags_unique_in_order (bot : Bot) :
    (∀ (e : TagEvent) (ticket : Ticket),
      (bot.configs.get? e.guildId).isSome = true → e.hasStaffRole = true →
      bot.tickets.find
        (fun t => t.guildId == some e.guildId && t.channelId == some e.channelId) =
          some ticket →
      (ticket.tags.getD []).Nodup →
      ((getTag bot.toLowerCase bot.tags e.guildId e.tagName = none ∨
          (ticket.tags.getD []).contains e.tagName = true) → handleTagAdd bot e = bot) ∧
      ((getTag bot.toLowerCase bot.tags e.guildId e.tagName).isSome = true →
        (ticket.tags.getD []).contains e.tagName = false →
        ∃ pre post, bot.tickets = pre ++ ticket :: post ∧
          (handleTagAdd bot e).tickets = pre ++ addTagFields e ticket :: post ∧
          (addTagFields e ticket).tags = some (ticket.tags.getD [] ++ [e.tagName]) ∧
          ((addTagFields e ticket).tags.getD []).Nodup) ∧
      ((ticket.tags.getD []).contains e.tagName = false → handleTagRemove bot e = bot) ∧
      ((ticket.tags.getD []).contains e.tagName = true →
        ∃ pre post, bot.tickets = pre ++ ticket :: post ∧
          (handleTagRemove bot e).tickets = pre ++ removeTagFields e ticket :: post ∧
          (removeTagFields e ticket).tags =
            some ((ticket.tags.getD []).filter (fun x => x != e.tagName)) ∧
          List.Sublist ((removeTagFields e ticket).tags.getD []) (ticket.tags.getD []) ∧
          e.tagName ∉ (removeTagFields e ticket).tags.getD [] ∧
          ((removeTagFields e ticket).tags.getD []).Nodup)) ∧
      (∀ es : List Event, (∀ ev ∈ es, ev.isTagCommand = true) → TagsUnique bot.tickets →
        TagsUnique (run bot es).tickets) := by
  refine ⟨?_, fun es htag h => run_tagsUnique es bot htag h⟩
  intro e ticket hconfig hstaff hfind hnodup
  cases hc : bot.configs.get? e.guildId with
  | none => rw [hc] at hconfig; cases hconfig
  | some config =>
    refine ⟨?_, ?_, ?_, ?_⟩
    · intro h
      unfold handleTagAdd
      rcases h with h | h
      · simp only [hc, hstaff, hfind, h, Bool.not_true, Bool.false_eq_true, if_false]
      · cases hg : getTag bot.toLowerCase bot.tags e.guildId e.tagName with
        | none => simp only [hc, hstaff, hfind, hg, Bool.not_true, Bool.false_eq_true, if_false]
        | some tag =>
          simp only [hc, hstaff, hfind, hg, h, Bool.not_true, Bool.false_eq_true, if_false,
            if_true]
    · intro hg hnew
      obtain ⟨pre, post, h1, -, h3⟩ := registry_mutate_split _ (addTagFields e) ticket _ hfind
      refine ⟨pre, post, h1, ?_, rfl, addTagFields_nodup e ticket hnodup hnew⟩
      rw [← h3]
      unfold handleTagAdd
      cases hg2 : getTag bot.toLowerCase bot.tags e.guildId e.tagName with
      | none => rw [hg2] at hg; cases hg
      | some tag =>
        simp only [hc, hstaff, hfind, hnew, Bool.not_true, Bool.false_eq_true, if_false]
    · intro hnot
      unfold handleTagRemove
      simp only [hc, hstaff, hfind, hnot, Bool.not_true, Bool.false_eq_true, if_false,
        Bool.not_false, if_true]
    · intro hold
      obtain ⟨pre, post, h1, -, h3⟩ :=
        registry_mutate_split _ (removeTagFields e) ticket _ hfind
      refine ⟨pre, post, h1, ?_, rfl, List.filter_sublist _, ?_,
        removeTagFields_nodup e ticket hnodup⟩
      · rw [← h3]
        unfold handleTagRemove
        simp only [hc, hstaff, hfind, hold, Bool.not_true, Bool.false_eq_true, if_false]
      · show e.tagName ∉ (ticket.tags.getD []).filter (fun x => x != e.tagName)
        simp [List.mem_filter]

theorem ticket_tags_unique_in_order_witness :
    (∀ ev ∈ [Event.tagAdd tagAddBug, Event.tagAdd tagAddBug,
        Event.tagRemove { tagAddBug with tagName := "vip" }], ev.isTagCommand = true) ∧
      TagsUnique taggedGuildBot.tickets ∧
      TagsUnique (run taggedGuildBot [Event.tagAdd tagAddBug, Event.tagAdd tagAddBug,
        Event.tagRemove { tagAddBug with tagName := "vip" }]).tickets :=
  ⟨by decide, by intro t ht; revert t ht; decide,
    (ticket_tags_unique_in_order taggedGuildBot).2 _ (by decide)
      (by intro t ht; revert t ht; decide)⟩

/-! ## C22: tag names stay unique per guild -/

theorem map_replaceFirst {α β : Type} (g : α → β) (p : α → Bool) (new old : α) (l : List α)
    (hfind : l.find? p = some old) (hg : g new = g old) :
    (replaceFirst p new l).map g = l.map g := by
  obtain ⟨pre, post, h1, h2, -⟩ := replaceFirst_split p new old l hfind
  rw [h2, h1]
  simp [hg]

theorem tagNamesUnique_set (toLowerCase : String → String) (tags : Dict (List Tag))
    (g : String) (l : List Tag) (h : TagNamesUnique toLowerCase tags)
    (hl : (l.map (fun t => toLowerCase t.name)).Nodup) :
    TagNamesUnique toLowerCase (tags.set g l) := by
  intro g2 l2 hget
  by_cases hk : g = g2
  · subst hk
    rw [dict_get_set_self] at hget
    cases hget
    exact hl
  · rw [dict_get_set_other _ _ _ _ hk] at hget
    exact h g2 l2 hget

theorem addTag_tagNamesUnique (toLowerCase : String → String) (tags : Dict (List Tag))
    (g : String) (tag : Tag) (h : TagNamesUnique toLowerCase tags) :
    TagNamesUnique toLowerCase (addTag toLowerCase tags g tag).2 := by
  have h1 : TagNamesUnique toLowerCase
      (match tags.get? g with
        | none => tags.set g []
        | some _ => tags) := by
    cases tags.get? g with
    | none => exact tagNamesUnique_set toLowerCase tags g [] h List.nodup_nil
    | some l => exact h
  unfold addTag
  dsimp only
  cases hfind : List.find? (fun t => toLowerCase t.name == toLowerCase tag.name)
      (((match tags.get? g with
        | none => tags.set g []
        | some _ => tags).get? g).getD []) with
  | some t => exact h1
  | none =>
    dsimp only
    refine tagNamesUnique_set toLowerCase _ g _ h1 ?_
    rw [List.map_append, List.nodup_append]
    refine ⟨?_, List.nodup_singleton _, ?_⟩
    · cases hget : (match tags.get? g with
          | none => tags.set g []
          | some _ => tags).get? g with
      | none => exact List.nodup_nil
      | some l => exact h1 g l hget
    · intro a ha hb
      rw [List.map_singleton, List.mem_singleton] at hb
      rw [List.mem_map] at ha
      obtain ⟨t, ht, hta⟩ := ha
      have hnone := List.find?_eq_none.mp hfind t ht
      rw [hta, hb] at hnone
      simp at hnone

theorem removeTag_tagNamesUnique (toLowerCase : String → String) (tags : Dict (List Tag))
    (g name : String) (h : TagNamesUnique toLowerCase tags) :
    TagNamesUnique toLowerCase (removeTag toLowerCase tags g name).2 := by
  unfold removeTag
  cases hget : tags.get? g with
  | none => exact h
  | some l =>
    have hset : TagNamesUnique toLowerCase (tags.set g
        (l.filter (fun tag => toLowerCase tag.name != toLowerCase name))) :=
      tagNamesUnique_set toLowerCase tags g _ h
        (List.Nodup.sublist (List.Sublist.map _ (List.filter_sublist _)) (h g l hget))
    dsimp only
    split
    · exact hset
    · exact hset

theorem updateTag_tagNamesUnique (toLowerCase : String → String) (tags : Dict (List Tag))
    (g name : String) (updates : TagUpdates) (hname : updates.name = none)
    (h : TagNamesUnique toLowerCase tags) :
    TagNamesUnique toLowerCase (updateTag toLowerCase tags g name updates).2 := by
  unfold updateTag
  cases hget : tags.get? g with
  | none => exact h
  | some l =>
    dsimp only
    cases hfind : List.find? (fun tag => toLowerCase tag.name == toLowerCase name) l with
    | none => exact h
    | some tag =>
      dsimp only
      refine tagNamesUnique_set toLowerCase tags g _ h ?_
      rw [map_replaceFirst (fun t : Tag => toLowerCase t.name) _ _ tag l hfind]
      · exact h g l hget
      · show toLowerCase (updates.name.getD tag.name) = toLowerCase tag.name
        rw [hname]
        rfl

theorem tagsAfter_tagNamesUnique (toLowerCase : String → String) (calls : List TagCall)
    (tags : Dict (List Tag)) (hcalls : ∀ c ∈ calls, c.keepsName = true)
    (h : TagNamesUnique toLowerCase tags) :
    TagNamesUnique toLowerCase (tagsAfter toLowerCase tags calls) := by
  induction calls generalizing tags with
  | nil => exact h
  | cons c cs ih =>
    refine ih _ (fun x hx => hcalls x (List.mem_cons_of_mem _ hx)) ?_
    have hc := hcalls c (List.mem_cons_self _ _)
    cases c with
    | add g tag => exact addTag_tagNamesUnique toLowerCase tags g tag h
    | remove g name => exact removeTag_tagNamesUnique toLowerCase tags g name h
    | update g name updates =>
      refine updateTag_tagNamesUnique toLowerCase tags g name updates ?_ h
      simpa [TagCall.keepsName] using hc

/-- Claim C22, counterexample. After `bug` and `vip` are added to guild `g`, the call
`updateTag("g", "vip", {name: "Bug"})` succeeds and leaves the list with the tags `bug`
and `Bug`, two names that are equal ignoring case. (The names are plain letters, on which
the lower-casing of the platform is `asciiToLowerCase`.) -/
theorem updateTag_renames_to_existing :
    (updateTag asciiToLowerCase
        (tagsAfter asciiToLowerCase []
          [TagCall.add "g" { name := "bug" }, TagCall.add "g" { name := "vip" }])
        "g" "vip" { name := some "Bug" }).1.success = true ∧
      ((tagsAfter asciiToLowerCase [] renameToExisting).get? "g").map
          (fun l => l.map (fun t => t.name)) = some ["bug", "Bug"] ∧
      asciiToLowerCase "bug" = asciiToLowerCase "Bug" ∧
      ¬ TagNamesUnique asciiToLowerCase (tagsAfter asciiToLowerCase [] renameToExisting) := by
  refine ⟨by decide, by decide, by decide, ?_⟩
  intro h
  have h2 := h "g" _ (by decide : (tagsAfter asciiToLowerCase [] renameToExisting).get? "g" =
    some [{ name := "bug" }, { name := "Bug" }])
  revert h2
  decide

/-- Claim C22, amended. Starting from an empty tag registry, after every sequence of
`addTag`, `removeTag` and `updateTag` calls in which no `updateTag` carries a `name`, no
list of a guild holds two tags whose names are equal ignoring case; and for every
registry, an `addTag` whose name already exists in the guild, ignoring case, returns
`success = false` and leaves the registry unchanged. Two names are equal ignoring case
when the method `toLowerCase` of the platform gives them the same image; the statement
holds whatever function that method is. -/
theorem tag_names_unique_without_rename (toLowerCase : String → String)
    (calls : List TagCall) (hcalls : ∀ c ∈ calls, c.keepsName = true) :
    TagNamesUnique toLowerCase (tagsAfter toLowerCase [] calls) ∧
      (∀ (tags : Dict (List Tag)) (g : String) (tag existing : Tag) (l : List Tag),
        tags.get? g = some l → existing ∈ l →
        toLowerCase existing.name = toLowerCase tag.name →
        (addTag toLowerCase tags g tag).1.success = false ∧
          (addTag toLowerCase tags g tag).2 = tags) := by
  refine ⟨tagsAfter_tagNamesUnique toLowerCase calls [] hcalls (fun g l h => by cases h), ?_⟩
  intro tags g tag existing l hget hmem hname
  unfold addTag
  simp only [hget, Option.getD_some]
  cases hfind : List.find? (fun t => toLowerCase t.name == toLowerCase tag.name) l with
  | none =>
    have := List.find?_eq_none.mp hfind existing hmem
    simp [hname] at this
  | some t => exact ⟨rfl, rfl⟩

theorem tag_names_unique_without_rename_witness :
    (∀ c ∈ tagRegistryCalls, c.keepsName = true) ∧
      TagNamesUnique asciiToLowerCase (tagsAfter asciiToLowerCase [] tagRegistryCalls) ∧
      (addTag asciiToLowerCase
        (tagsAfter asciiToLowerCase [] [TagCall.add "g" { name := "bug" }]) "g"
        { name := "BUG" }).1.success = false :=
  ⟨by decide,
    (tag_names_unique_without_rename asciiToLowerCase tagRegistryCalls (by decide)).1,
    ((tag_names_unique_without_rename asciiToLowerCase tagRegistryCalls (by decide)).2
      (tagsAfter asciiToLowerCase [] [TagCall.add "g" { name := "bug" }]) "g"
      { name := "BUG" } { name := "bug" }
      [{ name := "bug" }] (by decide) (by decide) (by decide)).1⟩

/-! ## C23, C24: responses to a satisfaction survey -/

theorem dict_get_delete_self {α : Type} (d : Dict α) (k : String) :
    (d.delete k).get? k = none := by
  unfold Dict.delete
  induction d with
  | nil => rfl
  | cons e r ih =>
    obtain ⟨k', v⟩ := e
    by_cases h : k' = k
    · have hk : ((k', v).1 != k) = false := by simp [h]
      rw [List.filter_cons, hk]
      exact ih
    · have hk : ((k', v).1 != k) = true := by simp [h]
      rw [List.filter_cons, hk]
      simp only [if_true, Dict.get?, h, if_false]
      exact ih

theorem handleRating_not_active (s : SurveyState) (e : RatingEvent)
    (h : s.activeTickets.get? e.ticketId = none) :
    handleRating s e = (RatingOutcome.notActive, s) := by
  unfold handleRating
  rw [h]

/-- Claim C23, at the failing input. The survey of ticket `g-0002` was sent to user `v`
at time `9` and expires seven days later. The response of `v` one millisecond after the
expiry time is accepted: the rating is written to the history record and appended to the
ratings of the user and of the staff member. (A response for a ticket id without an
active survey is refused and changes nothing, for every state.) -/
theorem late_rating_is_recorded :
    (surveyedState.activeTickets.get? "g-0002").map (fun sv => (sv.userId, sv.expires)) =
        some ("v", 604800009) ∧
      lateRating.now = 604800010 ∧
      surveyedState.history.tickets.map (fun r => (r.id, r.satisfactionRating)) =
        [(some "g-0002", none)] ∧
      (surveyedState.history.userRollup "v").ratings = [] ∧
      (handleRating surveyedState lateRating).1 = RatingOutcome.recorded ∧
      (handleRating surveyedState lateRating).2.history.tickets.map
          (fun r => (r.id, r.satisfactionRating)) = [(some "g-0002", some 4)] ∧
      ((handleRating surveyedState lateRating).2.history.userRollup "v").ratings = [4] ∧
      (((handleRating surveyedState lateRating).2.history.serverRollup "g").staffRollup
        "s").ratings = [4] ∧
      (∀ (s : SurveyState) (e : RatingEvent), s.activeTickets.get? e.ticketId = none →
        handleRating s e = (RatingOutcome.notActive, s)) := by
  refine ⟨by decide, by decide, by decide, by decide, by decide, by decide, by decide,
    by decide, handleRating_not_active⟩

/-- Claim C24, amended. For every active survey: a response from another user than the
recipient of the survey is refused and changes neither the history nor the surveys; a
response of the recipient that the handler completes records the rating with
`updateTicket` (the history record of the ticket then holds the rating) and removes the
survey, so that every further response for the same ticket that is handled after the
first handler has completed is refused as not active and changes nothing. -/
theorem rating_response_single_use (s : SurveyState) (e : RatingEvent) (survey : Survey)
    (hsurvey : s.activeTickets.get? e.ticketId = some survey) :
    (e.userId ≠ survey.userId → handleRating s e = (RatingOutcome.notRecipient, s)) ∧
      (e.userId = survey.userId → e.replyFails = false →
        (handleRating s e).1 = RatingOutcome.recorded ∧
        (handleRating s e).2.history =
          (updateTicket s.history e.ticketId { satisfactionRating := some (some e.rating) }).2 ∧
        (∀ rec, s.history.tickets.find? (fun t => t.id == some e.ticketId) = some rec →
          (handleRating s e).2.history.tickets.find? (fun t => t.id == some e.ticketId) =
            some { rec with satisfactionRating := some e.rating }) ∧
        (handleRating s e).2.activeTickets.get? e.ticketId = none ∧
        (∀ e2 : RatingEvent, e2.ticketId = e.ticketId →
          handleRating (handleRating s e).2 e2 =
            (RatingOutcome.notActive, (handleRating s e).2))) := by
  constructor
  · intro hne
    unfold handleRating
    rw [hsurvey]
    simp only [hne, ne_eq, not_false_eq_true, if_true]
  · intro heq hreply
    have hrun : handleRating s e = (RatingOutcome.recorded,
        { activeTickets := s.activeTickets.delete e.ticketId,
          history := (updateTicket s.history e.ticketId
            { satisfactionRating := some (some e.rating) }).2 }) := by
      unfold handleRating
      rw [hsurvey]
      simp only [heq, hreply, ne_eq, not_true_eq_false, if_false, Bool.false_eq_true]
    rw [hrun]
    refine ⟨rfl, rfl, ?_, dict_get_delete_self _ _, ?_⟩
    · intro rec hfind
      obtain ⟨-, htk, -⟩ := updateTicket_found s.history e.ticketId
        { satisfactionRating := some (some e.rating) } rec hfind
      show List.find? _ (updateTicket s.history e.ticketId
        { satisfactionRating := some (some e.rating) }).2.tickets = _
      rw [htk]
      have hid := List.find?_some hfind
      exact find_replaceFirst _ _ _ _ hid hfind
    · intro e2 h2
      apply handleRating_not_active
      rw [h2]
      exact dict_get_delete_self _ _

theorem rating_response_single_use_witness :
    surveyedState.activeTickets.get? timelyRating.ticketId =
        some activeSurvey ∧
      (handleRating surveyedState { timelyRating with userId := "w" }).1 =
        RatingOutcome.notRecipient ∧
      (handleRating surveyedState timelyRating).1 = RatingOutcome.recorded ∧
      (handleRating surveyedState timelyRating).2.activeTickets.get? "g-0002" = none ∧
      (handleRating (handleRating surveyedState timelyRating).2 timelyRating).1 =
        RatingOutcome.notActive :=
  ⟨by decide, by decide,
    ((rating_response_single_use surveyedState timelyRating activeSurvey (by decide)).2
      (by decide) (by decide)).1,
    ((rating_response_single_use surveyedState timelyRating activeSurvey (by decide)).2
      (by decide) (by decide)).2.2.2.1,
    by decide⟩

/-! ## C25: the messages collected by `/close` -/

theorem dropWhile_to_id (pre : List DiscordMessage) (m : DiscordMessage)
    (rest : List DiscordMessage)
    (hnodup : ((pre ++ m :: rest).map (fun x => x.id)).Nodup) :
    (pre ++ m :: rest).dropWhile (fun x => x.id != m.id) = m :: rest := by
  induction pre with
  | nil => simp [List.dropWhile]
  | cons a pre ih =>
    have hne : a.id ≠ m.id := by
      intro h
      simp only [List.cons_append, List.map_cons, List.nodup_cons, List.map_append,
        List.mem_append, List.mem_cons, List.mem_map] at hnodup
      exact hnodup.1 (Or.inr (Or.inl h))
    have htail : ((pre ++ m :: rest).map (fun x => x.id)).Nodup := by
      simp only [List.cons_append, List.map_cons, List.nodup_cons] at hnodup
      exact hnodup.2
    have hb : (a.id != m.id) = true := by simpa using hne
    rw [List.cons_append, List.dropWhile_cons, hb]
    exact ih htail

theorem fetchPage_next (done rest : List DiscordMessage)
    (hnodup : ((done ++ rest).map (fun x => x.id)).Nodup)
    (hne : ∀ m ∈ done ++ rest, m.id ≠ "") :
    fetchPage (done ++ rest)
      (if truthy (done.getLast?.map (fun m => m.id)) then done.getLast?.map (fun m => m.id)
        else none) = rest.take 100 := by
  rcases List.eq_nil_or_concat done with hd | ⟨pre, m, hd⟩
  · subst hd
    rfl
  · rw [List.concat_eq_append] at hd
    subst hd
    have hm : m.id ≠ "" := hne m (by simp)
    have hlast : (pre ++ [m]).getLast?.map (fun m => m.id) = some m.id := by simp
    have htruthy : truthy (some m.id) = true := by simpa [truthy] using hm
    rw [hlast, if_pos htruthy]
    unfold fetchPage
    have happ : pre ++ [m] ++ rest = pre ++ m :: rest := by simp
    rw [happ] at hnodup ⊢
    simp only [dropWhile_to_id pre m rest hnodup, List.drop_succ_cons, List.drop_zero]

theorem collectMessages_from (surface : List DiscordMessage)
    (hnodup : (surface.map (fun x => x.id)).Nodup) (hne : ∀ m ∈ surface, m.id ≠ "") :
    ∀ (fuel : Nat) (done rest : List DiscordMessage), surface = done ++ rest →
      rest.length / 100 + 1 ≤ fuel →
      collectMessages surface fuel done (done.getLast?.map (fun m => m.id)) =
        some (done ++ rest) := by
  intro fuel
  induction fuel with
  | zero => intro done rest _ h; omega
  | succ fuel ih =>
    intro done rest hs hfuel
    have hpage := fetchPage_next done rest (hs ▸ hnodup) (hs ▸ hne)
    rw [← hs] at hpage
    unfold collectMessages
    simp only [hpage]
    by_cases h0 : (rest.take 100).length = 0
    · rw [if_pos h0]
      have hrest : rest = [] := by
        cases rest with
        | nil => rfl
        | cons a r => simp at h0
      rw [hrest, List.append_nil]
    · rw [if_neg h0]
      by_cases h100 : (rest.take 100).length < 100
      · rw [if_pos h100]
        have htake : rest.take 100 = rest := by
          apply List.take_of_length_le
          rw [List.length_take] at h100
          omega
        rw [htake]
      · rw [if_neg h100]
        have hlen : 100 ≤ rest.length := by
          rw [List.length_take] at h100
          omega
        have hnonempty : rest.take 100 ≠ [] := by
          intro h
          rw [h] at h0
          exact h0 rfl
        have hlast : (rest.take 100).getLast?.map (fun m => m.id) =
            (done ++ rest.take 100).getLast?.map (fun m => m.id) := by
          rw [List.getLast?_append_of_ne_nil _ hnonempty]
        rw [hlast]
        have hsplit : surface = (done ++ rest.take 100) ++ rest.drop 100 := by
          rw [List.append_assoc, List.take_append_drop]
          exact hs
        have hfuel2 : (rest.drop 100).length / 100 + 1 ≤ fuel := by
          rw [List.length_drop]
          have : rest.length / 100 = (rest.length - 100) / 100 + 1 := by
            omega
          omega
        rw [ih _ _ hsplit hfuel2, List.append_assoc, List.take_append_drop]

theorem processMessage_id_timestamp (ticket : Ticket) (msg : DiscordMessage) :
    (processMessage ticket msg).id = msg.id ∧
      (processMessage ticket msg).timestamp = msg.createdTimestamp := by
  unfold processMessage
  split <;> exact ⟨rfl, rfl⟩

theorem sortByTimestamp_sorted (messages : List DiscordMessage) :
    List.Pairwise (fun a b => a ≤ b)
      ((sortByTimestamp messages).map (fun m => m.createdTimestamp)) := by
  unfold sortByTimestamp
  rw [List.pairwise_map]
  have h : (List.mergeSort messages
      (fun a b => decide (a.createdTimestamp ≤ b.createdTimestamp))).Pairwise
      (fun a b => decide (a.createdTimestamp ≤ b.createdTimestamp) = true) := by
    refine List.sorted_mergeSort ?_ ?_ messages
    · intro a b c hab hbc
      simp only [decide_eq_true_eq] at hab hbc ⊢
      exact Nat.le_trans hab hbc
    · intro a b
      simp only [Bool.or_eq_true, decide_eq_true_eq]
      exact Nat.le_total _ _
  exact h.imp (fun hab => by simpa using hab)

theorem handleClose_history (bot : Bot) (e : CloseEvent) :
    (handleClose bot e).history = bot.history ∨
      ∃ t : Ticket, (handleClose bot e).history =
        (addTicket bot.history t (sortByTimestamp (closeMessages e)) e.now).2 := by
  unfold handleClose
  split
  · exact Or.inl rfl
  split
  · exact Or.inl rfl
  split
  · exact Or.inl rfl
  simp only
  split
  · exact Or.inl rfl
  rename_i config _ _ ticket hfind
  split
  · exact Or.inl rfl
  split
  · exact Or.inl rfl
  split
  · exact Or.inl rfl
  split
  · exact Or.inr ⟨_, rfl⟩
  · exact Or.inr ⟨_, rfl⟩

theorem closeMessages_of_surface (e : CloseEvent) (h : e.closureMessage ∈ e.fetchedMessages) :
    closeMessages e = e.fetchedMessages := by
  unfold closeMessages
  have hany : e.fetchedMessages.any (fun m => m.id == e.closureMessage.id) = true := by
    rw [List.any_eq_true]
    exact ⟨e.closureMessage, h, by simp⟩
  rw [if_pos hany]

/-- Claim C25. For every conversation surface holding finitely many messages with
distinct, non-empty ids, where a page fetch returns the next at most `100` older
messages: the pagination loop of `/close` ends within `length / 100 + 1` fetches and has
then collected the messages of the surface, each once, in the order of the surface; and
every history record that the `/close` handing over these messages stores has a message
log ordered by ascending timestamp that holds each of these messages once. -/
theorem close_collects_every_message_once (surface : List DiscordMessage) (fuel : Nat)
    (hids : (surface.map (fun m => m.id)).Nodup) (hne : ∀ m ∈ surface, m.id ≠ "")
    (hfuel : surface.length / 100 + 1 ≤ fuel) :
    collectMessages surface fuel [] none = some surface ∧
      (∀ (bot : Bot) (e : CloseEvent), e.fetchedMessages = surface →
        e.closureMessage ∈ surface →
        ∀ rec ∈ (handleClose bot e).history.tickets,
          rec ∈ bot.history.tickets ∨
            (List.Pairwise (fun a b => a ≤ b) (rec.messages.map (fun m => m.timestamp)) ∧
              List.Perm (rec.messages.map (fun m => m.id)) (surface.map (fun m => m.id)) ∧
              rec.messages.length = surface.length)) := by
  constructor
  · exact collectMessages_from surface hids hne fuel [] surface rfl hfuel
  · intro bot e hfetched hclosure rec hrec
    rcases handleClose_history bot e with h | ⟨t, h⟩
    · left
      rw [h] at hrec
      exact hrec
    · rw [h] at hrec
      have htk : (addTicket bot.history t (sortByTimestamp (closeMessages e)) e.now).2.tickets =
          bot.history.tickets ++
            [(addTicket bot.history t (sortByTimestamp (closeMessages e)) e.now).1] := rfl
      rw [htk, List.mem_append, List.mem_singleton] at hrec
      rcases hrec with hrec | hrec
      · exact Or.inl hrec
      · right
        have hmsgs : rec.messages =
            (sortByTimestamp (closeMessages e)).map (processMessage t) := by
          rw [hrec]
          rfl
        have hclose : closeMessages e = surface := by
          rw [← hfetched]
          exact closeMessages_of_surface e (hfetched ▸ hclosure)
        have hts : rec.messages.map (fun m => m.timestamp) =
            (sortByTimestamp surface).map (fun m => m.createdTimestamp) := by
          rw [hmsgs, hclose, List.map_map]
          apply List.map_congr_left
          intro m _
          exact (processMessage_id_timestamp t m).2
        have hidm : rec.messages.map (fun m => m.id) =
            (sortByTimestamp surface).map (fun m => m.id) := by
          rw [hmsgs, hclose, List.map_map]
          apply List.map_congr_left
          intro m _
          exact (processMessage_id_timestamp t m).1
        refine ⟨?_, ?_, ?_⟩
        · rw [hts]
          exact sortByTimestamp_sorted surface
        · rw [hidm]
          exact List.Perm.map _ (List.mergeSort_perm _ _)
        · rw [hmsgs, hclose, List.length_map]
          exact (List.mergeSort_perm _ _).length_eq

theorem close_collects_every_message_once_witness :
    (threeMessageSurface.map (fun m => m.id)).Nodup ∧
      (∀ m ∈ threeMessageSurface, m.id ≠ "") ∧
      collectMessages threeMessageSurface 1 [] none = some threeMessageSurface :=
  ⟨by decide, by decide,
    (close_collects_every_message_once threeMessageSurface 1 (by decide) (by decide)
      (by decide)).1⟩

/-! ## C29: what `sanitizeInput` substitutes -/

theorem replaceAll_nil (c : Char) (r : List Char) : replaceAll c r [] = [] := rfl

theorem replaceAll_append (c : Char) (r a b : List Char) :
    replaceAll c r (a ++ b) = replaceAll c r a ++ replaceAll c r b := by
  unfold replaceAll
  rw [List.flatMap_append]

theorem replaceAll_cons (c : Char) (r : List Char) (x : Char) (l : List Char) :
    replaceAll c r (x :: l) = (if x = c then r else [x]) ++ replaceAll c r l := by
  unfold replaceAll
  rw [List.flatMap_cons]

theorem replaceAll_chain_char (x : Char) :
    replaceAll '\n' "<br>".data
      (replaceAll graveAccent "&#096;".data
        (replaceAll apostrophe "&#039;".data
          (replaceAll doubleQuote "&quot;".data
            (replaceAll '>' "&gt;".data
              (replaceAll apostrophe fourthReplacement
                (replaceAll doubleQuote "&quot;".data
                  (replaceAll '>' "&gt;".data
                    (replaceAll '<' "&lt;".data [x])))))))) = sanitizeChar x := by
  by_cases h1 : x = '<'
  · subst h1; decide
  by_cases h2 : x = '>'
  · subst h2; decide
  by_cases h3 : x = doubleQuote
  · subst h3; decide
  by_cases h4 : x = apostrophe
  · subst h4; decide
  by_cases h5 : x = graveAccent
  · subst h5; decide
  by_cases h6 : x = '\n'
  · subst h6; decide
  simp [replaceAll, sanitizeChar, escapeChar, h1, h2, h3, h4, h5, h6]

theorem replaceAll_chain (l : List Char) :
    replaceAll '\n' "<br>".data
      (replaceAll graveAccent "&#096;".data
        (replaceAll apostrophe "&#039;".data
          (replaceAll doubleQuote "&quot;".data
            (replaceAll '>' "&gt;".data
              (replaceAll apostrophe fourthReplacement
                (replaceAll doubleQuote "&quot;".data
                  (replaceAll '>' "&gt;".data
                    (replaceAll '<' "&lt;".data l)))))))) = l.flatMap sanitizeChar := by
  induction l with
  | nil => rfl
  | cons x l ih =>
    have hx : x :: l = [x] ++ l := rfl
    rw [hx]
    simp only [replaceAll_append]
    rw [ih, replaceAll_chain_char, List.flatMap_append, List.flatMap_singleton]

/-- Claim C29, at the failing input. For the input `it's` the function returns
`it&#039;  &quot;&lt;s`, not `it&#039;s`: the fourth replacement of the chain turns every
apostrophe into the entity followed by two blanks, a double quote and `&lt;`, and the
sixth replacement then escapes that double quote. For every input the result is the
character-wise substitution `sanitizeChar`, which differs from the documented one at the
apostrophe only; a missing or empty input gives the empty string. -/
theorem sanitizeInput_mangles_apostrophe :
    sanitizeInput (some "it's") = "it&#039;  &quot;&lt;s" ∧
      String.mk ("it's".data.flatMap escapeChar) = "it&#039;s" ∧
      (∀ s : String, sanitizeInput (some s) = String.mk (s.data.flatMap sanitizeChar)) ∧
      (∀ c : Char, c ≠ apostrophe → sanitizeChar c = escapeChar c) ∧
      sanitizeInput none = "" ∧ sanitizeInput (some "") = "" := by
  refine ⟨by decide, by decide, ?_, ?_, by decide, by decide⟩
  · intro s
    unfold sanitizeInput
    by_cases hs : s = ""
    · subst hs
      decide
    · have ht : truthy (some s) = true := by simpa [truthy] using hs
      simp only [ht, Bool.not_true, Bool.false_eq_true, if_false, Option.getD_some]
      rw [replaceAll_chain]
  · intro c hc
    unfold sanitizeChar
    rw [if_neg hc]

/-! ## C30: a reply in the modmail channel of a guild in legacy mode -/

theorem script_run_subset (fails : Nat → Request → Bool) (s : Script) :
    ∀ n r, r ∈ (Script.run fails n s).1 → r ∈ s.requests := by
  induction s with
  | skip => intro n r h; simp [Script.run] at h
  | request q => intro n r h; simpa [Script.run, Script.requests] using h
  | post q => intro n r h; simpa [Script.run, Script.requests] using h
  | seq a b iha ihb =>
    intro n r h
    unfold Script.run at h
    unfold Script.requests
    rw [List.mem_append]
    cases ha : Script.run fails n a with
    | mk t1 x1 =>
      rw [ha] at h
      cases x1 with
      | true =>
        simp only at h
        exact Or.inl (iha n r (by rw [ha]; exact h))
      | false =>
        simp only at h
        rcases List.mem_append.mp h with h | h
        · exact Or.inl (iha n r (by rw [ha]; exact h))
        · exact Or.inr (ihb _ r h)
  | attempt a b iha ihb =>
    intro n r h
    unfold Script.run at h
    unfold Script.requests
    rw [List.mem_append]
    cases ha : Script.run fails n a with
    | mk t1 x1 =>
      rw [ha] at h
      cases x1 with
      | true =>
        simp only at h
        rcases List.mem_append.mp h with h | h
        · exact Or.inl (iha n r (by rw [ha]; exact h))
        · exact Or.inr (ihb _ r h)
      | false =>
        simp only at h
        exact Or.inl (iha n r (by rw [ha]; exact h))

theorem script_run_accepted (fails : Nat → Request → Bool) (h : ∀ n r, fails n r = false)
    (s : Script) : ∀ n, Script.run fails n s = (s.accepted, false) := by
  induction s with
  | skip => intro n; rfl
  | request q => intro n; simp [Script.run, Script.accepted, h]
  | post q => intro n; rfl
  | seq a b iha ihb =>
    intro n
    unfold Script.run
    rw [iha n]
    simp only
    rw [ihb]
    rfl
  | attempt a b iha _ =>
    intro n
    unfold Script.run
    rw [iha n]
    rfl

theorem find_congr {α : Type} (p q : α → Bool) (l : List α) (h : ∀ x ∈ l, p x = q x) :
    l.find? p = l.find? q := by
  induction l with
  | nil => rfl
  | cons a l ih =>
    rw [List.find?_cons, List.find?_cons, h a (List.mem_cons_self _ _),
      ih (fun x hx => h x (List.mem_cons_of_mem _ hx))]

theorem replyFields_user (staffId : String) (now : Nat) (t : Ticket) :
    (replyFields staffId now t).userId = t.userId ∧
      (replyFields staffId now t).numericId = t.numericId := by
  unfold replyFields
  split
  · split
    · exact ⟨rfl, rfl⟩
    · exact ⟨rfl, rfl⟩
  · exact ⟨rfl, rfl⟩

theorem autoClaimScript_userSend (config : GuildConfig) (isThread : Bool) (t : Ticket)
    (e : GuildMessageEvent) :
    ∀ r ∈ (autoClaimScript config isThread t e).requests, ∀ u dm,
      r = Request.userSend u dm → u = t.userId := by
  intro r hr u dm hu
  subst hu
  unfold autoClaimScript at hr
  simp only [Script.requests, List.mem_append, List.mem_singleton, List.append_nil] at hr
  rcases hr with ((h | h | h | h | h | h) | h)
  · cases h
  · cases h
  · cases h
  · split at h
    · simp [Script.requests] at h
    · simp [Script.requests] at h
  · cases h
  · split at h
    · simp only [Script.requests, List.mem_singleton] at h
      cases h
      rfl
    · split at h
      · simp only [Script.requests, List.mem_singleton] at h
        cases h
        rfl
      · simp [Script.requests] at h
  · cases h

theorem forwardScript_userSend (config : GuildConfig) (isThread : Bool) (t : Ticket)
    (e : GuildMessageEvent) :
    ∀ r ∈ (forwardScript config isThread t e).requests, ∀ u dm,
      r = Request.userSend u dm → u = t.userId := by
  intro r hr u dm hu
  subst hu
  unfold forwardScript at hr
  simp only [Script.requests, List.mem_append, List.mem_singleton] at hr
  rcases hr with h | h
  · split at h
    · simp only [Script.requests, List.mem_append, List.mem_singleton] at h
      rcases h with h | h | h
      · cases h
      · cases h
        rfl
      · split at h
        · simp [Script.requests] at h
        · simp [Script.requests] at h
    · split at h
      · simp [Script.requests] at h
      · simp [Script.requests] at h
  · cases h

/-- Claim C30. In a guild in legacy mode whose tickets all carry the modmail channel as
their channel, for every reply of a staff member posted in the modmail channel (a
message that starts with none of `#`, `!`, `/`), whatever its content: the handler works
on the first open ticket of the guild in the order of the registry. Every direct message
it requests goes to the user of that ticket; when the platform accepts every request the
reply is sent to that user, with the number of that ticket; and of all tickets only that
one can change (it is claimed when it was pending). -/
theorem legacy_reply_goes_to_first_open_ticket (bot : Bot) (e : GuildMessageEvent)
    (fails : Nat → Request → Bool) (config : GuildConfig) (ticket : Ticket)
    (hauthor : e.authorBot = false) (hconfig : bot.configs.get? e.guildId = some config)
    (hlegacy : config.useThreads = false) (hchannel : e.channelId = config.modmailChannelId)
    (hnothread : e.channelIsThread = false) (hstaff : e.hasStaffRole = true)
    (hnote : jsStartsWith e.content "#" = false) (hbang : jsStartsWith e.content "!" = false)
    (hslash : jsStartsWith e.content "/" = false)
    (hshared : ∀ t ∈ bot.tickets, t.guildId = some e.guildId →
      t.channelId = some config.modmailChannelId)
    (hfirst : bot.tickets.find (fun t => t.guildId == some e.guildId && t.isOpen) =
      some ticket) :
    (∀ r ∈ guildMessageRequests bot e fails, ∀ u dm,
        r = Request.userSend u dm → u = ticket.userId) ∧
      ((∀ n r, fails n r = false) →
        Request.userSend ticket.userId (UserDm.staffReply e.content ticket.numericId) ∈
          guildMessageRequests bot e fails) ∧
      (∃ pre post, bot.tickets = pre ++ ticket :: post ∧
        (∀ t ∈ pre, (t.guildId == some e.guildId && t.isOpen) = false) ∧
        (handleGuildMessage bot e).tickets =
          pre ++ replyFields e.authorId e.now ticket :: post) := by
  have hlookup : openTicketLookup config e.guildId e.channelId e.channelIsThread
      e.channelParentId =
      some (fun t => t.guildId == some e.guildId && t.channelId == some e.channelId
        && t.isOpen) := by
    unfold openTicketLookup
    simp [hnothread, hchannel]
  have hfind : bot.tickets.find (fun t => t.guildId == some e.guildId
      && t.channelId == some e.channelId && t.isOpen) = some ticket := by
    rw [← hfirst]
    unfold Registry.find
    apply find_congr
    intro t ht
    by_cases hg : t.guildId = some e.guildId
    · have hc := hshared t ht hg
      simp [hg, hc, hchannel]
    · have hb : (t.guildId == some e.guildId) = false := beq_eq_false_iff_ne.mpr hg
      rw [hb]
      rfl
  have hthread : isTicketThread config e = false := by
    unfold isTicketThread
    simp [hnothread]
  have hscript : guildMessageScript bot e =
      Script.seq
        (if ticket.status = some "pending" ∧ truthy ticket.assignedTo = false then
          autoClaimScript config false (replyFields e.authorId e.now ticket) e
         else Script.skip)
        (Script.seq
          (if truthy (replyFields e.authorId e.now ticket).assignedTo &&
              (replyFields e.authorId e.now ticket).assignedTo != some e.authorId then
            Script.request (Request.channelSend (ChannelPost.notAssignedNote
              ((replyFields e.authorId e.now ticket).assignedTo.getD "")))
           else Script.skip)
          (forwardScript config false (replyFields e.authorId e.now ticket) e)) := by
    unfold guildMessageScript
    simp only [hauthor, hconfig, hlookup, hfind, hstaff, hnote, hbang, hslash, hthread,
      Bool.false_eq_true, if_false, Bool.not_true, Bool.or_self]
  have huser := (replyFields_user e.authorId e.now ticket).1
  have hnum := (replyFields_user e.authorId e.now ticket).2
  refine ⟨?_, ?_, ?_⟩
  · intro r hr u dm hu
    have hmem := script_run_subset fails _ 0 r hr
    rw [hscript] at hmem
    rcases List.mem_append.mp hmem with h | h2
    · split at h
      · rw [← huser]
        exact autoClaimScript_userSend _ _ _ _ r h u dm hu
      · simp [Script.requests] at h
    · rcases List.mem_append.mp h2 with h | h
      · split at h
        · simp only [Script.requests, List.mem_singleton] at h
          rw [h] at hu
          cases hu
        · simp [Script.requests] at h
      · rw [← huser]
        exact forwardScript_userSend _ _ _ _ r h u dm hu
  · intro hacc
    unfold guildMessageRequests
    rw [script_run_accepted fails hacc, hscript]
    simp only [Script.accepted, List.mem_append]
    right
    right
    simp only [forwardScript, hlegacy, Script.accepted, Bool.false_and, Bool.not_false, Bool.and_self,
      Bool.false_or, if_true, List.mem_append, List.mem_singleton, List.mem_cons, huser, hnum]
    simp
  · obtain ⟨pre, post, h1, h2, h3⟩ :=
      registry_mutate_split _ (replyFields e.authorId e.now) ticket _ hfind
    refine ⟨pre, post, h1, ?_, ?_⟩
    · intro t ht
      have hp := h2 t ht
      have hmem : t ∈ bot.tickets := by
        rw [h1]
        exact List.mem_append_left _ ht
      by_cases hg : t.guildId = some e.guildId
      · have hc := hshared t hmem hg
        simp only [hg, hc, hchannel, beq_self_eq_true, Bool.true_and] at hp ⊢
        exact hp
      · simp [hg]
    · rw [← h3]
      unfold handleGuildMessage
      simp only [hauthor, hconfig, hlookup, hfind, hstaff, hnote, hbang, hslash,
        Bool.false_eq_true, if_false, Bool.not_true, Bool.or_self]

theorem legacy_reply_goes_to_first_open_ticket_witness :
    twoTicketBot.tickets.map (fun t => (t.userId, t.status)) =
        [(some "u", some "pending"), (some "w", some "pending")] ∧
      twoTicketBot.tickets.find (fun t => t.guildId == some "g" && t.isOpen) =
        some pendingTicket ∧
      Request.userSend (some "u") (UserDm.staffReply "hello" (some "0001")) ∈
        guildMessageRequests twoTicketBot staffReply allAccepted ∧
      (∀ r ∈ guildMessageRequests twoTicketBot staffReply allAccepted, ∀ u dm,
        r = Request.userSend u dm → u = some "u") :=
  ⟨by decide, by decide,
    (legacy_reply_goes_to_first_open_ticket twoTicketBot staffReply allAccepted legacyConfig
      pendingTicket (by decide) (by decide) (by decide) (by decide) (by decide) (by decide)
      (by decide) (by decide) (by decide) (by decide) (by decide)).2.1 (fun _ _ => rfl),
    (legacy_reply_goes_to_first_open_ticket twoTicketBot staffReply allAccepted legacyConfig
      pendingTicket (by decide) (by decide) (by decide) (by decide) (by decide) (by decide)
      (by decide) (by decide) (by decide) (by decide) (by decide)).1⟩

/-! ## C28: the report over a date range -/

theorem countPerDay_isSome (tickets : List TicketRecord) :
    ∀ days : List (Int × Nat), (∀ t ∈ tickets, t.createdTime.isSome = true) →
      ∃ table, countPerDay tickets days = some table ∧ table.map (fun d => d.1) =
        days.map (fun d => d.1) := by
  induction tickets with
  | nil => intro days _; exact ⟨days, rfl, rfl⟩
  | cons t ts ih =>
    intro days h
    have ht := h t (List.mem_cons_self _ _)
    cases hc : t.createdTime with
    | none => rw [hc] at ht; cases ht
    | some created =>
      obtain ⟨table, h1, h2⟩ := ih
        (days.map (fun d => if d.1 = dayOf created then (d.1, d.2 + 1) else d))
        (fun x hx => h x (List.mem_cons_of_mem _ hx))
      refine ⟨table, ?_, ?_⟩
      · unfold countPerDay
        rw [hc]
        exact h1
      · rw [h2, List.map_map]
        apply List.map_congr_left
        intro d _
        show (if d.1 = dayOf created then (d.1, d.2 + 1) else d).1 = d.1
        split <;> rfl

theorem createdSince_isSome (cutoff : Option Int) (t : TicketRecord)
    (h : createdSince cutoff t = true) : t.createdTime.isSome = true := by
  unfold createdSince at h
  cases hc : t.createdTime with
  | none =>
    rw [hc] at h
    cases cutoff <;> simp at h
  | some c => rfl

theorem createdSince_invalid (t : TicketRecord) : createdSince none t = false := by
  unfold createdSince
  cases t.createdTime <;> rfl

theorem getBasicStats_totalTickets (history : History) (guildId : String)
    (timeRange : TimeRangeArg) (now : Nat) :
    (getBasicStats history guildId timeRange now).map (fun s => s.totalTickets) =
      some ((getTicketsByGuild history guildId).filter
        (createdSince (cutoffDate now timeRange.toNumber))).length := by
  obtain ⟨table, h1, -⟩ := countPerDay_isSome
    ((getTicketsByGuild history guildId).filter
      (createdSince (cutoffDate now timeRange.toNumber)))
    ((List.range (timeRange.toNumber.getD 0)).map (fun i : Nat => (dayOf now - (i : Int), 0)))
    (fun t ht => createdSince_isSome _ t (List.mem_filter.mp ht).2)
  unfold getBasicStats
  simp only [getTicketsPerDay, h1]
  rfl

/-- Claim C28, at the failing input. The history holds one record of guild `g`, created at
time `5`; the range from `0` to `100` holds it; the report made at time `200` has
`totalTickets = 0`. For every history, guild and range: when the range holds a record the
report counts none, because the filtered records reach `getBasicStats` as its `timeRange`,
not as its tickets; when the range holds no record the report counts the records of the
guild created at or after the time of the call. -/
theorem time_range_report_counts_no_ticket :
    ((getTicketsByGuild oneRecordHistory "g").filter
        (createdWithin (JsTime.isoString 0) (JsTime.isoString 100))).length = 1 ∧
      (generateTimeRangeReport oneRecordHistory "g" (JsTime.isoString 0) (JsTime.isoString 100)
        200).map (fun s => s.totalTickets) = some 0 ∧
      (∀ (history : History) (guildId : String) (startDate endDate : JsTime) (now : Nat),
        (generateTimeRangeReport history guildId startDate endDate now).map
            (fun s => s.totalTickets) =
          some (if (getTicketsByGuild history guildId).filter
              (createdWithin startDate endDate) = [] then
            ((getTicketsByGuild history guildId).filter
              (createdSince (some (now : Int)))).length
          else 0)) := by
  refine ⟨by decide, by decide, ?_⟩
  intro history guildId startDate endDate now
  unfold generateTimeRangeReport
  rw [getBasicStats_totalTickets]
  cases hf : (getTicketsByGuild history guildId).filter (createdWithin startDate endDate) with
  | nil =>
    simp only [if_true]
    have hc : cutoffDate now (TimeRangeArg.tickets []).toNumber = some (now : Int) := by
      simp [cutoffDate, TimeRangeArg.toNumber]
    rw [hc]
  | cons a l =>
    have hc : cutoffDate now (TimeRangeArg.tickets (a :: l)).toNumber = none := rfl
    rw [hc]
    have hnil : (getTicketsByGuild history guildId).filter (createdSince none) = [] := by
      rw [List.filter_eq_nil_iff]
      intro t _
      rw [createdSince_invalid]
      exact Bool.false_ne_true
    rw [hnil]
    rfl

/-! ## Lemmas on the entries of a dictionary -/

theorem dict_keys_set {α : Type} (d : Dict α) (k : String) (v : α) :
    (d.set k v).map (fun e => e.1) =
      if k ∈ d.map (fun e => e.1) then d.map (fun e => e.1) else d.map (fun e => e.1) ++ [k] := by
  induction d with
  | nil => simp [Dict.set]
  | cons e r ih =>
    obtain ⟨k', v'⟩ := e
    unfold Dict.set
    by_cases h : k' = k
    · subst h
      simp
    · rw [if_neg h, List.map_cons, ih]
      have hne : ¬ k = k' := fun x => h x.symm
      by_cases hm : k ∈ r.map (fun e => e.1)
      · simp [hm]
      · simp [hm, hne]

theorem dict_keys_set_nodup {α : Type} (d : Dict α) (k : String) (v : α)
    (h : (d.map (fun e => e.1)).Nodup) : ((d.set k v).map (fun e => e.1)).Nodup := by
  rw [dict_keys_set]
  split
  · exact h
  · rename_i hm
    rw [List.nodup_append]
    refine ⟨h, List.nodup_singleton _, ?_⟩
    intro a ha hb
    rw [List.mem_singleton] at hb
    rw [hb] at ha
    exact hm ha

theorem dict_mem_keys_set {α : Type} (d : Dict α) (k k2 : String) (v : α) :
    k2 ∈ (d.set k v).map (fun e => e.1) ↔ k2 = k ∨ k2 ∈ d.map (fun e => e.1) := by
  rw [dict_keys_set]
  split
  · rename_i hm
    constructor
    · exact Or.inr
    · rintro (h | h)
      · rw [h]; exact hm
      · exact h
  · rw [List.mem_append, List.mem_singleton]
    exact or_comm

theorem dict_get_of_mem {α : Type} (d : Dict α) (k : String) (v : α)
    (hn : (d.map (fun e => e.1)).Nodup) (h : (k, v) ∈ d) : d.get? k = some v := by
  induction d with
  | nil => cases h
  | cons e r ih =>
    obtain ⟨k', v'⟩ := e
    rw [List.map_cons, List.nodup_cons] at hn
    unfold Dict.get?
    rcases List.mem_cons.mp h with h | h
    · cases h
      simp
    · have hk : k ∈ r.map (fun e => e.1) := List.mem_map.mpr ⟨(k, v), h, rfl⟩
      have hne : ¬ k' = k := by
        intro x
        rw [x] at hn
        exact hn.1 hk
      rw [if_neg hne]
      exact ih hn.2 h

theorem dict_mem_of_get {α : Type} (d : Dict α) (k : String) (v : α)
    (h : d.get? k = some v) : (k, v) ∈ d := by
  induction d with
  | nil => cases h
  | cons e r ih =>
    obtain ⟨k', v'⟩ := e
    unfold Dict.get? at h
    by_cases hk : k' = k
    · rw [if_pos hk] at h
      cases h
      rw [hk]
      exact List.mem_cons_self _ _
    · rw [if_neg hk] at h
      exact List.mem_cons_of_mem _ (ih h)

theorem dict_get_none_of_not_mem {α : Type} (d : Dict α) (k : String)
    (h : k ∉ d.map (fun e => e.1)) : d.get? k = none := by
  cases hg : d.get? k with
  | none => rfl
  | some v =>
    exact absurd (List.mem_map.mpr ⟨(k, v), dict_mem_of_get d k v hg, rfl⟩) h

theorem dict_mem_set {α : Type} (d : Dict α) (k k2 : String) (v v2 : α)
    (hn : (d.map (fun e => e.1)).Nodup) (h : (k2, v2) ∈ d.set k v) :
    (k2 = k ∧ v2 = v) ∨ (k2 ≠ k ∧ (k2, v2) ∈ d) := by
  have hn2 := dict_keys_set_nodup d k v hn
  have hget := dict_get_of_mem _ _ _ hn2 h
  by_cases hk : k2 = k
  · left
    subst hk
    rw [dict_get_set_self] at hget
    cases hget
    exact ⟨rfl, rfl⟩
  · right
    rw [dict_get_set_other _ _ _ _ (fun x => hk x.symm)] at hget
    exact ⟨hk, dict_mem_of_get d k2 v2 hget⟩

/-! ## Lemmas on `getStaffPerformance` -/

theorem countTicket_fields (staff : StaffRow) (t : TicketRecord) :
    (countTicket staff t).staffId = staff.staffId ∧
      (countTicket staff t).ticketsHandled = staff.ticketsHandled + 1 ∧
      ((countTicket staff t).ticketsClosed = staff.ticketsClosed ∨
        (countTicket staff t).ticketsClosed = staff.ticketsClosed + 1) := by
  refine ⟨rfl, rfl, ?_⟩
  show (if t.status == "closed" then staff.ticketsClosed + 1 else staff.ticketsClosed) = _ ∨
    (if t.status == "closed" then staff.ticketsClosed + 1 else staff.ticketsClosed) = _
  split
  · exact Or.inr rfl
  · exact Or.inl rfl

theorem truthy_some (k : String) : truthy (some k) = true ↔ k ≠ "" := by
  simp [truthy]

theorem staffTableInv_nil : StaffTableInv [] [] :=
  ⟨List.nodup_nil, fun k row h => (by cases h), fun t h => (by cases h)⟩

theorem staffTableInv_step (d : Dict StaffRow) (seen : List TicketRecord) (t : TicketRecord)
    (inv : StaffTableInv d seen) : StaffTableInv (groupTicket d t) (seen ++ [t]) := by
  unfold groupTicket
  by_cases ht : truthy t.assignedTo = true
  · rw [if_pos ht]
    cases ha : t.assignedTo with
    | none => rw [ha] at ht; simp [truthy] at ht
    | some key =>
      have hkey : key ≠ "" := by
        rw [ha] at ht
        exact (truthy_some key).mp ht
      simp only [Option.getD_some]
      refine ⟨dict_keys_set_nodup _ _ _ inv.keys, ?_, ?_⟩
      · intro k row hmem
        rcases dict_mem_set _ _ _ _ _ inv.keys hmem with ⟨hk, hrow⟩ | ⟨hk, hold⟩
        · subst hk
          rw [hrow]
          obtain ⟨f1, f2, f3⟩ := countTicket_fields ((d.get? k).getD (newStaffRow t)) t
          rw [f1, f2, List.countP_append]
          have hone : List.countP (fun x => x.assignedTo == some k) [t] = 1 := by
            simp [ha]
          rw [hone]
          cases hg : d.get? k with
          | some r =>
            obtain ⟨r1, r2, r3, r4, r5⟩ := inv.rows k r (dict_mem_of_get d k r hg)
            rw [hg] at f3
            simp only [Option.getD_some] at f3
            rw [Option.getD_some]
            refine ⟨r1, hkey, by rw [r3], ?_, Nat.succ_pos _⟩
            rcases f3 with f3 | f3 <;> omega
          | none =>
            rw [hg] at f3
            simp only [Option.getD_none] at f3
            rw [Option.getD_none]
            have hzero : List.countP (fun x => x.assignedTo == some k) seen = 0 := by
              rw [List.countP_eq_zero]
              intro x hx hxa
              have hxk : x.assignedTo = some k := by simpa using hxa
              have hin := inv.present x hx k hxk hkey
              rw [List.mem_map] at hin
              obtain ⟨⟨k2, v2⟩, hmem2, hk2⟩ := hin
              simp only at hk2
              subst hk2
              rw [dict_get_of_mem d _ _ inv.keys hmem2] at hg
              cases hg
            rw [hzero]
            have h0 : (newStaffRow t).ticketsClosed = 0 := rfl
            have h1 : (newStaffRow t).ticketsHandled = 0 := rfl
            have h2 : (newStaffRow t).staffId = k := by
              show t.assignedTo.getD "" = k
              rw [ha]
              rfl
            refine ⟨h2, hkey, by rw [h1], ?_, Nat.succ_pos _⟩
            rw [h1]
            rcases f3 with f3 | f3 <;> omega
        · obtain ⟨r1, r2, r3, r4, r5⟩ := inv.rows k row hold
          refine ⟨r1, r2, ?_, r4, r5⟩
          rw [r3, List.countP_append]
          have hzero : List.countP (fun x => x.assignedTo == some k) [t] = 0 := by
            rw [List.countP_eq_zero]
            intro x hx hxa
            rw [List.mem_singleton] at hx
            rw [hx, ha] at hxa
            have : key = k := by simpa using hxa
            exact hk this.symm
          rw [hzero]
          rfl
      · intro x hx k hxk hk
        rw [dict_mem_keys_set]
        rcases List.mem_append.mp hx with hx | hx
        · exact Or.inr (inv.present x hx k hxk hk)
        · rw [List.mem_singleton] at hx
          rw [hx, ha] at hxk
          cases hxk
          exact Or.inl rfl
  · rw [if_neg ht]
    have hnot : ∀ k, k ≠ "" → t.assignedTo ≠ some k := by
      intro k hk hx
      rw [hx] at ht
      exact ht ((truthy_some k).mpr hk)
    refine ⟨inv.keys, ?_, ?_⟩
    · intro k row hmem
      obtain ⟨r1, r2, r3, r4, r5⟩ := inv.rows k row hmem
      refine ⟨r1, r2, ?_, r4, r5⟩
      rw [r3, List.countP_append]
      have hzero : List.countP (fun x => x.assignedTo == some k) [t] = 0 := by
        rw [List.countP_eq_zero]
        intro x hx hxa
        rw [List.mem_singleton] at hx
        rw [hx] at hxa
        exact hnot k r2 (by simpa using hxa)
      rw [hzero]
      rfl
    · intro x hx k hxk hk
      rcases List.mem_append.mp hx with hx | hx
      · exact inv.present x hx k hxk hk
      · rw [List.mem_singleton] at hx
        rw [hx] at hxk
        exact absurd hxk (hnot k hk)

theorem staffTableInv_foldl (tickets : List TicketRecord) :
    ∀ (d : Dict StaffRow) (seen : List TicketRecord), StaffTableInv d seen →
      StaffTableInv (tickets.foldl groupTicket d) (seen ++ tickets) := by
  induction tickets with
  | nil => intro d seen h; rw [List.append_nil]; exact h
  | cons t ts ih =>
    intro d seen h
    have h2 := ih (groupTicket d t) (seen ++ [t]) (staffTableInv_step d seen t h)
    rw [List.append_assoc] at h2
    exact h2

theorem groupByStaff_inv (tickets : List TicketRecord) :
    StaffTableInv (groupByStaff tickets) tickets := by
  have h := staffTableInv_foldl tickets [] [] staffTableInv_nil
  rw [List.nil_append] at h
  exact h

theorem sortDescBy_perm {α : Type} (key : α → Nat) (l : List α) :
    List.Perm (sortDescBy key l) l :=
  List.perm_insertionSort _ l

theorem sortDescBy_sorted {α : Type} (key : α → Nat) (l : List α) :
    List.Pairwise (fun a b => key b ≤ key a) (sortDescBy key l) := by
  haveI : IsTotal α (fun a b => key b ≤ key a) := ⟨fun a b => Nat.le_total _ _⟩
  haveI : IsTrans α (fun a b => key b ≤ key a) := ⟨fun a b c hab hbc => Nat.le_trans hbc hab⟩
  exact List.sorted_insertionSort (fun a b => key b ≤ key a) l

theorem finishStaffRow_fields (row : StaffRow) :
    (finishStaffRow row).staffId = row.staffId ∧
      (finishStaffRow row).ticketsHandled = row.ticketsHandled ∧
      (finishStaffRow row).ticketsClosed = row.ticketsClosed :=
  ⟨rfl, rfl, rfl⟩

/-! ## C27: the rows of `getStaffPerformance` -/

theorem getStaffPerformance_rows (history : History) (guildId : String) (timeRange now : Nat) :
    ((getStaffPerformance history guildId timeRange now).map (fun r => r.staffId)).Nodup ∧
      (∀ s, s ∈ (getStaffPerformance history guildId timeRange now).map (fun r => r.staffId) ↔
        s ≠ "" ∧ ∃ t ∈ ticketsInWindow history guildId timeRange now, t.assignedTo = some s) ∧
      (∀ row ∈ getStaffPerformance history guildId timeRange now,
        row.ticketsHandled = (ticketsInWindow history guildId timeRange now).countP
          (fun t => t.assignedTo == some row.staffId) ∧
        row.ticketsClosed ≤ row.ticketsHandled) ∧
      List.Pairwise (fun a b => b.ticketsHandled ≤ a.ticketsHandled)
        (getStaffPerformance history guildId timeRange now) := by
  have inv := groupByStaff_inv (ticketsInWindow history guildId timeRange now)
  have hperm : List.Perm (getStaffPerformance history guildId timeRange now)
      ((groupByStaff (ticketsInWindow history guildId timeRange now)).map
        (fun e => finishStaffRow e.2)) := sortDescBy_perm _ _
  have hids : ((groupByStaff (ticketsInWindow history guildId timeRange now)).map
      (fun e => finishStaffRow e.2)).map (fun r => r.staffId) =
      (groupByStaff (ticketsInWindow history guildId timeRange now)).map (fun e => e.1) := by
    rw [List.map_map]
    apply List.map_congr_left
    intro e he
    exact (inv.rows e.1 e.2 he).1
  have hpermIds := List.Perm.map (fun r : StaffRow => r.staffId) hperm
  rw [hids] at hpermIds
  refine ⟨?_, ?_, ?_, sortDescBy_sorted _ _⟩
  · exact (List.Perm.nodup_iff hpermIds).mpr inv.keys
  · intro s
    rw [List.Perm.mem_iff hpermIds]
    constructor
    · intro hs
      rw [List.mem_map] at hs
      obtain ⟨⟨k, row⟩, hmem, hk⟩ := hs
      simp only at hk
      subst hk
      obtain ⟨-, r2, r3, -, r5⟩ := inv.rows k row hmem
      refine ⟨r2, ?_⟩
      rw [r3] at r5
      obtain ⟨t, ht, hta⟩ := List.countP_pos_iff.mp r5
      exact ⟨t, ht, by simpa using hta⟩
    · rintro ⟨hs, t, ht, hta⟩
      exact inv.present t ht s hta hs
  · intro row hrow
    rw [List.Perm.mem_iff hperm, List.mem_map] at hrow
    obtain ⟨⟨k, r⟩, hmem, hr⟩ := hrow
    simp only at hr
    obtain ⟨r1, -, r3, r4, -⟩ := inv.rows k r hmem
    rw [← hr]
    obtain ⟨f1, f2, f3⟩ := finishStaffRow_fields r
    rw [f1, f2, f3, r1]
    exact ⟨r3, r4⟩

theorem ticketsInWindow_eq (history : History) (guildId : String) (timeRange now : Nat) :
    ticketsInWindow history guildId timeRange now =
      history.tickets.filter (fun t =>
        t.guildId == some guildId &&
          (match t.createdAt with
            | some created =>
              decide (timeRange * 86400000 ≤ now + 8640000000000000 ∧
                (now : Int) - ((timeRange * 86400000 : Nat) : Int) ≤ (created.getTime : Int))
            | none => false)) := by
  unfold ticketsInWindow getTicketsByGuild
  rw [List.filter_filter]
  apply List.filter_congr
  intro t _
  rw [Bool.and_comm]
  congr 1
  unfold createdSince cutoffDate TicketRecord.createdTime
  cases hc : t.createdAt with
  | none =>
    by_cases hr : timeRange * msPerDay ≤ now + maxTime
    · simp [hr]
    · simp [hr]
  | some created =>
    by_cases hr : timeRange * msPerDay ≤ now + maxTime
    · have hr2 : timeRange * 86400000 ≤ now + 8640000000000000 := hr
      simp only [hr, hr2, if_true, Option.map_some, true_and]
      rfl
    · have hr2 : ¬ timeRange * 86400000 ≤ now + 8640000000000000 := hr
      simp [hr, hr2]

/-- Claim C27. For every history, guild and window, `getStaffPerformance` returns exactly
one row per staff id that is the `assignedTo` of some in-window ticket of the guild. The
in-window tickets are spelled out on the records of the history: the records whose
`guildId` is the guild and whose `createdAt` is a date not earlier than `timeRange` days
(of `86400000` milliseconds) before the time of the call, that cutoff being a valid date
(not more than `8640000000000000` milliseconds before the epoch); the date of a `createdAt`
is the one `new Date` gives, none when the field is absent and the epoch when it is
`null`. No two rows have the same `staffId`, and a row exists for a staff id exactly when
it is the non-empty `assignedTo` of such a record; the `ticketsHandled` of a row is the
number of those records, its `ticketsClosed` is at most `ticketsHandled`, and the rows are
in non-increasing order of `ticketsHandled`. -/
theorem staff_performance_rows (history : History) (guildId : String) (timeRange now : Nat) :
    ((getStaffPerformance history guildId timeRange now).map (fun r => r.staffId)).Nodup ∧
      (∀ s, s ∈ (getStaffPerformance history guildId timeRange now).map (fun r => r.staffId) ↔
        s ≠ "" ∧ ∃ t ∈ history.tickets,
          t.guildId = some guildId ∧
          (∃ created, t.createdAt = some created ∧
            timeRange * 86400000 ≤ now + 8640000000000000 ∧
            (now : Int) - ((timeRange * 86400000 : Nat) : Int) ≤ (created.getTime : Int)) ∧
          t.assignedTo = some s) ∧
      (∀ row ∈ getStaffPerformance history guildId timeRange now,
        row.ticketsHandled = history.tickets.countP (fun t =>
          t.guildId == some guildId &&
            (match t.createdAt with
              | some created =>
                decide (timeRange * 86400000 ≤ now + 8640000000000000 ∧
                  (now : Int) - ((timeRange * 86400000 : Nat) : Int) ≤ (created.getTime : Int))
              | none => false) &&
            t.assignedTo == some row.staffId) ∧
        row.ticketsClosed ≤ row.ticketsHandled) ∧
      List.Pairwise (fun a b => b.ticketsHandled ≤ a.ticketsHandled)
        (getStaffPerformance history guildId timeRange now) := by
  obtain ⟨h1, h2, h3, h4⟩ := getStaffPerformance_rows history guildId timeRange now
  have hwin := ticketsInWindow_eq history guildId timeRange now
  refine ⟨h1, ?_, ?_, h4⟩
  · intro s
    rw [h2 s, hwin]
    constructor
    · rintro ⟨hs, t, ht, hta⟩
      obtain ⟨hmem, hp⟩ := List.mem_filter.mp ht
      rw [Bool.and_eq_true] at hp
      obtain ⟨hg, hc⟩ := hp
      refine ⟨hs, t, hmem, by simpa using hg, ?_, hta⟩
      cases hcr : t.createdAt with
      | none => rw [hcr] at hc; simp at hc
      | some created =>
        rw [hcr] at hc
        exact ⟨created, rfl, of_decide_eq_true hc⟩
    · rintro ⟨hs, t, hmem, hg, ⟨created, hcr, hr⟩, hta⟩
      refine ⟨hs, t, List.mem_filter.mpr ⟨hmem, ?_⟩, hta⟩
      rw [Bool.and_eq_true]
      refine ⟨by simpa using hg, ?_⟩
      rw [hcr]
      exact decide_eq_true hr
  · intro row hrow
    obtain ⟨h5, h6⟩ := h3 row hrow
    refine ⟨?_, h6⟩
    rw [h5, hwin, List.countP_filter]
    congr 1
    funext t
    rw [Bool.and_comm]

/-! ## C26: the entries of the custom report -/

theorem searchTickets_startDate (toLowerCase : String → String) (h : History)
    (c : SearchCriteria) (ht : c.ticketId = none) (hd : truthyTime c.startDate = true) :
    ∃ l, searchTickets toLowerCase h c = some l ∧
      ∀ t ∈ l, t.createdTime.isSome = true := by
  have hf : ¬ truthy c.ticketId = true := by rw [ht]; simp [truthy]
  unfold searchTickets
  dsimp only
  rw [if_neg hf]
  dsimp only
  refine ⟨_, rfl, ?_⟩
  intro t hmem
  rw [searchTicketsTail_eq] at hmem
  have hsat := (List.mem_filter.mp hmem).2
  simp only [Bool.and_eq_true] at hsat
  have hstart := hsat.1.1.1.1.2
  rw [hd] at hstart
  unfold TicketRecord.createdTime
  cases hc : t.createdAt with
  | none => rw [hc] at hstart; simp at hstart
  | some x => rfl

theorem mem_ite_filter {α : Type} (b : Prop) [Decidable b] (p : α → Bool) (l : List α)
    (x : α) (hx : x ∈ (if b then l.filter p else l)) : x ∈ l := by
  by_cases hb : b
  · rw [if_pos hb] at hx
    exact (List.mem_filter.mp hx).1
  · rw [if_neg hb] at hx
    exact hx

theorem customReportTickets_created (toLowerCase : String → String) (history : History)
    (guildId : String) (options : ReportOptions) (now : Nat)
    (hrange : (truthyTime options.startDate && truthyTime options.endDate) = true ∨
      options.timeRange * msPerDay ≤ now + maxTime) :
    ∃ tickets, customReportTickets toLowerCase history guildId options now = some tickets ∧
      ∀ t ∈ tickets, t.createdTime.isSome = true := by
  have hsearch : ∃ l,
      (if (truthyTime options.startDate && truthyTime options.endDate) = true then
        searchTickets toLowerCase history
          { guildId := some guildId, startDate := options.startDate,
            endDate := options.endDate }
      else
        match cutoffDate now (some options.timeRange) with
        | none => none
        | some cutoff =>
          searchTickets toLowerCase history
            { guildId := some guildId, startDate := some (JsTime.isoString cutoff.toNat) }) =
        some l ∧ ∀ t ∈ l, t.createdTime.isSome = true := by
    by_cases hb : (truthyTime options.startDate && truthyTime options.endDate) = true
    · rw [if_pos hb]
      exact searchTickets_startDate toLowerCase history _ rfl
        (by simp only [Bool.and_eq_true] at hb; exact hb.1)
    · rw [if_neg hb]
      have hr : options.timeRange * msPerDay ≤ now + maxTime := by
        rcases hrange with h | h
        · exact absurd h hb
        · exact h
      have hc : cutoffDate now (some options.timeRange) =
          some ((now : Int) - ((options.timeRange * msPerDay : Nat) : Int)) := by
        show (if options.timeRange * msPerDay ≤ now + maxTime then _ else _) = _
        rw [if_pos hr]
      rw [hc]
      exact searchTickets_startDate toLowerCase history _ rfl rfl
  obtain ⟨l, hl, hcreated⟩ := hsearch
  unfold customReportTickets
  dsimp only
  rw [hl]
  refine ⟨_, rfl, ?_⟩
  intro t hmem
  exact hcreated t (mem_ite_filter _ _ _ _ (mem_ite_filter _ _ _ _ (mem_ite_filter _ _ _ _ hmem)))

/-- Claim C26, counterexample. A custom report requested with the metric `tickets` alone,
over a history with one record of the guild, holds an entry `categories` and an entry
`tags` in its data section, though neither metric is in the list. -/
theorem custom_report_unrequested_categories :
    ["tickets"].contains "categories" = false ∧ ["tickets"].contains "tags" = false ∧
      (generateCustomReport asciiToLowerCase oneRecordHistory "g"
          { metrics := ["tickets"] } 200).map
        (fun r => (r.data.categories, r.data.tags)) =
        some (some [("tech", 1)], some [("bug", 1)]) := by
  refine ⟨by decide, by decide, by decide⟩

/-- Claim C26, amended. For every history, guild and options whose cutoff is a valid
date, `generateCustomReport` returns a report; its data section holds the entries
`tickets`, `responseTimes`, `resolutionTimes` and `satisfaction` exactly when the metrics
`tickets`, `response`, `resolution` and `satisfaction` are requested, and it always holds
the entries `categories` and `tags`, computed over the tickets that match the filters.
When no ticket matches, the requested entries are: tickets with total 0, closed 0 and a
zero for each day; response and resolution times `N/A`; satisfaction with average `N/A`,
every count 0 and percentage 0; and the entries `categories` and `tags` are empty. -/
theorem custom_report_entries (toLowerCase : String → String) (history : History)
    (guildId : String) (options : ReportOptions) (now : Nat)
    (hrange : (truthyTime options.startDate && truthyTime options.endDate) = true ∨
      options.timeRange * msPerDay ≤ now + maxTime) :
    ∃ tickets report,
      customReportTickets toLowerCase history guildId options now = some tickets ∧
      generateCustomReport toLowerCase history guildId options now = some report ∧
      report.data.tickets.isSome = options.metrics.contains "tickets" ∧
      report.data.responseTimes.isSome = options.metrics.contains "response" ∧
      report.data.resolutionTimes.isSome = options.metrics.contains "resolution" ∧
      report.data.satisfaction.isSome = options.metrics.contains "satisfaction" ∧
      report.data.categories = some (getCategoryCounts tickets) ∧
      report.data.tags = some (getTagCounts tickets) ∧
      (tickets = [] →
        report.data =
          { tickets :=
              if options.metrics.contains "tickets" then
                some
                  { total := 0, closed := 0
                    perDay := (List.range options.timeRange).map
                      (fun i : Nat => (dayOf now - (i : Int), 0)) }
              else none
            responseTimes :=
              if options.metrics.contains "response" then
                some { average := Rendered.na, least := Rendered.na, greatest := Rendered.na }
              else none
            resolutionTimes :=
              if options.metrics.contains "resolution" then
                some { average := Rendered.na, least := Rendered.na, greatest := Rendered.na }
              else none
            satisfaction :=
              if options.metrics.contains "satisfaction" then
                some { average := Rendered.na, counts := noRatings, percentage := 0 }
              else none
            categories := some []
            tags := some [] }) := by
  obtain ⟨tickets, htickets, hcreated⟩ :=
    customReportTickets_created toLowerCase history guildId options now hrange
  obtain ⟨table, htable, -⟩ := countPerDay_isSome tickets
    ((List.range options.timeRange).map (fun i : Nat => (dayOf now - (i : Int), 0))) hcreated
  have hentry : ticketsEntry tickets options.timeRange now =
      some { total := tickets.length
             closed := (tickets.filter (fun t => t.status == "closed")).length
             perDay := table } := by
    unfold ticketsEntry getTicketsPerDay
    rw [Option.getD_some, htable]
    rfl
  have hgen : ∃ report,
      generateCustomReport toLowerCase history guildId options now = some report ∧
      report.data =
        { tickets :=
            if options.metrics.contains "tickets" then
              some { total := tickets.length
                     closed := (tickets.filter (fun t => t.status == "closed")).length
                     perDay := table }
            else none
          responseTimes :=
            if options.metrics.contains "response" then some (responseTimesEntry tickets)
            else none
          resolutionTimes :=
            if options.metrics.contains "resolution" then some (resolutionTimesEntry tickets)
            else none
          satisfaction :=
            if options.metrics.contains "satisfaction" then some (satisfactionEntry tickets)
            else none
          categories := some (getCategoryCounts tickets)
          tags := some (getTagCounts tickets) } := by
    unfold generateCustomReport
    rw [htickets]
    dsimp only
    by_cases hm : options.metrics.contains "tickets" = true
    · rw [if_pos hm, hentry]
      refine ⟨_, rfl, ?_⟩
      dsimp only
      rw [if_pos hm]
    · rw [if_neg hm]
      refine ⟨_, rfl, ?_⟩
      dsimp only
      rw [if_neg hm]
  obtain ⟨report, hreport, hdata⟩ := hgen
  refine ⟨tickets, report, htickets, hreport, ?_⟩
  rw [hdata]
  refine ⟨?_, ?_, ?_, ?_, rfl, rfl, ?_⟩
  · dsimp only; cases options.metrics.contains "tickets" <;> rfl
  · dsimp only; cases options.metrics.contains "response" <;> rfl
  · dsimp only; cases options.metrics.contains "resolution" <;> rfl
  · dsimp only; cases options.metrics.contains "satisfaction" <;> rfl
  · intro hnil
    subst hnil
    have ht : table = (List.range options.timeRange).map
        (fun i : Nat => (dayOf now - (i : Int), 0)) := by
      have h := htable
      unfold countPerDay at h
      exact (Option.some.inj h).symm
    subst ht
    rfl

theorem custom_report_entries_witness :
    ((30 : Nat) * msPerDay ≤ 200 + maxTime) ∧
      ∃ tickets report,
        customReportTickets asciiToLowerCase oneRecordHistory "g" {} 200 = some tickets ∧
        generateCustomReport asciiToLowerCase oneRecordHistory "g" {} 200 = some report ∧
        report.data.tickets.isSome = true ∧
        report.data.categories = some (getCategoryCounts tickets) :=
  ⟨by decide,
    (custom_report_entries asciiToLowerCase oneRecordHistory "g" {} 200
      (Or.inr (by decide))).imp
      (fun _ h => h.imp (fun _ h => ⟨h.1, h.2.1, h.2.2.1, h.2.2.2.2.2.2.1⟩))⟩

/-! ## Handlers that overlap -/

theorem handleDirectMessage_segments (bot : Bot) (e : DmEvent) :
    handleDirectMessage bot e =
      match directMessageBefore bot e with
      | (b, none) => b
      | (b, some ticket) => directMessageAfter b ticket := by
  unfold handleDirectMessage directMessageBefore directMessageAfter
  by_cases h1 : e.authorBot = true
  · simp only [h1, if_true]
  simp only [h1, if_false, Bool.false_eq_true]
  by_cases h2 : e.blacklisted = true
  · simp only [h2, if_true]
  simp only [h2, if_false, Bool.false_eq_true]
  cases hf : bot.tickets.find (fun t => t.userId == some e.authorId && t.isOpen) with
  | some t => rfl
  | none =>
    dsimp only
    by_cases h3 : (checkRateLimit bot.userRateLimits e.authorId "tickets" e.now).1.limited = true
    · simp only [h3, if_true]
    simp only [h3, if_false, Bool.false_eq_true]
    cases hc : bot.configs.head? with
    | none => rfl
    | some gc =>
      obtain ⟨guildId, config⟩ := gc
      dsimp only
      by_cases h4 : guildId = ""
      · simp only [h4, if_true]
      simp only [h4, if_false]
      by_cases h5 : (!e.guildCached) = true
      · simp only [h5, if_true]
      simp only [h5, if_false, Bool.false_eq_true]
      by_cases h6 : (!e.modmailChannelCached) = true
      · simp only [h6, if_true]
      simp only [h6, if_false, Bool.false_eq_true]
      by_cases h7 : e.platformFails = true
      · simp only [h7, if_true]
      · simp only [h7, if_false, Bool.false_eq_true]

theorem handleRating_segments (s : SurveyState) (e : RatingEvent) :
    handleRating s e =
      match ratingBefore s e with
      | (some outcome, s1) => (outcome, s1)
      | (none, s1) => ratingAfter s1 e := by
  unfold handleRating ratingBefore ratingAfter
  cases hget : s.activeTickets.get? e.ticketId with
  | none => rfl
  | some survey =>
    dsimp only
    by_cases h1 : e.userId ≠ survey.userId
    · simp only [h1, ne_eq, not_false_eq_true, if_true]
    · simp only [h1, if_false]

theorem registry_mutate_by_id (p : Ticket → Bool) (f : Ticket → Ticket) (t : Ticket) :
    ∀ r : Registry, (r.map (fun x => x.id)).Nodup → r.find p = some t →
      Registry.mutate p f r = Registry.mutate (fun x => x.id == t.id) f r := by
  intro r
  induction r with
  | nil => intro _ h; cases h
  | cons a r ih =>
    intro hids hfind
    rw [List.map_cons, List.nodup_cons] at hids
    unfold Registry.find at hfind
    rw [List.find?_cons] at hfind
    cases hp : p a with
    | true =>
      rw [hp] at hfind
      cases hfind
      simp only [Registry.mutate, hp, if_true, beq_self_eq_true]
    | false =>
      rw [hp] at hfind
      have hmem : t ∈ r := List.mem_of_find?_eq_some hfind
      have hne : (a.id == t.id) = false := by
        rw [beq_eq_false_iff_ne]
        intro heq
        exact hids.1 (List.mem_map.mpr ⟨t, hmem, heq.symm⟩)
      simp only [Registry.mutate, hp, hne, Bool.false_eq_true, if_false]
      rw [ih hids.2 hfind]

theorem registry_get_isSome_of_find (p : Ticket → Bool) (r : Registry) (t : Ticket)
    (h : r.find p = some t) : (r.get? t.id).isSome = true := by
  unfold Registry.get?
  rw [List.find?_isSome]
  exact ⟨t, List.mem_of_find?_eq_some h, by simp⟩

theorem registry_get_isSome_mutate (q : Ticket → Bool) (f : Ticket → Ticket)
    (hf : ∀ t, (f t).id = t.id) (id : Option String) (r : Registry) :
    ((Registry.mutate q f r).get? id).isSome = (r.get? id).isSome := by
  rcases registry_get_mutate q f hf id r with h | ⟨t, h1, -, h2⟩
  · rw [h]
  · rw [h1, h2]
    rfl

theorem claimLookup_finds (r : Registry) (e : ReactionEvent) (p : Ticket → Bool)
    (h : claimLookup r e = some p) : ∃ t, r.find p = some t := by
  unfold claimLookup at h
  simp only at h
  split at h
  · rename_i h1
    cases h
    exact Option.isSome_iff_exists.mp h1
  split at h
  · rename_i _ h2
    cases h
    exact Option.isSome_iff_exists.mp h2
  split at h
  · rename_i _ _ h3
    cases h
    rw [Bool.and_eq_true] at h3
    exact Option.isSome_iff_exists.mp h3.2
  · cases h

theorem shared_assign_store (bot : Bot) (removed : Registry) (p : Ticket → Bool)
    (f : Ticket → Ticket) (hf : ∀ t, (f t).id = t.id) (t : Ticket)
    (hids : (bot.tickets.map (fun x => x.id)).Nodup) (hfind : bot.tickets.find p = some t) :
    (Shared.assign { bot := bot, removed := removed } t.id f) =
        { bot := { bot with tickets := bot.tickets.mutate p f }, removed := removed } ∧
      (Shared.assign { bot := bot, removed := removed } t.id f).store t.id =
        { bot := { bot with tickets := bot.tickets.mutate p f }, removed := removed } := by
  have hsome := registry_get_isSome_of_find p bot.tickets t hfind
  have h1 : Shared.assign { bot := bot, removed := removed } t.id f =
      { bot := { bot with tickets := bot.tickets.mutate p f }, removed := removed } := by
    unfold Shared.assign
    dsimp only
    rw [if_pos hsome, registry_mutate_by_id p f t bot.tickets hids hfind]
  refine ⟨h1, ?_⟩
  rw [h1]
  unfold Shared.store
  dsimp only
  rw [if_pos]
  rw [registry_get_isSome_mutate p f hf]
  exact hsome

theorem handleReaction_segments (bot : Bot) (removed : Registry) (e : ReactionEvent)
    (hids : (bot.tickets.map (fun t => t.id)).Nodup) :
    handleReaction bot e =
      match reactionBefore bot e with
      | none => bot
      | some id => (reactionAfter { bot := bot, removed := removed } e id).bot := by
  unfold handleReaction reactionBefore
  by_cases h1 : e.userBot = true
  · simp only [h1, if_true]
  simp only [h1, if_false, Bool.false_eq_true]
  by_cases h2 : e.fetchFails = true
  · simp only [h2, if_true]
  simp only [h2, if_false, Bool.false_eq_true]
  by_cases h3 : (e.emojiName != "✅") = true
  · simp only [h3, if_true]
  simp only [h3, if_false, Bool.false_eq_true]
  cases hg : e.guildId with
  | none => rfl
  | some guildId =>
    dsimp only
    cases hl : claimLookup bot.tickets e with
    | none => rfl
    | some p =>
      dsimp only
      cases hc : bot.configs.get? guildId with
      | none => rfl
      | some config =>
        dsimp only
        obtain ⟨t, ht⟩ := claimLookup_finds bot.tickets e p hl
        rw [ht]
        show _ = (reactionAfter { bot := bot, removed := removed } e t.id).bot
        unfold reactionAfter
        by_cases h4 : (!e.hasStaffRole) = true
        · simp only [h4, if_true]
        · simp only [h4, if_false, Bool.false_eq_true]
          rw [(shared_assign_store bot removed p (claimFields e.userId e.now) (fun _ => rfl) t
            hids ht).2]

theorem registry_get_of_mem_nodup (t : Ticket) :
    ∀ r : Registry, (r.map (fun x => x.id)).Nodup → t ∈ r → r.get? t.id = some t := by
  intro r
  induction r with
  | nil => intro _ h; cases h
  | cons a r ih =>
    intro hids hmem
    rw [List.map_cons, List.nodup_cons] at hids
    unfold Registry.get?
    rw [List.find?_cons]
    rcases List.mem_cons.mp hmem with h | h
    · subst h
      simp
    · have hne : a.id ≠ t.id := by
        intro heq
        exact hids.1 (List.mem_map.mpr ⟨t, h, heq.symm⟩)
      simp only [hne, decide_False]
      exact ih hids.2 h

theorem registry_mutate_mutate_id (id : Option String) (f g : Ticket → Ticket)
    (hf : ∀ t, (f t).id = t.id) : ∀ r : Registry,
      Registry.mutate (fun x => x.id == id) g (Registry.mutate (fun x => x.id == id) f r) =
        Registry.mutate (fun x => x.id == id) (fun x => g (f x)) r := by
  intro r
  induction r with
  | nil => rfl
  | cons a r ih =>
    cases ha : (a.id == id) with
    | true =>
      have hfa : ((f a).id == id) = true := by rw [hf]; exact ha
      simp only [Registry.mutate, ha, if_true, hfa]
    | false =>
      simp only [Registry.mutate, ha, Bool.false_eq_true, if_false]
      rw [ih]

theorem handleClose_segments (bot : Bot) (removed : Registry) (e : CloseEvent)
    (hids : (bot.tickets.map (fun t => t.id)).Nodup) :
    handleClose bot e =
      match closeFind bot e with
      | none => bot
      | some (config, id) =>
        match closeArchive { bot := bot, removed := removed } config e id with
        | (s, false) => s.bot
        | (s, true) => (closeRemove s id).bot := by
  unfold handleClose closeFind
  cases hg : e.guildId with
  | none => rfl
  | some guildId =>
    dsimp only
    cases hc : bot.configs.get? guildId with
    | none => rfl
    | some config =>
      dsimp only
      by_cases h1 : (!e.hasStaffRole && !e.isAdmin) = true
      · simp only [h1, if_true]
      simp only [h1, if_false, Bool.false_eq_true]
      generalize closeLookup config guildId e = p
      cases hfind : bot.tickets.find p with
      | none => rfl
      | some ticket =>
        show _ = (match closeArchive { bot := bot, removed := removed } config e ticket.id with
          | (s, false) => s.bot
          | (s, true) => (closeRemove s ticket.id).bot)
        have hmark := (shared_assign_store bot removed p
          (markClosed e) (fun _ => rfl) ticket hids hfind).1
        have hsome := registry_get_isSome_of_find _ bot.tickets ticket hfind
        have hmutate := registry_mutate_by_id p
        have hclosing : Shared.assign
            { bot := { bot with tickets := Registry.mutate p (markClosed e) bot.tickets },
              removed := removed } ticket.id (closingInfo config e) =
            { bot := { bot with tickets := (Registry.mutate p
                (fun t => closingInfo config e (markClosed e t)) bot.tickets) },
              removed := removed } := by
          unfold Shared.assign
          dsimp only
          rw [if_pos (by rw [registry_get_isSome_mutate p (markClosed e) (fun _ => rfl)]; exact hsome)]
          rw [hmutate (markClosed e) ticket bot.tickets hids hfind,
            hmutate (fun t => closingInfo config e (markClosed e t)) ticket bot.tickets hids
              hfind,
            registry_mutate_mutate_id ticket.id (markClosed e) (closingInfo config e)
              (fun _ => rfl)]
        have hget : (Registry.mutate p
            (fun t => closingInfo config e (markClosed e t)) bot.tickets).get? ticket.id =
            some (closingInfo config e (markClosed e ticket)) :=
          registry_get_mutate_found _ _ ticket rfl bot.tickets hfind
            (registry_get_of_mem_nodup ticket bot.tickets hids
              (List.mem_of_find?_eq_some hfind))
        unfold closeArchive
        dsimp only
        by_cases f1 : e.fault = CloseFault.deferReply
        · simp only [f1, if_true]
        simp only [f1, if_false]
        rw [hmark]
        by_cases f2 : e.fault = CloseFault.fetchUser ∨ e.fault = CloseFault.sendClosureMessage
            ∨ e.fault = CloseFault.fetchMessages
        · simp only [f2, if_true]
        simp only [f2, if_false]
        rw [hclosing]
        by_cases f3 : e.fault = CloseFault.generateTranscript ∨
            e.fault = CloseFault.fetchLogChannel ∨ e.fault = CloseFault.sendTranscript
        · simp only [f3, if_true]
        simp only [f3, if_false]
        have hticket : Shared.ticket?
            { bot := { bot with tickets := (Registry.mutate p
                (fun t => closingInfo config e (markClosed e t)) bot.tickets) },
              removed := removed }
            ticket.id = some (closingInfo config e (markClosed e ticket)) := by
          unfold Shared.ticket?
          dsimp only
          rw [hget]
        rw [hticket]
        dsimp only
        by_cases f4 : e.fault = CloseFault.editReply ∨ e.fault = CloseFault.sendLog
        · simp only [f4, if_true, decide_True, Bool.not_true]
        · simp only [f4, if_false, decide_False, Bool.not_false]
          unfold closeRemove Shared.remove
          dsimp only
          rw [hget]

/-- Claim C1, counterexample. User `u` sends two DMs in quick succession to a bot
configured for guild `g`. Each handler looks for an open ticket of `u` before its awaited
platform calls and finds none, since neither has stored its ticket yet; each then stores
its ticket. The registry holds two pending tickets of `u` in guild `g`. -/
theorem overlapping_direct_messages_open_two_tickets :
    (directMessageBefore oneGuildBot firstDm).2 =
        some (newDmTicket firstDm "g" legacyConfig "0001") ∧
      (directMessageBefore (directMessageBefore oneGuildBot firstDm).1 secondDm).2 =
        some (newDmTicket secondDm "g" legacyConfig "0002") ∧
      (directMessageAfter
        (directMessageAfter (directMessageBefore (directMessageBefore oneGuildBot firstDm).1
          secondDm).1 (newDmTicket firstDm "g" legacyConfig "0001"))
        (newDmTicket secondDm "g" legacyConfig "0002")).tickets.map
          (fun t => (t.id, t.guildId, t.userId, t.status)) =
        [(some "g-0001", some "g", some "u", some "pending"),
         (some "g-0002", some "g", some "u", some "pending")] ∧
      ((directMessageAfter
        (directMessageAfter (directMessageBefore (directMessageBefore oneGuildBot firstDm).1
          secondDm).1 (newDmTicket firstDm "g" legacyConfig "0001"))
        (newDmTicket secondDm "g" legacyConfig "0002")).tickets.filter
          (fun t => t.guildId == some "g" && t.userId == some "u"
            && t.status != some "closed")).length = 2 := by
  refine ⟨by decide, by decide, by decide, by decide⟩

/-- Claim C4, counterexample. Staff member `s` reacts to the info message of the pending
ticket `g-0001`; the handler finds the ticket and waits for the member to be fetched.
Meanwhile `/close` marks the ticket closed and archives it. The reaction handler then
resumes and assigns `in_progress` without looking at the status again: the ticket stored
under `g-0001` goes from `closed` back to `in_progress`. -/
theorem claim_resumed_during_close_reopens_ticket :
    reactionBefore pendingTicketBot claimReaction = some (some "g-0001") ∧
      closeFind pendingTicketBot closeByStaff = some (legacyConfig, some "g-0001") ∧
      ((closeArchive { bot := pendingTicketBot } legacyConfig closeByStaff
        (some "g-0001")).1.bot.tickets.get? (some "g-0001")).map (fun t => t.status) =
          some (some "closed") ∧
      ((reactionAfter (closeArchive { bot := pendingTicketBot } legacyConfig closeByStaff
        (some "g-0001")).1 claimReaction (some "g-0001")).bot.tickets.get?
          (some "g-0001")).map (fun t => t.status) = some (some "in_progress") ∧
      statusRank (some "in_progress") < statusRank (some "closed") := by
  refine ⟨by decide, by decide, by decide, by decide, by decide⟩

/-- Claim C5, counterexample. Staff members `s` and `s3` react to the info message of the
pending ticket `g-0001` in quick succession. Both handlers find the ticket pending before
either has written. The handler of `s` resumes first: the ticket is `in_progress`,
assigned to `s`, first response at time `15`. The handler of `s3` resumes next and
assigns again: the ticket is assigned to `s3` and its first response time is `25`. -/
theorem overlapping_claims_overwrite_assignee :
    reactionBefore pendingTicketBot claimReaction = some (some "g-0001") ∧
      reactionBefore pendingTicketBot secondReaction = some (some "g-0001") ∧
      (reactionAfter { bot := pendingTicketBot } claimReaction
        (some "g-0001")).bot.tickets.map
          (fun t => (t.id, t.status, t.assignedTo, t.firstResponseTime)) =
        [(some "g-0001", some "in_progress", some "s", some (JsTime.isoString 15))] ∧
      (reactionAfter (reactionAfter { bot := pendingTicketBot } claimReaction (some "g-0001"))
        secondReaction (some "g-0001")).bot.tickets.map
          (fun t => (t.id, t.status, t.assignedTo, t.firstResponseTime)) =
        [(some "g-0001", some "in_progress", some "s3", some (JsTime.isoString 25))] := by
  refine ⟨by decide, by decide, by decide, by decide⟩

/-- Two `/close` commands for the ticket `g-0001` overlap: the second finds the ticket,
which the first has not removed yet, and each writes a record to the history. The history
holds two records with the id `g-0001`. -/
theorem overlapping_closes_archive_twice :
    closeFind pendingTicketBot closeByStaff = some (legacyConfig, some "g-0001") ∧
      closeFind (closeArchive { bot := pendingTicketBot } legacyConfig closeByStaff
        (some "g-0001")).1.bot secondClose = some (legacyConfig, some "g-0001") ∧
      (closeArchive (closeArchive { bot := pendingTicketBot } legacyConfig closeByStaff
        (some "g-0001")).1 legacyConfig secondClose (some "g-0001")).1.bot.history.tickets.map
          (fun r => r.id) = [some "g-0001", some "g-0001"] := by
  refine ⟨by decide, by decide, by decide⟩

/-- Claim C24, counterexample. The recipient `v` of the survey of ticket `g-0002` presses
the button of four stars and, before the first handler has answered the interaction and
removed the survey, the button of one star. The second response is not refused: it is
written to the history too. The record holds the rating `1` and the ratings of the user
are `4` and `1`; both handlers then end with the rating recorded. -/
theorem overlapping_ratings_both_recorded :
    (ratingBefore surveyedState timelyRating).1 = none ∧
      (ratingBefore (ratingBefore surveyedState timelyRating).2 secondPress).1 = none ∧
      (ratingBefore (ratingBefore surveyedState timelyRating).2 secondPress).2.history.tickets.map
          (fun r => (r.id, r.satisfactionRating)) = [(some "g-0002", some 1)] ∧
      ((ratingBefore (ratingBefore surveyedState timelyRating).2
          secondPress).2.history.userRollup "v").ratings = [4, 1] ∧
      (ratingAfter (ratingBefore (ratingBefore surveyedState timelyRating).2 secondPress).2
        timelyRating).1 = RatingOutcome.recorded ∧
      (ratingAfter (ratingAfter (ratingBefore (ratingBefore surveyedState timelyRating).2
        secondPress).2 timelyRating).2 secondPress).1 = RatingOutcome.recorded := by
  refine ⟨by decide, by decide, by decide, by decide, by decide, by decide⟩
end Modmail
